import Mathlib

/-! iter8 controller: conditions, experiment cache and traffic rollout.

A shallow embedding of

* `pkg/apis/iter8/v1alpha2/status.go` (condition list of an experiment status),
* `pkg/controller/experiment/cache/cache.go` (the experiment cache),
* `pkg/controller/canary/istio.go` (`syncIstio`, `makeVirtualService`, `getWeight`),
* `pkg/controller/experiment/knative.go` (`syncKnative`, `getTrafficByName`).

Conventions of the embedding.

* A Go pointer that may be nil is an `Option`; dereferencing `none` is a panic and the
  enclosing function returns `none`.
* A Go map that is only read, assigned and deleted from is a function `String → Option V`;
  a map that is ranged over is an association list with unique keys.
* Go `int` is `Int` with `wrapInt` applied where the source does arithmetic on it.
* A `float64` is represented by an `Int`: the embedding covers the integer-valued
  floats of magnitude below `2^53`, on which float64 addition, comparison and the
  conversion `int(x)` are exact. For a step size or a maximal traffic percent that is not
  an integer, `Istio.syncIstioFloat` takes the two values as rationals and converts by
  truncation; on integer values it is `Istio.syncIstio` (`Istio.syncIstio_float`).
* Readings of the clock, answers of the API server and answers of the analytics service are
  explicit arguments; the writing calls issued to the API server and the calls of the
  analytics service are collected in a log.
-/

namespace Iter8

/-- Reading of `metav1.Now()` / `time.Now()`, in some fixed unit. -/
abbrev Time := Int

/-- Go `int` on a 64-bit platform: two's complement wrap-around of a mathematical integer. -/
def wrapInt (x : Int) : Int := (x + 9223372036854775808) % 18446744073709551616 - 9223372036854775808

/-- Values a Go `int` can hold. -/
def inInt64 (x : Int) : Prop := -9223372036854775808 ≤ x ∧ x ≤ 9223372036854775807

/-- A Go map used through lookup, assignment and `delete` only. -/
abbrev GoMap (V : Type) := String → Option V

/-- Result of `make(map[string]V)`. -/
def GoMap.empty {V : Type} : GoMap V := fun _ => none

/-- Go `m[k] = v`. -/
def GoMap.set {V : Type} (m : GoMap V) (k : String) (v : V) : GoMap V :=
  fun k' => if k' = k then some v else m k'

/-- Go `delete(m, k)`. -/
def GoMap.delete {V : Type} (m : GoMap V) (k : String) : GoMap V :=
  fun k' => if k' = k then none else m k'

/-- The struct `runtime.RawExtension`: `Raw` is a byte slice that may be nil. -/
structure RawExtension where
  Raw : Option String
  deriving DecidableEq, Repr

/-- The bytes `[]byte("\x7b\x7d")`, the empty JSON object. -/
def emptyObject : String := "\x7b\x7d"

/-! ## pkg/apis/iter8/v1alpha2/status.go -/

namespace V1alpha2

/-- Go `corev1.ConditionStatus`, a string type. -/
abbrev ConditionStatus := String

/-- Constant `corev1.ConditionTrue`. -/
def ConditionTrue : ConditionStatus := "True"
/-- Constant `corev1.ConditionFalse`. -/
def ConditionFalse : ConditionStatus := "False"
/-- Constant `corev1.ConditionUnknown`. -/
def ConditionUnknown : ConditionStatus := "Unknown"

/-- Modelled from the spec: the declaration of `ExperimentConditionType` and of its five
constants is not in status.go; the constructors are the five constants that
`experimentCondSet` lists, taken to be pairwise different. -/
inductive ExperimentConditionType where
  | MetricsSynced
  | TargetsProvided
  | ExperimentCompleted
  | AnalyticsServiceNormal
  | RoutingRulesReady
  deriving DecidableEq, Repr

/-- The variable `experimentCondSet`. -/
def experimentCondSet : List ExperimentConditionType :=
  [ .MetricsSynced, .TargetsProvided, .ExperimentCompleted,
    .AnalyticsServiceNormal, .RoutingRulesReady ]

/-- Modelled from the spec: the declaration of the phase type is not in status.go; the
constructors are the phases the spec names (`PhasePause` is the spec's Paused) and `Unset`
for the zero value of the field. -/
inductive Phase where
  | Unset
  | Initializing
  | Progressing
  | Pause
  | Completed
  deriving DecidableEq, Repr

/-- The struct `ExperimentCondition`; `Reason`, `Message` and `LastTransitionTime` are
pointers in the source, and `Type_` is the field `Type`. -/
structure ExperimentCondition where
  Type_ : ExperimentConditionType
  Status : ConditionStatus
  Reason : Option String
  Message : Option String
  LastTransitionTime : Option Time
  deriving DecidableEq, Repr

/-- The struct `VersionAssessment` as far as `InitStatus` fills it. -/
structure VersionAssessment where
  Name : String
  Weight : Int
  CriterionAssessments : List String
  deriving DecidableEq, Repr

/-- The struct `Assessment` as far as `InitStatus` fills it. -/
structure Assessment where
  Baseline : VersionAssessment
  Candidates : List VersionAssessment
  deriving DecidableEq, Repr

/-- The struct `ExperimentStatus`, with the fields status.go reads or writes. -/
structure ExperimentStatus where
  Conditions : List ExperimentCondition
  Phase : Phase
  Message : Option String
  InitTimestamp : Option Time
  AnalysisState : Option RawExtension
  CurrentIteration : Option Int
  Assessment : Option Assessment
  deriving DecidableEq, Repr

/-- The part of `ExperimentSpec` that `InitStatus` reads. -/
structure ExperimentSpec where
  Baseline : String
  Candidates : List String
  deriving DecidableEq, Repr

/-- The struct `Experiment` of v1alpha2. -/
structure Experiment where
  Spec : ExperimentSpec
  Status : ExperimentStatus
  deriving DecidableEq, Repr

/-- Method `addCondition`: appends a fresh condition of the given type, status Unknown,
stamped with the clock reading `now`; the result's second component is the position of the
new condition in the list (the pointer the source returns). -/
def addCondition (s : ExperimentStatus) (conditionType : ExperimentConditionType)
    (now : Time) : ExperimentStatus × Nat :=
  let condition : ExperimentCondition :=
    { Type_ := conditionType, Status := ConditionUnknown, Reason := none, Message := none,
      LastTransitionTime := some now }
  ({ s with Conditions := s.Conditions ++ [condition] }, s.Conditions.length)

/-- The loop of `getCondition`: position of the first condition of the given type. -/
def findCondition : List ExperimentCondition → ExperimentConditionType → Option Nat
  | [], _ => none
  | c :: cs, t =>
    if c.Type_ = t then some 0
    else match findCondition cs t with
      | some i => some (i + 1)
      | none => none

/-- Method `getCondition`: the first condition of the given type, or a freshly added one. -/
def getCondition (s : ExperimentStatus) (condition : ExperimentConditionType)
    (now : Time) : ExperimentStatus × Nat :=
  match findCondition s.Conditions condition with
  | some i => (s, i)
  | none => addCondition s condition now

/-- Method `markCondition`. `message` is the value of `fmt.Sprintf(messageFormat, messageA...)`.
The comparison `status != c.Status || reason != *c.Reason || message != *c.Message` is
evaluated left to right and stops at the first true disjunct; reading `*c.Reason` or
`*c.Message` of an unset field is a panic (`none`). -/
def markCondition (c : ExperimentCondition) (status : ConditionStatus) (reason message : String)
    (now : Time) : Option (ExperimentCondition × Bool) :=
  let updated : Option Bool :=
    if status ≠ c.Status then some true
    else match c.Reason with
      | none => none
      | some r =>
        if reason ≠ r then some true
        else match c.Message with
          | none => none
          | some m => some (decide (message ≠ m))
  match updated with
  | none => none
  | some u =>
    some ({ c with Status := status, Reason := some reason, Message := some message,
                   LastTransitionTime := some now }, u)

/-- The call chain `s.getCondition(t).markCondition(status, reason, ...)`: `tAdd` is the
clock reading used if the condition has to be added, `tMark` the one `markCondition` takes. -/
def getAndMark (s : ExperimentStatus) (t : ExperimentConditionType) (status : ConditionStatus)
    (reason message : String) (tAdd tMark : Time) : Option (ExperimentStatus × Bool) :=
  let (s1, i) := getCondition s t tAdd
  match s1.Conditions[i]? with
  | none => none
  | some c =>
    match markCondition c status reason message tMark with
    | none => none
    | some (c1, updated) => some ({ s1 with Conditions := s1.Conditions.set i c1 }, updated)

/-- Function `composeMessage`; `msg` is the value of `fmt.Sprintf(messageFormat, messageA...)`. -/
def composeMessage (reason msg : String) : String :=
  if msg.length > 0 then reason ++ ": " ++ msg else reason

/-- Method `InitStatus`. `clock n` is the `n`-th reading of `metav1.Now()` during the call
(one per added condition, then `currentTime`). -/
def InitStatus (e : Experiment) (clock : Nat → Time) : Experiment :=
  let assessment : Assessment :=
    { Baseline := { Name := e.Spec.Baseline, Weight := 0, CriterionAssessments := [] },
      Candidates := e.Spec.Candidates.map
        (fun name => { Name := name, Weight := 0, CriterionAssessments := [] }) }
  let s0 : ExperimentStatus := { e.Status with Assessment := some assessment }
  let s1 : ExperimentStatus :=
    (experimentCondSet.foldl
      (fun (acc : ExperimentStatus × Nat) c => ((addCondition acc.1 c (clock acc.2)).1, acc.2 + 1))
      (s0, 0)).1
  let s2 : ExperimentStatus := { s1 with InitTimestamp := some (clock experimentCondSet.length) }
  let s3 : ExperimentStatus :=
    match s2.AnalysisState with
    | none => { s2 with AnalysisState := some { Raw := some emptyObject } }
    | some _ => s2
  let s4 : ExperimentStatus :=
    match s3.AnalysisState with
    | some { Raw := none } => { s3 with AnalysisState := some { Raw := some emptyObject } }
    | _ => s3
  { e with Status := { s4 with Phase := Phase.Progressing, CurrentIteration := some 0 } }

/-- Modelled from the spec: the declarations of the reason constants are not in status.go;
each constant is given its own name without the prefix `Reason` as value. -/
def ReasonSyncMetricsSucceeded : String := "SyncMetricsSucceeded"
/-- Modelled from the spec: see `ReasonSyncMetricsSucceeded`. -/
def ReasonSyncMetricsError : String := "SyncMetricsError"
/-- Modelled from the spec: see `ReasonSyncMetricsSucceeded`. -/
def ReasonTargetsFound : String := "TargetsFound"
/-- Modelled from the spec: see `ReasonSyncMetricsSucceeded`. -/
def ReasonTargetsError : String := "TargetsError"
/-- Modelled from the spec: see `ReasonSyncMetricsSucceeded`. -/
def ReasonRoutingRulesReady : String := "RoutingRulesReady"
/-- Modelled from the spec: see `ReasonSyncMetricsSucceeded`. -/
def ReasonRoutingRulesError : String := "RoutingRulesError"
/-- Modelled from the spec: see `ReasonSyncMetricsSucceeded`. -/
def ReasonAnalyticsServiceRunning : String := "AnalyticsServiceRunning"
/-- Modelled from the spec: see `ReasonSyncMetricsSucceeded`. -/
def ReasonAnalyticsServiceError : String := "AnalyticsServiceError"
/-- Modelled from the spec: see `ReasonSyncMetricsSucceeded`. -/
def ReasonExperimentCompleted : String := "ExperimentCompleted"
/-- Modelled from the spec: see `ReasonSyncMetricsSucceeded`. -/
def ReasonIterationUpdate : String := "IterationUpdate"
/-- Modelled from the spec: see `ReasonSyncMetricsSucceeded`. -/
def ReasonTrafficUpdate : String := "TrafficUpdate"
/-- Modelled from the spec: see `ReasonSyncMetricsSucceeded`. -/
def ReasonActionPause : String := "ActionPause"
/-- Modelled from the spec: see `ReasonSyncMetricsSucceeded`. -/
def ReasonActionResume : String := "ActionResume"

/-- The query shape `s.getCondition(t).Status == corev1.ConditionTrue`; the condition is added
when it is missing, so the status is returned too. -/
def conditionIsTrue (s : ExperimentStatus) (t : ExperimentConditionType) (now : Time) :
    ExperimentStatus × Bool :=
  let (s1, i) := getCondition s t now
  match s1.Conditions[i]? with
  | none => (s1, false)
  | some c => (s1, decide (c.Status = ConditionTrue))

/-- Method `MetricsSynced`. -/
def MetricsSynced (s : ExperimentStatus) (now : Time) : ExperimentStatus × Bool :=
  conditionIsTrue s .MetricsSynced now

/-- Method `TargetsFound`. -/
def TargetsFound (s : ExperimentStatus) (now : Time) : ExperimentStatus × Bool :=
  conditionIsTrue s .TargetsProvided now

/-- Method `ExperimentCompleted`. -/
def ExperimentCompleted (s : ExperimentStatus) (now : Time) : ExperimentStatus × Bool :=
  conditionIsTrue s .ExperimentCompleted now

/-- The statement `*s.Message = v`: a panic when the pointer `s.Message` is nil. -/
def storeThroughMessage (s : ExperimentStatus) (v : String) : Option ExperimentStatus :=
  match s.Message with
  | none => none
  | some _ => some { s with Message := some v }

/-- Pairs the flag returned by `markCondition` with the reason, as the `Mark*` methods do. -/
def withReason (r : Option (ExperimentStatus × Bool)) (reason : String) :
    Option (ExperimentStatus × Bool × String) :=
  r.map (fun p => (p.1, p.2, reason))

/-- Method `MarkMetricsSynced`; `msg` is `fmt.Sprintf(messageFormat, messageA...)`. -/
def MarkMetricsSynced (s : ExperimentStatus) (msg : String) (tAdd tMark : Time) :
    Option (ExperimentStatus × Bool × String) :=
  let reason := ReasonSyncMetricsSucceeded
  withReason (getAndMark s .MetricsSynced ConditionTrue reason msg tAdd tMark) reason

/-- Method `MarkMetricsSyncedError`. -/
def MarkMetricsSyncedError (s : ExperimentStatus) (msg : String) (tAdd tMark : Time) :
    Option (ExperimentStatus × Bool × String) :=
  let reason := ReasonSyncMetricsError
  let s1 : ExperimentStatus := { s with Phase := Phase.Pause }
  match storeThroughMessage s1 (composeMessage reason msg) with
  | none => none
  | some s2 => withReason (getAndMark s2 .MetricsSynced ConditionFalse reason msg tAdd tMark) reason

/-- Method `MarkTargetsFound`. -/
def MarkTargetsFound (s : ExperimentStatus) (msg : String) (tAdd tMark : Time) :
    Option (ExperimentStatus × Bool × String) :=
  let reason := ReasonTargetsFound
  withReason (getAndMark s .TargetsProvided ConditionTrue reason msg tAdd tMark) reason

/-- Method `MarkTargetsError`. -/
def MarkTargetsError (s : ExperimentStatus) (msg : String) (tAdd tMark : Time) :
    Option (ExperimentStatus × Bool × String) :=
  let reason := ReasonTargetsError
  let s1 : ExperimentStatus := { s with Phase := Phase.Pause }
  match storeThroughMessage s1 (composeMessage reason msg) with
  | none => none
  | some s2 => withReason (getAndMark s2 .TargetsProvided ConditionFalse reason msg tAdd tMark) reason

/-- Method `MarkRoutingRulesReady`. -/
def MarkRoutingRulesReady (s : ExperimentStatus) (msg : String) (tAdd tMark : Time) :
    Option (ExperimentStatus × Bool × String) :=
  let reason := ReasonRoutingRulesReady
  let message := composeMessage reason msg
  let s1 : ExperimentStatus := { s with Message := some message }
  withReason (getAndMark s1 .RoutingRulesReady ConditionTrue reason msg tAdd tMark) reason

/-- Method `MarkRoutingRulesError`. -/
def MarkRoutingRulesError (s : ExperimentStatus) (msg : String) (tAdd tMark : Time) :
    Option (ExperimentStatus × Bool × String) :=
  let reason := ReasonRoutingRulesError
  let message := composeMessage reason msg
  let s1 : ExperimentStatus := { s with Phase := Phase.Pause, Message := some message }
  withReason (getAndMark s1 .RoutingRulesReady ConditionFalse reason msg tAdd tMark) reason

/-- Method `MarkAnalyticsServiceRunning`. -/
def MarkAnalyticsServiceRunning (s : ExperimentStatus) (msg : String) (tAdd tMark : Time) :
    Option (ExperimentStatus × Bool × String) :=
  let reason := ReasonAnalyticsServiceRunning
  withReason (getAndMark s .AnalyticsServiceNormal ConditionTrue reason msg tAdd tMark) reason

/-- Method `MarkAnalyticsServiceError`. -/
def MarkAnalyticsServiceError (s : ExperimentStatus) (msg : String) (tAdd tMark : Time) :
    Option (ExperimentStatus × Bool × String) :=
  let reason := ReasonAnalyticsServiceError
  let message := composeMessage reason msg
  let s1 : ExperimentStatus := { s with Message := some message, Phase := Phase.Pause }
  withReason (getAndMark s1 .AnalyticsServiceNormal ConditionFalse reason msg tAdd tMark) reason

/-- Method `MarkExperimentCompleted`. -/
def MarkExperimentCompleted (s : ExperimentStatus) (msg : String) (tAdd tMark : Time) :
    Option (ExperimentStatus × Bool × String) :=
  let reason := ReasonExperimentCompleted
  let message := composeMessage reason msg
  let s1 : ExperimentStatus := { s with Phase := Phase.Completed, Message := some message }
  withReason (getAndMark s1 .ExperimentCompleted ConditionTrue reason msg tAdd tMark) reason

/-- Method `MarkIterationUpdate`. -/
def MarkIterationUpdate (s : ExperimentStatus) (msg : String) (tAdd tMark : Time) :
    Option (ExperimentStatus × Bool × String) :=
  let reason := ReasonIterationUpdate
  let message := composeMessage reason msg
  let s1 : ExperimentStatus := { s with Phase := Phase.Progressing, Message := some message }
  withReason (getAndMark s1 .ExperimentCompleted ConditionFalse reason msg tAdd tMark) reason

/-- Method `MarkTrafficUpdate`. -/
def MarkTrafficUpdate (s : ExperimentStatus) (msg : String) (tAdd tMark : Time) :
    Option (ExperimentStatus × Bool × String) :=
  let reason := ReasonTrafficUpdate
  let message := composeMessage reason msg
  let s1 : ExperimentStatus := { s with Phase := Phase.Progressing, Message := some message }
  withReason (getAndMark s1 .ExperimentCompleted ConditionFalse reason msg tAdd tMark) reason

/-- Method `MarkExperimentPause`. -/
def MarkExperimentPause (s : ExperimentStatus) (msg : String) (tAdd tMark : Time) :
    Option (ExperimentStatus × Bool × String) :=
  let reason := ReasonActionPause
  let message := composeMessage reason msg
  let s1 : ExperimentStatus := { s with Phase := Phase.Pause, Message := some message }
  withReason (getAndMark s1 .ExperimentCompleted ConditionFalse reason msg tAdd tMark) reason

/-- Method `MarkExperimentResume`. -/
def MarkExperimentResume (s : ExperimentStatus) (msg : String) (tAdd tMark : Time) :
    Option (ExperimentStatus × Bool × String) :=
  let reason := ReasonActionResume
  let message := composeMessage reason msg
  let s1 : ExperimentStatus := { s with Phase := Phase.Progressing, Message := some message }
  withReason (getAndMark s1 .ExperimentCompleted ConditionFalse reason msg tAdd tMark) reason

/-- The invariant of the condition list: at most one condition per condition type. -/
def OnePerType (s : ExperimentStatus) : Prop :=
  (s.Conditions.map (fun c => c.Type_)).Nodup

/-- The status with no condition and every field at its zero value. -/
def emptyStatus : ExperimentStatus :=
  { Conditions := [], Phase := Phase.Unset, Message := none, InitTimestamp := none,
    AnalysisState := none, CurrentIteration := none, Assessment := none }

/-- A condition that has been marked once: metrics synced, with an empty message, stamped at
clock reading 1. -/
def demoCondition : ExperimentCondition :=
  { Type_ := .MetricsSynced, Status := ConditionTrue, Reason := some ReasonSyncMetricsSucceeded,
    Message := some "", LastTransitionTime := some 1 }

/-- An experiment with baseline `v1` and candidate `v2` right after `InitStatus`, the clock
reading `n` at its `n`-th reading. -/
def initialised : Experiment :=
  InitStatus { Spec := { Baseline := "v1", Candidates := ["v2"] }, Status := emptyStatus }
    (fun n => n)

end V1alpha2

/-! ## Types of pkg/apis/iter8/v1alpha1 used by the cache and by `syncKnative` -/

namespace V1alpha1

/-- The struct behind `instance.Spec.TargetService`. -/
structure TargetService where
  Name : String
  Namespace : String
  Baseline : String
  Candidate : String
  deriving DecidableEq, Repr

/-- The traffic-control policy. The getters `GetStrategy`, `GetStepSize`,
`GetIntervalDuration`, `GetMaxIterations`, `GetMaxTrafficPercent` and `GetOnSuccess` are outside
the embedded files: each field holds the value the getter of that name returns.
`GetStepSize` and `GetMaxTrafficPercent` return a `float64`; the fields `StepSize` and
`MaxTrafficPercent` hold an integer-valued one, on which the `float64` arithmetic of the
reconcilers is the integer arithmetic. `Istio.syncIstioFloat` takes the two values as any
`float64`. -/
structure TrafficControl where
  Strategy : String
  StepSize : Int
  Interval : Int
  MaxIterations : Int
  MaxTrafficPercent : Int
  OnSuccess : String
  deriving DecidableEq, Repr

/-- The struct `Summary` of an assessment. -/
structure Summary where
  AllSuccessCriteriaMet : Bool
  AbortExperiment : Bool
  Conclusions : List String
  deriving DecidableEq, Repr

/-- The struct behind `instance.Status.TrafficSplit`. -/
structure TrafficSplit where
  Baseline : Int
  Candidate : Int
  deriving DecidableEq, Repr

/-- A call of one of the status methods of v1alpha1 (`MarkHasService`, `MarkHasNotService`,
`MarkRollForward`, `MarkNotRollForward`, `MarkExperimentCompleted`,
`MarkExperimentNotCompleted`), whose bodies are outside the embedded files: the call is
recorded with its reason and formatted message. -/
inductive StatusMark where
  | HasService
  | HasNotService (reason message : String)
  | RollForward
  | NotRollForward (reason message : String)
  | ExperimentCompleted
  | ExperimentNotCompleted (reason message : String)
  deriving DecidableEq, Repr

/-- The struct `ExperimentStatus` of v1alpha1, with the fields `syncKnative` reads or writes.
`StartTimestamp` is a string in the source, empty (`none`) or the decimal seconds of a clock
reading; `GrafanaURLSet` records the call of `updateGrafanaURL`, a function outside
knative.go; `Marks` lists the status-method calls made so far, oldest first. -/
structure ExperimentStatus where
  StartTimestamp : Option Time
  GrafanaURLSet : Bool
  CurrentIteration : Int
  AssessmentSummary : Summary
  TrafficSplit : TrafficSplit
  AnalysisState : RawExtension
  LastIncrementTime : Time
  Marks : List StatusMark
  deriving DecidableEq, Repr

/-- The struct `ExperimentSpec` of v1alpha1; `CleanUp` is the cleanup policy that
`IstioRoutingRules.Cleanup` reads. -/
structure ExperimentSpec where
  TargetService : TargetService
  TrafficControl : TrafficControl
  AnalyticsEndpoint : String
  CleanUp : String := ""
  deriving DecidableEq, Repr

/-- The struct `Experiment` of v1alpha1. -/
structure Experiment where
  Name : String
  Namespace : String
  Spec : ExperimentSpec
  Status : ExperimentStatus
  deriving DecidableEq, Repr

/-- Modelled from the spec: `util.GetServiceNamespace` is outside the embedded files; it is
the namespace computation that `syncKnative` and `syncIstio` spell out: the namespace of the
target service, or the experiment's own namespace when that one is empty. -/
def GetServiceNamespace (inst : Experiment) : String :=
  if inst.Spec.TargetService.Namespace = "" then inst.Namespace
  else inst.Spec.TargetService.Namespace

end V1alpha1

/-! ## pkg/controller/experiment/cache/cache.go -/

namespace Cache

open V1alpha1

/-- Go `m[k] = v` on a map that is ranged over: an association list with unique keys. -/
def assocSet : List (String × Bool) → String → Bool → List (String × Bool)
  | [], k, v => [(k, v)]
  | (k', v') :: rest, k, v =>
    if k' = k then (k, v) :: rest else (k', v') :: assocSet rest k v

/-- Modelled from the spec: package `abstract` is outside the embedded files. The targets
part of an ownership abstract: the target namespace, the service name, one liveness flag per
backend (the map `Status` that `RemoveExperiment` ranges over) and one for the service. -/
structure Targets where
  Namespace : String
  ServiceName : String
  Status : List (String × Bool)
  ServiceFound : Bool
  deriving DecidableEq, Repr

/-- Modelled from the spec: the ownership abstract `abstract.Experiment`, of which the cache
uses the field `TargetsAbstract`. -/
structure ExperimentAbstract where
  TargetsAbstract : Targets
  deriving DecidableEq, Repr

/-- Modelled from the spec: `abstract.NewExperiment` is outside the embedded files; it
creates the ownership abstract of an experiment, with a liveness flag for the baseline and one
for the candidate, nothing found yet. -/
def NewExperiment (inst : Experiment) (targetNamespace : String) : ExperimentAbstract :=
  { TargetsAbstract :=
      { Namespace := targetNamespace
        ServiceName := inst.Spec.TargetService.Name
        Status := assocSet (assocSet [] inst.Spec.TargetService.Baseline false)
                    inst.Spec.TargetService.Candidate false
        ServiceFound := false } }

/-- Modelled from the spec: `Targets.MarkTargetFound` is outside the embedded files; it
updates the liveness flag of the named backend. -/
def Targets.MarkTargetFound (t : Targets) (name : String) (found : Bool) : Targets :=
  { t with Status := assocSet t.Status name found }

/-- Modelled from the spec: `Targets.MarkServiceFound` is outside the embedded files; it
updates the liveness flag of the service. -/
def Targets.MarkServiceFound (t : Targets) (found : Bool) : Targets :=
  { t with ServiceFound := found }

/-- The helpers `experimentKey`, `targetKey` and `resolveExperimentKey` of package cache,
which are not in cache.go: they are arguments of every cache operation. -/
structure KeyFuncs where
  experimentKey : Experiment → String
  targetKey : String → String → String
  resolveExperimentKey : String → String × String

/-- The key format that the comments on the fields of `Impl` give
(`experimentName.experimentNamespace`, `targetName.targetNamespace`), resolved at the first
dot; used for concrete evaluations. -/
def dotKeys : KeyFuncs where
  experimentKey := fun inst => inst.Name ++ "." ++ inst.Namespace
  targetKey := fun name namespace_ => name ++ "." ++ namespace_
  resolveExperimentKey := fun key =>
    (String.mk (key.data.takeWhile (fun ch => ch != '.')),
     String.mk ((key.data.dropWhile (fun ch => ch != '.')).drop 1))

/-- The struct `Impl` without its logger; the mutex is held for the whole of every operation,
so each operation is one atomic step on the three maps. -/
structure Impl where
  experimentAbstractStore : GoMap ExperimentAbstract
  deployment2Experiment : GoMap String
  service2Experiment : GoMap String

/-- Function `New`. -/
def New : Impl :=
  { experimentAbstractStore := GoMap.empty
    deployment2Experiment := GoMap.empty
    service2Experiment := GoMap.empty }

/-- Method `RegisterExperiment`; the second component is the value stored in the context
under `util.AbstractKey`, that is `c.experimentAbstractStore[eakey]`. -/
def RegisterExperiment (k : KeyFuncs) (c : Impl) (inst : Experiment) :
    Impl × Option ExperimentAbstract :=
  let eakey := k.experimentKey inst
  let c1 : Impl :=
    match c.experimentAbstractStore eakey with
    | some _ => c
    | none =>
      let targetNamespace := GetServiceNamespace inst
      let ea := NewExperiment inst targetNamespace
      let service := inst.Spec.TargetService.Name
      let baseline := inst.Spec.TargetService.Baseline
      let candidate := inst.Spec.TargetService.Candidate
      { experimentAbstractStore := c.experimentAbstractStore.set eakey ea
        service2Experiment := c.service2Experiment.set (k.targetKey service targetNamespace) eakey
        deployment2Experiment :=
          (c.deployment2Experiment.set (k.targetKey baseline targetNamespace) eakey).set
            (k.targetKey candidate targetNamespace) eakey }
  (c1, c1.experimentAbstractStore eakey)

/-- Method `DeploymentToExperiment`: experiment name, experiment namespace, exist. -/
def DeploymentToExperiment (k : KeyFuncs) (c : Impl) (targetName targetNamespace : String) :
    String × String × Bool :=
  let tKey := k.targetKey targetName targetNamespace
  match c.deployment2Experiment tKey with
  | none => ("", "", false)
  | some v =>
    let r := k.resolveExperimentKey v
    (r.1, r.2, true)

/-- Method `ServiceToExperiment`: experiment name, experiment namespace, exist. -/
def ServiceToExperiment (k : KeyFuncs) (c : Impl) (targetName targetNamespace : String) :
    String × String × Bool :=
  let tKey := k.targetKey targetName targetNamespace
  match c.service2Experiment tKey with
  | none => ("", "", false)
  | some v =>
    let r := k.resolveExperimentKey v
    (r.1, r.2, true)

/-- The statement `c.experimentAbstractStore[eaKey].TargetsAbstract.MarkTargetFound(name, found)`:
the store holds pointers, so a key without entry yields nil and the call panics (`none`). -/
def markTargetIn (c : Impl) (eaKey targetName : String) (found : Bool) : Option Impl :=
  match c.experimentAbstractStore eaKey with
  | none => none
  | some ea =>
    let ea1 : ExperimentAbstract :=
      { ea with TargetsAbstract := ea.TargetsAbstract.MarkTargetFound targetName found }
    some { c with experimentAbstractStore := c.experimentAbstractStore.set eaKey ea1 }

/-- The statement `c.experimentAbstractStore[eaKey].TargetsAbstract.MarkServiceFound(found)`. -/
def markServiceIn (c : Impl) (eaKey : String) (found : Bool) : Option Impl :=
  match c.experimentAbstractStore eaKey with
  | none => none
  | some ea =>
    let ea1 : ExperimentAbstract :=
      { ea with TargetsAbstract := ea.TargetsAbstract.MarkServiceFound found }
    some { c with experimentAbstractStore := c.experimentAbstractStore.set eaKey ea1 }

/-- Method `MarkTargetDeploymentFound`; `none` is a panic. -/
def MarkTargetDeploymentFound (k : KeyFuncs) (c : Impl) (targetName targetNamespace : String) :
    Option (Impl × Bool) :=
  let tKey := k.targetKey targetName targetNamespace
  match c.deployment2Experiment tKey with
  | none => some (c, false)
  | some eaKey => (markTargetIn c eaKey targetName true).map (fun c1 => (c1, true))

/-- Method `MarkTargetDeploymentMissing`; `none` is a panic. -/
def MarkTargetDeploymentMissing (k : KeyFuncs) (c : Impl) (targetName targetNamespace : String) :
    Option (Impl × Bool) :=
  let tKey := k.targetKey targetName targetNamespace
  match c.deployment2Experiment tKey with
  | none => some (c, false)
  | some eaKey => (markTargetIn c eaKey targetName false).map (fun c1 => (c1, true))

/-- Method `MarkTargetServiceFound`; `none` is a panic. -/
def MarkTargetServiceFound (k : KeyFuncs) (c : Impl) (targetName targetNamespace : String) :
    Option (Impl × Bool) :=
  let tKey := k.targetKey targetName targetNamespace
  match c.service2Experiment tKey with
  | none => some (c, false)
  | some eaKey => (markServiceIn c eaKey true).map (fun c1 => (c1, true))

/-- Method `MarkTargetServiceMissing`; `none` is a panic. -/
def MarkTargetServiceMissing (k : KeyFuncs) (c : Impl) (targetName targetNamespace : String) :
    Option (Impl × Bool) :=
  let tKey := k.targetKey targetName targetNamespace
  match c.service2Experiment tKey with
  | none => some (c, false)
  | some eaKey => (markServiceIn c eaKey false).map (fun c1 => (c1, true))

/-- The loop `for name := range ta.Status { delete(c.deployment2Experiment, targetKey(...)) }`. -/
def deleteTargets (k : KeyFuncs) (m : GoMap String) (names : List String)
    (targetNamespace : String) : GoMap String :=
  names.foldl (fun acc name => acc.delete (k.targetKey name targetNamespace)) m

/-- Method `RemoveExperiment`. -/
def RemoveExperiment (k : KeyFuncs) (c : Impl) (inst : Experiment) : Impl :=
  let eakey := k.experimentKey inst
  match c.experimentAbstractStore eakey with
  | none => c
  | some ea =>
    let ta := ea.TargetsAbstract
    let targetNamespace := ta.Namespace
    { service2Experiment :=
        c.service2Experiment.delete (k.targetKey ta.ServiceName targetNamespace)
      deployment2Experiment :=
        deleteTargets k c.deployment2Experiment (ta.Status.map Prod.fst) targetNamespace
      experimentAbstractStore := c.experimentAbstractStore.delete eakey }

/-- An experiment is registered in a cache state when the abstract store holds, under the
experiment's key, an abstract that carries the experiment's targets: its target namespace,
its service name and a liveness flag for its baseline and for its candidate. -/
def Registered (k : KeyFuncs) (c : Impl) (inst : Experiment) : Prop :=
  ∃ ea, c.experimentAbstractStore (k.experimentKey inst) = some ea ∧
    ea.TargetsAbstract.Namespace = GetServiceNamespace inst ∧
    ea.TargetsAbstract.ServiceName = inst.Spec.TargetService.Name ∧
    inst.Spec.TargetService.Baseline ∈ ea.TargetsAbstract.Status.map Prod.fst ∧
    inst.Spec.TargetService.Candidate ∈ ea.TargetsAbstract.Status.map Prod.fst

/-- An experiment of v1alpha1 with the given identity and targets and an empty status. -/
def mkExperiment (name namespace_ service baseline candidate : String) : Experiment :=
  { Name := name
    Namespace := namespace_
    Spec :=
      { TargetService :=
          { Name := service, Namespace := "", Baseline := baseline, Candidate := candidate }
        TrafficControl :=
          { Strategy := "check_and_increment", StepSize := 2, Interval := 60,
            MaxIterations := 100, MaxTrafficPercent := 50, OnSuccess := "candidate" }
        AnalyticsEndpoint := "" }
    Status :=
      { StartTimestamp := none, GrafanaURLSet := false, CurrentIteration := 0
        AssessmentSummary :=
          { AllSuccessCriteriaMet := false, AbortExperiment := false, Conclusions := [] }
        TrafficSplit := { Baseline := 0, Candidate := 0 }
        AnalysisState := { Raw := none }, LastIncrementTime := 0, Marks := [] } }

end Cache

/-! ## Objects shared by the two reconcilers -/

/-- An error value; `none` of `Option Err` is Go's nil error. -/
abbrev Err := String

/-- A label map of an object: an association list, nil and empty both being `[]`. -/
abbrev Labels := List (String × String)

/-- Go `labels[key]` with its `ok` flag. -/
def Labels.get (l : Labels) (key : String) : Option String :=
  (l.find? (fun p => p.1 == key)).map Prod.snd

/-- Go `delete(labels, key)`. -/
def Labels.delete (l : Labels) (key : String) : Labels :=
  l.filter (fun p => p.1 != key)

/-- Go `labels[key] = value`. -/
def Labels.set (l : Labels) (key value : String) : Labels :=
  if (l.find? (fun p => p.1 == key)).isSome then
    l.map (fun p => if p.1 == key then (key, value) else p)
  else l ++ [(key, value)]

/-- The struct `reconcile.Result`. -/
structure Result where
  Requeue : Bool
  RequeueAfter : Int
  deriving DecidableEq, Repr

/-- The value `reconcile.Result{}`. -/
def Result.zero : Result := { Requeue := false, RequeueAfter := 0 }

/-- The response of `checkandincrement.Invoke` as far as the reconcilers read it; the two
traffic percentages are `float64` in the source, held here when they are integers, for which
`int(rolloutPercent)` is the percentage itself. -/
structure Response where
  BaselineTrafficPercentage : Int
  CanaryTrafficPercentage : Int
  Summary : V1alpha1.Summary
  LastState : Option String
  deriving DecidableEq, Repr

/-! ## pkg/controller/canary/istio.go -/

namespace Istio

/-- Constant `Baseline`. -/
def Baseline : String := "baseline"
/-- Constant `Candidate`. -/
def Candidate : String := "candidate"
/-- Constant `Stable`. -/
def Stable : String := "stable"

/-- The constant `canaryLabel` is declared outside istio.go; the value is the label key that
the comment above `newDestinationRule` shows. -/
def canaryLabel : String := "iter8.ibm.com/canary"

/-- The struct `v1alpha3.Destination`. -/
structure Destination where
  Host : String
  Subset : String
  deriving DecidableEq, Repr

/-- The struct `v1alpha3.HTTPRouteDestination`; `Weight` is a Go `int`. -/
structure HTTPRouteDestination where
  Destination : Destination
  Weight : Int
  deriving DecidableEq, Repr

/-- The struct `v1alpha3.HTTPRoute`. -/
structure HTTPRoute where
  Route : List HTTPRouteDestination
  deriving DecidableEq, Repr

/-- The struct `v1alpha3.VirtualService`: object meta and spec. -/
structure VirtualService where
  Name : String
  Namespace : String
  ResourceVersion : String
  Hosts : List String
  HTTP : List HTTPRoute
  deriving DecidableEq, Repr

/-- The struct `v1alpha3.Subset`. -/
structure Subset where
  Name : String
  Labels : Labels
  deriving DecidableEq, Repr

/-- The struct `v1alpha3.DestinationRule`: object meta and spec. -/
structure DestinationRule where
  Name : String
  Namespace : String
  Host : String
  Subsets : List Subset
  deriving DecidableEq, Repr

/-- The struct `appsv1.Deployment` as far as istio.go reads it. `CreationTimestamp` counts
from Go's zero time, so the zero `time.Time` is `0`. -/
structure Deployment where
  Name : String
  Labels : Labels
  CreationTimestamp : Time
  deriving DecidableEq, Repr

/-- The struct `corev1.Service` as far as istio.go reads it. -/
structure Service where
  Name : String
  Selector : Labels
  deriving DecidableEq, Repr

/-- A call of one of the status methods of the canary (`MarkHasService`, `MarkHasNotService`,
`MarkRolloutCompleted`, `MarkRolloutNotCompleted`), whose bodies are outside istio.go: the
call is recorded with its reason and formatted message. -/
inductive CanaryMark where
  | HasService
  | HasNotService (reason message : String)
  | RolloutCompleted
  | RolloutNotCompleted (reason message : String)
  deriving DecidableEq, Repr

/-- The status of a canary, with the fields `syncIstio` reads or writes; `Marks` lists the
status-method calls made so far, oldest first. -/
structure CanaryStatus where
  LastIncrementTime : Time
  AnalysisState : RawExtension
  Progressing : Bool
  Marks : List CanaryMark
  deriving DecidableEq, Repr

/-- The spec of a canary, with the fields `syncIstio` reads; `TrafficControl.Strategy` is
here the field itself, which `syncIstio` reads without getter. -/
structure CanarySpec where
  TargetServiceName : String
  TargetServiceNamespace : String
  TrafficControl : V1alpha1.TrafficControl
  AnalyticsService : String
  deriving DecidableEq, Repr

/-- The struct `iter8v1alpha1.Canary`. -/
structure Canary where
  Name : String
  Namespace : String
  Spec : CanarySpec
  Status : CanaryStatus
  deriving DecidableEq, Repr

/-- Appends a status-method call to the canary's status. -/
def Canary.mark (c : Canary) (m : CanaryMark) : Canary :=
  { c with Status := { c.Status with Marks := c.Status.Marks ++ [m] } }

/-- Function `getDestinationRuleName`. -/
def getDestinationRuleName (canary : Canary) : String :=
  canary.Spec.TargetServiceName ++ "-iter8.canary"

/-- Function `getVirtualServiceName`. -/
def getVirtualServiceName (canary : Canary) : String :=
  canary.Spec.TargetServiceName ++ "-iter8.canary"

/-- Function `getStableName`. -/
def getStableName (canary : Canary) : String :=
  canary.Name ++ "iter-stable"

/-- Function `makeVirtualService`; `rolloutPercent` is a Go `int`, so `100 - rolloutPercent`
wraps around. -/
def makeVirtualService (rolloutPercent : Int) (canary : Canary) : VirtualService :=
  { Name := getVirtualServiceName canary
    Namespace := canary.Namespace
    ResourceVersion := ""
    Hosts := [canary.Spec.TargetServiceName]
    HTTP :=
      [ { Route :=
            [ { Destination := { Host := canary.Spec.TargetServiceName, Subset := Baseline }
                Weight := wrapInt (100 - rolloutPercent) },
              { Destination := { Host := canary.Spec.TargetServiceName, Subset := Candidate }
                Weight := rolloutPercent } ] } ] }

/-- The loop of `getWeight` over the routes of the first HTTP route. -/
def weightOf (subset : String) : List HTTPRouteDestination → Int
  | [] => 0
  | route :: rest => if route.Destination.Subset = subset then route.Weight else weightOf subset rest

/-- Function `getWeight`; `vs.Spec.HTTP[0]` panics (`none`) when the list is empty. -/
def getWeight (subset : String) (vs : VirtualService) : Option Int :=
  match vs.HTTP with
  | [] => none
  | h :: _ => some (weightOf subset h.Route)

/-- Function `setResourceVersion`. -/
def setResourceVersion (rv : String) (vs : VirtualService) : VirtualService :=
  { vs with ResourceVersion := rv }

/-- The test `val, ok := d.ObjectMeta.Labels[canaryLabel]; !ok || val != Baseline`. -/
def notBaseline (d : Deployment) : Bool :=
  match d.Labels.get canaryLabel with
  | none => true
  | some val => val != Baseline

/-- The loop of `getLatestDeployment`: `i` is the index of the head of the list,
`latestTs` and `index` are the loop variables (`none` is `-1`). -/
def latestLoop : List Deployment → Nat → Time → Option Nat → Option Nat
  | [], _, _, index => index
  | d :: rest, i, latestTs, index =>
    if notBaseline d then
      if d.CreationTimestamp > latestTs then latestLoop rest (i + 1) d.CreationTimestamp (some i)
      else latestLoop rest (i + 1) latestTs index
    else latestLoop rest (i + 1) latestTs index

/-- Function `getLatestDeployment`. -/
def getLatestDeployment (ds : List Deployment) : Except Err Deployment :=
  match latestLoop ds 0 0 none with
  | none => .error "Latest deployment not found"
  | some index =>
    match ds[index]? with
    | some d => .ok d
    | none => .error "index out of range"

/-- The loop of `getCanaryDeployment`. -/
def canaryLoop (baselineTs : Time) : List Deployment → Nat → Option Nat → Option Nat
  | [], _, index => index
  | d :: rest, i, index =>
    if notBaseline d then
      if d.CreationTimestamp > baselineTs then canaryLoop baselineTs rest (i + 1) (some i)
      else canaryLoop baselineTs rest (i + 1) index
    else canaryLoop baselineTs rest (i + 1) index

/-- Function `getCanaryDeployment`. -/
def getCanaryDeployment (ds : List Deployment) (baseline : Deployment) : Except Err Deployment :=
  match canaryLoop baseline.CreationTimestamp ds 0 none with
  | none => .error "Latest deployment not found"
  | some index =>
    match ds[index]? with
    | some d => .ok d
    | none => .error "index out of range"

/-- Function `newDestinationRule`. The two `delete` calls act on the label maps of the
deployments themselves, so the deployments are returned as well. -/
def newDestinationRule (canary : Canary) (baseline candidate : Deployment) :
    DestinationRule × Deployment × Deployment :=
  let bLabels := baseline.Labels.delete canaryLabel
  let cLabels := candidate.Labels.delete canaryLabel
  ({ Name := getDestinationRuleName canary
     Namespace := canary.Namespace
     Host := canary.Spec.TargetServiceName
     Subsets := [ { Name := Baseline, Labels := bLabels }, { Name := Candidate, Labels := cLabels } ] },
   { baseline with Labels := bLabels }, { candidate with Labels := cLabels })

/-- Function `newStableRules`. -/
def newStableRules (d : Deployment) (canary : Canary) : DestinationRule × VirtualService :=
  ({ Name := getStableName canary
     Namespace := canary.Namespace
     Host := canary.Spec.TargetServiceName
     Subsets := [ { Name := Stable, Labels := d.Labels } ] },
   { Name := getStableName canary
     Namespace := canary.Namespace
     ResourceVersion := ""
     Hosts := [canary.Spec.TargetServiceName]
     HTTP :=
       [ { Route :=
             [ { Destination := { Host := canary.Spec.TargetServiceName, Subset := Stable }
                 Weight := 100 } ] } ] })

/-- The payload of `MakeRequest`, a function outside istio.go: the objects it is given. -/
structure Request where
  canary : Canary
  baseline : Deployment
  candidate : Deployment
  deriving DecidableEq, Repr

/-- A writing call to the API server, or a call of the analytics service. -/
inductive Call where
  | StatusUpdate (canary : Canary)
  | UpdateDeployment (d : Deployment)
  | DeleteDestinationRule (name : String)
  | DeleteVirtualService (name : String)
  | CreateDestinationRule (dr : DestinationRule)
  | CreateVirtualService (vs : VirtualService)
  | UpdateVirtualService (vs : VirtualService)
  | Invoke (endpoint : String) (payload : Request)
  deriving DecidableEq, Repr

/-- What the world answers during one pass of `syncIstio`: the clock, the API server (one
answer per call site) and the analytics service. `none` of an `Option Err` is success. A
successful `Create` or `Update` leaves the spec of the object it is given as it is, and
`createdResourceVersion` is the resource version a `Create` of the virtual service fills in. -/
structure Env where
  now : Time
  getService : Except Err Service
  listDeployments : Except Err (List Deployment)
  statusUpdate : Option Err
  updateDeployment : Option Err
  stableDestinationRuleFound : Bool
  stableVirtualServiceFound : Bool
  destinationRuleFound : Bool
  createDestinationRule : Option Err
  getVirtualService : Option VirtualService
  createVirtualService : Option Err
  createdResourceVersion : String
  updateVirtualService : Option Err
  invoke : Except Err Response
  marshalLastState : Except Err String
  destinationRuleFoundAtDelete : Bool
  virtualServiceFoundAtDelete : Bool

/-- The state of a pass: the canary object, the calls issued so far (oldest first). -/
structure Pass where
  canary : Canary
  calls : List Call
  deriving DecidableEq, Repr

/-- What a pass returns, with the final canary object and the calls issued; `crashed` is
set when the pass ended in a run-time panic. -/
structure Outcome where
  canary : Canary
  calls : List Call
  result : Result
  err : Option Err
  crashed : Bool
  deriving DecidableEq, Repr

/-- Ends a pass with the given return values. -/
def Pass.done (p : Pass) (result : Result) (err : Option Err) : Outcome :=
  { canary := p.canary, calls := p.calls, result := result, err := err, crashed := false }

/-- Ends a pass with a run-time panic. -/
def Pass.crash (p : Pass) : Outcome :=
  { canary := p.canary, calls := p.calls, result := Result.zero, err := none, crashed := true }

/-- Records a call. -/
def Pass.call (p : Pass) (c : Call) : Pass := { p with calls := p.calls ++ [c] }

/-- The statements `canary.Status.MarkHasNotService(reason, ...); err = r.Status().Update(...)`
followed by `if err != nil return Result{}, err; return Result{Requeue: true}, nil`. -/
def notFoundExit (env : Env) (p : Pass) : Outcome :=
  let p1 : Pass := { p with canary := p.canary.mark (.HasNotService "NotFound" "") }
  let p2 := p1.call (.StatusUpdate p1.canary)
  match env.statusUpdate with
  | some err => p2.done Result.zero (some err)
  | none => p2.done { Requeue := true, RequeueAfter := 0 } none

/-- Function `deleteRules`: each rule is deleted when the `Get` for it succeeds. -/
def deleteRules (env : Env) (p : Pass) : Pass :=
  let p1 := if env.destinationRuleFoundAtDelete
    then p.call (.DeleteDestinationRule (getDestinationRuleName p.canary)) else p
  if env.virtualServiceFoundAtDelete
    then p1.call (.DeleteVirtualService (getVirtualServiceName p1.canary)) else p1

/-- Function `removeCanaryLabel`; the result of `r.Update` is dropped by the source. -/
def removeCanaryLabel (p : Pass) (d : Deployment) : Pass × Deployment :=
  let d1 : Deployment := { d with Labels := d.Labels.delete canaryLabel }
  (p.call (.UpdateDeployment d1), d1)

/-- The loop of `syncIstio` that picks the deployments labelled baseline and candidate: the
last deployment carrying each label wins. -/
def pickLabelled : List Deployment → Option Deployment → Option Deployment →
    Option Deployment × Option Deployment
  | [], baseline, candidate => (baseline, candidate)
  | d :: rest, baseline, candidate =>
    match d.Labels.get canaryLabel with
    | some val =>
      if val = Candidate then pickLabelled rest baseline (some d)
      else if val = Baseline then pickLabelled rest (some d) candidate
      else pickLabelled rest baseline candidate
    | none => pickLabelled rest baseline candidate

/-- What `syncIstio` holds when it reaches the comment `Check canary rollout status`: the
pass so far, the two deployments and the virtual service (fetched or just created). -/
structure Ready where
  pass : Pass
  baseline : Deployment
  candidate : Deployment
  vs : VirtualService
  deriving DecidableEq, Repr

/-- The statements of `syncIstio` that fetch the virtual service or, failing that, create
`makeVirtualService(0, canary)`. -/
def ensureVirtualService (env : Env) (p : Pass) (baseline candidate : Deployment) :
    Outcome ⊕ Ready :=
  match env.getVirtualService with
  | some vs => .inr { pass := p, baseline := baseline, candidate := candidate, vs := vs }
  | none =>
    let vs := makeVirtualService 0 p.canary
    let p1 := p.call (.CreateVirtualService vs)
    match env.createVirtualService with
    | some err => .inl (p1.done Result.zero (some err))
    | none =>
      .inr { pass := p1, baseline := baseline, candidate := candidate,
             vs := setResourceVersion env.createdResourceVersion vs }

/-- The statements of `syncIstio` from `Remove stable rules if there is any` to the comment
`Check canary rollout status`, run once both deployments are known. -/
def ensureRules (env : Env) (p : Pass) (baseline candidate : Deployment) : Outcome ⊕ Ready :=
  let stableName := getStableName p.canary
  let p1 := if env.stableDestinationRuleFound
    then p.call (.DeleteDestinationRule stableName) else p
  let p2 := if env.stableVirtualServiceFound
    then p1.call (.DeleteVirtualService stableName) else p1
  if env.destinationRuleFound then ensureVirtualService env p2 baseline candidate
  else
    let r := newDestinationRule p2.canary baseline candidate
    let p3 := p2.call (.CreateDestinationRule r.1)
    match env.createDestinationRule with
    | some err => .inl (p3.done Result.zero (some err))
    | none => ensureVirtualService env p3 r.2.1 r.2.2

/-- The first part of `syncIstio`, up to the comment `Check canary rollout status`: either
the pass returns early (`Sum.inl`) or it holds both deployments and the virtual service. -/
def syncIstioSetup (env : Env) (canary : Canary) : Outcome ⊕ Ready :=
  let p0 : Pass := { canary := canary, calls := [] }
  match env.getService with
  | .error _ => .inl (notFoundExit env p0)
  | .ok _ =>
    let p1 : Pass := { p0 with canary := p0.canary.mark .HasService }
    match env.listDeployments with
    | .error _ => .inl (notFoundExit env p1)
    | .ok [] => .inl (notFoundExit env p1)
    | .ok (d0 :: ds) =>
      let items := d0 :: ds
      match pickLabelled items none none with
      | (none, _) =>
        match getLatestDeployment items with
        | .error err => .inl (p1.done Result.zero (some err))
        | .ok d =>
          let d1 : Deployment := { d with Labels := [(canaryLabel, Baseline)] }
          let p2 := p1.call (.UpdateDeployment d1)
          match env.updateDeployment with
          | some err => .inl (p2.done Result.zero (some err))
          | none => .inl (p2.done Result.zero none)
      | (some baseline, none) =>
        match getCanaryDeployment items baseline with
        | .error err => .inl (p1.done Result.zero (some err))
        | .ok d =>
          let d1 : Deployment := { d with Labels := [(canaryLabel, Candidate)] }
          let p2 := p1.call (.UpdateDeployment d1)
          match env.updateDeployment with
          | some err => .inl (p2.done Result.zero (some err))
          | none => .inl (p2.done { Requeue := true, RequeueAfter := 0 } none)
      | (some baseline, some candidate) => ensureRules env p1 baseline candidate

/-- The end of the rollout block of `syncIstio`: the virtual service for the new rollout
percent is written and the increment time is set. -/
def writeVirtualService (env : Env) (rd : Ready) (p : Pass) (rolloutPercent : Int) :
    Outcome ⊕ (Pass × VirtualService) :=
  let rv := rd.vs.ResourceVersion
  let vs := setResourceVersion rv (makeVirtualService rolloutPercent p.canary)
  let p1 := p.call (.UpdateVirtualService vs)
  match env.updateVirtualService with
  | some err => .inl (p1.done Result.zero (some err))
  | none =>
    let c1 : Canary :=
      { p1.canary with Status := { p1.canary.Status with LastIncrementTime := env.now } }
    .inr ({ p1 with canary := c1 }, vs)

/-- The case `check_and_increment` of the strategy switch of `syncIstio`. -/
def checkAndIncrement (env : Env) (rd : Ready) : Outcome ⊕ (Pass × VirtualService) :=
  let p := rd.pass
  let payload : Request := { canary := p.canary, baseline := rd.baseline, candidate := rd.candidate }
  let p1 := p.call (.Invoke p.canary.Spec.AnalyticsService payload)
  match env.invoke with
  | .error err =>
    let p2 : Pass := { p1 with canary := p1.canary.mark (.HasNotService "ErrorAnalytics" err) }
    let p3 := p2.call (.StatusUpdate p2.canary)
    let p4 := deleteRules env p3
    .inl (p4.done Result.zero env.statusUpdate)
  | .ok response =>
    match env.marshalLastState with
    | .error err =>
      let p2 : Pass :=
        { p1 with canary := p1.canary.mark (.HasNotService "ErrorAnalyticsResponse" err) }
      let p3 := p2.call (.StatusUpdate p2.canary)
      .inl (p3.done Result.zero env.statusUpdate)
    | .ok lastState =>
      let c1 : Canary :=
        { p1.canary with
          Status := { p1.canary.Status with AnalysisState := { Raw := some lastState } } }
      writeVirtualService env rd { p1 with canary := c1 } response.CanaryTrafficPercentage

/-- The block of `syncIstio` guarded by
`rolloutPercent < traffic.GetMaxTrafficPercent() && now.After(LastIncrementTime.Add(interval))`:
it is entered with the candidate weight `cur` read from the virtual service. Either the pass
returns (`Sum.inl`) or it goes on with the pass and the virtual service written. The sum
`cur + traffic.StepSize` is `int(rolloutPercent)` after `rolloutPercent += traffic.GetStepSize()`
for the integer step size the field holds; `syncIstioStepFloat` is the block for any step
size. -/
def syncIstioStep (env : Env) (rd : Ready) (cur : Int) : Outcome ⊕ (Pass × VirtualService) :=
  let traffic := rd.pass.canary.Spec.TrafficControl
  if traffic.Strategy = "manual" then writeVirtualService env rd rd.pass (cur + traffic.StepSize)
  else if traffic.Strategy = "check_and_increment" then checkAndIncrement env rd
  else writeVirtualService env rd rd.pass cur

/-- The end of `syncIstio`, from `result := reconcile.Result{}` on: `w` is the candidate
weight of the virtual service held at that point, compared with
`int(traffic.GetMaxTrafficPercent())`, the integer the field holds. -/
def syncIstioFinish (env : Env) (p : Pass) (baseline candidate : Deployment) (w : Int) : Outcome :=
  let traffic := p.canary.Spec.TrafficControl
  if w = traffic.MaxTrafficPercent then
    let c1 : Canary := p.canary.mark .RolloutCompleted
    let c2 : Canary := { c1 with Status := { c1.Status with Progressing := false } }
    let p1 : Pass := { p with canary := c2 }
    let p2 := (removeCanaryLabel p1 baseline).1
    let r3 := removeCanaryLabel p2 candidate
    let p4 := deleteRules env r3.1
    let stable := newStableRules r3.2 p4.canary
    let p5 := (p4.call (.CreateDestinationRule stable.1)).call (.CreateVirtualService stable.2)
    let p6 := p5.call (.StatusUpdate p5.canary)
    p6.done Result.zero env.statusUpdate
  else
    let c1 : Canary := p.canary.mark (.RolloutNotCompleted "Progressing" "")
    let c2 : Canary := { c1 with Status := { c1.Status with Progressing := true } }
    let p1 : Pass := { p with canary := c2 }
    let p2 := p1.call (.StatusUpdate p1.canary)
    p2.done { Requeue := false, RequeueAfter := traffic.Interval } env.statusUpdate

/-- The guard of the rollout block of `syncIstio`; the comparison of the two `float64` is
the one of the integers `cur` and `MaxTrafficPercent`. -/
def due (env : Env) (canary : Canary) (cur : Int) : Bool :=
  decide (cur < canary.Spec.TrafficControl.MaxTrafficPercent) &&
  decide (env.now > canary.Status.LastIncrementTime + canary.Spec.TrafficControl.Interval)

/-- The statements of `syncIstio` after the rollout block: the candidate weight of the
virtual service now held decides between completion and requeue. -/
def finishWith (env : Env) (rd : Ready) (p : Pass) (vs : VirtualService) : Outcome :=
  match getWeight Candidate vs with
  | none => p.crash
  | some w => syncIstioFinish env p rd.baseline rd.candidate w

/-- The statements of `syncIstio` from the comment `Check canary rollout status` on. -/
def syncIstioRollout (env : Env) (rd : Ready) : Outcome :=
  match getWeight Candidate rd.vs with
  | none => rd.pass.crash
  | some cur =>
    if due env rd.pass.canary cur then
      match syncIstioStep env rd cur with
      | .inl out => out
      | .inr (p, vs) => finishWith env rd p vs
    else finishWith env rd rd.pass rd.vs

/-- Method `syncIstio`. -/
def syncIstio (env : Env) (canary : Canary) : Outcome :=
  match syncIstioSetup env canary with
  | .inl out => out
  | .inr rd => syncIstioRollout env rd

/-- The virtual-service updates among the calls of a pass. -/
def updatesOf : List Call → List VirtualService
  | [] => []
  | .UpdateVirtualService vs :: rest => vs :: updatesOf rest
  | _ :: rest => updatesOf rest

/-- The spec's clamp of a value to the range from `lo` to `hi`. -/
def clamp (x lo hi : Int) : Int := max lo (min x hi)

/-- A canary for the service `reviews` with strategy manual, interval 1 and the given step
size and maximal traffic percent, last incremented at time 0. -/
def demoCanary (step maxPercent : Int) : Canary :=
  { Name := "reviews-canary"
    Namespace := "default"
    Spec :=
      { TargetServiceName := "reviews"
        TargetServiceNamespace := ""
        TrafficControl :=
          { Strategy := "manual", StepSize := step, Interval := 1, MaxIterations := 100,
            MaxTrafficPercent := maxPercent, OnSuccess := "candidate" }
        AnalyticsService := "" }
    Status :=
      { LastIncrementTime := 0, AnalysisState := { Raw := none }, Progressing := true, Marks := [] } }

/-- The deployment `reviews-v1`, labelled baseline. -/
def demoBaseline : Deployment :=
  { Name := "reviews-v1", Labels := [("app", "reviews"), (canaryLabel, Baseline)],
    CreationTimestamp := 1 }

/-- The deployment `reviews-v2`, labelled candidate. -/
def demoCandidate : Deployment :=
  { Name := "reviews-v2", Labels := [("app", "reviews"), (canaryLabel, Candidate)],
    CreationTimestamp := 2 }

/-- A world at time 10 in which every call succeeds, both deployments carry their label, the
destination rule exists and the virtual service gives the candidate the weight `cur`. -/
def demoEnv (cur : Int) (canary : Canary) : Env :=
  { now := 10
    getService := .ok { Name := "reviews", Selector := [("app", "reviews")] }
    listDeployments := .ok [demoBaseline, demoCandidate]
    statusUpdate := none
    updateDeployment := none
    stableDestinationRuleFound := false
    stableVirtualServiceFound := false
    destinationRuleFound := true
    createDestinationRule := none
    getVirtualService := some (setResourceVersion "7" (makeVirtualService cur canary))
    createVirtualService := none
    createdResourceVersion := "1"
    updateVirtualService := none
    invoke := .error "unused"
    marshalLastState := .error "unused"
    destinationRuleFoundAtDelete := true
    virtualServiceFoundAtDelete := true }

/-- What `syncIstio` holds at the rollout check in the world `demoEnv cur canary`. -/
def demoReady (cur : Int) (canary : Canary) : Ready :=
  { pass := { canary := canary.mark .HasService, calls := [] }
    baseline := demoBaseline
    candidate := demoCandidate
    vs := setResourceVersion "7" (makeVirtualService cur canary) }

/-- A world in which a pass of `syncIstio` gets to the rollout check and its writes succeed:
the service is found, the deployment list picks `baseline` and `candidate` by their labels,
the destination rule exists, and the update of the virtual service and of the status
succeed. -/
def Steady (env : Env) (baseline candidate : Deployment) : Prop :=
  (∃ svc, env.getService = .ok svc) ∧
  (∃ d ds, env.listDeployments = .ok (d :: ds) ∧
    pickLabelled (d :: ds) none none = (some baseline, some candidate)) ∧
  env.destinationRuleFound = true ∧ env.updateVirtualService = none ∧ env.statusUpdate = none

/-- The world of the next pass: the API server returns the virtual service `vs` it holds, and
the clock has moved past the interval since the last increment of the canary. -/
def nextEnv (env : Env) (canary : Canary) (vs : VirtualService) : Env :=
  { env with
    getVirtualService := some vs
    now := canary.Status.LastIncrementTime + canary.Spec.TrafficControl.Interval + 1 }

/-- The virtual service the API server holds after a pass: the last one the pass updated, or
the one it held before. -/
def storedAfter (vs : VirtualService) (out : Outcome) : VirtualService :=
  ((updatesOf out.calls).getLast?).getD vs

/-- The canary object and the virtual service after `k` successive due passes, each pass
reading what the pass before it left. -/
def passes (env : Env) : Nat → Canary → VirtualService → Canary × VirtualService
  | 0, canary, vs => (canary, vs)
  | k + 1, canary, vs =>
    let st := passes env k canary vs
    let out := syncIstio (nextEnv env st.1 st.2) st.1
    (out.canary, storedAfter st.2 out)

/-- The outcome of the `k`-th of the successive due passes, `k` counted from 1. -/
def kthPass (env : Env) (k : Nat) (canary : Canary) (vs : VirtualService) : Outcome :=
  let st := passes env (k - 1) canary vs
  syncIstio (nextEnv env st.1 st.2) st.1

end Istio

/-! ## pkg/controller/experiment/knative.go -/

namespace Knative

open V1alpha1

/-- The constant `experimentLabel` is declared outside knative.go; the embedding fixes a key,
and nothing depends on which. -/
def experimentLabel : String := "iter8.ibm.com/experiment"

/-- The struct `servingv1alpha1.TrafficTarget`; `Percent` is a Go `int`. -/
structure TrafficTarget where
  RevisionName : String
  Percent : Int
  deriving DecidableEq, Repr

/-- The struct `servingv1alpha1.Service` as far as knative.go reads it: `HasTemplate` is
`Spec.Template != nil`, and `Traffic` is the slice `Spec.Traffic` of traffic targets held by
value, `none` being the nil slice. -/
structure KService where
  Name : String
  Namespace : String
  Labels : Labels
  HasTemplate : Bool
  Traffic : Option (List TrafficTarget)
  deriving DecidableEq, Repr

/-- The struct `corev1.Service` behind a revision, as far as the payload names it. -/
structure CoreService where
  Name : String
  deriving DecidableEq, Repr

/-- The payload of `MakeRequest`, a function outside knative.go: the objects it is given. -/
structure Request where
  inst : Experiment
  baselineService : CoreService
  candidateService : CoreService
  deriving DecidableEq, Repr

/-- A writing call to the API server, or a call of the analytics service. -/
inductive Call where
  | StatusUpdate (inst : Experiment)
  | UpdateService (kservice : KService)
  | Invoke (endpoint : String) (payload : Request)
  deriving DecidableEq, Repr

/-- What the world answers during one pass of `syncKnative`: the clock, the API server (one
answer per call site) and the analytics service. `none` of an `Option Err` is success. A
successful `Update` leaves the object it is given as it is. -/
structure Env where
  now : Time
  getService : Except Err KService
  statusUpdate : Option Err
  updateServiceLabel : Option Err
  updateServiceTerminal : Option Err
  updateServiceAbort : Option Err
  updateServiceTraffic : Option Err
  baselineCoreService : Except Err CoreService
  candidateCoreService : Except Err CoreService
  invoke : Except Err Response
  marshalLastState : Except Err String

/-- The state of a pass of `syncKnative`: the experiment object, the service object, the two
traffic targets that `getTrafficByName` returned (pointers to copies of the slice elements),
and the calls issued so far, oldest first. -/
structure Pass where
  inst : Experiment
  kservice : KService
  baselineTraffic : TrafficTarget
  candidateTraffic : TrafficTarget
  calls : List Call
  deriving DecidableEq, Repr

/-- What a pass returns, with the final experiment object, the calls issued, the final values
of the two local traffic targets (when the pass got to them) and the values that the loop
variable `target` of the last loop held at the end of each round (when the loop ran). -/
structure Outcome where
  inst : Experiment
  calls : List Call
  result : Result
  err : Option Err
  baselineTraffic : Option TrafficTarget
  candidateTraffic : Option TrafficTarget
  targets : Option (List TrafficTarget)
  deriving DecidableEq, Repr

/-- Appends a status-method call to the experiment's status. -/
def markInst (inst : Experiment) (m : StatusMark) : Experiment :=
  { inst with Status := { inst.Status with Marks := inst.Status.Marks ++ [m] } }

/-- Function `getTrafficByName`: a pointer to the loop variable, which holds a copy of the
first traffic target with the given revision name; `none` is nil. -/
def getTrafficByName (service : KService) (name : String) : Option TrafficTarget :=
  match service.Traffic with
  | none => none
  | some ts => ts.find? (fun traffic => traffic.RevisionName == name)

/-- An early return before the traffic targets are known: `MarkHasNotService(reason, ...)`,
`r.Status().Update`, then the given result. -/
def earlyExit (env : Env) (inst : Experiment) (calls : List Call) (reason message : String)
    (requeueOnSuccess : Bool) : Outcome :=
  let inst1 := markInst inst (.HasNotService reason message)
  let calls1 := calls ++ [Call.StatusUpdate inst1]
  let result : Result :=
    match env.statusUpdate with
    | some _ => Result.zero
    | none => { Requeue := requeueOnSuccess, RequeueAfter := 0 }
  { inst := inst1, calls := calls1, result := result, err := env.statusUpdate,
    baselineTraffic := none, candidateTraffic := none, targets := none }

/-- Ends a pass with the given return values. -/
def Pass.done (p : Pass) (result : Result) (err : Option Err)
    (targets : Option (List TrafficTarget)) : Outcome :=
  { inst := p.inst, calls := p.calls, result := result, err := err,
    baselineTraffic := some p.baselineTraffic, candidateTraffic := some p.candidateTraffic,
    targets := targets }

/-- The statements of `syncKnative` from `Check the experiment targets existing traffic
targets` to the call of `updateGrafanaURL`. -/
def findTargets (env : Env) (inst : Experiment) (kservice : KService) (calls : List Call) :
    Outcome ⊕ Pass :=
  match kservice.Traffic with
  | none => .inl (earlyExit env inst calls "MissingTraffic" "" false)
  | some _ =>
    let baseline := inst.Spec.TargetService.Baseline
    match getTrafficByName kservice baseline with
    | none => .inl (earlyExit env inst calls "MissingBaselineRevision" baseline false)
    | some baselineTraffic =>
      let candidate := inst.Spec.TargetService.Candidate
      match getTrafficByName kservice candidate with
      | none => .inl (earlyExit env inst calls "MissingCandidateRevision" candidate false)
      | some candidateTraffic =>
        let inst1 := markInst inst .HasService
        let inst2 : Experiment :=
          match inst1.Status.StartTimestamp with
          | none =>
            { inst1 with Status :=
                { inst1.Status with StartTimestamp := some env.now, GrafanaURLSet := true } }
          | some _ => inst1
        .inr { inst := inst2, kservice := kservice, baselineTraffic := baselineTraffic,
               candidateTraffic := candidateTraffic, calls := calls }

/-- The statements of `syncKnative` that put the experiment label on a service that has
none, and what follows them up to the end of the first part. -/
def linkService (env : Env) (inst : Experiment) (kservice : KService) : Outcome ⊕ Pass :=
  match kservice.Labels.get experimentLabel with
  | some _ => findTargets env inst kservice []
  | none =>
    let kservice1 : KService :=
      { kservice with Labels := kservice.Labels.set experimentLabel inst.Name }
    match env.updateServiceLabel with
    | some err =>
      .inl { inst := inst, calls := [Call.UpdateService kservice1], result := Result.zero,
             err := some err, baselineTraffic := none, candidateTraffic := none, targets := none }
    | none => findTargets env inst kservice1 [Call.UpdateService kservice1]

/-- The first part of `syncKnative`, up to the comment `check experiment is finished`: either
the pass returns early or it holds the service and the two traffic targets. -/
def syncKnativeSetup (env : Env) (inst : Experiment) : Outcome ⊕ Pass :=
  match env.getService with
  | .error _ => .inl (earlyExit env inst [] "NotFound" "" true)
  | .ok kservice =>
    if !kservice.HasTemplate then .inl (earlyExit env inst [] "MissingTemplate" "" false)
    else
      match kservice.Labels.get experimentLabel with
      | some experiment =>
        if experiment ≠ inst.Name then
          .inl (earlyExit env inst [] "ExistingExperiment"
            ("service is already controlled by " ++ experiment) false)
        else linkService env inst kservice
      | none => linkService env inst kservice

/-- The statements that switch the local traffic targets back to the baseline:
`if candidateTraffic.Percent != 0 { candidateTraffic.Percent = 0; update = true }` and
`if baselineTraffic.Percent != 100 { baselineTraffic.Percent = 100; update = true }`. -/
def toBaseline (p : Pass) (update : Bool) : Pass × Bool :=
  let r1 : Pass × Bool :=
    if p.candidateTraffic.Percent ≠ 0
    then ({ p with candidateTraffic := { p.candidateTraffic with Percent := 0 } }, true)
    else (p, update)
  if r1.1.baselineTraffic.Percent ≠ 100
  then ({ r1.1 with baselineTraffic := { r1.1.baselineTraffic with Percent := 100 } }, true)
  else r1

/-- The statements that switch the local traffic targets to the candidate:
`if candidateTraffic.Percent != 100 { candidateTraffic.Percent = 100; update = true }` and
`if baselineTraffic.Percent != 0 { baselineTraffic.Percent = 0; update = true }`. -/
def toCandidate (p : Pass) (update : Bool) : Pass × Bool :=
  let r1 : Pass × Bool :=
    if p.candidateTraffic.Percent ≠ 100
    then ({ p with candidateTraffic := { p.candidateTraffic with Percent := 100 } }, true)
    else (p, update)
  if r1.1.baselineTraffic.Percent ≠ 0
  then ({ r1.1 with baselineTraffic := { r1.1.baselineTraffic with Percent := 0 } }, true)
  else r1

/-- Sets the traffic split recorded in the status. -/
def setTrafficSplit (inst : Experiment) (baseline candidate : Int) : Experiment :=
  { inst with Status :=
      { inst.Status with TrafficSplit := { Baseline := baseline, Candidate := candidate } } }

/-- The branch of `syncKnative` taken when
`traffic.GetMaxIterations() <= instance.Status.CurrentIteration`, up to the update of the
service: the local traffic targets and the flag `update`. -/
def terminalCollapse (p : Pass) : Pass × Bool :=
  let traffic := p.inst.Spec.TrafficControl
  if p.inst.Status.AssessmentSummary.AllSuccessCriteriaMet then
    if traffic.OnSuccess = "baseline" then
      let r := toBaseline p false
      let inst1 := markInst r.1.inst (.NotRollForward "OnSuccessBaseline" "")
      ({ r.1 with inst := setTrafficSplit inst1 100 0 }, r.2)
    else if traffic.OnSuccess = "candidate" then
      let r := toCandidate p false
      let inst1 := markInst r.1.inst .RollForward
      ({ r.1 with inst := setTrafficSplit inst1 100 0 }, r.2)
    else if traffic.OnSuccess = "both" then
      ({ p with inst := markInst p.inst (.NotRollForward "OnSuccessBoth" "") }, false)
    else (p, false)
  else toBaseline p false

/-- The end of the branch of `syncKnative` for a finished experiment, from the comment
`Clear analysis state` on. -/
def endExperiment (env : Env) (p : Pass) : Outcome :=
  let inst1 : Experiment :=
    { p.inst with Status := { p.inst.Status with AnalysisState := { Raw := some emptyObject } } }
  let inst2 := markInst inst1 .ExperimentCompleted
  let p1 : Pass := { p with inst := inst2, calls := p.calls ++ [Call.StatusUpdate inst2] }
  p1.done Result.zero env.statusUpdate none

/-- The whole branch of `syncKnative` taken when the experiment is finished. -/
def syncKnativeTerminal (env : Env) (p : Pass) : Outcome :=
  let r := terminalCollapse p
  let labels := r.1.kservice.Labels
  let has := (labels.get experimentLabel).isSome
  let p2 : Pass :=
    if has then { r.1 with kservice := { r.1.kservice with Labels := labels.delete experimentLabel } }
    else r.1
  if has || r.2 then
    let p3 : Pass := { p2 with calls := p2.calls ++ [Call.UpdateService p2.kservice] }
    match env.updateServiceTerminal with
    | some err => p3.done Result.zero (some err) none
    | none => endExperiment env p3
  else endExperiment env p2

/-- The loop `for _, target := range ksvctraffic` of `syncKnative`: the loop variable holds a
copy of each traffic target. The result lists the value the loop variable held at the end of
each round and gives the flag `needUpdate`. The subtraction is one of Go `int`. -/
def setPercents (baseline candidate : String) (newRolloutPercent : Int) :
    List TrafficTarget → Bool → List TrafficTarget × Bool
  | [], needUpdate => ([], needUpdate)
  | target :: rest, needUpdate =>
    let r1 : TrafficTarget × Bool :=
      if target.RevisionName = baseline then
        if target.Percent ≠ wrapInt (100 - newRolloutPercent)
        then ({ target with Percent := wrapInt (100 - newRolloutPercent) }, true)
        else (target, needUpdate)
      else if target.RevisionName = candidate then
        if target.Percent ≠ newRolloutPercent
        then ({ target with Percent := newRolloutPercent }, true)
        else (target, needUpdate)
      else
        if target.Percent ≠ 0
        then ({ target with Percent := 0 }, true)
        else (target, needUpdate)
    let r2 := setPercents baseline candidate newRolloutPercent rest r1.2
    (r1.1 :: r2.1, r2.2)

/-- The statements of the case `check_and_increment` after the abort check: the new rollout
percent is the candidate percentage of the response, the last state is stored, and the
iteration counter is incremented. -/
def storeResponse (env : Env) (p : Pass) (response : Response) : Outcome ⊕ (Pass × Int) :=
  let newRolloutPercent := response.CanaryTrafficPercentage
  let counted (inst1 : Experiment) : Experiment :=
    { inst1 with Status :=
        { inst1.Status with AssessmentSummary := response.Summary,
                            CurrentIteration := wrapInt (inst1.Status.CurrentIteration + 1) } }
  match response.LastState with
  | none =>
    let inst1 : Experiment :=
      { p.inst with Status := { p.inst.Status with AnalysisState := { Raw := some emptyObject } } }
    .inr ({ p with inst := counted inst1 }, newRolloutPercent)
  | some _ =>
    match env.marshalLastState with
    | .error err =>
      let inst1 := markInst p.inst (.ExperimentNotCompleted "ErrorAnalyticsResponse" err)
      let p1 : Pass := { p with inst := inst1, calls := p.calls ++ [Call.StatusUpdate inst1] }
      .inl (p1.done { Requeue := false, RequeueAfter := 5 } env.statusUpdate none)
    | .ok lastState =>
      let inst1 : Experiment :=
        { p.inst with Status := { p.inst.Status with AnalysisState := { Raw := some lastState } } }
      .inr ({ p with inst := counted inst1 }, newRolloutPercent)

/-- The statements of the case `check_and_increment` from the call of the analytics service
on, given the two core services. `5` is `5 * time.Second`, times being counted in seconds. -/
def askAnalytics (env : Env) (p : Pass) (baselineService candidateService : CoreService) :
    Outcome ⊕ (Pass × Int) :=
  let payload : Request :=
    { inst := p.inst, baselineService := baselineService, candidateService := candidateService }
  let p1 : Pass := { p with calls := p.calls ++ [Call.Invoke p.inst.Spec.AnalyticsEndpoint payload] }
  match env.invoke with
  | .error err =>
    let inst1 := markInst p1.inst (.ExperimentNotCompleted "ErrorAnalytics" err)
    let p2 : Pass := { p1 with inst := inst1, calls := p1.calls ++ [Call.StatusUpdate inst1] }
    .inl (p2.done { Requeue := false, RequeueAfter := 5 } env.statusUpdate none)
  | .ok response =>
    if response.Summary.AbortExperiment then
      if p1.candidateTraffic.Percent ≠ 0 ∨ p1.baselineTraffic.Percent ≠ 100 then
        let p2 : Pass :=
          { p1 with baselineTraffic := { p1.baselineTraffic with Percent := 100 },
                    candidateTraffic := { p1.candidateTraffic with Percent := 0 },
                    calls := p1.calls ++ [Call.UpdateService p1.kservice] }
        match env.updateServiceAbort with
        | some err => .inl (p2.done Result.zero (some err) none)
        | none => storeResponse env p2 response
      else storeResponse env p1 response
    else storeResponse env p1 response

/-- The case `check_and_increment` of the strategy switch of `syncKnative`: either the pass
returns, or it goes on with the new rollout percent. -/
def checkAndIncrement (env : Env) (p : Pass) : Outcome ⊕ (Pass × Int) :=
  match env.baselineCoreService with
  | .error err =>
    let inst1 := markInst p.inst (.HasNotService "MissingCoreService" err)
    let p1 : Pass := { p with inst := inst1, calls := p.calls ++ [Call.StatusUpdate inst1] }
    .inl (p1.done Result.zero env.statusUpdate none)
  | .ok baselineService =>
    match env.candidateCoreService with
    | .error err =>
      let inst1 := markInst p.inst (.HasNotService "MissingCoreService" err)
      let p1 : Pass := { p with inst := inst1, calls := p.calls ++ [Call.StatusUpdate inst1] }
      .inl (p1.done Result.zero env.statusUpdate none)
    | .ok candidateService => askAnalytics env p baselineService candidateService

/-- The statements of `syncKnative` from the comment `Set traffic percentable on all routes`
to the assignment of `LastIncrementTime`; the list holds the values of the loop variable
`target`. The service object `kservice` is what `r.Update` is given. -/
def applyPercent (env : Env) (p : Pass) (newRolloutPercent : Int) :
    Outcome ⊕ (Pass × List TrafficTarget) :=
  let baseline := p.inst.Spec.TargetService.Baseline
  let candidate := p.inst.Spec.TargetService.Candidate
  let ksvctraffic := p.kservice.Traffic.getD []
  let r := setPercents baseline candidate newRolloutPercent ksvctraffic false
  let stamped (p1 : Pass) : Pass :=
    { p1 with inst :=
        { p1.inst with Status := { p1.inst.Status with LastIncrementTime := env.now } } }
  if r.2 then
    let p1 : Pass := { p with calls := p.calls ++ [Call.UpdateService p.kservice] }
    match env.updateServiceTraffic with
    | some err => .inl (p1.done Result.zero (some err) (some r.1))
    | none => .inr (stamped p1, r.1)
  else .inr (stamped p, r.1)

/-- The block of `syncKnative` guarded by `now.After(LastIncrementTime.Add(interval))`:
either the pass returns, or it goes on to the final statements. `newRolloutPercent` is a
`float64` in the source; for the integer step size the field holds, `int(newRolloutPercent)`
is the sum `cur + traffic.StepSize`. -/
def syncKnativeIteration (env : Env) (p : Pass) : Outcome ⊕ (Pass × List TrafficTarget) :=
  let traffic := p.inst.Spec.TrafficControl
  let cur := p.candidateTraffic.Percent
  if traffic.Strategy = "increment_without_check" then applyPercent env p (cur + traffic.StepSize)
  else if traffic.Strategy = "check_and_increment" then
    match checkAndIncrement env p with
    | .inl out => .inl out
    | .inr (p1, newRolloutPercent) => applyPercent env p1 newRolloutPercent
  else applyPercent env p cur

/-- The guard `now.After(instance.Status.LastIncrementTime.Add(interval))`. -/
def due (env : Env) (inst : Experiment) : Bool :=
  decide (env.now > inst.Status.LastIncrementTime + inst.Spec.TrafficControl.Interval)

/-- The last statements of `syncKnative`: the experiment is marked as progressing and the
pass asks to be run again after the interval. -/
def keepProgressing (env : Env) (p : Pass) (targets : Option (List TrafficTarget)) : Outcome :=
  let inst1 := markInst p.inst (.ExperimentNotCompleted "Progressing" "")
  let p1 : Pass := { p with inst := inst1, calls := p.calls ++ [Call.StatusUpdate inst1] }
  p1.done { Requeue := false, RequeueAfter := p.inst.Spec.TrafficControl.Interval }
    env.statusUpdate targets

/-- The statements of `syncKnative` from the comment `check experiment is finished` on. -/
def syncKnativeRollout (env : Env) (p : Pass) : Outcome :=
  if p.inst.Spec.TrafficControl.MaxIterations ≤ p.inst.Status.CurrentIteration then
    syncKnativeTerminal env p
  else if due env p.inst then
    match syncKnativeIteration env p with
    | .inl out => out
    | .inr (p1, targets) => keepProgressing env p1 (some targets)
  else keepProgressing env p none

/-- Method `syncKnative`. -/
def syncKnative (env : Env) (inst : Experiment) : Outcome :=
  match syncKnativeSetup env inst with
  | .inl out => out
  | .inr p => syncKnativeRollout env p

/-- The percent a round of the loop of `syncKnative` leaves in the loop variable, for the new
rollout percent `w`. -/
def assignedPercent (baseline candidate : String) (w : Int) (t : TrafficTarget) : Int :=
  if t.RevisionName = baseline then wrapInt (100 - w)
  else if t.RevisionName = candidate then w else 0

/-- The percent that a list of traffic targets gives the first target of a revision name. -/
def percentOf (name : String) (ts : List TrafficTarget) : Option Int :=
  (ts.find? (fun t => t.RevisionName == name)).map (fun t => t.Percent)

/-- The two local traffic targets `b`, `c` are complementary, or they are the targets `b0`,
`c0` untouched. -/
def PairKept (b0 c0 b c : TrafficTarget) : Prop :=
  b.Percent = 100 - c.Percent ∨ (b = b0 ∧ c = c0)

/-- The local traffic targets an outcome reports satisfy `PairKept`. -/
def OutPair (b0 c0 : TrafficTarget) (out : Outcome) : Prop :=
  ∀ b c, out.baselineTraffic = some b → out.candidateTraffic = some c → PairKept b0 c0 b c

/-- Every value the loop variable held after its round is the one `assignedPercent` gives, for
one rollout percent. -/
def OutTargets (baseline candidate : String) (out : Outcome) : Prop :=
  ∀ ts, out.targets = some ts → ∃ w, ∀ t ∈ ts, t.Percent = assignedPercent baseline candidate w t

/-- An experiment `exp` on the service `reviews` with baseline `v1`, candidate `v2`, interval
1, at most 10 iterations, the given strategy and step size, last incremented at time 0. -/
def demoExperiment (strategy : String) (step : Int) : Experiment :=
  { Name := "exp"
    Namespace := "default"
    Spec :=
      { TargetService := { Name := "reviews", Namespace := "", Baseline := "v1", Candidate := "v2" }
        TrafficControl :=
          { Strategy := strategy, StepSize := step, Interval := 1, MaxIterations := 10,
            MaxTrafficPercent := 60, OnSuccess := "candidate" }
        AnalyticsEndpoint := "" }
    Status :=
      { StartTimestamp := some 0, GrafanaURLSet := true, CurrentIteration := 0
        AssessmentSummary :=
          { AllSuccessCriteriaMet := false, AbortExperiment := false, Conclusions := [] }
        TrafficSplit := { Baseline := 0, Candidate := 0 }
        AnalysisState := { Raw := some emptyObject }, LastIncrementTime := 0, Marks := [] } }

/-- The service `reviews`, already linked to the experiment `exp`, with the given percents for
`v1` and `v2`. -/
def demoService (baselinePercent candidatePercent : Int) : KService :=
  { Name := "reviews"
    Namespace := "default"
    Labels := [(experimentLabel, "exp")]
    HasTemplate := true
    Traffic := some [ { RevisionName := "v1", Percent := baselinePercent },
                      { RevisionName := "v2", Percent := candidatePercent } ] }

/-- A world at time 10 in which every call to the API server succeeds and the service is
`demoService baselinePercent candidatePercent`. -/
def demoEnv (baselinePercent candidatePercent : Int) : Env :=
  { now := 10
    getService := .ok (demoService baselinePercent candidatePercent)
    statusUpdate := none
    updateServiceLabel := none
    updateServiceTerminal := none
    updateServiceAbort := none
    updateServiceTraffic := none
    baselineCoreService := .ok { Name := "reviews-v1" }
    candidateCoreService := .ok { Name := "reviews-v2" }
    invoke := .error "unused"
    marshalLastState := .error "unused" }

/-- What `syncKnative` holds after its first part in the world
`demoEnv baselinePercent candidatePercent`, for the experiment `inst`. -/
def demoPass (baselinePercent candidatePercent : Int) (inst : Experiment) : Pass :=
  { inst := markInst inst .HasService
    kservice := demoService baselinePercent candidatePercent
    baselineTraffic := { RevisionName := "v1", Percent := baselinePercent }
    candidateTraffic := { RevisionName := "v2", Percent := candidatePercent }
    calls := [] }

/-- The experiment `demoExperiment strategy step` with its last increment at time `last`. -/
def demoExperimentAt (strategy : String) (step : Int) (last : Time) : Experiment :=
  { demoExperiment strategy step with
    Status := { (demoExperiment strategy step).Status with LastIncrementTime := last } }

/-- The experiment `demoExperiment "check_and_increment" 20` after its last iteration: the
iteration counter is at the maximum 10, the summary reports `success`, and the on-success
policy is `onSuccess`. -/
def finishedExperiment (success : Bool) (onSuccess : String) : Experiment :=
  { demoExperiment "check_and_increment" 20 with
    Spec :=
      { (demoExperiment "check_and_increment" 20).Spec with
        TrafficControl :=
          { (demoExperiment "check_and_increment" 20).Spec.TrafficControl with
            OnSuccess := onSuccess } }
    Status :=
      { (demoExperiment "check_and_increment" 20).Status with
        CurrentIteration := 10
        AssessmentSummary :=
          { AllSuccessCriteriaMet := success, AbortExperiment := false, Conclusions := [] } } }

/-- The world `demoEnv baselinePercent candidatePercent` in which the analytics service
answers with the given candidate percentage and abort flag, and no last state. -/
def answeringEnv (baselinePercent candidatePercent answer : Int) (abort : Bool) : Env :=
  { demoEnv baselinePercent candidatePercent with
    invoke := .ok
      { BaselineTrafficPercentage := 100 - answer
        CanaryTrafficPercentage := answer
        Summary := { AllSuccessCriteriaMet := false, AbortExperiment := abort, Conclusions := [] }
        LastState := none } }

/-- The service-update calls among the calls of a pass. -/
def serviceUpdates : List Call → List KService
  | [] => []
  | Call.UpdateService ks :: rest => ks :: serviceUpdates rest
  | _ :: rest => serviceUpdates rest

/-- A call is a call of the analytics service. -/
def Call.isInvoke : Call → Bool
  | .Invoke _ _ => true
  | _ => false

end Knative

/-! ## pkg/controller/experiment/routing/routing.go -/

namespace Routing

/-- The constants `ExperimentRole`, `ExperimentInit`, `Stable`, `Baseline`, `Candidate` of
package routing and `CleanUpDelete` of v1alpha1 are declared outside routing.go; the embedding
fixes a value for each, the two label keys being different. -/
def ExperimentRole : String := "iter8-tools/role"
/-- See `ExperimentRole`. -/
def ExperimentInit : String := "iter8-tools/init"
/-- See `ExperimentRole`. -/
def Stable : String := "stable"
/-- See `ExperimentRole`. -/
def Baseline : String := "baseline"
/-- See `ExperimentRole`. -/
def Candidate : String := "candidate"
/-- See `ExperimentRole`. -/
def CleanUpDelete : String := "delete"

/-- The struct `v1alpha3.DestinationRule` of the istio client: object meta and, as `Spec`,
its subsets by name. -/
structure DestinationRule where
  Name : String
  Namespace : String
  Labels : Labels
  Spec : List String
  deriving DecidableEq, Repr

/-- The struct `v1alpha3.VirtualService` of the istio client: object meta and the HTTP
routes of its spec. -/
structure VirtualService where
  Name : String
  Namespace : String
  Labels : Labels
  Http : List Istio.HTTPRoute
  deriving DecidableEq, Repr

/-- The struct `IstioRoutingRules`. -/
structure IstioRoutingRules where
  DestinationRule : DestinationRule
  VirtualService : VirtualService
  deriving DecidableEq, Repr

/-- The struct `targets.Targets` as far as routing.go reads it. -/
structure Targets where
  ServiceName : String
  Baseline : Istio.Deployment
  deriving DecidableEq, Repr

/-- The builders `NewDestinationRuleBuilder(...)`, `NewVirtualServiceBuilder(...)` with their
`With...` and `RemoveExperimentLabel` steps, and the function `removeExperimentLabel`, are
outside routing.go: each step is an argument, a function from the object it is applied to
(and the arguments of the step) to the object that `Build()` returns. -/
structure Builders where
  drStableToProgressing : DestinationRule → Istio.Deployment → DestinationRule
  drExperimentRegisterd : DestinationRule → String → DestinationRule
  drProgressingToStable : DestinationRule → String → DestinationRule
  drRemoveExperimentLabel : DestinationRule → DestinationRule
  vsStableToProgressing : VirtualService → String → String → VirtualService
  vsExperimentRegisterd : VirtualService → String → VirtualService
  vsProgressingToStable : VirtualService → String → String → String → VirtualService
  vsRemoveExperimentLabel : VirtualService → VirtualService
  vsRolloutPercent : VirtualService → String → String → Int → VirtualService
  removeExperimentLabel : DestinationRule → VirtualService → DestinationRule × VirtualService

/-- A call to the backing store through the istio client. -/
inductive StoreCall where
  | UpdateDestinationRule (dr : DestinationRule)
  | UpdateVirtualService (vs : VirtualService)
  | DeleteDestinationRule (namespace_ name : String)
  | DeleteVirtualService (namespace_ name : String)
  deriving DecidableEq, Repr

/-- What the backing store answers to each call: an update returns the stored object or an
error, a delete returns nil (`none`) or an error. -/
structure Store where
  updateDestinationRule : DestinationRule → Except Err DestinationRule
  updateVirtualService : VirtualService → Except Err VirtualService
  deleteDestinationRule : String → String → Option Err
  deleteVirtualService : String → String → Option Err

/-- What an operation on the routing rules leaves: the rules held afterwards, the calls
issued to the store (oldest first) and the error returned (`none` is nil). -/
structure Effect where
  rules : IstioRoutingRules
  calls : List StoreCall
  err : Option Err
  deriving DecidableEq, Repr

/-- Method `SetStableLabels`. -/
def SetStableLabels (h : Builders) (r : IstioRoutingRules) : IstioRoutingRules :=
  let dr : DestinationRule := { r.DestinationRule with Labels := [(ExperimentRole, Stable)] }
  let vs : VirtualService := { r.VirtualService with Labels := [(ExperimentRole, Stable)] }
  let cleaned := h.removeExperimentLabel dr vs
  { DestinationRule := cleaned.1, VirtualService := cleaned.2 }

/-- Method `IsStable`. -/
def IsStable (r : IstioRoutingRules) : Bool :=
  match r.DestinationRule.Labels.get ExperimentRole, r.VirtualService.Labels.get ExperimentRole with
  | some drRole, some vsRole => drRole == Stable && vsRole == Stable
  | _, _ => false

/-- Method `IsInit`. -/
def IsInit (rules : IstioRoutingRules) : Bool :=
  (rules.DestinationRule.Labels.get ExperimentInit).isSome &&
  (rules.VirtualService.Labels.get ExperimentInit).isSome

/-- Method `StableToProgressing`. -/
def StableToProgressing (h : Builders) (store : Store) (r : IstioRoutingRules)
    (targets : Targets) (expName serviceNamespace : String) : Effect :=
  let dr0 := h.drExperimentRegisterd (h.drStableToProgressing r.DestinationRule targets.Baseline)
    expName
  let r1 : IstioRoutingRules := { r with DestinationRule := dr0 }
  match store.updateDestinationRule dr0 with
  | .error err => { rules := r1, calls := [.UpdateDestinationRule dr0], err := some err }
  | .ok dr =>
    let r2 : IstioRoutingRules := { r1 with DestinationRule := dr }
    let vs0 := h.vsExperimentRegisterd
      (h.vsStableToProgressing r2.VirtualService targets.ServiceName serviceNamespace) expName
    let r3 : IstioRoutingRules := { r2 with VirtualService := vs0 }
    match store.updateVirtualService vs0 with
    | .error err =>
      { rules := r3, calls := [.UpdateDestinationRule dr0, .UpdateVirtualService vs0],
        err := some err }
    | .ok vs =>
      { rules := { r3 with VirtualService := vs },
        calls := [.UpdateDestinationRule dr0, .UpdateVirtualService vs0], err := none }

/-- Method `DeleteAll`. -/
def DeleteAll (store : Store) (r : IstioRoutingRules) : Effect :=
  let c1 := StoreCall.DeleteDestinationRule r.DestinationRule.Namespace r.DestinationRule.Name
  match store.deleteDestinationRule r.DestinationRule.Namespace r.DestinationRule.Name with
  | some err => { rules := r, calls := [c1], err := some err }
  | none =>
    let c2 := StoreCall.DeleteVirtualService r.VirtualService.Namespace r.VirtualService.Name
    match store.deleteVirtualService r.VirtualService.Namespace r.VirtualService.Name with
    | some err => { rules := r, calls := [c1, c2], err := some err }
    | none => { rules := r, calls := [c1, c2], err := none }

/-- Method `ToStable`. -/
def ToStable (h : Builders) (r : IstioRoutingRules)
    (stableName serviceName serviceNamespace : String) : IstioRoutingRules :=
  { DestinationRule :=
      h.drRemoveExperimentLabel (h.drProgressingToStable r.DestinationRule stableName)
    VirtualService :=
      h.vsRemoveExperimentLabel
        (h.vsProgressingToStable r.VirtualService serviceName serviceNamespace stableName) }

/-- Method `UpdateRemoveRules`. -/
def UpdateRemoveRules (store : Store) (r : IstioRoutingRules) : Effect :=
  let c1 := StoreCall.UpdateDestinationRule r.DestinationRule
  match store.updateDestinationRule r.DestinationRule with
  | .error err => { rules := r, calls := [c1], err := some err }
  | .ok dr =>
    let r1 : IstioRoutingRules := { r with DestinationRule := dr }
    let c2 := StoreCall.UpdateVirtualService r1.VirtualService
    match store.updateVirtualService r1.VirtualService with
    | .error err => { rules := r1, calls := [c1, c2], err := some err }
    | .ok vs => { rules := { r1 with VirtualService := vs }, calls := [c1, c2], err := none }

/-- The rules as `Cleanup` leaves them before it calls `UpdateRemoveRules`; `succeeded` is
the value of `instance.Succeeded()`, a method outside routing.go. -/
def stabilise (h : Builders) (r : IstioRoutingRules) (inst : V1alpha1.Experiment)
    (succeeded : Bool) : IstioRoutingRules :=
  let serviceName := inst.Spec.TargetService.Name
  if succeeded then
    if inst.Spec.TrafficControl.OnSuccess = "baseline" then
      ToStable h r Baseline serviceName serviceName
    else if inst.Spec.TrafficControl.OnSuccess = "candidate" then
      ToStable h r Candidate serviceName serviceName
    else if inst.Spec.TrafficControl.OnSuccess = "both" then SetStableLabels h r
    else r
  else ToStable h r Baseline serviceName serviceName

/-- Method `Cleanup`; `succeeded` is the value of `instance.Succeeded()`. -/
def Cleanup (h : Builders) (store : Store) (r : IstioRoutingRules) (inst : V1alpha1.Experiment)
    (succeeded : Bool) : Effect :=
  if inst.Spec.CleanUp = CleanUpDelete ∧ IsInit r = true then DeleteAll store r
  else UpdateRemoveRules store (stabilise h r inst succeeded)

/-- Method `GetWeight`; `r.VirtualService.Spec.Http[0]` panics (`none`) on an empty list. -/
def GetWeight (r : IstioRoutingRules) (subset : String) : Option Int :=
  match r.VirtualService.Http with
  | [] => none
  | route :: _ => some (Istio.weightOf subset route.Route)

/-- Method `UpdateRolloutPercent`. -/
def UpdateRolloutPercent (h : Builders) (store : Store) (r : IstioRoutingRules)
    (serviceName serviceNamespace : String) (w : Int) : Effect :=
  let vs0 := h.vsRolloutPercent r.VirtualService serviceName serviceNamespace w
  match store.updateVirtualService vs0 with
  | .error err => { rules := r, calls := [.UpdateVirtualService vs0], err := some err }
  | .ok vs =>
    { rules := { r with VirtualService := vs }, calls := [.UpdateVirtualService vs0], err := none }

/-- A call is a delete. -/
def StoreCall.isDelete : StoreCall → Bool
  | .DeleteDestinationRule _ _ => true
  | .DeleteVirtualService _ _ => true
  | _ => false

/-- Builders for concrete evaluations: the steps to stable put the stable name into a label
`stable`, and a rollout percent becomes the route pair of the two subsets. -/
def demoBuilders : Builders where
  drStableToProgressing := fun dr _ => dr
  drExperimentRegisterd := fun dr expName => { dr with Labels := dr.Labels.set "experiment" expName }
  drProgressingToStable := fun dr stableName => { dr with Labels := dr.Labels.set "stable" stableName }
  drRemoveExperimentLabel := fun dr => { dr with Labels := dr.Labels.delete "experiment" }
  vsStableToProgressing := fun vs _ _ => vs
  vsExperimentRegisterd := fun vs expName => { vs with Labels := vs.Labels.set "experiment" expName }
  vsProgressingToStable := fun vs _ _ stableName =>
    { vs with Labels := vs.Labels.set "stable" stableName }
  vsRemoveExperimentLabel := fun vs => { vs with Labels := vs.Labels.delete "experiment" }
  vsRolloutPercent := fun vs serviceName _ w =>
    { vs with Http :=
        [ { Route :=
              [ { Destination := { Host := serviceName, Subset := Baseline }, Weight := 100 - w },
                { Destination := { Host := serviceName, Subset := Candidate }, Weight := w } ] } ] }
  removeExperimentLabel := fun dr vs =>
    ({ dr with Labels := dr.Labels.delete "experiment" },
     { vs with Labels := vs.Labels.delete "experiment" })

/-- Routing rules of the service `reviews` in progress for the experiment `exp`, with the
given labels on both objects besides the experiment label. -/
def demoRules (labels : Labels) : IstioRoutingRules :=
  { DestinationRule :=
      { Name := "reviews.iter8", Namespace := "default",
        Labels := labels ++ [("experiment", "exp")], Spec := ["baseline", "candidate"] }
    VirtualService :=
      { Name := "reviews.iter8", Namespace := "default",
        Labels := labels ++ [("experiment", "exp")], Http := [] } }

/-- A store in which every call succeeds and an update returns the object it was given. -/
def okStore : Store :=
  { updateDestinationRule := fun dr => .ok dr
    updateVirtualService := fun vs => .ok vs
    deleteDestinationRule := fun _ _ => none
    deleteVirtualService := fun _ _ => none }

/-- A store that refuses every update of a destination rule and every delete of one with the
error `conflict`, and accepts the calls on virtual services. -/
def drFailingStore : Store :=
  { okStore with
    updateDestinationRule := fun _ => .error "conflict"
    deleteDestinationRule := fun _ _ => some "conflict" }

/-- A store that accepts the calls on destination rules and refuses every call on a virtual
service with the error `conflict`. -/
def vsFailingStore : Store :=
  { okStore with
    updateVirtualService := fun _ => .error "conflict"
    deleteVirtualService := fun _ _ => some "conflict" }

/-- The experiment `exp` on the service `reviews` with the given cleanup policy and on-success
policy. -/
def cleanupExperiment (cleanUp onSuccess : String) : V1alpha1.Experiment :=
  { Knative.finishedExperiment true onSuccess with
    Spec := { (Knative.finishedExperiment true onSuccess).Spec with CleanUp := cleanUp } }

end Routing

namespace Knative

open V1alpha1

/-- The service `reviews` carrying the experiment label of another experiment, `other`, with
or without a template, splitting 60/40. -/
def foreignService (hasTemplate : Bool) : KService :=
  { demoService 60 40 with Labels := [(experimentLabel, "other")], HasTemplate := hasTemplate }

/-- The world `demoEnv 60 40` in which the service is `foreignService hasTemplate`. -/
def foreignEnv (hasTemplate : Bool) : Env :=
  { demoEnv 60 40 with getService := .ok (foreignService hasTemplate) }

end Knative

namespace Istio

/-- The test of the loop body of `getCanaryDeployment` on the deployment `d`: it is not
labelled baseline and `ct.After(baselineTs)` holds. -/
def afterBaseline (baseline d : Deployment) : Bool :=
  notBaseline d && decide (d.CreationTimestamp > baseline.CreationTimestamp)

/-- The deployment `reviews-v3`, without canary label, created at time 5. -/
def demoNewest : Deployment :=
  { Name := "reviews-v3", Labels := [("app", "reviews")], CreationTimestamp := 5 }

/-- The deployment `reviews-v2` before it is labelled, created at time 3. -/
def demoOlder : Deployment :=
  { Name := "reviews-v2", Labels := [("app", "reviews")], CreationTimestamp := 3 }

end Istio

namespace Istio

/-- The canary `demoCanary step maxPercent` with the strategy `check_and_increment`. -/
def checkCanary (step maxPercent : Int) : Canary :=
  { demoCanary step maxPercent with
    Spec :=
      { (demoCanary step maxPercent).Spec with
        TrafficControl :=
          { (demoCanary step maxPercent).Spec.TrafficControl with
            Strategy := "check_and_increment" } } }

/-- The world `demoEnv cur canary` in which the analytics service answers with the candidate
percentage `answer`, no abort and no last state, whose encoding is `null`. -/
def answeringEnv (cur answer : Int) (canary : Canary) : Env :=
  { demoEnv cur canary with
    invoke := .ok
      { BaselineTrafficPercentage := 100 - answer
        CanaryTrafficPercentage := answer
        Summary := { AllSuccessCriteriaMet := false, AbortExperiment := false, Conclusions := [] }
        LastState := none }
    marshalLastState := .ok "null" }

end Istio

namespace V1alpha2

/-- A call of one of the `Mark*` methods or of one of the condition queries of status.go,
with the formatted message and the clock readings the call takes. -/
inductive StatusOp where
  | MarkMetricsSynced (msg : String) (tAdd tMark : Time)
  | MarkMetricsSyncedError (msg : String) (tAdd tMark : Time)
  | MarkTargetsFound (msg : String) (tAdd tMark : Time)
  | MarkTargetsError (msg : String) (tAdd tMark : Time)
  | MarkRoutingRulesReady (msg : String) (tAdd tMark : Time)
  | MarkRoutingRulesError (msg : String) (tAdd tMark : Time)
  | MarkAnalyticsServiceRunning (msg : String) (tAdd tMark : Time)
  | MarkAnalyticsServiceError (msg : String) (tAdd tMark : Time)
  | MarkExperimentCompleted (msg : String) (tAdd tMark : Time)
  | MarkIterationUpdate (msg : String) (tAdd tMark : Time)
  | MarkTrafficUpdate (msg : String) (tAdd tMark : Time)
  | MarkExperimentPause (msg : String) (tAdd tMark : Time)
  | MarkExperimentResume (msg : String) (tAdd tMark : Time)
  | MetricsSynced (now : Time)
  | TargetsFound (now : Time)
  | ExperimentCompleted (now : Time)
  deriving DecidableEq, Repr

/-- The status a call leaves; `none` when the call panics. -/
def applyOp (op : StatusOp) (s : ExperimentStatus) : Option ExperimentStatus :=
  match op with
  | .MarkMetricsSynced msg a m => (V1alpha2.MarkMetricsSynced s msg a m).map (fun x => x.1)
  | .MarkMetricsSyncedError msg a m =>
    (V1alpha2.MarkMetricsSyncedError s msg a m).map (fun x => x.1)
  | .MarkTargetsFound msg a m => (V1alpha2.MarkTargetsFound s msg a m).map (fun x => x.1)
  | .MarkTargetsError msg a m => (V1alpha2.MarkTargetsError s msg a m).map (fun x => x.1)
  | .MarkRoutingRulesReady msg a m =>
    (V1alpha2.MarkRoutingRulesReady s msg a m).map (fun x => x.1)
  | .MarkRoutingRulesError msg a m =>
    (V1alpha2.MarkRoutingRulesError s msg a m).map (fun x => x.1)
  | .MarkAnalyticsServiceRunning msg a m =>
    (V1alpha2.MarkAnalyticsServiceRunning s msg a m).map (fun x => x.1)
  | .MarkAnalyticsServiceError msg a m =>
    (V1alpha2.MarkAnalyticsServiceError s msg a m).map (fun x => x.1)
  | .MarkExperimentCompleted msg a m =>
    (V1alpha2.MarkExperimentCompleted s msg a m).map (fun x => x.1)
  | .MarkIterationUpdate msg a m => (V1alpha2.MarkIterationUpdate s msg a m).map (fun x => x.1)
  | .MarkTrafficUpdate msg a m => (V1alpha2.MarkTrafficUpdate s msg a m).map (fun x => x.1)
  | .MarkExperimentPause msg a m => (V1alpha2.MarkExperimentPause s msg a m).map (fun x => x.1)
  | .MarkExperimentResume msg a m =>
    (V1alpha2.MarkExperimentResume s msg a m).map (fun x => x.1)
  | .MetricsSynced now => some (V1alpha2.MetricsSynced s now).1
  | .TargetsFound now => some (V1alpha2.TargetsFound s now).1
  | .ExperimentCompleted now => some (V1alpha2.ExperimentCompleted s now).1

/-- The status a sequence of calls leaves, the first call first; `none` when one panics. -/
def runOps : List StatusOp → ExperimentStatus → Option ExperimentStatus
  | [], s => some s
  | op :: rest, s =>
    match applyOp op s with
    | none => none
    | some s1 => runOps rest s1

/-- Every condition of the status whose status is True or False has its reason and its
message set. -/
def ConditionsSet (s : ExperimentStatus) : Prop :=
  ∀ c ∈ s.Conditions, (c.Status = ConditionTrue ∨ c.Status = ConditionFalse) →
    c.Reason.isSome = true ∧ c.Message.isSome = true

end V1alpha2

namespace Cache
open V1alpha1

/-- One call on the cache by a client: `RegisterExperiment`, `RemoveExperiment` or one of the
four `Mark*` methods, with its arguments. -/
inductive CacheOp where
  | Register (inst : Experiment)
  | Remove (inst : Experiment)
  | MarkDeploymentFound (targetName targetNamespace : String)
  | MarkDeploymentMissing (targetName targetNamespace : String)
  | MarkServiceFound (targetName targetNamespace : String)
  | MarkServiceMissing (targetName targetNamespace : String)

/-- The cache one call leaves; `none` when the call panics. -/
def applyCacheOp (k : KeyFuncs) : CacheOp → Impl → Option Impl
  | .Register inst, c => some (RegisterExperiment k c inst).1
  | .Remove inst, c => some (RemoveExperiment k c inst)
  | .MarkDeploymentFound n ns, c => (MarkTargetDeploymentFound k c n ns).map Prod.fst
  | .MarkDeploymentMissing n ns, c => (MarkTargetDeploymentMissing k c n ns).map Prod.fst
  | .MarkServiceFound n ns, c => (MarkTargetServiceFound k c n ns).map Prod.fst
  | .MarkServiceMissing n ns, c => (MarkTargetServiceMissing k c n ns).map Prod.fst

/-- The cache a sequence of calls leaves, the first call first; `none` when one panics. -/
def runCache (k : KeyFuncs) : List CacheOp → Impl → Option Impl
  | [], c => some c
  | op :: rest, c =>
    match applyCacheOp k op c with
    | none => none
    | some c1 => runCache k rest c1

/-- Every value stored in the deployment index and in the service index is a key present in
the abstract store. -/
def IndexClosed (c : Impl) : Prop :=
  ∀ tKey eaKey : String,
    (c.deployment2Experiment tKey = some eaKey ∨ c.service2Experiment tKey = some eaKey) →
    (c.experimentAbstractStore eaKey).isSome = true

/-- Every entry of the service index points to a stored abstract whose service has the
entry's key, and every entry of the deployment index points to a stored abstract one of whose
`Status` names has the entry's key: the keys that `RemoveExperiment` deletes for the
abstract. -/
def Owned (k : KeyFuncs) (c : Impl) : Prop :=
  (∀ tKey eaKey : String, c.service2Experiment tKey = some eaKey →
    ∃ ea, c.experimentAbstractStore eaKey = some ea ∧
      tKey = k.targetKey ea.TargetsAbstract.ServiceName ea.TargetsAbstract.Namespace) ∧
  (∀ tKey eaKey : String, c.deployment2Experiment tKey = some eaKey →
    ∃ ea, c.experimentAbstractStore eaKey = some ea ∧
      ∃ name ∈ ea.TargetsAbstract.Status.map Prod.fst,
        tKey = k.targetKey name ea.TargetsAbstract.Namespace)

/-- Two experiments that share the service `reviews` and the baseline `reviews-v1`. -/
def overlapA : Experiment := mkExperiment "a" "ns" "reviews" "reviews-v1" "reviews-v2"

/-- The second experiment on service `reviews` with baseline `reviews-v1`. -/
def overlapB : Experiment := mkExperiment "b" "ns" "reviews" "reviews-v1" "reviews-v3"

end Cache

namespace Istio

/-- Go's conversion `int(x)` of a `float64`, as in `int(rolloutPercent)` and
`int(traffic.GetMaxTrafficPercent())`: the fraction is discarded. A `float64` is taken as the
rational number it denotes. -/
def intOfFloat (x : ℚ) : Int := Int.tdiv x.num x.den

/-- The guard of the rollout block of `syncIstio` in `float64` arithmetic:
`rolloutPercent < traffic.GetMaxTrafficPercent() && now.After(...)` with
`rolloutPercent := float64(getWeight(Candidate, vs))`. `maxTrafficPercent` is the `float64`
the getter returns, which need not be an integer; `due` is the case in which it is one. -/
def dueFloat (maxTrafficPercent : ℚ) (env : Env) (canary : Canary) (cur : Int) : Bool :=
  decide ((cur : ℚ) < maxTrafficPercent) &&
  decide (env.now > canary.Status.LastIncrementTime + canary.Spec.TrafficControl.Interval)

/-- The rollout block of `syncIstio` in `float64` arithmetic: the case `manual` adds the
`float64` that `traffic.GetStepSize()` returns, and the virtual service is made for
`int(rolloutPercent)`. `syncIstioStep` is the case of an integer step size. -/
def syncIstioStepFloat (stepSize : ℚ) (env : Env) (rd : Ready) (cur : Int) :
    Outcome ⊕ (Pass × VirtualService) :=
  let traffic := rd.pass.canary.Spec.TrafficControl
  if traffic.Strategy = "manual" then
    writeVirtualService env rd rd.pass (intOfFloat ((cur : ℚ) + stepSize))
  else if traffic.Strategy = "check_and_increment" then checkAndIncrement env rd
  else writeVirtualService env rd rd.pass (intOfFloat (cur : ℚ))

/-- The end of `syncIstio` with the test
`getWeight(Candidate, vs) == int(traffic.GetMaxTrafficPercent())` on the `float64` the getter
returns; `syncIstioFinish` is the case of an integer maximum. -/
def syncIstioFinishFloat (maxTrafficPercent : ℚ) (env : Env) (p : Pass)
    (baseline candidate : Deployment) (w : Int) : Outcome :=
  let traffic := p.canary.Spec.TrafficControl
  if w = intOfFloat maxTrafficPercent then
    let c1 : Canary := p.canary.mark .RolloutCompleted
    let c2 : Canary := { c1 with Status := { c1.Status with Progressing := false } }
    let p1 : Pass := { p with canary := c2 }
    let p2 := (removeCanaryLabel p1 baseline).1
    let r3 := removeCanaryLabel p2 candidate
    let p4 := deleteRules env r3.1
    let stable := newStableRules r3.2 p4.canary
    let p5 := (p4.call (.CreateDestinationRule stable.1)).call (.CreateVirtualService stable.2)
    let p6 := p5.call (.StatusUpdate p5.canary)
    p6.done Result.zero env.statusUpdate
  else
    let c1 : Canary := p.canary.mark (.RolloutNotCompleted "Progressing" "")
    let c2 : Canary := { c1 with Status := { c1.Status with Progressing := true } }
    let p1 : Pass := { p with canary := c2 }
    let p2 := p1.call (.StatusUpdate p1.canary)
    p2.done { Requeue := false, RequeueAfter := traffic.Interval } env.statusUpdate

/-- The statements of `syncIstio` after the rollout block, in `float64` arithmetic. -/
def finishWithFloat (maxTrafficPercent : ℚ) (env : Env) (rd : Ready) (p : Pass)
    (vs : VirtualService) : Outcome :=
  match getWeight Candidate vs with
  | none => p.crash
  | some w => syncIstioFinishFloat maxTrafficPercent env p rd.baseline rd.candidate w

/-- The statements of `syncIstio` from the comment `Check canary rollout status` on, in
`float64` arithmetic. -/
def syncIstioRolloutFloat (stepSize maxTrafficPercent : ℚ) (env : Env) (rd : Ready) : Outcome :=
  match getWeight Candidate rd.vs with
  | none => rd.pass.crash
  | some cur =>
    if dueFloat maxTrafficPercent env rd.pass.canary cur then
      match syncIstioStepFloat stepSize env rd cur with
      | .inl out => out
      | .inr (p, vs) => finishWithFloat maxTrafficPercent env rd p vs
    else finishWithFloat maxTrafficPercent env rd rd.pass rd.vs

/-- Method `syncIstio` for a step size and a maximal traffic percent that are any `float64`:
`stepSize` and `maxTrafficPercent` are what `traffic.GetStepSize()` and
`traffic.GetMaxTrafficPercent()` return, and the integer fields of the same name of the canary
are not read. For integer values it is `syncIstio` (`syncIstio_float`). -/
def syncIstioFloat (stepSize maxTrafficPercent : ℚ) (env : Env) (canary : Canary) : Outcome :=
  match syncIstioSetup env canary with
  | .inl out => out
  | .inr rd => syncIstioRolloutFloat stepSize maxTrafficPercent env rd

/-- The canary object and the virtual service after `k` successive due passes of
`syncIstioFloat`, each pass reading what the pass before it left. -/
def passesFloat (stepSize maxTrafficPercent : ℚ) (env : Env) :
    Nat → Canary → VirtualService → Canary × VirtualService
  | 0, canary, vs => (canary, vs)
  | k + 1, canary, vs =>
    let st := passesFloat stepSize maxTrafficPercent env k canary vs
    let out := syncIstioFloat stepSize maxTrafficPercent (nextEnv env st.1 st.2) st.1
    (out.canary, storedAfter st.2 out)

/-- The outcome of the `k`-th of the successive due passes of `syncIstioFloat`, `k` counted
from 1. -/
def kthPassFloat (stepSize maxTrafficPercent : ℚ) (env : Env) (k : Nat) (canary : Canary)
    (vs : VirtualService) : Outcome :=
  let st := passesFloat stepSize maxTrafficPercent env (k - 1) canary vs
  syncIstioFloat stepSize maxTrafficPercent (nextEnv env st.1 st.2) st.1

end Istio

/-! ## Theorems -/

/-! ## Arithmetic of Go `int` -/

theorem wrapInt_of_inInt64 (x : Int) (h : inInt64 x) : wrapInt x = x := by
  unfold wrapInt; unfold inInt64 at h; omega

theorem wrapInt_complement (p : Int) : wrapInt (wrapInt (100 - p) + p) = 100 := by
  unfold wrapInt; omega

namespace Knative
open V1alpha1

theorem earlyExit_locals (env : Env) (inst : Experiment) (calls : List Call) (r m : String)
    (q : Bool) :
    (earlyExit env inst calls r m q).baselineTraffic = none ∧
    (earlyExit env inst calls r m q).candidateTraffic = none ∧
    (earlyExit env inst calls r m q).targets = none := by
  simp [earlyExit]

theorem setPercents_percent (b c : String) (w : Int) :
    ∀ (ts : List TrafficTarget) (nu : Bool),
      ∀ t ∈ (setPercents b c w ts nu).1, t.Percent = assignedPercent b c w t := by
  intro ts
  induction ts with
  | nil => intro nu t ht; simp [setPercents] at ht
  | cons x rest ih =>
    intro nu t ht
    simp only [setPercents, List.mem_cons] at ht
    rcases ht with h | h
    · subst h
      unfold assignedPercent
      split_ifs <;> simp_all
    · exact ih _ t h

theorem toBaseline_percent (p : Pass) (u : Bool) :
    (toBaseline p u).1.baselineTraffic.Percent = 100 ∧
    (toBaseline p u).1.candidateTraffic.Percent = 0 := by
  unfold toBaseline
  by_cases h1 : p.candidateTraffic.Percent = 0 <;> by_cases h2 : p.baselineTraffic.Percent = 100 <;>
    simp [h1, h2]

theorem toCandidate_percent (p : Pass) (u : Bool) :
    (toCandidate p u).1.baselineTraffic.Percent = 0 ∧
    (toCandidate p u).1.candidateTraffic.Percent = 100 := by
  unfold toCandidate
  by_cases h1 : p.candidateTraffic.Percent = 100 <;> by_cases h2 : p.baselineTraffic.Percent = 0 <;>
    simp [h1, h2]

theorem toBaseline_frame (p : Pass) (u : Bool) :
    (toBaseline p u).1.inst = p.inst ∧ (toBaseline p u).1.kservice = p.kservice ∧
    (toBaseline p u).1.calls = p.calls := by
  unfold toBaseline
  by_cases h1 : p.candidateTraffic.Percent = 0 <;> by_cases h2 : p.baselineTraffic.Percent = 100 <;>
    simp [h1, h2]

theorem toCandidate_frame (p : Pass) (u : Bool) :
    (toCandidate p u).1.inst = p.inst ∧ (toCandidate p u).1.kservice = p.kservice ∧
    (toCandidate p u).1.calls = p.calls := by
  unfold toCandidate
  by_cases h1 : p.candidateTraffic.Percent = 100 <;> by_cases h2 : p.baselineTraffic.Percent = 0 <;>
    simp [h1, h2]

theorem terminalCollapse_pair (p : Pass) :
    PairKept p.baselineTraffic p.candidateTraffic
      (terminalCollapse p).1.baselineTraffic (terminalCollapse p).1.candidateTraffic := by
  unfold terminalCollapse PairKept
  have hb := toBaseline_percent p false
  have hc := toCandidate_percent p false
  by_cases hs : p.inst.Status.AssessmentSummary.AllSuccessCriteriaMet = true
  · by_cases h1 : p.inst.Spec.TrafficControl.OnSuccess = "baseline"
    · simp [hs, h1, hb.1, hb.2]
    · by_cases h2 : p.inst.Spec.TrafficControl.OnSuccess = "candidate"
      · simp [hs, h1, h2, hc.1, hc.2]
      · by_cases h3 : p.inst.Spec.TrafficControl.OnSuccess = "both" <;> simp [hs, h1, h2, h3]
  · simp [hs, hb.1, hb.2]

theorem endExperiment_pair (env : Env) (p : Pass) (b0 c0 : TrafficTarget)
    (h : PairKept b0 c0 p.baselineTraffic p.candidateTraffic) :
    OutPair b0 c0 (endExperiment env p) ∧ (endExperiment env p).targets = none := by
  refine ⟨?_, rfl⟩
  intro b c hb hc
  simp only [endExperiment, Pass.done, Option.some.injEq] at hb hc
  subst hb; subst hc; exact h

theorem syncKnativeTerminal_pair (env : Env) (p : Pass) :
    OutPair p.baselineTraffic p.candidateTraffic (syncKnativeTerminal env p) ∧
    (syncKnativeTerminal env p).targets = none := by
  have h := terminalCollapse_pair p
  unfold syncKnativeTerminal
  simp only
  split_ifs with h1 h2
  · cases hu : env.updateServiceTerminal with
    | none => simpa using endExperiment_pair env _ _ _ (by simpa using h)
    | some err =>
      refine ⟨?_, rfl⟩
      intro b c hb hc
      simp only [Pass.done, Option.some.injEq] at hb hc
      subst hb; subst hc; simpa using h
  · cases hu : env.updateServiceTerminal with
    | none => simpa using endExperiment_pair env _ _ _ (by simpa using h)
    | some err =>
      refine ⟨?_, rfl⟩
      intro b c hb hc
      simp only [Pass.done, Option.some.injEq] at hb hc
      subst hb; subst hc; simpa using h
  · exact endExperiment_pair env _ _ _ (by simpa using h)
  · exact endExperiment_pair env _ _ _ (by simpa using h)

theorem pairKept_refl (b c : TrafficTarget) : PairKept b c b c := Or.inr ⟨rfl, rfl⟩

theorem done_pair (p : Pass) (b0 c0 : TrafficTarget) (r : Result) (e : Option Err)
    (ts : Option (List TrafficTarget))
    (h : PairKept b0 c0 p.baselineTraffic p.candidateTraffic) :
    OutPair b0 c0 (p.done r e ts) := by
  intro b c hb hc
  simp only [Pass.done, Option.some.injEq] at hb hc
  subst hb; subst hc; exact h

theorem storeResponse_inv (env : Env) (p : Pass) (response : Response) :
    match storeResponse env p response with
    | .inl out => OutPair p.baselineTraffic p.candidateTraffic out ∧ out.targets = none
    | .inr (p1, _) => p1.baselineTraffic = p.baselineTraffic ∧
        p1.candidateTraffic = p.candidateTraffic ∧ p1.inst.Spec = p.inst.Spec ∧
        p1.kservice = p.kservice := by
  unfold storeResponse
  cases response.LastState with
  | none => simp
  | some st =>
    cases env.marshalLastState with
    | error err => exact ⟨done_pair _ _ _ _ _ _ (pairKept_refl _ _), rfl⟩
    | ok v => simp

theorem askAnalytics_inv (env : Env) (p : Pass) (bs cs : CoreService) :
    match askAnalytics env p bs cs with
    | .inl out => OutPair p.baselineTraffic p.candidateTraffic out ∧ out.targets = none
    | .inr (p1, _) =>
        PairKept p.baselineTraffic p.candidateTraffic p1.baselineTraffic p1.candidateTraffic ∧
        p1.inst.Spec = p.inst.Spec ∧ p1.kservice = p.kservice := by
  unfold askAnalytics
  cases env.invoke with
  | error err => exact ⟨done_pair _ _ _ _ _ _ (pairKept_refl _ _), rfl⟩
  | ok response =>
    simp only
    by_cases ha : response.Summary.AbortExperiment = true
    · by_cases hne : p.candidateTraffic.Percent ≠ 0 ∨ p.baselineTraffic.Percent ≠ 100
      · rw [if_pos ha, if_pos hne]
        cases env.updateServiceAbort with
        | some err => exact ⟨done_pair _ _ _ _ _ _ (Or.inl (by simp)), rfl⟩
        | none =>
          have h := storeResponse_inv env
            { p with baselineTraffic := { p.baselineTraffic with Percent := 100 },
                     candidateTraffic := { p.candidateTraffic with Percent := 0 },
                     calls := (p.calls ++ [Call.Invoke p.inst.Spec.AnalyticsEndpoint
                        { inst := p.inst, baselineService := bs, candidateService := cs }]) ++
                        [Call.UpdateService p.kservice] } response
          simp only at h ⊢
          split at h
          · refine ⟨?_, h.2⟩
            intro b c hb hc
            have := h.1 b c hb hc
            rcases this with h1 | ⟨h1, h2⟩
            · exact Or.inl h1
            · exact Or.inl (by rw [h1, h2]; simp)
          · refine ⟨Or.inl ?_, h.2.2.1, h.2.2.2⟩
            rw [h.1, h.2.1]; simp
      · rw [if_pos ha, if_neg hne]
        have h := storeResponse_inv env
          { p with calls := p.calls ++ [Call.Invoke p.inst.Spec.AnalyticsEndpoint
              { inst := p.inst, baselineService := bs, candidateService := cs }] } response
        simp only at h ⊢
        split at h
        · exact h
        · exact ⟨Or.inr ⟨h.1, h.2.1⟩, h.2.2.1, h.2.2.2⟩
    · rw [if_neg ha]
      have h := storeResponse_inv env
        { p with calls := p.calls ++ [Call.Invoke p.inst.Spec.AnalyticsEndpoint
            { inst := p.inst, baselineService := bs, candidateService := cs }] } response
      simp only at h ⊢
      split at h
      · exact h
      · exact ⟨Or.inr ⟨h.1, h.2.1⟩, h.2.2.1, h.2.2.2⟩

theorem checkAndIncrement_inv (env : Env) (p : Pass) :
    match checkAndIncrement env p with
    | .inl out => OutPair p.baselineTraffic p.candidateTraffic out ∧ out.targets = none
    | .inr (p1, _) =>
        PairKept p.baselineTraffic p.candidateTraffic p1.baselineTraffic p1.candidateTraffic ∧
        p1.inst.Spec = p.inst.Spec ∧ p1.kservice = p.kservice := by
  unfold checkAndIncrement
  cases env.baselineCoreService with
  | error err => exact ⟨done_pair _ _ _ _ _ _ (pairKept_refl _ _), rfl⟩
  | ok bs =>
    cases env.candidateCoreService with
    | error err => exact ⟨done_pair _ _ _ _ _ _ (pairKept_refl _ _), rfl⟩
    | ok cs => exact askAnalytics_inv env p bs cs

theorem applyPercent_inv (env : Env) (p : Pass) (w : Int) :
    match applyPercent env p w with
    | .inl out => out.baselineTraffic = some p.baselineTraffic ∧
        out.candidateTraffic = some p.candidateTraffic ∧
        out.targets = some (setPercents p.inst.Spec.TargetService.Baseline
          p.inst.Spec.TargetService.Candidate w (p.kservice.Traffic.getD []) false).1
    | .inr (p1, ts) => p1.baselineTraffic = p.baselineTraffic ∧
        p1.candidateTraffic = p.candidateTraffic ∧ p1.inst.Spec = p.inst.Spec ∧
        p1.kservice = p.kservice ∧
        ts = (setPercents p.inst.Spec.TargetService.Baseline
          p.inst.Spec.TargetService.Candidate w (p.kservice.Traffic.getD []) false).1 := by
  unfold applyPercent
  simp only
  split_ifs with h
  · cases env.updateServiceTraffic with
    | some err => simp [Pass.done]
    | none => simp
  · simp

theorem syncKnativeIteration_inv (env : Env) (p : Pass) :
    match syncKnativeIteration env p with
    | .inl out => OutPair p.baselineTraffic p.candidateTraffic out ∧
        OutTargets p.inst.Spec.TargetService.Baseline p.inst.Spec.TargetService.Candidate out
    | .inr (p1, ts) =>
        PairKept p.baselineTraffic p.candidateTraffic p1.baselineTraffic p1.candidateTraffic ∧
        p1.inst.Spec = p.inst.Spec ∧
        ∃ w, ∀ t ∈ ts, t.Percent = assignedPercent p.inst.Spec.TargetService.Baseline
          p.inst.Spec.TargetService.Candidate w t := by
  have key : ∀ (p1 : Pass) (w : Int),
      PairKept p.baselineTraffic p.candidateTraffic p1.baselineTraffic p1.candidateTraffic →
      p1.inst.Spec = p.inst.Spec →
      match applyPercent env p1 w with
      | .inl out => OutPair p.baselineTraffic p.candidateTraffic out ∧
          OutTargets p.inst.Spec.TargetService.Baseline p.inst.Spec.TargetService.Candidate out
      | .inr (p2, ts) =>
          PairKept p.baselineTraffic p.candidateTraffic p2.baselineTraffic p2.candidateTraffic ∧
          p2.inst.Spec = p.inst.Spec ∧
          ∃ w, ∀ t ∈ ts, t.Percent = assignedPercent p.inst.Spec.TargetService.Baseline
            p.inst.Spec.TargetService.Candidate w t := by
    intro p1 w hk hs
    have h := applyPercent_inv env p1 w
    split at h
    · rename_i out _
      refine ⟨?_, ?_⟩
      · intro b c hb hc
        rw [h.1] at hb; rw [h.2.1] at hc
        simp only [Option.some.injEq] at hb hc
        subst hb; subst hc; exact hk
      · intro ts hts
        rw [h.2.2] at hts
        simp only [Option.some.injEq] at hts
        subst hts
        rw [hs]
        exact ⟨w, setPercents_percent _ _ _ _ _⟩
    · rename_i p2 ts _
      refine ⟨?_, ?_, ?_⟩
      · rw [h.1, h.2.1]; exact hk
      · rw [h.2.2.1, hs]
      · rw [h.2.2.2.2, hs]
        exact ⟨w, setPercents_percent _ _ _ _ _⟩
  unfold syncKnativeIteration
  simp only
  split_ifs with h1 h2
  · exact key p _ (pairKept_refl _ _) rfl
  · have hc := checkAndIncrement_inv env p
    split at hc
    · rename_i out heq
      try simp only [heq]
      refine ⟨hc.1, ?_⟩
      intro ts hts
      rw [hc.2] at hts
      exact absurd hts (by simp)
    · rename_i p1 w heq
      try simp only [heq]
      exact key p1 w hc.1 hc.2.1
  · exact key p _ (pairKept_refl _ _) rfl

theorem keepProgressing_inv (env : Env) (p : Pass) (b0 c0 : TrafficTarget)
    (ts : Option (List TrafficTarget))
    (h : PairKept b0 c0 p.baselineTraffic p.candidateTraffic) :
    OutPair b0 c0 (keepProgressing env p ts) ∧ (keepProgressing env p ts).targets = ts := by
  refine ⟨?_, rfl⟩
  intro b c hb hc
  simp only [keepProgressing, Pass.done, Option.some.injEq] at hb hc
  subst hb; subst hc; exact h

theorem syncKnativeRollout_inv (env : Env) (p : Pass) :
    OutPair p.baselineTraffic p.candidateTraffic (syncKnativeRollout env p) ∧
    OutTargets p.inst.Spec.TargetService.Baseline p.inst.Spec.TargetService.Candidate
      (syncKnativeRollout env p) := by
  unfold syncKnativeRollout
  split_ifs with h1 h2
  · have h := syncKnativeTerminal_pair env p
    refine ⟨h.1, ?_⟩
    intro ts hts
    rw [h.2] at hts
    exact absurd hts (by simp)
  · have h := syncKnativeIteration_inv env p
    split at h
    · rename_i out heq
      try simp only [heq]
      exact h
    · rename_i p1 ts heq
      try simp only [heq]
      have hk := keepProgressing_inv env p1 p.baselineTraffic p.candidateTraffic (some ts) h.1
      refine ⟨hk.1, ?_⟩
      intro ts1 hts
      rw [hk.2] at hts
      simp only [Option.some.injEq] at hts
      subst hts
      exact h.2.2
  · have hk := keepProgressing_inv env p p.baselineTraffic p.candidateTraffic none
      (pairKept_refl _ _)
    refine ⟨hk.1, ?_⟩
    intro ts1 hts
    rw [hk.2] at hts
    exact absurd hts (by simp)

theorem findTargets_inr (env : Env) (inst : Experiment) (ks : KService) (calls : List Call)
    (p : Pass) (h : findTargets env inst ks calls = .inr p) :
    getTrafficByName ks inst.Spec.TargetService.Baseline = some p.baselineTraffic ∧
    getTrafficByName ks inst.Spec.TargetService.Candidate = some p.candidateTraffic ∧
    p.kservice = ks ∧ p.inst.Spec = inst.Spec ∧ p.calls = calls := by
  unfold findTargets at h
  cases ht : ks.Traffic with
  | none => simp [ht] at h
  | some ts =>
    simp only [ht] at h
    cases hb : getTrafficByName ks inst.Spec.TargetService.Baseline with
    | none => simp [hb] at h
    | some bt =>
      simp only [hb] at h
      cases hc : getTrafficByName ks inst.Spec.TargetService.Candidate with
      | none => simp [hc] at h
      | some ct =>
        simp only [hc, Sum.inr.injEq] at h
        subst h
        refine ⟨rfl, rfl, rfl, ?_, rfl⟩
        simp only [markInst]
        split <;> rfl

theorem findTargets_inl (env : Env) (inst : Experiment) (ks : KService) (calls : List Call)
    (out : Outcome) (h : findTargets env inst ks calls = .inl out) :
    out.baselineTraffic = none ∧ out.candidateTraffic = none ∧ out.targets = none := by
  unfold findTargets at h
  cases ht : ks.Traffic with
  | none => simp only [ht, Sum.inl.injEq] at h; subst h; exact earlyExit_locals _ _ _ _ _ _
  | some ts =>
    simp only [ht] at h
    cases hb : getTrafficByName ks inst.Spec.TargetService.Baseline with
    | none => simp only [hb, Sum.inl.injEq] at h; subst h; exact earlyExit_locals _ _ _ _ _ _
    | some bt =>
      simp only [hb] at h
      cases hc : getTrafficByName ks inst.Spec.TargetService.Candidate with
      | none => simp only [hc, Sum.inl.injEq] at h; subst h; exact earlyExit_locals _ _ _ _ _ _
      | some ct => simp [hc] at h

theorem linkService_inr (env : Env) (inst : Experiment) (ks : KService)
    (p : Pass) (h : linkService env inst ks = .inr p) :
    getTrafficByName ks inst.Spec.TargetService.Baseline = some p.baselineTraffic ∧
    getTrafficByName ks inst.Spec.TargetService.Candidate = some p.candidateTraffic ∧
    p.kservice.Traffic = ks.Traffic ∧ p.inst.Spec = inst.Spec := by
  unfold linkService at h
  cases hl : ks.Labels.get experimentLabel with
  | some v =>
    simp only [hl] at h
    have := findTargets_inr env inst ks [] p h
    exact ⟨this.1, this.2.1, by rw [this.2.2.1], this.2.2.2.1⟩
  | none =>
    simp only [hl] at h
    cases hu : env.updateServiceLabel with
    | some err => simp [hu] at h
    | none =>
      simp only [hu] at h
      have := findTargets_inr env inst _ _ p h
      exact ⟨this.1, this.2.1, by rw [this.2.2.1], this.2.2.2.1⟩

theorem linkService_inl (env : Env) (inst : Experiment) (ks : KService)
    (out : Outcome) (h : linkService env inst ks = .inl out) :
    out.baselineTraffic = none ∧ out.candidateTraffic = none ∧ out.targets = none := by
  unfold linkService at h
  cases hl : ks.Labels.get experimentLabel with
  | some v =>
    simp only [hl] at h
    exact findTargets_inl env inst ks [] out h
  | none =>
    simp only [hl] at h
    cases hu : env.updateServiceLabel with
    | some err => simp only [hu, Sum.inl.injEq] at h; subst h; exact ⟨rfl, rfl, rfl⟩
    | none =>
      simp only [hu] at h
      exact findTargets_inl env inst _ _ out h

theorem setup_inr (env : Env) (inst : Experiment) (p : Pass)
    (h : syncKnativeSetup env inst = .inr p) :
    ∃ ks, env.getService = .ok ks ∧
      getTrafficByName ks inst.Spec.TargetService.Baseline = some p.baselineTraffic ∧
      getTrafficByName ks inst.Spec.TargetService.Candidate = some p.candidateTraffic ∧
      p.kservice.Traffic = ks.Traffic ∧ p.inst.Spec = inst.Spec := by
  unfold syncKnativeSetup at h
  cases hg : env.getService with
  | error e => simp [hg] at h
  | ok ks =>
    simp only [hg] at h
    refine ⟨ks, rfl, ?_⟩
    by_cases ht : (!ks.HasTemplate) = true
    · simp [ht] at h
    · rw [if_neg ht] at h
      cases hl : ks.Labels.get experimentLabel with
      | none => simp only [hl] at h; exact linkService_inr env inst ks p h
      | some v =>
        simp only [hl] at h
        by_cases hv : v ≠ inst.Name
        · rw [if_pos hv] at h; simp at h
        · rw [if_neg hv] at h; exact linkService_inr env inst ks p h

theorem setup_inl (env : Env) (inst : Experiment) (out : Outcome)
    (h : syncKnativeSetup env inst = .inl out) :
    out.baselineTraffic = none ∧ out.candidateTraffic = none ∧ out.targets = none := by
  unfold syncKnativeSetup at h
  cases hg : env.getService with
  | error e => simp only [hg, Sum.inl.injEq] at h; subst h; exact earlyExit_locals _ _ _ _ _ _
  | ok ks =>
    simp only [hg] at h
    by_cases ht : (!ks.HasTemplate) = true
    · rw [if_pos ht] at h; simp only [Sum.inl.injEq] at h; subst h
      exact earlyExit_locals _ _ _ _ _ _
    · rw [if_neg ht] at h
      cases hl : ks.Labels.get experimentLabel with
      | none => simp only [hl] at h; exact linkService_inl env inst ks out h
      | some v =>
        simp only [hl] at h
        by_cases hv : v ≠ inst.Name
        · rw [if_pos hv] at h; simp only [Sum.inl.injEq] at h; subst h
          exact earlyExit_locals _ _ _ _ _ _
        · rw [if_neg hv] at h; exact linkService_inl env inst ks out h

end Knative

namespace Istio

theorem updatesOf_append (l1 l2 : List Call) :
    updatesOf (l1 ++ l2) = updatesOf l1 ++ updatesOf l2 := by
  induction l1 with
  | nil => rfl
  | cons c rest ih => cases c <;> simp [updatesOf, ih]

theorem deleteRules_updates (env : Env) (p : Pass) :
    updatesOf (deleteRules env p).calls = updatesOf p.calls ∧
    (deleteRules env p).canary = p.canary := by
  unfold deleteRules
  by_cases h1 : env.destinationRuleFoundAtDelete = true <;>
    by_cases h2 : env.virtualServiceFoundAtDelete = true <;>
    simp [h1, h2, Pass.call, updatesOf_append, updatesOf]

theorem notFoundExit_updates (env : Env) (p : Pass) :
    updatesOf (notFoundExit env p).calls = updatesOf p.calls := by
  unfold notFoundExit
  cases env.statusUpdate <;> simp [Pass.call, Pass.done, updatesOf_append, updatesOf]

theorem ensureVirtualService_updates (env : Env) (p : Pass) (b c : Deployment) :
    match ensureVirtualService env p b c with
    | .inl out => updatesOf out.calls = updatesOf p.calls
    | .inr rd => updatesOf rd.pass.calls = updatesOf p.calls ∧ rd.pass.canary = p.canary := by
  unfold ensureVirtualService
  cases env.getVirtualService with
  | some vs => simp
  | none =>
    cases env.createVirtualService <;> simp [Pass.call, Pass.done, updatesOf_append, updatesOf]

theorem ensureRules_updates (env : Env) (p : Pass) (b c : Deployment) :
    match ensureRules env p b c with
    | .inl out => updatesOf out.calls = updatesOf p.calls
    | .inr rd => updatesOf rd.pass.calls = updatesOf p.calls ∧ rd.pass.canary = p.canary := by
  unfold ensureRules
  simp only
  have hp2 : ∀ p2 : Pass, p2 = (if env.stableVirtualServiceFound = true then
        (if env.stableDestinationRuleFound = true then
          p.call (Call.DeleteDestinationRule (getStableName p.canary)) else p).call
          (Call.DeleteVirtualService (getStableName p.canary))
        else (if env.stableDestinationRuleFound = true then
          p.call (Call.DeleteDestinationRule (getStableName p.canary)) else p)) →
      updatesOf p2.calls = updatesOf p.calls ∧ p2.canary = p.canary := by
    intro p2 hp2
    subst hp2
    by_cases h1 : env.stableDestinationRuleFound = true <;>
      by_cases h2 : env.stableVirtualServiceFound = true <;>
      simp [h1, h2, Pass.call, updatesOf_append, updatesOf]
  generalize hq : (if env.stableVirtualServiceFound = true then
        (if env.stableDestinationRuleFound = true then
          p.call (Call.DeleteDestinationRule (getStableName p.canary)) else p).call
          (Call.DeleteVirtualService (getStableName p.canary))
        else (if env.stableDestinationRuleFound = true then
          p.call (Call.DeleteDestinationRule (getStableName p.canary)) else p)) = p2
  have h2 := hp2 p2 hq.symm
  split_ifs with hd
  · have := ensureVirtualService_updates env p2 b c
    split at this <;> simp_all
  · cases env.createDestinationRule with
    | some err => simp [Pass.call, Pass.done, updatesOf_append, updatesOf, h2.1]
    | none =>
      simp only
      have := ensureVirtualService_updates env
        (p2.call (Call.CreateDestinationRule (newDestinationRule p2.canary b c).1))
        (newDestinationRule p2.canary b c).2.1 (newDestinationRule p2.canary b c).2.2
      split at this <;> simp_all [Pass.call, updatesOf_append, updatesOf]

theorem makeVirtualService_congr (w : Int) (c1 c2 : Canary)
    (hs : c1.Spec = c2.Spec) (hn : c1.Namespace = c2.Namespace) :
    makeVirtualService w c1 = makeVirtualService w c2 := by
  simp [makeVirtualService, getVirtualServiceName, hs, hn]

theorem syncIstioSetup_updates (env : Env) (canary : Canary) :
    match syncIstioSetup env canary with
    | .inl out => updatesOf out.calls = []
    | .inr rd => updatesOf rd.pass.calls = [] ∧ rd.pass.canary.Spec = canary.Spec ∧
        rd.pass.canary.Namespace = canary.Namespace := by
  unfold syncIstioSetup
  simp only
  cases env.getService with
  | error e => simpa [updatesOf] using notFoundExit_updates env _
  | ok svc =>
    cases env.listDeployments with
    | error e => simpa [updatesOf] using notFoundExit_updates env _
    | ok items =>
      cases items with
      | nil => simpa [updatesOf] using notFoundExit_updates env _
      | cons d0 ds =>
        simp only
        rcases hp : pickLabelled (d0 :: ds) none none with ⟨ob, oc⟩
        cases ob with
        | none =>
          simp only
          cases getLatestDeployment (d0 :: ds) with
          | error e => simp [Pass.done, updatesOf]
          | ok d => cases env.updateDeployment <;> simp [Pass.done, Pass.call, updatesOf]
        | some b =>
          cases oc with
          | none =>
            simp only
            cases getCanaryDeployment (d0 :: ds) b with
            | error e => simp [Pass.done, updatesOf]
            | ok d => cases env.updateDeployment <;> simp [Pass.done, Pass.call, updatesOf]
          | some c =>
            simp only
            have h := ensureRules_updates env
              { canary := canary.mark CanaryMark.HasService, calls := [] } b c
            split at h
            · simpa [updatesOf] using h
            · refine ⟨by simpa [updatesOf] using h.1, ?_, ?_⟩ <;> rw [h.2] <;> rfl

theorem syncIstioFinish_updates (env : Env) (p : Pass) (b c : Deployment) (w : Int) :
    updatesOf (syncIstioFinish env p b c w).calls = updatesOf p.calls := by
  unfold syncIstioFinish
  simp only
  split_ifs with h
  · simp [Pass.done, Pass.call, updatesOf_append, updatesOf, removeCanaryLabel,
      (deleteRules_updates env _).1]
  · simp [Pass.done, Pass.call, updatesOf_append, updatesOf]

theorem finishWith_updates (env : Env) (rd : Ready) (p : Pass) (vs : VirtualService) :
    updatesOf (finishWith env rd p vs).calls = updatesOf p.calls := by
  unfold finishWith
  cases getWeight Candidate vs with
  | none => rfl
  | some w => exact syncIstioFinish_updates env p _ _ w

theorem writeVirtualService_updates (env : Env) (rd : Ready) (p : Pass) (w : Int) :
    match writeVirtualService env rd p w with
    | .inl out => updatesOf out.calls = updatesOf p.calls ++
        [setResourceVersion rd.vs.ResourceVersion (makeVirtualService w p.canary)]
    | .inr (p1, vs) => updatesOf p1.calls = updatesOf p.calls ++
        [setResourceVersion rd.vs.ResourceVersion (makeVirtualService w p.canary)] ∧
        vs = setResourceVersion rd.vs.ResourceVersion (makeVirtualService w p.canary) := by
  unfold writeVirtualService
  cases env.updateVirtualService <;>
    simp [Pass.done, Pass.call, updatesOf_append, updatesOf]

theorem checkAndIncrement_updates (env : Env) (rd : Ready) :
    match checkAndIncrement env rd with
    | .inl out => ∀ vs ∈ updatesOf out.calls, vs ∈ updatesOf rd.pass.calls ∨
        ∃ w, vs = setResourceVersion rd.vs.ResourceVersion (makeVirtualService w rd.pass.canary)
    | .inr (p1, _) => ∀ vs ∈ updatesOf p1.calls, vs ∈ updatesOf rd.pass.calls ∨
        ∃ w, vs = setResourceVersion rd.vs.ResourceVersion
          (makeVirtualService w rd.pass.canary) := by
  unfold checkAndIncrement
  simp only
  cases env.invoke with
  | error e =>
    simp only
    intro vs hvs
    left
    simpa [Pass.done, Pass.call, updatesOf_append, updatesOf, (deleteRules_updates env _).1]
      using hvs
  | ok response =>
    simp only
    cases env.marshalLastState with
    | error e =>
      simp only
      intro vs hvs
      left
      simpa [Pass.done, Pass.call, updatesOf_append, updatesOf] using hvs
    | ok st =>
      simp only
      have h := writeVirtualService_updates env rd
        { canary := { rd.pass.canary with Status :=
            { rd.pass.canary.Status with AnalysisState := { Raw := some st } } },
          calls := (rd.pass.call (Call.Invoke rd.pass.canary.Spec.AnalyticsService
            { canary := rd.pass.canary, baseline := rd.baseline, candidate := rd.candidate })).calls }
        response.CanaryTrafficPercentage
      have hm : makeVirtualService response.CanaryTrafficPercentage
          { rd.pass.canary with Status :=
            { rd.pass.canary.Status with AnalysisState := { Raw := some st } } } =
          makeVirtualService response.CanaryTrafficPercentage rd.pass.canary :=
        makeVirtualService_congr _ _ _ rfl rfl
      simp only [Pass.call] at h ⊢
      split at h
      · intro vs hvs
        rw [h] at hvs
        simp only [updatesOf_append, updatesOf, List.append_nil, List.mem_append,
          List.mem_singleton] at hvs
        rcases hvs with hvs | hvs
        · exact Or.inl hvs
        · exact Or.inr ⟨_, by rw [hvs, hm]⟩
      · intro vs hvs
        rw [h.1] at hvs
        simp only [updatesOf_append, updatesOf, List.append_nil, List.mem_append,
          List.mem_singleton] at hvs
        rcases hvs with hvs | hvs
        · exact Or.inl hvs
        · exact Or.inr ⟨_, by rw [hvs, hm]⟩

theorem syncIstioStep_updates (env : Env) (rd : Ready) (cur : Int) :
    match syncIstioStep env rd cur with
    | .inl out => ∀ vs ∈ updatesOf out.calls, vs ∈ updatesOf rd.pass.calls ∨
        ∃ w, vs = setResourceVersion rd.vs.ResourceVersion (makeVirtualService w rd.pass.canary)
    | .inr (p1, _) => ∀ vs ∈ updatesOf p1.calls, vs ∈ updatesOf rd.pass.calls ∨
        ∃ w, vs = setResourceVersion rd.vs.ResourceVersion
          (makeVirtualService w rd.pass.canary) := by
  have key : ∀ w, match writeVirtualService env rd rd.pass w with
    | .inl out => ∀ vs ∈ updatesOf out.calls, vs ∈ updatesOf rd.pass.calls ∨
        ∃ w, vs = setResourceVersion rd.vs.ResourceVersion (makeVirtualService w rd.pass.canary)
    | .inr (p1, _) => ∀ vs ∈ updatesOf p1.calls, vs ∈ updatesOf rd.pass.calls ∨
        ∃ w, vs = setResourceVersion rd.vs.ResourceVersion
          (makeVirtualService w rd.pass.canary) := by
    intro w
    have h := writeVirtualService_updates env rd rd.pass w
    split at h
    · intro vs hvs
      rw [h] at hvs
      simp only [List.mem_append, List.mem_singleton] at hvs
      rcases hvs with hvs | hvs
      · exact Or.inl hvs
      · exact Or.inr ⟨_, hvs⟩
    · intro vs hvs
      rw [h.1] at hvs
      simp only [List.mem_append, List.mem_singleton] at hvs
      rcases hvs with hvs | hvs
      · exact Or.inl hvs
      · exact Or.inr ⟨_, hvs⟩
  unfold syncIstioStep
  simp only
  split_ifs
  · exact key _
  · exact checkAndIncrement_updates env rd
  · exact key _

theorem syncIstio_updates (env : Env) (canary : Canary) :
    ∀ vs ∈ updatesOf (syncIstio env canary).calls,
      ∃ w rv, vs = setResourceVersion rv (makeVirtualService w canary) := by
  intro vs hvs
  unfold syncIstio at hvs
  have hs := syncIstioSetup_updates env canary
  split at hs
  · rename_i out heq
    simp only [heq] at hvs
    rw [hs] at hvs
    exact absurd hvs (by simp)
  · rename_i rd heq
    simp only [heq] at hvs
    have hm : ∀ w, makeVirtualService w rd.pass.canary = makeVirtualService w canary :=
      fun w => makeVirtualService_congr w _ _ hs.2.1 hs.2.2
    unfold syncIstioRollout at hvs
    cases hg : getWeight Candidate rd.vs with
    | none =>
      simp only [hg, Pass.crash] at hvs
      rw [hs.1] at hvs
      exact absurd hvs (by simp)
    | some cur =>
      simp only [hg] at hvs
      by_cases hd : due env rd.pass.canary cur = true
      · rw [if_pos hd] at hvs
        have hst := syncIstioStep_updates env rd cur
        split at hst
        · rename_i out heq2
          simp only [heq2] at hvs
          rcases hst vs hvs with h | ⟨w, h⟩
          · rw [hs.1] at h; exact absurd h (by simp)
          · exact ⟨w, _, by rw [h, hm]⟩
        · rename_i p1 vs1 heq2
          simp only [heq2] at hvs
          rw [finishWith_updates] at hvs
          rcases hst vs hvs with h | ⟨w, h⟩
          · rw [hs.1] at h; exact absurd h (by simp)
          · exact ⟨w, _, by rw [h, hm]⟩
      · rw [if_neg hd] at hvs
        rw [finishWith_updates, hs.1] at hvs
        exact absurd hvs (by simp)

end Istio

namespace Istio

theorem syncIstio_manual_updates (env : Env) (canary : Canary) (rd : Ready) (cur : Int)
    (hsetup : syncIstioSetup env canary = .inr rd)
    (hcur : getWeight Candidate rd.vs = some cur)
    (hdue : due env rd.pass.canary cur = true)
    (hmanual : canary.Spec.TrafficControl.Strategy = "manual") :
    updatesOf (syncIstio env canary).calls =
      [setResourceVersion rd.vs.ResourceVersion
        (makeVirtualService (cur + canary.Spec.TrafficControl.StepSize) canary)] := by
  have hs := syncIstioSetup_updates env canary
  rw [hsetup] at hs
  simp only at hs
  have hm : ∀ w, makeVirtualService w rd.pass.canary = makeVirtualService w canary :=
    fun w => makeVirtualService_congr w _ _ hs.2.1 hs.2.2
  unfold syncIstio
  rw [hsetup]
  simp only
  unfold syncIstioRollout
  rw [hcur]
  simp only [hdue, if_true]
  unfold syncIstioStep
  simp only [hs.2.1, hmanual, if_true]
  have hw := writeVirtualService_updates env rd rd.pass (cur + canary.Spec.TrafficControl.StepSize)
  split at hw
  · rename_i out heq
    try simp only [heq]
    rw [hw, hs.1, hm]; rfl
  · rename_i p1 vs heq
    try simp only [heq]
    rw [finishWith_updates, hw.1, hs.1, hm]; rfl

end Istio

namespace Knative
open V1alpha1

theorem syncKnative_increment_targets (env : Env) (inst : Experiment) (p : Pass)
    (hsetup : syncKnativeSetup env inst = .inr p)
    (hiter : ¬ p.inst.Spec.TrafficControl.MaxIterations ≤ p.inst.Status.CurrentIteration)
    (hdue : due env p.inst = true)
    (hstrategy : inst.Spec.TrafficControl.Strategy = "increment_without_check") :
    (syncKnative env inst).targets =
      some (setPercents inst.Spec.TargetService.Baseline inst.Spec.TargetService.Candidate
        (p.candidateTraffic.Percent + inst.Spec.TrafficControl.StepSize)
        (p.kservice.Traffic.getD []) false).1 := by
  obtain ⟨ks, _, _, _, _, hspec⟩ := setup_inr env inst p hsetup
  unfold syncKnative
  rw [hsetup]
  simp only
  unfold syncKnativeRollout
  rw [if_neg hiter, if_pos hdue]
  unfold syncKnativeIteration
  simp only [hspec, hstrategy, if_true]
  have h := applyPercent_inv env p (p.candidateTraffic.Percent + inst.Spec.TrafficControl.StepSize)
  split at h
  · rename_i out heq
    try simp only [heq]
    rw [h.2.2, hspec]
  · rename_i p1 ts heq
    try simp only [heq]
    rw [(keepProgressing_inv env p1 p1.baselineTraffic p1.candidateTraffic (some ts)
      (pairKept_refl _ _)).2, h.2.2.2.2, hspec]

end Knative

namespace V1alpha2

theorem markCondition_flag (c : ExperimentCondition) (status : ConditionStatus)
    (reason message : String) (now : Time) (r m : String)
    (hr : c.Reason = some r) (hm : c.Message = some m) :
    markCondition c status reason message now =
      some ({ c with Status := status, Reason := some reason, Message := some message,
                     LastTransitionTime := some now },
            decide (status ≠ c.Status ∨ reason ≠ r ∨ message ≠ m)) := by
  unfold markCondition
  by_cases h1 : status = c.Status <;> by_cases h2 : reason = r <;> by_cases h3 : message = m <;>
    simp [hr, hm, h1, h2, h3]

end V1alpha2

namespace Cache
open V1alpha1

theorem RegisterExperiment_store (k : KeyFuncs) (c : Impl) (inst : Experiment) :
    ∃ ea, (RegisterExperiment k c inst).1.experimentAbstractStore (k.experimentKey inst) = some ea := by
  unfold RegisterExperiment
  cases h : c.experimentAbstractStore (k.experimentKey inst) with
  | some ea => exact ⟨ea, by simp [h]⟩
  | none => exact ⟨NewExperiment inst (GetServiceNamespace inst), by simp [h, GoMap.set]⟩

theorem RegisterExperiment_known (k : KeyFuncs) (c : Impl) (inst : Experiment)
    (ea : ExperimentAbstract) (h : c.experimentAbstractStore (k.experimentKey inst) = some ea) :
    RegisterExperiment k c inst = (c, some ea) := by
  unfold RegisterExperiment
  simp [h]

end Cache

namespace Cache
open V1alpha1

theorem deleteTargets_none (k : KeyFuncs) (ns key : String) :
    ∀ (names : List String) (m : GoMap String), m key = none →
      deleteTargets k m names ns key = none := by
  intro names
  induction names with
  | nil => intro m h; exact h
  | cons a rest ih =>
    intro m h
    simp only [deleteTargets, List.foldl_cons]
    apply ih
    simp only [GoMap.delete]
    split_ifs <;> simp [h]

theorem deleteTargets_mem (k : KeyFuncs) (ns n : String) :
    ∀ (names : List String) (m : GoMap String), n ∈ names →
      deleteTargets k m names ns (k.targetKey n ns) = none := by
  intro names
  induction names with
  | nil => intro m h; simp at h
  | cons a rest ih =>
    intro m h
    simp only [List.mem_cons] at h
    simp only [deleteTargets, List.foldl_cons]
    rcases h with h | h
    · subst h
      exact deleteTargets_none k ns _ rest _ (by simp [GoMap.delete])
    · exact ih _ h

theorem assocSet_mem_self (m : List (String × Bool)) (key : String) (v : Bool) :
    key ∈ (assocSet m key v).map Prod.fst := by
  induction m with
  | nil => simp [assocSet]
  | cons x rest ih =>
    obtain ⟨k', v'⟩ := x
    simp only [assocSet]
    split_ifs with h
    · simp
    · simp only [List.map_cons, List.mem_cons]; exact Or.inr ih

theorem assocSet_mem_keep (m : List (String × Bool)) (key key' : String) (v : Bool)
    (h : key' ∈ m.map Prod.fst) : key' ∈ (assocSet m key v).map Prod.fst := by
  induction m with
  | nil => simp at h
  | cons x rest ih =>
    obtain ⟨k', v'⟩ := x
    simp only [List.map_cons, List.mem_cons] at h
    simp only [assocSet]
    split_ifs with hk
    · simp only [List.map_cons, List.mem_cons]
      rcases h with h | h
      · exact Or.inl (by rw [h, hk])
      · exact Or.inr h
    · simp only [List.map_cons, List.mem_cons]
      rcases h with h | h
      · exact Or.inl h
      · exact Or.inr (ih h)

theorem RegisterExperiment_registered (k : KeyFuncs) (c : Impl) (inst : Experiment)
    (h : c.experimentAbstractStore (k.experimentKey inst) = none) :
    Registered k (RegisterExperiment k c inst).1 inst := by
  refine ⟨NewExperiment inst (GetServiceNamespace inst), ?_, rfl, rfl, ?_, ?_⟩
  · simp [RegisterExperiment, h, GoMap.set]
  · exact assocSet_mem_keep _ _ _ _ (assocSet_mem_self _ _ _)
  · exact assocSet_mem_self _ _ _

theorem RemoveExperiment_clears (k : KeyFuncs) (c : Impl) (e : Experiment)
    (hreg : Registered k c e) :
    DeploymentToExperiment k (RemoveExperiment k c e) e.Spec.TargetService.Baseline
        (GetServiceNamespace e) = ("", "", false) ∧
    DeploymentToExperiment k (RemoveExperiment k c e) e.Spec.TargetService.Candidate
        (GetServiceNamespace e) = ("", "", false) ∧
    ServiceToExperiment k (RemoveExperiment k c e) e.Spec.TargetService.Name
        (GetServiceNamespace e) = ("", "", false) ∧
    (RemoveExperiment k c e).experimentAbstractStore (k.experimentKey e) = none := by
  obtain ⟨ea, hst, hns, hsvc, hb, hc⟩ := hreg
  have hrm : RemoveExperiment k c e =
      { service2Experiment := c.service2Experiment.delete
          (k.targetKey ea.TargetsAbstract.ServiceName ea.TargetsAbstract.Namespace)
        deployment2Experiment := deleteTargets k c.deployment2Experiment
          (ea.TargetsAbstract.Status.map Prod.fst) ea.TargetsAbstract.Namespace
        experimentAbstractStore := c.experimentAbstractStore.delete (k.experimentKey e) } := by
    simp [RemoveExperiment, hst]
  rw [hrm]
  refine ⟨?_, ?_, ?_, ?_⟩
  · simp only [DeploymentToExperiment]
    rw [← hns, deleteTargets_mem k _ _ _ _ hb]
  · simp only [DeploymentToExperiment]
    rw [← hns, deleteTargets_mem k _ _ _ _ hc]
  · simp only [ServiceToExperiment]
    rw [← hns, ← hsvc]
    simp [GoMap.delete]
  · simp [GoMap.delete]

theorem register_lookup (k : KeyFuncs) (c : Impl) (e : Experiment)
    (hnew : c.experimentAbstractStore (k.experimentKey e) = none)
    (hres : k.resolveExperimentKey (k.experimentKey e) = (e.Name, e.Namespace)) :
    ServiceToExperiment k (RegisterExperiment k c e).1 e.Spec.TargetService.Name
        (GetServiceNamespace e) = (e.Name, e.Namespace, true) ∧
    DeploymentToExperiment k (RegisterExperiment k c e).1 e.Spec.TargetService.Baseline
        (GetServiceNamespace e) = (e.Name, e.Namespace, true) ∧
    DeploymentToExperiment k (RegisterExperiment k c e).1 e.Spec.TargetService.Candidate
        (GetServiceNamespace e) = (e.Name, e.Namespace, true) := by
  refine ⟨?_, ?_, ?_⟩
  · simp [ServiceToExperiment, RegisterExperiment, hnew, GoMap.set, hres]
  · simp only [DeploymentToExperiment, RegisterExperiment, hnew, GoMap.set]
    split_ifs <;> simp [hres]
  · simp [DeploymentToExperiment, RegisterExperiment, hnew, GoMap.set, hres]

end Cache

namespace Knative

theorem setPercents_names (b c : String) (w : Int) :
    ∀ (ts : List TrafficTarget) (nu : Bool),
      (setPercents b c w ts nu).1.map (fun t => t.RevisionName) =
        ts.map (fun t => t.RevisionName) := by
  intro ts
  induction ts with
  | nil => intro nu; rfl
  | cons x rest ih =>
    intro nu
    simp only [setPercents, List.map_cons, ih]
    congr 1
    split_ifs <;> rfl

end Knative

/-! ## The condition list keeps one condition per type -/

namespace V1alpha2

theorem findCondition_none (t : ExperimentConditionType) :
    ∀ cs : List ExperimentCondition, findCondition cs t = none →
      t ∉ cs.map (fun c => c.Type_) := by
  intro cs
  induction cs with
  | nil => intro _; simp
  | cons c rest ih =>
    intro h
    simp only [findCondition] at h
    split_ifs at h with hc
    cases hf : findCondition rest t with
    | some i => simp [hf] at h
    | none =>
      simp only [List.map_cons, List.mem_cons, not_or]
      exact ⟨fun h1 => hc h1.symm, ih hf⟩

theorem findCondition_some (t : ExperimentConditionType) :
    ∀ (cs : List ExperimentCondition) (i : Nat), findCondition cs t = some i →
      ∃ c, cs[i]? = some c ∧ c.Type_ = t := by
  intro cs
  induction cs with
  | nil => intro i h; simp [findCondition] at h
  | cons c rest ih =>
    intro i h
    simp only [findCondition] at h
    split_ifs at h with hc
    · simp only [Option.some.injEq] at h
      subst h
      exact ⟨c, by simp, hc⟩
    · cases hf : findCondition rest t with
      | none => simp [hf] at h
      | some j =>
        simp only [hf, Option.some.injEq] at h
        subst h
        obtain ⟨c1, h1, h2⟩ := ih j hf
        exact ⟨c1, by simpa using h1, h2⟩

theorem getCondition_spec (s : ExperimentStatus) (t : ExperimentConditionType) (now : Time)
    (h : OnePerType s) :
    OnePerType (getCondition s t now).1 ∧
    ∃ c, (getCondition s t now).1.Conditions[(getCondition s t now).2]? = some c ∧
      c.Type_ = t := by
  unfold getCondition
  cases hf : findCondition s.Conditions t with
  | some i => exact ⟨h, findCondition_some t _ i hf⟩
  | none =>
    have hn := findCondition_none t _ hf
    refine ⟨?_, ?_⟩
    · unfold OnePerType at h ⊢
      simp only [addCondition, List.map_append, List.map_cons, List.map_nil]
      rw [List.nodup_append]
      refine ⟨h, by simp, ?_⟩
      intro a ha hb
      simp only [List.mem_singleton] at hb
      subst hb
      exact hn ha
    · simp [addCondition]

theorem markCondition_type (c c1 : ExperimentCondition) (status : ConditionStatus)
    (reason message : String) (now : Time) (u : Bool)
    (h : markCondition c status reason message now = some (c1, u)) : c1.Type_ = c.Type_ := by
  unfold markCondition at h
  simp only at h
  split at h
  · simp at h
  · simp only [Option.some.injEq, Prod.mk.injEq] at h
    rw [← h.1]

theorem map_type_set (cs : List ExperimentCondition) (i : Nat) (c c1 : ExperimentCondition)
    (hi : cs[i]? = some c) (ht : c1.Type_ = c.Type_) :
    (cs.set i c1).map (fun c => c.Type_) = cs.map (fun c => c.Type_) := by
  induction cs generalizing i with
  | nil => simp
  | cons x rest ih =>
    cases i with
    | zero =>
      simp only [List.getElem?_cons_zero, Option.some.injEq] at hi
      subst hi
      simp [ht]
    | succ j =>
      simp only [List.getElem?_cons_succ] at hi
      simp [ih j hi]

theorem getAndMark_onePerType (s s1 : ExperimentStatus) (t : ExperimentConditionType)
    (status : ConditionStatus) (reason message : String) (tAdd tMark : Time) (u : Bool)
    (hinv : OnePerType s)
    (h : getAndMark s t status reason message tAdd tMark = some (s1, u)) : OnePerType s1 := by
  obtain ⟨h1, c, hc, _⟩ := getCondition_spec s t tAdd hinv
  unfold getAndMark at h
  simp only [hc] at h
  cases hm : markCondition c status reason message tMark with
  | none => simp [hm] at h
  | some r =>
    obtain ⟨c1, u1⟩ := r
    simp only [hm, Option.some.injEq, Prod.mk.injEq] at h
    rw [← h.1]
    unfold OnePerType at h1 ⊢
    simp only
    rw [map_type_set _ _ c c1 hc (markCondition_type _ _ _ _ _ _ _ hm)]
    exact h1

theorem conditionIsTrue_onePerType (s : ExperimentStatus) (t : ExperimentConditionType)
    (now : Time) (hinv : OnePerType s) : OnePerType (conditionIsTrue s t now).1 := by
  obtain ⟨h1, c, hc, _⟩ := getCondition_spec s t now hinv
  unfold conditionIsTrue
  simp only [hc]
  exact h1

end V1alpha2
namespace V1alpha2

theorem InitStatus_condition_types (e : Experiment) (clock : Nat → Time) :
    (InitStatus e clock).Status.Conditions.map (fun c => c.Type_) =
      e.Status.Conditions.map (fun c => c.Type_) ++ experimentCondSet := by
  unfold InitStatus
  simp only [experimentCondSet, List.foldl, addCondition]
  cases h : e.Status.AnalysisState with
  | none => simp
  | some raw =>
    obtain ⟨r⟩ := raw
    cases r <;> simp

theorem InitStatus_fresh (e : Experiment) (clock : Nat → Time)
    (h : e.Status.Conditions = []) : OnePerType (InitStatus e clock).Status := by
  unfold OnePerType
  rw [InitStatus_condition_types, h]
  decide

theorem InitStatus_again (e : Experiment) (clock : Nat → Time)
    (h : e.Status.Conditions ≠ []) : ¬ OnePerType (InitStatus e clock).Status := by
  unfold OnePerType
  rw [InitStatus_condition_types]
  intro hn
  rw [List.nodup_append] at hn
  obtain ⟨_, _, hdis⟩ := hn
  cases hc : e.Status.Conditions with
  | nil => exact h hc
  | cons c rest =>
    apply hdis (a := c.Type_)
    · simp [hc]
    · cases c.Type_ <;> decide

theorem withReason_some (r : Option (ExperimentStatus × Bool)) (reason : String)
    (x : ExperimentStatus × Bool × String) (h : withReason r reason = some x) :
    r = some (x.1, x.2.1) := by
  unfold withReason at h
  cases r with
  | none => simp at h
  | some p => simp only [Option.map_some', Option.some.injEq] at h; rw [← h]

theorem marks_keep_onePerType (s : ExperimentStatus) (msg : String) (tAdd tMark : Time)
    (hinv : OnePerType s) (x : ExperimentStatus × Bool × String) :
    (MarkMetricsSynced s msg tAdd tMark = some x → OnePerType x.1) ∧
    (MarkMetricsSyncedError s msg tAdd tMark = some x → OnePerType x.1) ∧
    (MarkTargetsFound s msg tAdd tMark = some x → OnePerType x.1) ∧
    (MarkTargetsError s msg tAdd tMark = some x → OnePerType x.1) ∧
    (MarkRoutingRulesReady s msg tAdd tMark = some x → OnePerType x.1) ∧
    (MarkRoutingRulesError s msg tAdd tMark = some x → OnePerType x.1) ∧
    (MarkAnalyticsServiceRunning s msg tAdd tMark = some x → OnePerType x.1) ∧
    (MarkAnalyticsServiceError s msg tAdd tMark = some x → OnePerType x.1) ∧
    (MarkExperimentCompleted s msg tAdd tMark = some x → OnePerType x.1) ∧
    (MarkIterationUpdate s msg tAdd tMark = some x → OnePerType x.1) ∧
    (MarkTrafficUpdate s msg tAdd tMark = some x → OnePerType x.1) ∧
    (MarkExperimentPause s msg tAdd tMark = some x → OnePerType x.1) ∧
    (MarkExperimentResume s msg tAdd tMark = some x → OnePerType x.1) := by
  have key : ∀ (s0 : ExperimentStatus) (t : ExperimentConditionType) (status : ConditionStatus)
      (reason : String), s0.Conditions = s.Conditions →
      withReason (getAndMark s0 t status reason msg tAdd tMark) reason = some x →
      OnePerType x.1 := by
    intro s0 t status reason hs0 h
    have h0 : OnePerType s0 := by unfold OnePerType at hinv ⊢; rw [hs0]; exact hinv
    exact getAndMark_onePerType s0 x.1 t status reason msg tAdd tMark x.2.1 h0
      (withReason_some _ _ _ h)
  have keyMsg : ∀ (s0 : ExperimentStatus) (v : String) (t : ExperimentConditionType)
      (status : ConditionStatus) (reason : String), s0.Conditions = s.Conditions →
      (match storeThroughMessage s0 v with
        | none => none
        | some s2 => withReason (getAndMark s2 t status reason msg tAdd tMark) reason) = some x →
      OnePerType x.1 := by
    intro s0 v t status reason hs0 h
    unfold storeThroughMessage at h
    cases hm : s0.Message with
    | none => simp [hm] at h
    | some m =>
      simp only [hm] at h
      exact key { s0 with Message := some v } t status reason hs0 h
  refine ⟨?_, ?_, ?_, ?_, ?_, ?_, ?_, ?_, ?_, ?_, ?_, ?_, ?_⟩
  · exact key s _ _ _ rfl
  · exact keyMsg _ _ _ _ _ rfl
  · exact key s _ _ _ rfl
  · exact keyMsg _ _ _ _ _ rfl
  · exact key _ _ _ _ rfl
  · exact key _ _ _ _ rfl
  · exact key s _ _ _ rfl
  · exact key _ _ _ _ rfl
  · exact key _ _ _ _ rfl
  · exact key _ _ _ _ rfl
  · exact key _ _ _ _ rfl
  · exact key _ _ _ _ rfl
  · exact key _ _ _ _ rfl

theorem queries_keep_onePerType (s : ExperimentStatus) (now : Time) (hinv : OnePerType s) :
    OnePerType (MetricsSynced s now).1 ∧ OnePerType (TargetsFound s now).1 ∧
    OnePerType (ExperimentCompleted s now).1 :=
  ⟨conditionIsTrue_onePerType s _ now hinv, conditionIsTrue_onePerType s _ now hinv,
   conditionIsTrue_onePerType s _ now hinv⟩

end V1alpha2

namespace Knative
open V1alpha1

theorem serviceUpdates_append (l1 l2 : List Call) :
    serviceUpdates (l1 ++ l2) = serviceUpdates l1 ++ serviceUpdates l2 := by
  induction l1 with
  | nil => rfl
  | cons c rest ih => cases c <;> simp [serviceUpdates, ih]

theorem findTargets_status (env : Env) (inst : Experiment) (ks : KService) (calls : List Call)
    (p : Pass) (h : findTargets env inst ks calls = .inr p) :
    p.inst.Status.LastIncrementTime = inst.Status.LastIncrementTime ∧
    p.inst.Status.CurrentIteration = inst.Status.CurrentIteration ∧
    p.inst.Status.AnalysisState = inst.Status.AnalysisState ∧
    p.inst.Status.AssessmentSummary = inst.Status.AssessmentSummary ∧
    p.inst.Status.TrafficSplit = inst.Status.TrafficSplit ∧
    p.inst.Status.Marks = inst.Status.Marks ++ [StatusMark.HasService] := by
  unfold findTargets at h
  cases ht : ks.Traffic with
  | none => simp [ht] at h
  | some ts =>
    simp only [ht] at h
    cases hb : getTrafficByName ks inst.Spec.TargetService.Baseline with
    | none => simp [hb] at h
    | some bt =>
      simp only [hb] at h
      cases hc : getTrafficByName ks inst.Spec.TargetService.Candidate with
      | none => simp [hc] at h
      | some ct =>
        simp only [hc, Sum.inr.injEq] at h
        subst h
        simp only [markInst]
        cases inst.Status.StartTimestamp <;> simp

theorem linkService_status (env : Env) (inst : Experiment) (ks : KService)
    (p : Pass) (h : linkService env inst ks = .inr p) :
    (p.inst.Status.LastIncrementTime = inst.Status.LastIncrementTime ∧
    p.inst.Status.CurrentIteration = inst.Status.CurrentIteration ∧
    p.inst.Status.AnalysisState = inst.Status.AnalysisState ∧
    p.inst.Status.AssessmentSummary = inst.Status.AssessmentSummary ∧
    p.inst.Status.TrafficSplit = inst.Status.TrafficSplit ∧
    p.inst.Status.Marks = inst.Status.Marks ++ [StatusMark.HasService]) ∧
    (∀ ks1 ∈ serviceUpdates p.calls, ks1.Traffic = ks.Traffic) ∧
    (∀ c ∈ p.calls, c.isInvoke = false) := by
  unfold linkService at h
  cases hl : ks.Labels.get experimentLabel with
  | some v =>
    simp only [hl] at h
    refine ⟨findTargets_status env inst ks [] p h, ?_, ?_⟩
    · rw [(findTargets_inr env inst ks [] p h).2.2.2.2]; simp [serviceUpdates]
    · rw [(findTargets_inr env inst ks [] p h).2.2.2.2]; simp
  | none =>
    simp only [hl] at h
    cases hu : env.updateServiceLabel with
    | some err => simp [hu] at h
    | none =>
      simp only [hu] at h
      refine ⟨findTargets_status env inst _ _ p h, ?_, ?_⟩
      · rw [(findTargets_inr env inst _ _ p h).2.2.2.2]; simp [serviceUpdates]
      · rw [(findTargets_inr env inst _ _ p h).2.2.2.2]; simp [Call.isInvoke]

theorem setup_status (env : Env) (inst : Experiment) (p : Pass)
    (h : syncKnativeSetup env inst = .inr p) :
    (p.inst.Status.LastIncrementTime = inst.Status.LastIncrementTime ∧
    p.inst.Status.CurrentIteration = inst.Status.CurrentIteration ∧
    p.inst.Status.AnalysisState = inst.Status.AnalysisState ∧
    p.inst.Status.AssessmentSummary = inst.Status.AssessmentSummary ∧
    p.inst.Status.TrafficSplit = inst.Status.TrafficSplit ∧
    p.inst.Status.Marks = inst.Status.Marks ++ [StatusMark.HasService]) ∧
    (∀ ks1 ∈ serviceUpdates p.calls, ∃ ks, env.getService = .ok ks ∧ ks1.Traffic = ks.Traffic) ∧
    (∀ c ∈ p.calls, c.isInvoke = false) := by
  unfold syncKnativeSetup at h
  cases hg : env.getService with
  | error e => simp [hg] at h
  | ok ks =>
    simp only [hg] at h
    have key : linkService env inst ks = .inr p →
        (p.inst.Status.LastIncrementTime = inst.Status.LastIncrementTime ∧
        p.inst.Status.CurrentIteration = inst.Status.CurrentIteration ∧
        p.inst.Status.AnalysisState = inst.Status.AnalysisState ∧
        p.inst.Status.AssessmentSummary = inst.Status.AssessmentSummary ∧
        p.inst.Status.TrafficSplit = inst.Status.TrafficSplit ∧
        p.inst.Status.Marks = inst.Status.Marks ++ [StatusMark.HasService]) ∧
        (∀ ks1 ∈ serviceUpdates p.calls, ∃ ks0, Except.ok (ε := Err) ks = .ok ks0 ∧
          ks1.Traffic = ks0.Traffic) ∧
        (∀ c ∈ p.calls, c.isInvoke = false) := by
      intro hl
      have := linkService_status env inst ks p hl
      exact ⟨this.1, fun ks1 h1 => ⟨ks, rfl, this.2.1 ks1 h1⟩, this.2.2⟩
    by_cases ht : (!ks.HasTemplate) = true
    · simp [ht] at h
    · rw [if_neg ht] at h
      cases hl : ks.Labels.get experimentLabel with
      | none => simp only [hl] at h; exact key h
      | some v =>
        simp only [hl] at h
        by_cases hv : v ≠ inst.Name
        · rw [if_pos hv] at h; simp at h
        · rw [if_neg hv] at h; exact key h

end Knative
namespace Knative
open V1alpha1

theorem keepProgressing_eq (env : Env) (p : Pass) (ts : Option (List TrafficTarget)) :
    (keepProgressing env p ts).inst =
      markInst p.inst (.ExperimentNotCompleted "Progressing" "") ∧
    (keepProgressing env p ts).calls = p.calls ++
      [Call.StatusUpdate (markInst p.inst (.ExperimentNotCompleted "Progressing" ""))] ∧
    (keepProgressing env p ts).result =
      { Requeue := false, RequeueAfter := p.inst.Spec.TrafficControl.Interval } ∧
    (keepProgressing env p ts).err = env.statusUpdate ∧
    (keepProgressing env p ts).targets = ts ∧
    (keepProgressing env p ts).baselineTraffic = some p.baselineTraffic ∧
    (keepProgressing env p ts).candidateTraffic = some p.candidateTraffic := by
  simp [keepProgressing, Pass.done]

theorem due_iff (env : Env) (inst : Experiment) :
    due env inst = true ↔
      env.now > inst.Status.LastIncrementTime + inst.Spec.TrafficControl.Interval := by
  simp [due]

theorem due_setup (env : Env) (inst : Experiment) (p : Pass)
    (h : syncKnativeSetup env inst = .inr p) : due env p.inst = due env inst := by
  obtain ⟨_, _, _, _, _, hspec⟩ := setup_inr env inst p h
  have hst := (setup_status env inst p h).1
  simp [due, hspec, hst.1]

theorem syncKnative_waiting (env : Env) (inst : Experiment) (p : Pass)
    (hsetup : syncKnativeSetup env inst = .inr p)
    (hiter : ¬ inst.Spec.TrafficControl.MaxIterations ≤ inst.Status.CurrentIteration)
    (hwait : env.now ≤ inst.Status.LastIncrementTime + inst.Spec.TrafficControl.Interval) :
    syncKnative env inst = keepProgressing env p none := by
  obtain ⟨_, _, _, _, _, hspec⟩ := setup_inr env inst p hsetup
  have hst := (setup_status env inst p hsetup).1
  have hd : due env p.inst = false := by
    rw [due_setup env inst p hsetup]
    cases hdd : due env inst with
    | false => rfl
    | true => rw [due_iff] at hdd; exact absurd hdd (not_lt.mpr hwait)
  unfold syncKnative
  rw [hsetup]
  simp only
  unfold syncKnativeRollout
  rw [hspec, hst.2.1, if_neg hiter, hd]
  simp

theorem syncKnative_iterating (env : Env) (inst : Experiment) (p : Pass)
    (hsetup : syncKnativeSetup env inst = .inr p)
    (hiter : ¬ inst.Spec.TrafficControl.MaxIterations ≤ inst.Status.CurrentIteration)
    (hdue : env.now > inst.Status.LastIncrementTime + inst.Spec.TrafficControl.Interval) :
    syncKnative env inst =
      match syncKnativeIteration env p with
      | .inl out => out
      | .inr (p1, ts) => keepProgressing env p1 (some ts) := by
  obtain ⟨_, _, _, _, _, hspec⟩ := setup_inr env inst p hsetup
  have hst := (setup_status env inst p hsetup).1
  have hd : due env p.inst = true := by
    rw [due_setup env inst p hsetup, due_iff]; exact hdue
  unfold syncKnative
  rw [hsetup]
  simp only
  unfold syncKnativeRollout
  rw [hspec, hst.2.1, if_neg hiter, hd]
  simp

theorem applyPercent_calls (env : Env) (p : Pass) (w : Int) :
    match applyPercent env p w with
    | .inl out => out.inst = p.inst ∧ out.calls = p.calls ++ [Call.UpdateService p.kservice] ∧
        ∃ err, env.updateServiceTraffic = some err ∧ out.err = some err ∧
          out.result = Result.zero
    | .inr (p1, _) =>
        p1.inst = { p.inst with Status := { p.inst.Status with LastIncrementTime := env.now } } ∧
        (p1.calls = p.calls ∨ (p1.calls = p.calls ++ [Call.UpdateService p.kservice] ∧
          env.updateServiceTraffic = none)) := by
  unfold applyPercent
  simp only
  split_ifs with h
  · cases hu : env.updateServiceTraffic with
    | some err => simp [Pass.done]
    | none => simp
  · simp

end Knative
namespace Knative
open V1alpha1

theorem markInst_status (inst : Experiment) (m : StatusMark) :
    (markInst inst m).Spec = inst.Spec ∧
    (markInst inst m).Status.LastIncrementTime = inst.Status.LastIncrementTime ∧
    (markInst inst m).Status.CurrentIteration = inst.Status.CurrentIteration ∧
    (markInst inst m).Status.AnalysisState = inst.Status.AnalysisState ∧
    (markInst inst m).Status.Marks = inst.Status.Marks ++ [m] := by
  simp [markInst]

theorem syncKnative_analytics_failure (env : Env) (inst : Experiment) (p : Pass)
    (bs cs : CoreService) (e : Err)
    (hsetup : syncKnativeSetup env inst = .inr p)
    (hiter : ¬ inst.Spec.TrafficControl.MaxIterations ≤ inst.Status.CurrentIteration)
    (hdue : env.now > inst.Status.LastIncrementTime + inst.Spec.TrafficControl.Interval)
    (hs : inst.Spec.TrafficControl.Strategy = "check_and_increment")
    (hb : env.baselineCoreService = .ok bs) (hc : env.candidateCoreService = .ok cs)
    (hinv : env.invoke = .error e) :
    syncKnative env inst =
      { inst := markInst p.inst (.ExperimentNotCompleted "ErrorAnalytics" e)
        calls := (p.calls ++ [Call.Invoke p.inst.Spec.AnalyticsEndpoint
            { inst := p.inst, baselineService := bs, candidateService := cs }]) ++
          [Call.StatusUpdate (markInst p.inst (.ExperimentNotCompleted "ErrorAnalytics" e))]
        result := { Requeue := false, RequeueAfter := 5 }
        err := env.statusUpdate
        baselineTraffic := some p.baselineTraffic
        candidateTraffic := some p.candidateTraffic
        targets := none } := by
  obtain ⟨_, _, _, _, _, hspec⟩ := setup_inr env inst p hsetup
  rw [syncKnative_iterating env inst p hsetup hiter hdue]
  unfold syncKnativeIteration
  simp only [hspec, hs]
  rw [if_neg (by decide), if_pos trivial]
  unfold checkAndIncrement
  simp only [hb, hc]
  unfold askAnalytics
  simp only [hinv, Pass.done]
  rw [hspec]

theorem terminal_eq (env : Env) (inst : Experiment) (p : Pass)
    (hsetup : syncKnativeSetup env inst = .inr p)
    (hiter : inst.Spec.TrafficControl.MaxIterations ≤ inst.Status.CurrentIteration) :
    syncKnative env inst = syncKnativeTerminal env p := by
  obtain ⟨_, _, _, _, _, hspec⟩ := setup_inr env inst p hsetup
  have hst := (setup_status env inst p hsetup).1
  unfold syncKnative
  rw [hsetup]
  simp only
  unfold syncKnativeRollout
  rw [hspec, hst.2.1, if_pos hiter]

theorem endExperiment_eq (env : Env) (p : Pass) :
    (endExperiment env p).baselineTraffic = some p.baselineTraffic ∧
    (endExperiment env p).candidateTraffic = some p.candidateTraffic ∧
    (endExperiment env p).inst.Status.AnalysisState = { Raw := some emptyObject } ∧
    (endExperiment env p).inst.Status.Marks = p.inst.Status.Marks ++ [.ExperimentCompleted] ∧
    (endExperiment env p).result = Result.zero ∧
    (endExperiment env p).err = env.statusUpdate ∧
    Call.StatusUpdate (endExperiment env p).inst ∈ (endExperiment env p).calls := by
  simp [endExperiment, Pass.done, markInst]

theorem syncKnativeTerminal_locals (env : Env) (p : Pass) :
    (syncKnativeTerminal env p).baselineTraffic = some (terminalCollapse p).1.baselineTraffic ∧
    (syncKnativeTerminal env p).candidateTraffic =
      some (terminalCollapse p).1.candidateTraffic := by
  unfold syncKnativeTerminal
  simp only
  split_ifs with h1 h2
  · cases env.updateServiceTerminal with
    | some err => simp [Pass.done]
    | none => simp [endExperiment_eq]
  · cases env.updateServiceTerminal with
    | some err => simp [Pass.done]
    | none => simp [endExperiment_eq]
  · simp [endExperiment_eq]
  · simp [endExperiment_eq]

theorem syncKnativeTerminal_completed (env : Env) (p : Pass)
    (hu : env.updateServiceTerminal = none) :
    (syncKnativeTerminal env p).inst.Status.AnalysisState = { Raw := some emptyObject } ∧
    (syncKnativeTerminal env p).inst.Status.Marks =
      (terminalCollapse p).1.inst.Status.Marks ++ [.ExperimentCompleted] ∧
    (syncKnativeTerminal env p).result = Result.zero ∧
    Call.StatusUpdate (syncKnativeTerminal env p).inst ∈ (syncKnativeTerminal env p).calls := by
  unfold syncKnativeTerminal
  simp only [hu]
  split_ifs with h1 h2
  · exact ⟨(endExperiment_eq env _).2.2.1, (endExperiment_eq env _).2.2.2.1,
      (endExperiment_eq env _).2.2.2.2.1, (endExperiment_eq env _).2.2.2.2.2.2⟩
  · exact ⟨(endExperiment_eq env _).2.2.1, (endExperiment_eq env _).2.2.2.1,
      (endExperiment_eq env _).2.2.2.2.1, (endExperiment_eq env _).2.2.2.2.2.2⟩
  · exact ⟨(endExperiment_eq env _).2.2.1, (endExperiment_eq env _).2.2.2.1,
      (endExperiment_eq env _).2.2.2.2.1, (endExperiment_eq env _).2.2.2.2.2.2⟩
  · exact ⟨(endExperiment_eq env _).2.2.1, (endExperiment_eq env _).2.2.2.1,
      (endExperiment_eq env _).2.2.2.2.1, (endExperiment_eq env _).2.2.2.2.2.2⟩

theorem terminalCollapse_cases (p : Pass) :
    (p.inst.Status.AssessmentSummary.AllSuccessCriteriaMet = false →
      (terminalCollapse p).1.baselineTraffic = { p.baselineTraffic with Percent := 100 } ∧
      (terminalCollapse p).1.candidateTraffic = { p.candidateTraffic with Percent := 0 }) ∧
    (p.inst.Status.AssessmentSummary.AllSuccessCriteriaMet = true →
      (p.inst.Spec.TrafficControl.OnSuccess = "baseline" →
        (terminalCollapse p).1.baselineTraffic = { p.baselineTraffic with Percent := 100 } ∧
        (terminalCollapse p).1.candidateTraffic = { p.candidateTraffic with Percent := 0 }) ∧
      (p.inst.Spec.TrafficControl.OnSuccess = "candidate" →
        (terminalCollapse p).1.baselineTraffic = { p.baselineTraffic with Percent := 0 } ∧
        (terminalCollapse p).1.candidateTraffic = { p.candidateTraffic with Percent := 100 }) ∧
      (p.inst.Spec.TrafficControl.OnSuccess = "both" →
        (terminalCollapse p).1.baselineTraffic = p.baselineTraffic ∧
        (terminalCollapse p).1.candidateTraffic = p.candidateTraffic)) := by
  have hb : (toBaseline p false).1.baselineTraffic = { p.baselineTraffic with Percent := 100 } ∧
      (toBaseline p false).1.candidateTraffic = { p.candidateTraffic with Percent := 0 } := by
    unfold toBaseline
    by_cases h1 : p.candidateTraffic.Percent = 0 <;>
      by_cases h2 : p.baselineTraffic.Percent = 100 <;> simp [h1, h2]
    · exact ⟨by rw [← h2], by rw [← h1]⟩
    · rw [← h1]
    · rw [← h2]
  have hc : (toCandidate p false).1.baselineTraffic = { p.baselineTraffic with Percent := 0 } ∧
      (toCandidate p false).1.candidateTraffic = { p.candidateTraffic with Percent := 100 } := by
    unfold toCandidate
    by_cases h1 : p.candidateTraffic.Percent = 100 <;>
      by_cases h2 : p.baselineTraffic.Percent = 0 <;> simp [h1, h2]
    · exact ⟨by rw [← h2], by rw [← h1]⟩
    · rw [← h1]
    · rw [← h2]
  unfold terminalCollapse
  refine ⟨fun hf => ?_, fun ht => ⟨fun h1 => ?_, fun h2 => ?_, fun h3 => ?_⟩⟩
  · simp [hf, hb]
  · simp [ht, h1, hb]
  · simp [ht, h2, hc]
  · simp [ht, h3]

end Knative
namespace Knative
open V1alpha1

theorem storeResponse_frame (env : Env) (p : Pass) (response : Response) :
    match storeResponse env p response with
    | .inl out => out.baselineTraffic = some p.baselineTraffic ∧
        out.candidateTraffic = some p.candidateTraffic ∧ (∀ c ∈ p.calls, c ∈ out.calls)
    | .inr (p1, w) => p1.baselineTraffic = p.baselineTraffic ∧
        p1.candidateTraffic = p.candidateTraffic ∧ p1.calls = p.calls ∧
        p1.kservice = p.kservice ∧ p1.inst.Spec = p.inst.Spec ∧
        w = response.CanaryTrafficPercentage ∧
        p1.inst.Status.Marks = p.inst.Status.Marks ∧
        p1.inst.Status.LastIncrementTime = p.inst.Status.LastIncrementTime ∧
        p1.inst.Status.CurrentIteration = wrapInt (p.inst.Status.CurrentIteration + 1) ∧
        (response.LastState = none →
          p1.inst.Status.AnalysisState = { Raw := some emptyObject }) := by
  unfold storeResponse
  cases response.LastState with
  | none => simp
  | some st =>
    cases env.marshalLastState with
    | error err =>
      simp only [Pass.done]
      refine ⟨by simp, by simp, fun c hc => by simp [hc]⟩
    | ok v => simp

theorem storeResponse_ok (env : Env) (p : Pass) (response : Response)
    (h : response.LastState = none ∨ ∃ st, env.marshalLastState = .ok st) :
    ∃ p1, storeResponse env p response = .inr (p1, response.CanaryTrafficPercentage) := by
  unfold storeResponse
  cases hl : response.LastState with
  | none => exact ⟨_, rfl⟩
  | some st =>
    rcases h with h | ⟨v, hv⟩
    · rw [hl] at h; exact absurd h (by simp)
    · simp only [hv]; exact ⟨_, rfl⟩

theorem askAnalytics_abort (env : Env) (p : Pass) (bs cs : CoreService) (response : Response)
    (hinv : env.invoke = .ok response) (habort : response.Summary.AbortExperiment = true) :
    match askAnalytics env p bs cs with
    | .inl out => out.baselineTraffic = some { p.baselineTraffic with Percent := 100 } ∧
        out.candidateTraffic = some { p.candidateTraffic with Percent := 0 } ∧
        ((p.candidateTraffic.Percent ≠ 0 ∨ p.baselineTraffic.Percent ≠ 100) →
          Call.UpdateService p.kservice ∈ out.calls)
    | .inr (p1, w) => p1.baselineTraffic = { p.baselineTraffic with Percent := 100 } ∧
        p1.candidateTraffic = { p.candidateTraffic with Percent := 0 } ∧
        ((p.candidateTraffic.Percent ≠ 0 ∨ p.baselineTraffic.Percent ≠ 100) →
          Call.UpdateService p.kservice ∈ p1.calls) ∧
        p1.kservice = p.kservice ∧ p1.inst.Spec = p.inst.Spec ∧
        w = response.CanaryTrafficPercentage := by
  unfold askAnalytics
  simp only [hinv, habort, if_true]
  by_cases hne : p.candidateTraffic.Percent ≠ 0 ∨ p.baselineTraffic.Percent ≠ 100
  · rw [if_pos hne]
    cases env.updateServiceAbort with
    | some err => simp [Pass.done]
    | none =>
      simp only
      have h := storeResponse_frame env
        { p with baselineTraffic := { p.baselineTraffic with Percent := 100 },
                 candidateTraffic := { p.candidateTraffic with Percent := 0 },
                 calls := (p.calls ++ [Call.Invoke p.inst.Spec.AnalyticsEndpoint
                    { inst := p.inst, baselineService := bs, candidateService := cs }]) ++
                    [Call.UpdateService p.kservice] } response
      generalize storeResponse env _ response = sr at h
      rcases sr with out | ⟨p1, w⟩
      · exact ⟨h.1, h.2.1, fun _ => h.2.2 _ (by simp)⟩
      · exact ⟨h.1, h.2.1, fun _ => by rw [h.2.2.1]; simp, h.2.2.2.1, h.2.2.2.2.1,
          h.2.2.2.2.2.1⟩
  · rw [if_neg hne]
    have hp : p.candidateTraffic.Percent = 0 ∧ p.baselineTraffic.Percent = 100 := by
      constructor
      · by_contra hx; exact hne (Or.inl hx)
      · by_contra hx; exact hne (Or.inr hx)
    have hb : ({ p.baselineTraffic with Percent := 100 } : TrafficTarget) = p.baselineTraffic := by
      rw [← hp.2]
    have hc : ({ p.candidateTraffic with Percent := 0 } : TrafficTarget) = p.candidateTraffic := by
      rw [← hp.1]
    have h := storeResponse_frame env
      { p with calls := p.calls ++ [Call.Invoke p.inst.Spec.AnalyticsEndpoint
          { inst := p.inst, baselineService := bs, candidateService := cs }] } response
    rw [hb, hc]
    generalize storeResponse env _ response = sr at h
    rcases sr with out | ⟨p1, w⟩
    · exact ⟨h.1, h.2.1, fun hx => absurd hx hne⟩
    · exact ⟨h.1, h.2.1, fun hx => absurd hx hne, h.2.2.2.1, h.2.2.2.2.1, h.2.2.2.2.2.1⟩

theorem askAnalytics_ok (env : Env) (p : Pass) (bs cs : CoreService) (response : Response)
    (hinv : env.invoke = .ok response) (hu : env.updateServiceAbort = none)
    (hl : response.LastState = none ∨ ∃ st, env.marshalLastState = .ok st) :
    ∃ p1, askAnalytics env p bs cs = .inr (p1, response.CanaryTrafficPercentage) ∧
      p1.inst.Spec = p.inst.Spec ∧ p1.kservice = p.kservice ∧
      p1.inst.Status.Marks = p.inst.Status.Marks ∧
      p1.inst.Status.LastIncrementTime = p.inst.Status.LastIncrementTime ∧
      p1.inst.Status.CurrentIteration = wrapInt (p.inst.Status.CurrentIteration + 1) ∧
      (response.LastState = none →
        p1.inst.Status.AnalysisState = { Raw := some emptyObject }) := by
  have key : ∀ q : Pass, q.inst = p.inst → q.kservice = p.kservice →
      ∃ p1, storeResponse env q response = .inr (p1, response.CanaryTrafficPercentage) ∧
        p1.inst.Spec = p.inst.Spec ∧ p1.kservice = p.kservice ∧
        p1.inst.Status.Marks = p.inst.Status.Marks ∧
        p1.inst.Status.LastIncrementTime = p.inst.Status.LastIncrementTime ∧
        p1.inst.Status.CurrentIteration = wrapInt (p.inst.Status.CurrentIteration + 1) ∧
        (response.LastState = none →
          p1.inst.Status.AnalysisState = { Raw := some emptyObject }) := by
    intro q hq hk
    obtain ⟨p1, hp1⟩ := storeResponse_ok env q response hl
    have h := storeResponse_frame env q response
    rw [hp1] at h
    simp only at h
    exact ⟨p1, hp1, by rw [h.2.2.2.2.1, hq], by rw [h.2.2.2.1, hk],
      by rw [h.2.2.2.2.2.2.1, hq], by rw [h.2.2.2.2.2.2.2.1, hq],
      by rw [h.2.2.2.2.2.2.2.2.1, hq], h.2.2.2.2.2.2.2.2.2⟩
  unfold askAnalytics
  simp only [hinv, hu]
  split_ifs
  · exact key _ rfl rfl
  · exact key _ rfl rfl
  · exact key _ rfl rfl

theorem applyPercent_ok (env : Env) (p : Pass) (w : Int)
    (hu : env.updateServiceTraffic = none) :
    ∃ p1, applyPercent env p w = .inr (p1,
        (setPercents p.inst.Spec.TargetService.Baseline p.inst.Spec.TargetService.Candidate w
          (p.kservice.Traffic.getD []) false).1) ∧
      p1.inst = { p.inst with Status := { p.inst.Status with LastIncrementTime := env.now } } ∧
      p1.baselineTraffic = p.baselineTraffic ∧ p1.candidateTraffic = p.candidateTraffic := by
  unfold applyPercent
  simp only [hu]
  split_ifs <;> exact ⟨_, rfl, rfl, rfl, rfl⟩

end Knative
namespace Knative
open V1alpha1

theorem applyPercent_pair (env : Env) (p : Pass) (w : Int) :
    match applyPercent env p w with
    | .inl out => out.baselineTraffic = some p.baselineTraffic ∧
        out.candidateTraffic = some p.candidateTraffic ∧ (∀ c ∈ p.calls, c ∈ out.calls)
    | .inr (p1, _) => p1.baselineTraffic = p.baselineTraffic ∧
        p1.candidateTraffic = p.candidateTraffic ∧ (∀ c ∈ p.calls, c ∈ p1.calls) := by
  unfold applyPercent
  simp only
  split_ifs with h
  · cases env.updateServiceTraffic with
    | some err => simp only [Pass.done]; exact ⟨trivial, trivial, fun c hc => by simp [hc]⟩
    | none => simp only; exact ⟨trivial, trivial, fun c hc => by simp [hc]⟩
  · simp only; exact ⟨trivial, trivial, fun c hc => hc⟩

theorem iteration_abort (env : Env) (p : Pass) (bs cs : CoreService) (response : Response)
    (hs : p.inst.Spec.TrafficControl.Strategy = "check_and_increment")
    (hb : env.baselineCoreService = .ok bs) (hc : env.candidateCoreService = .ok cs)
    (hinv : env.invoke = .ok response) (habort : response.Summary.AbortExperiment = true) :
    (match syncKnativeIteration env p with
      | .inl out => out
      | .inr (p1, ts) => keepProgressing env p1 (some ts)).baselineTraffic =
        some { p.baselineTraffic with Percent := 100 } ∧
    (match syncKnativeIteration env p with
      | .inl out => out
      | .inr (p1, ts) => keepProgressing env p1 (some ts)).candidateTraffic =
        some { p.candidateTraffic with Percent := 0 } ∧
    ((p.candidateTraffic.Percent ≠ 0 ∨ p.baselineTraffic.Percent ≠ 100) →
      Call.UpdateService p.kservice ∈ (match syncKnativeIteration env p with
        | .inl out => out
        | .inr (p1, ts) => keepProgressing env p1 (some ts)).calls) := by
  have hne : ¬ p.inst.Spec.TrafficControl.Strategy = "increment_without_check" := by
    rw [hs]; decide
  unfold syncKnativeIteration
  simp only [hs]
  rw [if_neg (by decide), if_pos trivial]
  unfold checkAndIncrement
  simp only [hb, hc]
  have h := askAnalytics_abort env p bs cs response hinv habort
  generalize askAnalytics env p bs cs = r at h
  rcases r with out | ⟨p1, w⟩
  · exact h
  · simp only at h ⊢
    have h2 := applyPercent_pair env p1 w
    generalize applyPercent env p1 w = r2 at h2
    rcases r2 with out | ⟨p2, ts⟩
    · simp only at h2 ⊢
      exact ⟨by rw [h2.1, h.1], by rw [h2.2.1, h.2.1], fun hx => h2.2.2 _ (h.2.2.1 hx)⟩
    · simp only at h2 ⊢
      have hk := keepProgressing_eq env p2 (some ts)
      refine ⟨by rw [hk.2.2.2.2.2.1, h2.1, h.1], by rw [hk.2.2.2.2.2.2, h2.2.1, h.2.1], ?_⟩
      intro hx
      rw [hk.2.1]
      simp [h2.2.2 _ (h.2.2.1 hx)]

theorem iteration_check_ok (env : Env) (p : Pass) (bs cs : CoreService) (response : Response)
    (hs : p.inst.Spec.TrafficControl.Strategy = "check_and_increment")
    (hb : env.baselineCoreService = .ok bs) (hc : env.candidateCoreService = .ok cs)
    (hinv : env.invoke = .ok response)
    (hua : env.updateServiceAbort = none) (hut : env.updateServiceTraffic = none)
    (hl : response.LastState = none ∨ ∃ st, env.marshalLastState = .ok st) :
    ∃ p2, syncKnativeIteration env p = .inr (p2,
        (setPercents p.inst.Spec.TargetService.Baseline p.inst.Spec.TargetService.Candidate
          response.CanaryTrafficPercentage (p.kservice.Traffic.getD []) false).1) ∧
      p2.inst.Spec = p.inst.Spec ∧
      p2.inst.Status.Marks = p.inst.Status.Marks ∧
      p2.inst.Status.LastIncrementTime = env.now ∧
      p2.inst.Status.CurrentIteration = wrapInt (p.inst.Status.CurrentIteration + 1) ∧
      (response.LastState = none →
        p2.inst.Status.AnalysisState = { Raw := some emptyObject }) := by
  have hne : ¬ p.inst.Spec.TrafficControl.Strategy = "increment_without_check" := by
    rw [hs]; decide
  obtain ⟨p1, h1, hspec, hks, hmarks, hlast, hcur, hraw⟩ :=
    askAnalytics_ok env p bs cs response hinv hua hl
  obtain ⟨p2, h2, hinst, _, _⟩ := applyPercent_ok env p1 response.CanaryTrafficPercentage hut
  refine ⟨p2, ?_, ?_, ?_, ?_, ?_, ?_⟩
  · unfold syncKnativeIteration
    simp only [hs]
    rw [if_neg (by decide), if_pos trivial]
    unfold checkAndIncrement
    simp only [hb, hc, h1, h2, hspec, hks]
  · rw [hinst]; exact hspec
  · rw [hinst]; exact hmarks
  · rw [hinst]
  · rw [hinst]; exact hcur
  · intro hn; rw [hinst]; exact hraw hn

end Knative
namespace Knative
open V1alpha1

theorem setup_linked (env : Env) (inst : Experiment) (p : Pass) (ks : KService) (v : String)
    (h : syncKnativeSetup env inst = .inr p) (hg : env.getService = .ok ks)
    (hl : ks.Labels.get experimentLabel = some v) : p.calls = [] := by
  unfold syncKnativeSetup at h
  simp only [hg, hl] at h
  have key : linkService env inst ks = .inr p → p.calls = [] := by
    intro hk
    unfold linkService at hk
    simp only [hl] at hk
    exact (findTargets_inr env inst ks [] p hk).2.2.2.2
  by_cases ht : (!ks.HasTemplate) = true
  · simp [ht] at h
  · rw [if_neg ht] at h
    by_cases hv : v ≠ inst.Name
    · rw [if_pos hv] at h; simp at h
    · rw [if_neg hv] at h; exact key h

end Knative
namespace Knative
open V1alpha1

theorem storeResponse_calls (env : Env) (p : Pass) (response : Response) :
    match storeResponse env p response with
    | .inl out => ∀ c ∈ p.calls, c ∈ out.calls
    | .inr (p1, _) => p1.calls = p.calls := by
  unfold storeResponse
  cases response.LastState with
  | none => simp
  | some st =>
    cases env.marshalLastState with
    | error err => simp only [Pass.done]; intro c hc; simp [hc]
    | ok v => simp

theorem askAnalytics_invokes (env : Env) (p : Pass) (bs cs : CoreService) :
    match askAnalytics env p bs cs with
    | .inl out => ∃ c ∈ out.calls, c.isInvoke = true
    | .inr (p1, _) => ∃ c ∈ p1.calls, c.isInvoke = true := by
  have hin : ∀ (l : List Call), Call.Invoke p.inst.Spec.AnalyticsEndpoint
      { inst := p.inst, baselineService := bs, candidateService := cs } ∈
      (p.calls ++ [Call.Invoke p.inst.Spec.AnalyticsEndpoint
        { inst := p.inst, baselineService := bs, candidateService := cs }]) ++ l := by
    intro l; simp
  have key : ∀ (q : Pass) (response : Response),
      (∃ c ∈ q.calls, c.isInvoke = true) →
      match storeResponse env q response with
      | .inl out => ∃ c ∈ out.calls, c.isInvoke = true
      | .inr (p1, _) => ∃ c ∈ p1.calls, c.isInvoke = true := by
    intro q response ⟨c, hc, hi⟩
    have h := storeResponse_calls env q response
    split at h
    · exact ⟨c, h c hc, hi⟩
    · exact ⟨c, by rw [h]; exact hc, hi⟩
  unfold askAnalytics
  simp only
  cases env.invoke with
  | error err =>
    simp only [Pass.done]
    exact ⟨_, hin [_], rfl⟩
  | ok response =>
    simp only
    split_ifs with ha hne
    · cases env.updateServiceAbort with
      | some err =>
        simp only [Pass.done]
        exact ⟨_, hin [_], rfl⟩
      | none => exact key _ response ⟨_, hin [_], rfl⟩
    · exact key _ response ⟨Call.Invoke p.inst.Spec.AnalyticsEndpoint
        { inst := p.inst, baselineService := bs, candidateService := cs }, by simp, rfl⟩
    · exact key _ response ⟨Call.Invoke p.inst.Spec.AnalyticsEndpoint
        { inst := p.inst, baselineService := bs, candidateService := cs }, by simp, rfl⟩

theorem iteration_check_invokes (env : Env) (p : Pass) (bs cs : CoreService)
    (hs : p.inst.Spec.TrafficControl.Strategy = "check_and_increment")
    (hb : env.baselineCoreService = .ok bs) (hc : env.candidateCoreService = .ok cs) :
    ∃ c ∈ (match syncKnativeIteration env p with
      | .inl out => out
      | .inr (p1, ts) => keepProgressing env p1 (some ts)).calls, c.isInvoke = true := by
  unfold syncKnativeIteration
  simp only [hs]
  rw [if_neg (by decide), if_pos trivial]
  unfold checkAndIncrement
  simp only [hb, hc]
  have h := askAnalytics_invokes env p bs cs
  split at h
  · rename_i out heq
    try simp only [heq]
    exact h
  · rename_i p1 w heq
    try simp only [heq]
    obtain ⟨c, hcm, hi⟩ := h
    have ha := applyPercent_calls env p1 w
    split at ha
    · rename_i out heq2
      try simp only [heq2]
      exact ⟨c, by rw [ha.2.1]; simp [hcm], hi⟩
    · rename_i p2 ts heq2
      try simp only [heq2]
      refine ⟨c, ?_, hi⟩
      rw [(keepProgressing_eq env p2 (some ts)).2.1]
      rcases ha.2 with h1 | h1
      · rw [h1]; simp [hcm]
      · rw [h1.1]; simp [hcm]

end Knative

namespace Knative
open V1alpha1

theorem toBaseline_flag (p : Pass) :
    (p.candidateTraffic.Percent ≠ 0 ∨ p.baselineTraffic.Percent ≠ 100) →
      (toBaseline p false).2 = true := by
  intro h
  unfold toBaseline
  by_cases h1 : p.candidateTraffic.Percent = 0 <;>
    by_cases h2 : p.baselineTraffic.Percent = 100 <;> simp [h1, h2]
  rcases h with h | h
  · exact h h1
  · exact h h2

theorem toCandidate_flag (p : Pass) :
    (p.candidateTraffic.Percent ≠ 100 ∨ p.baselineTraffic.Percent ≠ 0) →
      (toCandidate p false).2 = true := by
  intro h
  unfold toCandidate
  by_cases h1 : p.candidateTraffic.Percent = 100 <;>
    by_cases h2 : p.baselineTraffic.Percent = 0 <;> simp [h1, h2]
  rcases h with h | h
  · exact h h1
  · exact h h2

theorem terminal_update_issued (env : Env) (p : Pass) (h : (terminalCollapse p).2 = true) :
    ∃ ks, Call.UpdateService ks ∈ (syncKnativeTerminal env p).calls := by
  unfold syncKnativeTerminal
  simp only [h, Bool.or_true, if_true]
  cases env.updateServiceTerminal with
  | some err =>
    simp only [Pass.done]
    exact ⟨_, List.mem_append_right _ (List.mem_singleton_self _)⟩
  | none =>
    simp only [endExperiment, Pass.done]
    exact ⟨_, List.mem_append_left _ (List.mem_append_right _ (List.mem_singleton_self _))⟩

theorem terminalCollapse_marks (p : Pass) :
    (p.inst.Status.AssessmentSummary.AllSuccessCriteriaMet = false →
      (terminalCollapse p).1.inst.Status.Marks = p.inst.Status.Marks) ∧
    (p.inst.Status.AssessmentSummary.AllSuccessCriteriaMet = true →
      (p.inst.Spec.TrafficControl.OnSuccess = "baseline" →
        (terminalCollapse p).1.inst.Status.Marks =
          p.inst.Status.Marks ++ [.NotRollForward "OnSuccessBaseline" ""]) ∧
      (p.inst.Spec.TrafficControl.OnSuccess = "candidate" →
        (terminalCollapse p).1.inst.Status.Marks = p.inst.Status.Marks ++ [.RollForward]) ∧
      (p.inst.Spec.TrafficControl.OnSuccess = "both" →
        (terminalCollapse p).1.inst.Status.Marks =
          p.inst.Status.Marks ++ [.NotRollForward "OnSuccessBoth" ""])) := by
  have hb : (toBaseline p false).1.inst = p.inst := by
    unfold toBaseline
    by_cases h1 : p.candidateTraffic.Percent = 0 <;>
      by_cases h2 : p.baselineTraffic.Percent = 100 <;> simp [h1, h2]
  have hc : (toCandidate p false).1.inst = p.inst := by
    unfold toCandidate
    by_cases h1 : p.candidateTraffic.Percent = 100 <;>
      by_cases h2 : p.baselineTraffic.Percent = 0 <;> simp [h1, h2]
  refine ⟨?_, ?_⟩
  · intro hf
    unfold terminalCollapse
    simp only [hf]
    simp [hb]
  · intro ht
    refine ⟨?_, ?_, ?_⟩
    · intro ho
      unfold terminalCollapse
      simp only [ht, ho, if_true]
      simp [hb, setTrafficSplit, markInst]
    · intro ho
      unfold terminalCollapse
      simp only [ht, ho, if_true]
      rw [if_neg (by decide)]
      simp [hc, setTrafficSplit, markInst]
    · intro ho
      unfold terminalCollapse
      simp only [ht, ho, if_true]
      rw [if_neg (by decide), if_neg (by decide)]
      simp [markInst]

end Knative

namespace V1alpha2

theorem InitStatus_analysisState (e : Experiment) (clock : Nat → Time) :
    (InitStatus e clock).Status.AnalysisState =
      match e.Status.AnalysisState with
      | none => some { Raw := some emptyObject }
      | some { Raw := none } => some { Raw := some emptyObject }
      | some { Raw := some raw } => some { Raw := some raw } := by
  unfold InitStatus
  simp only [experimentCondSet, List.foldl, addCondition]
  rcases h : e.Status.AnalysisState with _ | ⟨_ | raw⟩ <;> simp [h]

end V1alpha2

namespace Routing

theorem UpdateRemoveRules_calls (store : Store) (r : IstioRoutingRules) :
    (UpdateRemoveRules store r).calls = [StoreCall.UpdateDestinationRule r.DestinationRule] ∨
    (UpdateRemoveRules store r).calls =
      [StoreCall.UpdateDestinationRule r.DestinationRule,
       StoreCall.UpdateVirtualService r.VirtualService] := by
  unfold UpdateRemoveRules
  cases store.updateDestinationRule r.DestinationRule with
  | error err => exact Or.inl rfl
  | ok dr =>
    simp only
    cases store.updateVirtualService r.VirtualService with
    | error err => exact Or.inr rfl
    | ok vs => exact Or.inr rfl

theorem UpdateRemoveRules_no_delete (store : Store) (r : IstioRoutingRules) :
    ∀ c ∈ (UpdateRemoveRules store r).calls, c.isDelete = false := by
  intro c hc
  rcases UpdateRemoveRules_calls store r with h | h <;> rw [h] at hc <;>
    simp only [List.mem_cons, List.mem_singleton, List.not_mem_nil, or_false] at hc
  · rw [hc]; rfl
  · rcases hc with hc | hc <;> rw [hc] <;> rfl

theorem DeleteAll_calls (store : Store) (r : IstioRoutingRules) :
    (DeleteAll store r).calls =
      [StoreCall.DeleteDestinationRule r.DestinationRule.Namespace r.DestinationRule.Name] ∨
    (DeleteAll store r).calls =
      [StoreCall.DeleteDestinationRule r.DestinationRule.Namespace r.DestinationRule.Name,
       StoreCall.DeleteVirtualService r.VirtualService.Namespace r.VirtualService.Name] := by
  unfold DeleteAll
  cases store.deleteDestinationRule r.DestinationRule.Namespace r.DestinationRule.Name with
  | some err => exact Or.inl rfl
  | none =>
    simp only
    cases store.deleteVirtualService r.VirtualService.Namespace r.VirtualService.Name with
    | some err => exact Or.inr rfl
    | none => exact Or.inr rfl

end Routing

namespace Istio

theorem steady_setup (env : Env) (canary : Canary) (b c : Deployment) (vs : VirtualService)
    (hst : Steady env b c) (hvs : env.getVirtualService = some vs) :
    ∃ rd, syncIstioSetup env canary = .inr rd ∧ rd.pass.canary = canary.mark .HasService ∧
      rd.baseline = b ∧ rd.candidate = c ∧ rd.vs = vs ∧ updatesOf rd.pass.calls = [] := by
  obtain ⟨⟨svc, hsvc⟩, ⟨d, ds, hl, hp⟩, hdr, _, _⟩ := hst
  have hu := syncIstioSetup_updates env canary
  unfold syncIstioSetup at hu ⊢
  simp only [hsvc, hl, hp] at hu ⊢
  unfold ensureRules at hu ⊢
  simp only [hdr, if_true] at hu ⊢
  unfold ensureVirtualService at hu ⊢
  simp only [hvs] at hu ⊢
  refine ⟨_, rfl, ?_, rfl, rfl, rfl, hu.1⟩
  by_cases h1 : env.stableDestinationRuleFound = true <;>
    by_cases h2 : env.stableVirtualServiceFound = true <;>
    simp [h1, h2, Pass.call]

theorem getWeight_makeVirtualService (rv : String) (w : Int) (canary : Canary) :
    getWeight Candidate (setResourceVersion rv (makeVirtualService w canary)) = some w ∧
    getWeight Baseline (setResourceVersion rv (makeVirtualService w canary)) =
      some (wrapInt (100 - w)) := by
  simp [getWeight, setResourceVersion, makeVirtualService, weightOf, Baseline, Candidate]

theorem steady_pass (env : Env) (canary : Canary) (b c : Deployment) (vs : VirtualService)
    (cur : Int) (hst : Steady env b c) (hvs : env.getVirtualService = some vs)
    (hcur : getWeight Candidate vs = some cur)
    (hmanual : canary.Spec.TrafficControl.Strategy = "manual")
    (hlt : cur < canary.Spec.TrafficControl.MaxTrafficPercent)
    (hnow : env.now > canary.Status.LastIncrementTime + canary.Spec.TrafficControl.Interval) :
    ∃ p : Pass,
      syncIstio env canary =
        syncIstioFinish env p b c (cur + canary.Spec.TrafficControl.StepSize) ∧
      p.canary = { canary.mark .HasService with
        Status := { (canary.mark .HasService).Status with LastIncrementTime := env.now } } ∧
      updatesOf p.calls = [setResourceVersion vs.ResourceVersion
        (makeVirtualService (cur + canary.Spec.TrafficControl.StepSize) canary)] := by
  obtain ⟨rd, hsetup, hcan, hb, hc, hrvs, hupd⟩ := steady_setup env canary b c vs hst hvs
  have huv : env.updateVirtualService = none := hst.2.2.2.1
  have hdue : due env rd.pass.canary cur = true := by
    rw [hcan]
    simp only [due, Canary.mark, Bool.and_eq_true, decide_eq_true_eq]
    exact ⟨hlt, hnow⟩
  have hm : ∀ w, makeVirtualService w rd.pass.canary = makeVirtualService w canary := by
    intro w; rw [hcan]; exact makeVirtualService_congr w _ _ rfl rfl
  have hstrat : rd.pass.canary.Spec.TrafficControl.Strategy = "manual" := by
    rw [hcan]; exact hmanual
  have hstep : rd.pass.canary.Spec.TrafficControl.StepSize =
      canary.Spec.TrafficControl.StepSize := by rw [hcan]; rfl
  unfold syncIstio
  rw [hsetup]
  simp only
  unfold syncIstioRollout
  rw [hrvs, hcur]
  simp only [hdue, if_true]
  unfold syncIstioStep
  simp only [hstrat, if_true]
  unfold writeVirtualService
  simp only [huv, Pass.call]
  unfold finishWith
  rw [hrvs, hstep, hm, (getWeight_makeVirtualService _ _ _).1]
  simp only [hb, hc]
  refine ⟨_, rfl, ?_, ?_⟩
  · simp only [hcan]
  · simp only [updatesOf_append, hupd, updatesOf, List.nil_append]

theorem syncIstioFinish_progress (env : Env) (p : Pass) (b c : Deployment) (w : Int)
    (h : w ≠ p.canary.Spec.TrafficControl.MaxTrafficPercent) :
    (syncIstioFinish env p b c w).result =
      { Requeue := false, RequeueAfter := p.canary.Spec.TrafficControl.Interval } ∧
    (syncIstioFinish env p b c w).canary =
      { p.canary.mark (.RolloutNotCompleted "Progressing" "") with
        Status := { (p.canary.mark (.RolloutNotCompleted "Progressing" "")).Status with
          Progressing := true } } ∧
    (syncIstioFinish env p b c w).err = env.statusUpdate ∧
    (syncIstioFinish env p b c w).crashed = false := by
  unfold syncIstioFinish
  simp [if_neg h, Pass.done, Pass.call]

theorem syncIstioFinish_complete (env : Env) (p : Pass) (b c : Deployment) (w : Int)
    (h : w = p.canary.Spec.TrafficControl.MaxTrafficPercent) :
    (syncIstioFinish env p b c w).result = Result.zero ∧
    (syncIstioFinish env p b c w).canary =
      { p.canary.mark .RolloutCompleted with
        Status := { (p.canary.mark .RolloutCompleted).Status with Progressing := false } } ∧
    (syncIstioFinish env p b c w).err = env.statusUpdate ∧
    (syncIstioFinish env p b c w).crashed = false ∧
    Call.CreateDestinationRule
      (newStableRules { c with Labels := c.Labels.delete canaryLabel }
        (syncIstioFinish env p b c w).canary).1 ∈ (syncIstioFinish env p b c w).calls ∧
    Call.CreateVirtualService
      (newStableRules { c with Labels := c.Labels.delete canaryLabel }
        (syncIstioFinish env p b c w).canary).2 ∈ (syncIstioFinish env p b c w).calls := by
  unfold syncIstioFinish
  simp [if_pos h, Pass.done, Pass.call, removeCanaryLabel,
    (deleteRules_updates env _).2]

end Istio
namespace Istio

theorem steady_next (env : Env) (b c : Deployment) (canary : Canary) (vs : VirtualService)
    (hst : Steady env b c) : Steady (nextEnv env canary vs) b c := hst

theorem syncIstioFinish_spec (env : Env) (p : Pass) (b c : Deployment) (w : Int) :
    (syncIstioFinish env p b c w).canary.Spec = p.canary.Spec ∧
    (syncIstioFinish env p b c w).canary.Namespace = p.canary.Namespace := by
  by_cases h : w = p.canary.Spec.TrafficControl.MaxTrafficPercent
  · rw [(syncIstioFinish_complete env p b c w h).2.1]; exact ⟨rfl, rfl⟩
  · rw [(syncIstioFinish_progress env p b c w h).2.1]; exact ⟨rfl, rfl⟩

theorem next_pass (env : Env) (canary : Canary) (b c : Deployment) (vs : VirtualService)
    (cur : Int) (hst : Steady env b c)
    (hcur : getWeight Candidate vs = some cur)
    (hmanual : canary.Spec.TrafficControl.Strategy = "manual")
    (hlt : cur < canary.Spec.TrafficControl.MaxTrafficPercent) :
    ∃ p : Pass,
      syncIstio (nextEnv env canary vs) canary =
        syncIstioFinish (nextEnv env canary vs) p b c
          (cur + canary.Spec.TrafficControl.StepSize) ∧
      p.canary.Spec = canary.Spec ∧ p.canary.Namespace = canary.Namespace ∧
      p.canary.Status.Marks = canary.Status.Marks ++ [CanaryMark.HasService] ∧
      updatesOf p.calls = [setResourceVersion vs.ResourceVersion
        (makeVirtualService (cur + canary.Spec.TrafficControl.StepSize) canary)] := by
  obtain ⟨p, h1, h2, h3⟩ := steady_pass (nextEnv env canary vs) canary b c vs cur
    (steady_next env b c canary vs hst) rfl hcur hmanual hlt
    (by simp only [nextEnv]; exact Int.lt_succ_self _)
  exact ⟨p, h1, by rw [h2]; rfl, by rw [h2]; rfl, by rw [h2]; rfl, h3⟩

theorem passes_succ (env : Env) (j : Nat) (canary : Canary) (vs : VirtualService) :
    passes env (j + 1) canary vs =
      ((kthPass env (j + 1) canary vs).canary,
        storedAfter (passes env j canary vs).2 (kthPass env (j + 1) canary vs)) := rfl

theorem kthPass_succ (env : Env) (j : Nat) (canary : Canary) (vs : VirtualService) :
    kthPass env (j + 1) canary vs =
      syncIstio (nextEnv env (passes env j canary vs).1 (passes env j canary vs).2)
        (passes env j canary vs).1 := rfl

theorem passes_inv (env : Env) (canary : Canary) (b c : Deployment) (vs0 : VirtualService)
    (s : Int) (n : Nat) (hst : Steady env b c)
    (hmanual : canary.Spec.TrafficControl.Strategy = "manual")
    (hstep : canary.Spec.TrafficControl.StepSize = s) (hs : 0 < s)
    (hmax : canary.Spec.TrafficControl.MaxTrafficPercent = n * s)
    (hvs0 : getWeight Candidate vs0 = some 0) :
    ∀ j : Nat, j ≤ n →
      (passes env j canary vs0).1.Spec = canary.Spec ∧
      getWeight Candidate (passes env j canary vs0).2 = some ((j : Int) * s) := by
  intro j
  induction j with
  | zero =>
    intro _
    refine ⟨rfl, ?_⟩
    simp only [passes, hvs0]
    simp
  | succ j ih =>
    intro hj
    obtain ⟨hspec, hw⟩ := ih (Nat.le_of_succ_le hj)
    have hlt : ((j : Int) * s) < (passes env j canary vs0).1.Spec.TrafficControl.MaxTrafficPercent := by
      rw [hspec, hmax]
      exact mul_lt_mul_of_pos_right (by exact_mod_cast Nat.lt_of_succ_le hj) hs
    obtain ⟨p, h1, h2, _, _, h5⟩ := next_pass env (passes env j canary vs0).1 b c
      (passes env j canary vs0).2 ((j : Int) * s) hst hw (by rw [hspec]; exact hmanual) hlt
    rw [passes_succ, kthPass_succ, h1]
    refine ⟨?_, ?_⟩
    · simp only
      rw [(syncIstioFinish_spec _ p b c _).1, h2, hspec]
    · simp only [storedAfter, syncIstioFinish_updates, h5, List.getLast?_singleton,
        Option.getD_some]
      rw [(getWeight_makeVirtualService _ _ _).1, hspec, hstep]
      congr 1
      push_cast
      ring

end Istio

namespace Knative
open V1alpha1

theorem earlyExit_frame (env : Env) (inst : Experiment) (calls : List Call) (r m : String)
    (b : Bool) :
    (earlyExit env inst calls r m b).inst = markInst inst (.HasNotService r m) ∧
    (earlyExit env inst calls r m b).calls =
      calls ++ [Call.StatusUpdate (markInst inst (.HasNotService r m))] ∧
    (earlyExit env inst calls r m b).err = env.statusUpdate := by
  simp [earlyExit]

theorem findTargets_inl_frame (env : Env) (inst : Experiment) (ks : KService)
    (calls : List Call) (out : Outcome) (h : findTargets env inst ks calls = .inl out) :
    out.inst.Status.CurrentIteration = inst.Status.CurrentIteration ∧
    serviceUpdates out.calls = serviceUpdates calls ∧
    (∀ c ∈ out.calls, c ∈ calls ∨ c.isInvoke = false) := by
  have key : ∀ r m b, out = earlyExit env inst calls r m b →
      out.inst.Status.CurrentIteration = inst.Status.CurrentIteration ∧
      serviceUpdates out.calls = serviceUpdates calls ∧
      (∀ c ∈ out.calls, c ∈ calls ∨ c.isInvoke = false) := by
    intro r m b ho
    subst ho
    have he := earlyExit_frame env inst calls r m b
    refine ⟨by rw [he.1]; rfl, ?_, ?_⟩
    · rw [he.2.1, serviceUpdates_append]; simp [serviceUpdates]
    · intro c hc
      rw [he.2.1] at hc
      simp only [List.mem_append, List.mem_singleton] at hc
      rcases hc with hc | hc
      · exact Or.inl hc
      · exact Or.inr (by rw [hc]; rfl)
  unfold findTargets at h
  cases ht : ks.Traffic with
  | none => simp only [ht, Sum.inl.injEq] at h; exact key _ _ _ h.symm
  | some ts =>
    simp only [ht] at h
    cases hb : getTrafficByName ks inst.Spec.TargetService.Baseline with
    | none => simp only [hb, Sum.inl.injEq] at h; exact key _ _ _ h.symm
    | some bt =>
      simp only [hb] at h
      cases hc : getTrafficByName ks inst.Spec.TargetService.Candidate with
      | none => simp only [hc, Sum.inl.injEq] at h; exact key _ _ _ h.symm
      | some ct => simp [hc] at h

theorem setup_inl_frame (env : Env) (inst : Experiment) (out : Outcome)
    (h : syncKnativeSetup env inst = .inl out) :
    out.inst.Status.CurrentIteration = inst.Status.CurrentIteration ∧
    (∀ ks1 ∈ serviceUpdates out.calls, ∃ ks, env.getService = .ok ks ∧
      ks1.Traffic = ks.Traffic) ∧
    (∀ c ∈ out.calls, c.isInvoke = false) := by
  have early : ∀ (g : Except Err KService) r m b, out = earlyExit env inst [] r m b →
      out.inst.Status.CurrentIteration = inst.Status.CurrentIteration ∧
      (∀ ks1 ∈ serviceUpdates out.calls, ∃ ks, g = .ok ks ∧
        ks1.Traffic = ks.Traffic) ∧
      (∀ c ∈ out.calls, c.isInvoke = false) := by
    intro g r m b ho
    subst ho
    have he := earlyExit_frame env inst [] r m b
    refine ⟨by rw [he.1]; rfl, ?_, ?_⟩
    · rw [he.2.1]; simp [serviceUpdates]
    · rw [he.2.1]; simp [Call.isInvoke]
  unfold syncKnativeSetup at h
  cases hg : env.getService with
  | error e => simp only [hg, Sum.inl.injEq] at h; exact early _ _ _ _ h.symm
  | ok ks =>
    simp only [hg] at h
    have link : linkService env inst ks = .inl out →
        out.inst.Status.CurrentIteration = inst.Status.CurrentIteration ∧
        (∀ ks1 ∈ serviceUpdates out.calls, ∃ ks0, Except.ok (ε := Err) ks = .ok ks0 ∧
          ks1.Traffic = ks0.Traffic) ∧
        (∀ c ∈ out.calls, c.isInvoke = false) := by
      intro hk
      unfold linkService at hk
      cases hl : ks.Labels.get experimentLabel with
      | some v =>
        simp only [hl] at hk
        have hf := findTargets_inl_frame env inst ks [] out hk
        refine ⟨hf.1, ?_, ?_⟩
        · rw [hf.2.1]; simp [serviceUpdates]
        · intro c hc
          rcases hf.2.2 c hc with h1 | h1
          · simp at h1
          · exact h1
      | none =>
        simp only [hl] at hk
        cases hu : env.updateServiceLabel with
        | some err =>
          simp only [hu, Sum.inl.injEq] at hk
          subst hk
          refine ⟨rfl, ?_, ?_⟩
          · simp only [serviceUpdates, List.mem_singleton]
            intro ks1 h1
            exact ⟨ks, rfl, by rw [h1]⟩
          · simp [Call.isInvoke]
        | none =>
          simp only [hu] at hk
          have hf := findTargets_inl_frame env inst _ _ out hk
          refine ⟨hf.1, ?_, ?_⟩
          · rw [hf.2.1]
            simp only [serviceUpdates, List.mem_singleton]
            intro ks1 h1
            exact ⟨ks, rfl, by rw [h1]⟩
          · intro c hc
            rcases hf.2.2 c hc with h1 | h1
            · simp only [List.mem_singleton] at h1; rw [h1]; rfl
            · exact h1
    by_cases ht : (!ks.HasTemplate) = true
    · rw [if_pos ht] at h; simp only [Sum.inl.injEq] at h; exact early _ _ _ _ h.symm
    · rw [if_neg ht] at h
      cases hl : ks.Labels.get experimentLabel with
      | none => simp only [hl] at h; exact link h
      | some v =>
        simp only [hl] at h
        by_cases hv : v ≠ inst.Name
        · rw [if_pos hv] at h; simp only [Sum.inl.injEq] at h; exact early _ _ _ _ h.symm
        · rw [if_neg hv] at h; exact link h

theorem storeResponse_step (env : Env) (p : Pass) (response : Response) :
    match storeResponse env p response with
    | .inl out => serviceUpdates out.calls = serviceUpdates p.calls ∧
        out.inst.Status.CurrentIteration = p.inst.Status.CurrentIteration
    | .inr (p1, _) => p1.calls = p.calls ∧ p1.kservice = p.kservice ∧
        p1.inst.Spec = p.inst.Spec ∧
        p1.inst.Status.CurrentIteration = wrapInt (p.inst.Status.CurrentIteration + 1) ∧
        (response.LastState = none ∨ ∃ st, env.marshalLastState = .ok st) := by
  unfold storeResponse
  cases hl : response.LastState with
  | none => simp
  | some st =>
    cases hm : env.marshalLastState with
    | error err =>
      simp only [Pass.done, serviceUpdates_append]
      simp [serviceUpdates, markInst]
    | ok v => simp

theorem askAnalytics_step (env : Env) (p : Pass) (bs cs : CoreService) :
    match askAnalytics env p bs cs with
    | .inl out =>
        (∀ ks ∈ serviceUpdates out.calls, ks ∈ serviceUpdates p.calls ∨ ks = p.kservice) ∧
        out.inst.Status.CurrentIteration = p.inst.Status.CurrentIteration
    | .inr (p1, _) =>
        (∀ ks ∈ serviceUpdates p1.calls, ks ∈ serviceUpdates p.calls ∨ ks = p.kservice) ∧
        p1.kservice = p.kservice ∧ p1.inst.Spec = p.inst.Spec ∧
        p1.inst.Status.CurrentIteration = wrapInt (p.inst.Status.CurrentIteration + 1) ∧
        ∃ response, env.invoke = .ok response ∧
          (response.LastState = none ∨ ∃ st, env.marshalLastState = .ok st) := by
  have key : ∀ (q : Pass) (response : Response) (inv : Except Err Response),
      inv = .ok response →
      (∀ ks ∈ serviceUpdates q.calls, ks ∈ serviceUpdates p.calls ∨ ks = p.kservice) →
      q.kservice = p.kservice → q.inst = p.inst →
      match storeResponse env q response with
      | .inl out =>
          (∀ ks ∈ serviceUpdates out.calls, ks ∈ serviceUpdates p.calls ∨ ks = p.kservice) ∧
          out.inst.Status.CurrentIteration = p.inst.Status.CurrentIteration
      | .inr (p1, _) =>
          (∀ ks ∈ serviceUpdates p1.calls, ks ∈ serviceUpdates p.calls ∨ ks = p.kservice) ∧
          p1.kservice = p.kservice ∧ p1.inst.Spec = p.inst.Spec ∧
          p1.inst.Status.CurrentIteration = wrapInt (p.inst.Status.CurrentIteration + 1) ∧
          ∃ response, inv = .ok response ∧
            (response.LastState = none ∨ ∃ st, env.marshalLastState = .ok st) := by
    intro q response inv hinv hq hk hi
    have h := storeResponse_step env q response
    generalize storeResponse env q response = sr at h
    rcases sr with out | ⟨p1, w⟩
    · simp only at h ⊢
      exact ⟨by rw [h.1]; exact hq, by rw [h.2, hi]⟩
    · simp only at h ⊢
      exact ⟨by rw [h.1]; exact hq, by rw [h.2.1, hk], by rw [h.2.2.1, hi],
        by rw [h.2.2.2.1, hi], response, hinv, h.2.2.2.2⟩
  have hq1 : ∀ ks ∈ serviceUpdates (p.calls ++ [Call.Invoke p.inst.Spec.AnalyticsEndpoint
      { inst := p.inst, baselineService := bs, candidateService := cs }]),
      ks ∈ serviceUpdates p.calls ∨ ks = p.kservice := by
    intro ks hks
    rw [serviceUpdates_append] at hks
    simp only [serviceUpdates, List.append_nil] at hks
    exact Or.inl hks
  have hq2 : ∀ ks ∈ serviceUpdates ((p.calls ++ [Call.Invoke p.inst.Spec.AnalyticsEndpoint
      { inst := p.inst, baselineService := bs, candidateService := cs }]) ++
      [Call.UpdateService p.kservice]),
      ks ∈ serviceUpdates p.calls ∨ ks = p.kservice := by
    intro ks hks
    rw [serviceUpdates_append, serviceUpdates_append] at hks
    simp only [serviceUpdates, List.append_nil, List.mem_append, List.mem_singleton] at hks
    exact hks
  unfold askAnalytics
  cases hinv : env.invoke with
  | error err =>
    simp only [Pass.done]
    refine ⟨?_, ?_⟩
    · intro ks hks
      rw [serviceUpdates_append] at hks
      simp only [serviceUpdates, List.append_nil] at hks
      exact hq1 ks hks
    · simp [markInst]
  | ok response =>
    simp only
    split_ifs with ha hne
    · cases env.updateServiceAbort with
      | some err =>
        simp only [Pass.done]
        exact ⟨hq2, trivial⟩
      | none => exact key _ response _ rfl hq2 rfl rfl
    · exact key _ response _ rfl hq1 rfl rfl
    · exact key _ response _ rfl hq1 rfl rfl

end Knative
namespace Knative
open V1alpha1

theorem checkAndIncrement_step (env : Env) (p : Pass) :
    match checkAndIncrement env p with
    | .inl out =>
        (∀ ks ∈ serviceUpdates out.calls, ks ∈ serviceUpdates p.calls ∨ ks = p.kservice) ∧
        out.inst.Status.CurrentIteration = p.inst.Status.CurrentIteration
    | .inr (p1, _) =>
        (∀ ks ∈ serviceUpdates p1.calls, ks ∈ serviceUpdates p.calls ∨ ks = p.kservice) ∧
        p1.kservice = p.kservice ∧ p1.inst.Spec = p.inst.Spec ∧
        p1.inst.Status.CurrentIteration = wrapInt (p.inst.Status.CurrentIteration + 1) ∧
        ∃ response, env.invoke = .ok response ∧
          (response.LastState = none ∨ ∃ st, env.marshalLastState = .ok st) := by
  have miss : ∀ err : Err,
      (∀ ks ∈ serviceUpdates (p.calls ++ [Call.StatusUpdate
          (markInst p.inst (.HasNotService "MissingCoreService" err))]),
        ks ∈ serviceUpdates p.calls ∨ ks = p.kservice) := by
    intro err ks hks
    rw [serviceUpdates_append] at hks
    simp only [serviceUpdates, List.append_nil] at hks
    exact Or.inl hks
  unfold checkAndIncrement
  cases env.baselineCoreService with
  | error err => simp only [Pass.done]; exact ⟨miss err, by simp [markInst]⟩
  | ok bs =>
    cases env.candidateCoreService with
    | error err => simp only [Pass.done]; exact ⟨miss err, by simp [markInst]⟩
    | ok cs => exact askAnalytics_step env p bs cs

theorem applyPercent_step (env : Env) (p : Pass) (w : Int) :
    match applyPercent env p w with
    | .inl out =>
        (∀ ks ∈ serviceUpdates out.calls, ks ∈ serviceUpdates p.calls ∨ ks = p.kservice) ∧
        out.inst.Status.CurrentIteration = p.inst.Status.CurrentIteration
    | .inr (p1, _) =>
        (∀ ks ∈ serviceUpdates p1.calls, ks ∈ serviceUpdates p.calls ∨ ks = p.kservice) ∧
        p1.inst.Spec = p.inst.Spec ∧
        p1.inst.Status.CurrentIteration = p.inst.Status.CurrentIteration := by
  have hq : ∀ ks ∈ serviceUpdates (p.calls ++ [Call.UpdateService p.kservice]),
      ks ∈ serviceUpdates p.calls ∨ ks = p.kservice := by
    intro ks hks
    rw [serviceUpdates_append] at hks
    simp only [serviceUpdates, List.mem_append, List.mem_singleton] at hks
    exact hks
  unfold applyPercent
  simp only
  split_ifs with h
  · cases env.updateServiceTraffic with
    | some err => simp only [Pass.done]; exact ⟨hq, trivial⟩
    | none => simp only; exact ⟨hq, trivial, trivial⟩
  · simp only; exact ⟨fun ks hks => Or.inl hks, trivial, trivial⟩

/-- What a pass of the rollout part leaves: every update of the service it issued carries
the service object the pass holds, and the iteration counter is the one before, or one more
after a `check_and_increment` round whose analytics call and state encoding succeeded. -/
theorem iteration_step (env : Env) (p : Pass) :
    match syncKnativeIteration env p with
    | .inl out =>
        (∀ ks ∈ serviceUpdates out.calls, ks ∈ serviceUpdates p.calls ∨ ks = p.kservice) ∧
        (out.inst.Status.CurrentIteration = p.inst.Status.CurrentIteration ∨
          (p.inst.Spec.TrafficControl.Strategy = "check_and_increment" ∧
            out.inst.Status.CurrentIteration = wrapInt (p.inst.Status.CurrentIteration + 1) ∧
            ∃ response, env.invoke = .ok response ∧
              (response.LastState = none ∨ ∃ st, env.marshalLastState = .ok st)))
    | .inr (p1, _) =>
        (∀ ks ∈ serviceUpdates p1.calls, ks ∈ serviceUpdates p.calls ∨ ks = p.kservice) ∧
        p1.inst.Spec = p.inst.Spec ∧
        (p1.inst.Status.CurrentIteration = p.inst.Status.CurrentIteration ∨
          (p.inst.Spec.TrafficControl.Strategy = "check_and_increment" ∧
            p1.inst.Status.CurrentIteration = wrapInt (p.inst.Status.CurrentIteration + 1) ∧
            ∃ response, env.invoke = .ok response ∧
              (response.LastState = none ∨ ∃ st, env.marshalLastState = .ok st))) := by
  have plain : ∀ w,
      match applyPercent env p w with
      | .inl out =>
          (∀ ks ∈ serviceUpdates out.calls, ks ∈ serviceUpdates p.calls ∨ ks = p.kservice) ∧
          (out.inst.Status.CurrentIteration = p.inst.Status.CurrentIteration ∨
            (p.inst.Spec.TrafficControl.Strategy = "check_and_increment" ∧
              out.inst.Status.CurrentIteration =
                wrapInt (p.inst.Status.CurrentIteration + 1) ∧
              ∃ response, env.invoke = .ok response ∧
                (response.LastState = none ∨ ∃ st, env.marshalLastState = .ok st)))
      | .inr (p1, _) =>
          (∀ ks ∈ serviceUpdates p1.calls, ks ∈ serviceUpdates p.calls ∨ ks = p.kservice) ∧
          p1.inst.Spec = p.inst.Spec ∧
          (p1.inst.Status.CurrentIteration = p.inst.Status.CurrentIteration ∨
            (p.inst.Spec.TrafficControl.Strategy = "check_and_increment" ∧
              p1.inst.Status.CurrentIteration =
                wrapInt (p.inst.Status.CurrentIteration + 1) ∧
              ∃ response, env.invoke = .ok response ∧
                (response.LastState = none ∨ ∃ st, env.marshalLastState = .ok st))) := by
    intro w
    have h := applyPercent_step env p w
    generalize applyPercent env p w = r at h
    rcases r with out | ⟨p1, ts⟩
    · exact ⟨h.1, Or.inl h.2⟩
    · exact ⟨h.1, h.2.1, Or.inl h.2.2⟩
  unfold syncKnativeIteration
  simp only
  split_ifs with h1 h2
  · exact plain _
  · have hc := checkAndIncrement_step env p
    generalize checkAndIncrement env p = r at hc
    rcases r with out | ⟨p1, w⟩
    · exact ⟨hc.1, Or.inl hc.2⟩
    · simp only at hc ⊢
      have ha := applyPercent_step env p1 w
      generalize applyPercent env p1 w = r2 at ha
      have hsub : ∀ (l : List Call),
          (∀ ks ∈ serviceUpdates l, ks ∈ serviceUpdates p1.calls ∨ ks = p1.kservice) →
          ∀ ks ∈ serviceUpdates l, ks ∈ serviceUpdates p.calls ∨ ks = p.kservice := by
        intro l hl ks hks
        rcases hl ks hks with h3 | h3
        · exact hc.1 ks h3
        · exact Or.inr (by rw [h3, hc.2.1])
      rcases r2 with out | ⟨p2, ts⟩
      · simp only at ha ⊢
        exact ⟨hsub _ ha.1, Or.inr ⟨h2, by rw [ha.2, hc.2.2.2.1], hc.2.2.2.2⟩⟩
      · simp only at ha ⊢
        exact ⟨hsub _ ha.1, by rw [ha.2.1, hc.2.2.1],
          Or.inr ⟨h2, by rw [ha.2.2, hc.2.2.2.1], hc.2.2.2.2⟩⟩
  · exact plain _

theorem terminalCollapse_frame (p : Pass) :
    (terminalCollapse p).1.kservice = p.kservice ∧ (terminalCollapse p).1.calls = p.calls ∧
    (terminalCollapse p).1.inst.Status.CurrentIteration = p.inst.Status.CurrentIteration := by
  have hb : (toBaseline p false).1.kservice = p.kservice ∧
      (toBaseline p false).1.calls = p.calls ∧ (toBaseline p false).1.inst = p.inst := by
    unfold toBaseline
    by_cases h1 : p.candidateTraffic.Percent = 0 <;>
      by_cases h2 : p.baselineTraffic.Percent = 100 <;> simp [h1, h2]
  have hc : (toCandidate p false).1.kservice = p.kservice ∧
      (toCandidate p false).1.calls = p.calls ∧ (toCandidate p false).1.inst = p.inst := by
    unfold toCandidate
    by_cases h1 : p.candidateTraffic.Percent = 100 <;>
      by_cases h2 : p.baselineTraffic.Percent = 0 <;> simp [h1, h2]
  unfold terminalCollapse
  simp only
  split_ifs
  · simp [hb, setTrafficSplit, markInst]
  · simp [hc, setTrafficSplit, markInst]
  · simp [markInst]
  · simp
  · simp [hb]

theorem terminal_step (env : Env) (p : Pass) :
    (∀ ks ∈ serviceUpdates (syncKnativeTerminal env p).calls,
      ks ∈ serviceUpdates p.calls ∨ ks.Traffic = p.kservice.Traffic) ∧
    (syncKnativeTerminal env p).inst.Status.CurrentIteration =
      p.inst.Status.CurrentIteration := by
  have hf := terminalCollapse_frame p
  unfold syncKnativeTerminal
  simp only
  generalize terminalCollapse p = r at hf
  obtain ⟨q, u⟩ := r
  simp only at hf ⊢
  obtain ⟨hk, hcalls, hcur⟩ := hf
  by_cases hl : (q.kservice.Labels.get experimentLabel).isSome = true
  · simp only [hl, Bool.true_or, if_true]
    cases env.updateServiceTerminal with
    | some err =>
      simp only [Pass.done, serviceUpdates_append, serviceUpdates, List.mem_append,
        List.mem_singleton, hcalls, hcur, and_true]
      intro ks hks
      rcases hks with h1 | h1
      · exact Or.inl h1
      · exact Or.inr (by rw [h1, ← hk])
    | none =>
      simp only [endExperiment, Pass.done, serviceUpdates_append, serviceUpdates,
        List.mem_append, List.mem_singleton, hcalls, markInst, hcur, and_true,
        List.append_nil]
      intro ks hks
      rcases hks with h1 | h1
      · exact Or.inl h1
      · exact Or.inr (by rw [h1, ← hk])
  · simp only [hl, Bool.false_or, Bool.false_eq_true, if_false]
    by_cases hu : u = true
    · simp only [hu, if_true]
      cases env.updateServiceTerminal with
      | some err =>
        simp only [Pass.done, serviceUpdates_append, serviceUpdates, List.mem_append,
          List.mem_singleton, hcalls, hcur, and_true]
        intro ks hks
        rcases hks with h1 | h1
        · exact Or.inl h1
        · exact Or.inr (by rw [h1, ← hk])
      | none =>
        simp only [endExperiment, Pass.done, serviceUpdates_append, serviceUpdates,
          List.mem_append, List.mem_singleton, hcalls, markInst, hcur, and_true,
          List.append_nil]
        intro ks hks
        rcases hks with h1 | h1
        · exact Or.inl h1
        · exact Or.inr (by rw [h1, ← hk])
    · simp only [hu, Bool.false_eq_true, if_false]
      simp only [endExperiment, Pass.done, serviceUpdates_append, serviceUpdates,
        hcalls, markInst, hcur, and_true, List.append_nil]
      intro ks hks
      exact Or.inl hks

theorem rollout_step (env : Env) (p : Pass) :
    (∀ ks ∈ serviceUpdates (syncKnativeRollout env p).calls,
      ks ∈ serviceUpdates p.calls ∨ ks.Traffic = p.kservice.Traffic) ∧
    ((syncKnativeRollout env p).inst.Status.CurrentIteration =
        p.inst.Status.CurrentIteration ∨
      (p.inst.Spec.TrafficControl.Strategy = "check_and_increment" ∧
        p.inst.Status.CurrentIteration < p.inst.Spec.TrafficControl.MaxIterations ∧
        (syncKnativeRollout env p).inst.Status.CurrentIteration =
          wrapInt (p.inst.Status.CurrentIteration + 1) ∧
        ∃ response, env.invoke = .ok response ∧
          (response.LastState = none ∨ ∃ st, env.marshalLastState = .ok st))) := by
  have weaken : ∀ (l : List Call),
      (∀ ks ∈ serviceUpdates l, ks ∈ serviceUpdates p.calls ∨ ks = p.kservice) →
      ∀ ks ∈ serviceUpdates l, ks ∈ serviceUpdates p.calls ∨
        ks.Traffic = p.kservice.Traffic := by
    intro l hl ks hks
    rcases hl ks hks with h | h
    · exact Or.inl h
    · exact Or.inr (by rw [h])
  unfold syncKnativeRollout
  split_ifs with h1 h2
  · exact ⟨(terminal_step env p).1, Or.inl (terminal_step env p).2⟩
  · have hi := iteration_step env p
    generalize syncKnativeIteration env p = r at hi
    rcases r with out | ⟨p1, ts⟩
    · simp only at hi ⊢
      refine ⟨weaken _ hi.1, ?_⟩
      rcases hi.2 with h | h
      · exact Or.inl h
      · exact Or.inr ⟨h.1, not_le.mp h1, h.2.1, h.2.2⟩
    · simp only at hi ⊢
      have hk := keepProgressing_eq env p1 (some ts)
      refine ⟨?_, ?_⟩
      · rw [hk.2.1]
        intro ks hks
        rw [serviceUpdates_append] at hks
        simp only [serviceUpdates, List.append_nil] at hks
        exact weaken _ hi.1 ks hks
      · rw [hk.1, (markInst_status _ _).2.2.1]
        rcases hi.2.2 with h | h
        · exact Or.inl h
        · exact Or.inr ⟨h.1, not_le.mp h1, h.2.1, h.2.2⟩
  · have hk := keepProgressing_eq env p none
    refine ⟨?_, Or.inl ?_⟩
    · rw [hk.2.1]
      intro ks hks
      rw [serviceUpdates_append] at hks
      simp only [serviceUpdates, List.append_nil] at hks
      exact Or.inl hks
    · rw [hk.1, (markInst_status _ _).2.2.1]

/-- Every update of the service that a pass of `syncKnative` issues carries the traffic list
of the service as it was fetched, and the iteration counter after the pass is the one before
it, or one more after a `check_and_increment` round whose analytics call and state encoding
succeeded. -/
theorem syncKnative_step (env : Env) (inst : Experiment) :
    (∀ ks1 ∈ serviceUpdates (syncKnative env inst).calls,
      ∃ ks, env.getService = .ok ks ∧ ks1.Traffic = ks.Traffic) ∧
    ((syncKnative env inst).inst.Status.CurrentIteration = inst.Status.CurrentIteration ∨
      (inst.Spec.TrafficControl.Strategy = "check_and_increment" ∧
        inst.Status.CurrentIteration < inst.Spec.TrafficControl.MaxIterations ∧
        (syncKnative env inst).inst.Status.CurrentIteration =
          wrapInt (inst.Status.CurrentIteration + 1) ∧
        ∃ response, env.invoke = .ok response ∧
          (response.LastState = none ∨ ∃ st, env.marshalLastState = .ok st))) := by
  unfold syncKnative
  cases hs : syncKnativeSetup env inst with
  | inl out =>
    simp only
    have h := setup_inl_frame env inst out hs
    exact ⟨h.2.1, Or.inl h.1⟩
  | inr p =>
    simp only
    obtain ⟨ks, hg, _, _, htr, hspec⟩ := setup_inr env inst p hs
    have hst := setup_status env inst p hs
    have hr := rollout_step env p
    refine ⟨?_, ?_⟩
    · intro ks1 h1
      rcases hr.1 ks1 h1 with h | h
      · exact hst.2.1 ks1 h
      · exact ⟨ks, hg, by rw [h, htr]⟩
    · rcases hr.2 with h | h
      · exact Or.inl (by rw [h, hst.1.2.1])
      · refine Or.inr ⟨by rw [← hspec]; exact h.1, ?_, by rw [h.2.2.1, hst.1.2.1], h.2.2.2⟩
        rw [← hspec, ← hst.1.2.1]; exact h.2.1

end Knative

namespace Knative
open V1alpha1

theorem terminalCollapse_split (p : Pass)
    (hs : p.inst.Status.AssessmentSummary.AllSuccessCriteriaMet = true) :
    (p.inst.Spec.TrafficControl.OnSuccess = "baseline" →
      (terminalCollapse p).1.inst.Status.TrafficSplit = { Baseline := 100, Candidate := 0 }) ∧
    (p.inst.Spec.TrafficControl.OnSuccess = "candidate" →
      (terminalCollapse p).1.inst.Status.TrafficSplit = { Baseline := 100, Candidate := 0 }) := by
  constructor
  · intro ho
    unfold terminalCollapse
    simp only [hs, ho, if_true]
    simp [setTrafficSplit]
  · intro ho
    unfold terminalCollapse
    simp only [hs, ho, if_true]
    rw [if_neg (by decide)]
    simp [setTrafficSplit]

theorem syncKnativeTerminal_split (env : Env) (p : Pass) :
    (syncKnativeTerminal env p).inst.Status.TrafficSplit =
      (terminalCollapse p).1.inst.Status.TrafficSplit := by
  unfold syncKnativeTerminal
  simp only
  split_ifs with h1 h2
  · cases env.updateServiceTerminal with
    | some err => simp [Pass.done]
    | none => simp [endExperiment, Pass.done, markInst]
  · cases env.updateServiceTerminal with
    | some err => simp [Pass.done]
    | none => simp [endExperiment, Pass.done, markInst]
  · simp [endExperiment, Pass.done, markInst]
  · simp [endExperiment, Pass.done, markInst]

theorem setup_foreign (env : Env) (inst : Experiment) (ks : KService) (other : String)
    (hg : env.getService = .ok ks) (hl : ks.Labels.get experimentLabel = some other)
    (hne : other ≠ inst.Name) :
    syncKnative env inst =
      earlyExit env inst []
        (if ks.HasTemplate = true then "ExistingExperiment" else "MissingTemplate")
        (if ks.HasTemplate = true then "service is already controlled by " ++ other else "")
        false := by
  unfold syncKnative syncKnativeSetup
  simp only [hg, hl]
  by_cases ht : ks.HasTemplate = true
  · simp [ht, hne]
  · simp [ht]

end Knative

namespace Istio

theorem canaryLoop_none (ts : Time) (ds : List Deployment) :
    ∀ (i : Nat) (index : Option Nat),
      (∀ d ∈ ds, (notBaseline d && decide (d.CreationTimestamp > ts)) = false) →
      canaryLoop ts ds i index = index := by
  induction ds with
  | nil => intro i index _; rfl
  | cons d rest ih =>
    intro i index h
    have hd := h d (List.mem_cons_self _ _)
    have hr : ∀ d' ∈ rest, (notBaseline d' && decide (d'.CreationTimestamp > ts)) = false :=
      fun d' hd' => h d' (List.mem_cons_of_mem _ hd')
    unfold canaryLoop
    by_cases hn : notBaseline d = true
    · have hts : ¬ d.CreationTimestamp > ts := by
        intro hgt
        simp [hn, hgt] at hd
      simp only [hn, if_true, if_neg hts]
      exact ih _ _ hr
    · simp only [hn, Bool.false_eq_true, if_false]
      exact ih _ _ hr

theorem canaryLoop_last (ts : Time) (d : Deployment) (post : List Deployment)
    (hd : (notBaseline d && decide (d.CreationTimestamp > ts)) = true)
    (hpost : ∀ d' ∈ post, (notBaseline d' && decide (d'.CreationTimestamp > ts)) = false) :
    ∀ (pre : List Deployment) (i : Nat) (index : Option Nat),
      canaryLoop ts (pre ++ d :: post) i index = some (i + pre.length) := by
  have hd1 : notBaseline d = true ∧ d.CreationTimestamp > ts := by
    simpa using hd
  intro pre
  induction pre with
  | nil =>
    intro i index
    simp only [List.nil_append, List.length_nil, Nat.add_zero]
    unfold canaryLoop
    simp only [hd1.1, if_true, if_pos hd1.2]
    exact canaryLoop_none ts post _ _ hpost
  | cons x pre ih =>
    intro i index
    simp only [List.cons_append, List.length_cons]
    unfold canaryLoop
    have hstep : ∀ idx, canaryLoop ts (pre ++ d :: post) (i + 1) idx =
        some (i + (pre.length + 1)) := by
      intro idx
      rw [ih (i + 1) idx]
      congr 1
      omega
    split_ifs <;> exact hstep _

theorem latestLoop_spec (ds : List Deployment) :
    ∀ (i : Nat) (ts : Time) (index : Option Nat),
      (latestLoop ds i ts index = index ∧
        ∀ d ∈ ds, notBaseline d = true → d.CreationTimestamp ≤ ts) ∨
      (∃ j d, latestLoop ds i ts index = some (i + j) ∧ ds[j]? = some d ∧
        notBaseline d = true ∧ d.CreationTimestamp > ts ∧
        ∀ d' ∈ ds, notBaseline d' = true → d'.CreationTimestamp ≤ d.CreationTimestamp) := by
  induction ds with
  | nil => intro i ts index; exact Or.inl ⟨rfl, fun d hd => absurd hd (List.not_mem_nil _)⟩
  | cons d rest ih =>
    intro i ts index
    unfold latestLoop
    by_cases hn : notBaseline d = true
    · by_cases hgt : d.CreationTimestamp > ts
      · simp only [hn, if_true, if_pos hgt]
        rcases ih (i + 1) d.CreationTimestamp (some i) with ⟨h1, h2⟩ | ⟨j, d1, h1, h2, h3, h4, h5⟩
        · refine Or.inr ⟨0, d, by rw [h1]; rfl, by simp, hn, hgt, ?_⟩
          intro d' hd' hn'
          rcases List.mem_cons.mp hd' with h | h
          · rw [h]
          · exact h2 d' h hn'
        · refine Or.inr ⟨j + 1, d1, ?_, by simpa using h2, h3, lt_trans hgt h4, ?_⟩
          · rw [h1]; congr 1; omega
          · intro d' hd' hn'
            rcases List.mem_cons.mp hd' with h | h
            · rw [h]; exact le_of_lt h4
            · exact h5 d' h hn'
      · simp only [hn, if_true, if_neg hgt]
        rcases ih (i + 1) ts index with ⟨h1, h2⟩ | ⟨j, d1, h1, h2, h3, h4, h5⟩
        · refine Or.inl ⟨h1, ?_⟩
          intro d' hd' hn'
          rcases List.mem_cons.mp hd' with h | h
          · rw [h]; exact not_lt.mp hgt
          · exact h2 d' h hn'
        · refine Or.inr ⟨j + 1, d1, ?_, by simpa using h2, h3, h4, ?_⟩
          · rw [h1]; congr 1; omega
          · intro d' hd' hn'
            rcases List.mem_cons.mp hd' with h | h
            · rw [h]; exact le_trans (not_lt.mp hgt) (le_of_lt h4)
            · exact h5 d' h hn'
    · simp only [hn, Bool.false_eq_true, if_false]
      rcases ih (i + 1) ts index with ⟨h1, h2⟩ | ⟨j, d1, h1, h2, h3, h4, h5⟩
      · refine Or.inl ⟨h1, ?_⟩
        intro d' hd' hn'
        rcases List.mem_cons.mp hd' with h | h
        · rw [h] at hn'; exact absurd hn' hn
        · exact h2 d' h hn'
      · refine Or.inr ⟨j + 1, d1, ?_, by simpa using h2, h3, h4, ?_⟩
        · rw [h1]; congr 1; omega
        · intro d' hd' hn'
          rcases List.mem_cons.mp hd' with h | h
          · rw [h] at hn'; exact absurd hn' hn
          · exact h5 d' h hn'

/-- What `getLatestDeployment` returns: a deployment that is not labelled baseline, created
after Go's zero time and not before any other such deployment of the list, or the error
`Latest deployment not found` when every deployment not labelled baseline has a creation
time at or before the zero time. -/
theorem getLatestDeployment_spec (ds : List Deployment) :
    (getLatestDeployment ds = .error "Latest deployment not found" ∧
      ∀ d ∈ ds, notBaseline d = true → d.CreationTimestamp ≤ 0) ∨
    (∃ d, getLatestDeployment ds = .ok d ∧ d ∈ ds ∧ notBaseline d = true ∧
      d.CreationTimestamp > 0 ∧
      ∀ d' ∈ ds, notBaseline d' = true → d'.CreationTimestamp ≤ d.CreationTimestamp) := by
  unfold getLatestDeployment
  rcases latestLoop_spec ds 0 0 none with ⟨h1, h2⟩ | ⟨j, d, h1, h2, h3, h4, h5⟩
  · left
    rw [h1]
    exact ⟨rfl, h2⟩
  · right
    rw [h1]
    simp only [Nat.zero_add, h2]
    exact ⟨d, rfl, List.getElem?_mem h2, h3, h4, h5⟩

end Istio

namespace Istio

theorem syncIstio_check_updates (env : Env) (canary : Canary) (rd : Ready) (cur : Int)
    (response : Response) (st : String)
    (hsetup : syncIstioSetup env canary = .inr rd)
    (hcur : getWeight Candidate rd.vs = some cur)
    (hdue : due env rd.pass.canary cur = true)
    (hcheck : canary.Spec.TrafficControl.Strategy = "check_and_increment")
    (hinv : env.invoke = .ok response) (hm : env.marshalLastState = .ok st) :
    updatesOf (syncIstio env canary).calls =
      [setResourceVersion rd.vs.ResourceVersion
        (makeVirtualService response.CanaryTrafficPercentage canary)] := by
  have hs := syncIstioSetup_updates env canary
  rw [hsetup] at hs
  simp only at hs
  have hmk : makeVirtualService response.CanaryTrafficPercentage
      { rd.pass.canary with Status :=
        { rd.pass.canary.Status with AnalysisState := { Raw := some st } } } =
      makeVirtualService response.CanaryTrafficPercentage canary :=
    makeVirtualService_congr _ _ _ hs.2.1 hs.2.2
  unfold syncIstio
  rw [hsetup]
  simp only
  unfold syncIstioRollout
  rw [hcur]
  simp only [hdue, if_true]
  unfold syncIstioStep
  simp only [hs.2.1, hcheck]
  rw [if_neg (by decide), if_pos trivial]
  unfold checkAndIncrement
  simp only [hinv, hm]
  have hw := writeVirtualService_updates env rd
    { canary := { rd.pass.canary with Status :=
        { rd.pass.canary.Status with AnalysisState := { Raw := some st } } },
      calls := (rd.pass.call (Call.Invoke rd.pass.canary.Spec.AnalyticsService
        { canary := rd.pass.canary, baseline := rd.baseline, candidate := rd.candidate })).calls }
    response.CanaryTrafficPercentage
  simp only [Pass.call] at hw ⊢
  generalize writeVirtualService env rd _ response.CanaryTrafficPercentage = r at hw
  rcases r with out | ⟨p1, vs⟩
  · simp only at hw ⊢
    rw [hw, updatesOf_append, hs.1, hmk]
    rfl
  · simp only at hw ⊢
    rw [finishWith_updates, hw.1, updatesOf_append, hs.1, hmk]
    rfl

end Istio

namespace Knative
open V1alpha1

theorem askAnalytics_noabort (env : Env) (p : Pass) (bs cs : CoreService)
    (response : Response) (hinv : env.invoke = .ok response)
    (hna : response.Summary.AbortExperiment = false)
    (hl : response.LastState = none ∨ ∃ st, env.marshalLastState = .ok st) :
    ∃ p1, askAnalytics env p bs cs = .inr (p1, response.CanaryTrafficPercentage) ∧
      p1.inst.Spec = p.inst.Spec ∧ p1.kservice = p.kservice := by
  obtain ⟨p1, hp1⟩ := storeResponse_ok env
    { p with calls := p.calls ++ [Call.Invoke p.inst.Spec.AnalyticsEndpoint
        { inst := p.inst, baselineService := bs, candidateService := cs }] } response hl
  have h := storeResponse_frame env
    { p with calls := p.calls ++ [Call.Invoke p.inst.Spec.AnalyticsEndpoint
        { inst := p.inst, baselineService := bs, candidateService := cs }] } response
  rw [hp1] at h
  simp only at h
  refine ⟨p1, ?_, h.2.2.2.2.1, h.2.2.2.1⟩
  unfold askAnalytics
  simp only [hinv, hna, Bool.false_eq_true, if_false]
  exact hp1

theorem iteration_check_targets (env : Env) (p : Pass) (bs cs : CoreService)
    (response : Response)
    (hs : p.inst.Spec.TrafficControl.Strategy = "check_and_increment")
    (hb : env.baselineCoreService = .ok bs) (hc : env.candidateCoreService = .ok cs)
    (hinv : env.invoke = .ok response)
    (hna : response.Summary.AbortExperiment = false)
    (hl : response.LastState = none ∨ ∃ st, env.marshalLastState = .ok st) :
    (match syncKnativeIteration env p with
      | .inl out => out
      | .inr (p1, ts) => keepProgressing env p1 (some ts)).targets =
      some (setPercents p.inst.Spec.TargetService.Baseline p.inst.Spec.TargetService.Candidate
        response.CanaryTrafficPercentage (p.kservice.Traffic.getD []) false).1 := by
  obtain ⟨p1, h1, hspec, hks⟩ := askAnalytics_noabort env p bs cs response hinv hna hl
  unfold syncKnativeIteration
  simp only [hs]
  rw [if_neg (by decide), if_pos trivial]
  unfold checkAndIncrement
  simp only [hb, hc, h1]
  have ha := applyPercent_inv env p1 response.CanaryTrafficPercentage
  generalize applyPercent env p1 response.CanaryTrafficPercentage = r at ha
  rcases r with out | ⟨p2, ts⟩
  · simp only at ha ⊢
    rw [ha.2.2, hspec, hks]
  · simp only at ha ⊢
    rw [(keepProgressing_eq env p2 (some ts)).2.2.2.2.1, ha.2.2.2.2, hspec, hks]

end Knative

namespace V1alpha2

theorem InitStatus_conditions (e : Experiment) (clock : Nat → Time) :
    (InitStatus e clock).Status.Conditions =
      e.Status.Conditions ++
        [ { Type_ := .MetricsSynced, Status := ConditionUnknown, Reason := none,
            Message := none, LastTransitionTime := some (clock 0) },
          { Type_ := .TargetsProvided, Status := ConditionUnknown, Reason := none,
            Message := none, LastTransitionTime := some (clock 1) },
          { Type_ := .ExperimentCompleted, Status := ConditionUnknown, Reason := none,
            Message := none, LastTransitionTime := some (clock 2) },
          { Type_ := .AnalyticsServiceNormal, Status := ConditionUnknown, Reason := none,
            Message := none, LastTransitionTime := some (clock 3) },
          { Type_ := .RoutingRulesReady, Status := ConditionUnknown, Reason := none,
            Message := none, LastTransitionTime := some (clock 4) } ] := by
  unfold InitStatus
  simp only [experimentCondSet, List.foldl, addCondition]
  cases h : e.Status.AnalysisState with
  | none => simp
  | some raw =>
    obtain ⟨r⟩ := raw
    cases r <;> simp

theorem InitStatus_conditionsSet (e : Experiment) (clock : Nat → Time)
    (h : ConditionsSet e.Status) : ConditionsSet (InitStatus e clock).Status := by
  intro c hc hs
  rw [InitStatus_conditions] at hc
  simp only [List.mem_append, List.mem_cons, List.mem_singleton, List.not_mem_nil,
    or_false] at hc
  rcases hc with hc | hc | hc | hc | hc | hc
  · exact h c hc hs
  all_goals
    rw [hc] at hs
    simp [ConditionUnknown, ConditionTrue, ConditionFalse] at hs

theorem getCondition_index (s : ExperimentStatus) (t : ExperimentConditionType) (now : Time) :
    ∃ c, (getCondition s t now).1.Conditions[(getCondition s t now).2]? = some c ∧
      c ∈ (getCondition s t now).1.Conditions := by
  unfold getCondition
  cases hf : findCondition s.Conditions t with
  | some i =>
    obtain ⟨c, hc, _⟩ := findCondition_some t _ i hf
    exact ⟨c, hc, List.getElem?_mem hc⟩
  | none => simp [addCondition]

theorem getCondition_conditionsSet (s : ExperimentStatus) (t : ExperimentConditionType)
    (now : Time) (h : ConditionsSet s) : ConditionsSet (getCondition s t now).1 := by
  unfold getCondition
  cases hf : findCondition s.Conditions t with
  | some i => exact h
  | none =>
    intro c hc hs
    simp only [addCondition, List.mem_append, List.mem_singleton] at hc
    rcases hc with hc | hc
    · exact h c hc hs
    · rw [hc] at hs
      simp [ConditionUnknown, ConditionTrue, ConditionFalse] at hs

theorem markCondition_set (c c1 : ExperimentCondition) (status : ConditionStatus)
    (reason message : String) (now : Time) (u : Bool)
    (h : markCondition c status reason message now = some (c1, u)) :
    c1.Reason.isSome = true ∧ c1.Message.isSome = true ∧ c1.Status = status := by
  unfold markCondition at h
  simp only at h
  split at h
  · simp at h
  · simp only [Option.some.injEq, Prod.mk.injEq] at h
    rw [← h.1]
    exact ⟨rfl, rfl, rfl⟩

theorem markCondition_returns (c : ExperimentCondition) (status : ConditionStatus)
    (reason message : String) (now : Time)
    (hc : c.Status = status → c.Reason.isSome = true ∧ c.Message.isSome = true) :
    ∃ c1 u, markCondition c status reason message now = some (c1, u) := by
  unfold markCondition
  by_cases hs : status ≠ c.Status
  · simp [hs]
  · have heq : c.Status = status := by
      by_contra hne
      exact hs (fun h => hne h.symm)
    obtain ⟨hr, hm⟩ := hc heq
    obtain ⟨r, hr1⟩ := Option.isSome_iff_exists.mp hr
    obtain ⟨m, hm1⟩ := Option.isSome_iff_exists.mp hm
    simp only [hs, if_false, hr1, hm1]
    split_ifs <;> exact ⟨_, _, rfl⟩

theorem markCondition_unknown (c : ExperimentCondition) (status : ConditionStatus)
    (reason message : String) (now : Time) (hc : c.Status = ConditionUnknown)
    (hs : status = ConditionTrue ∨ status = ConditionFalse) :
    ∃ c1, markCondition c status reason message now = some (c1, true) := by
  have hne : status ≠ c.Status := by
    rw [hc]
    rcases hs with h | h <;> rw [h] <;> decide
  unfold markCondition
  simp [hne]

theorem getAndMark_conditionsSet (s s1 : ExperimentStatus) (t : ExperimentConditionType)
    (status : ConditionStatus) (reason message : String) (tAdd tMark : Time) (u : Bool)
    (hinv : ConditionsSet s)
    (h : getAndMark s t status reason message tAdd tMark = some (s1, u)) :
    ConditionsSet s1 := by
  have h1 := getCondition_conditionsSet s t tAdd hinv
  obtain ⟨c, hc, _⟩ := getCondition_index s t tAdd
  unfold getAndMark at h
  simp only [hc] at h
  cases hm : markCondition c status reason message tMark with
  | none => simp [hm] at h
  | some r =>
    obtain ⟨c1, u1⟩ := r
    simp only [hm, Option.some.injEq, Prod.mk.injEq] at h
    rw [← h.1]
    intro x hx hs
    simp only at hx
    rcases List.mem_or_eq_of_mem_set hx with hx | hx
    · exact h1 x hx hs
    · rw [hx]
      have := markCondition_set _ _ _ _ _ _ _ hm
      exact ⟨this.1, this.2.1⟩

theorem getAndMark_returns (s : ExperimentStatus) (t : ExperimentConditionType)
    (status : ConditionStatus) (reason message : String) (tAdd tMark : Time)
    (hinv : ConditionsSet s) (hs : status = ConditionTrue ∨ status = ConditionFalse) :
    ∃ s1 u, getAndMark s t status reason message tAdd tMark = some (s1, u) := by
  have h1 := getCondition_conditionsSet s t tAdd hinv
  obtain ⟨c, hc, hmem⟩ := getCondition_index s t tAdd
  obtain ⟨c1, u, hm⟩ := markCondition_returns c status reason message tMark
    (fun heq => h1 c hmem (by rw [heq]; exact hs))
  unfold getAndMark
  simp only [hc, hm]
  exact ⟨_, _, rfl⟩

theorem conditionIsTrue_conditionsSet (s : ExperimentStatus) (t : ExperimentConditionType)
    (now : Time) (hinv : ConditionsSet s) : ConditionsSet (conditionIsTrue s t now).1 := by
  have h1 := getCondition_conditionsSet s t now hinv
  obtain ⟨c, hc, _⟩ := getCondition_index s t now
  unfold conditionIsTrue
  simp only [hc]
  exact h1

theorem applyOp_conditionsSet (op : StatusOp) (s s1 : ExperimentStatus)
    (hinv : ConditionsSet s) (h : applyOp op s = some s1) : ConditionsSet s1 := by
  have key : ∀ (s0 : ExperimentStatus) (t : ExperimentConditionType)
      (status : ConditionStatus) (reason msg : String) (tAdd tMark : Time),
      Option.map (fun x : ExperimentStatus × Bool × String => x.1)
        (withReason (getAndMark s0 t status reason msg tAdd tMark) reason) = some s1 →
      s0.Conditions = s.Conditions → ConditionsSet s1 := by
    intro s0 t status reason msg tAdd tMark h hs0
    have h0 : ConditionsSet s0 := by unfold ConditionsSet at hinv ⊢; rw [hs0]; exact hinv
    cases hg : getAndMark s0 t status reason msg tAdd tMark with
    | none => simp [hg, withReason] at h
    | some r =>
      obtain ⟨s2, u⟩ := r
      simp only [hg, withReason, Option.map_some', Option.some.injEq] at h
      subst h
      exact getAndMark_conditionsSet s0 s2 t status reason msg tAdd tMark u h0 hg
  have keyMsg : ∀ (s0 : ExperimentStatus) (v : String) (t : ExperimentConditionType)
      (status : ConditionStatus) (reason msg : String) (tAdd tMark : Time),
      Option.map (fun x : ExperimentStatus × Bool × String => x.1)
        (match storeThroughMessage s0 v with
          | none => none
          | some s2 => withReason (getAndMark s2 t status reason msg tAdd tMark) reason) =
        some s1 →
      s0.Conditions = s.Conditions → ConditionsSet s1 := by
    intro s0 v t status reason msg tAdd tMark h hs0
    unfold storeThroughMessage at h
    cases hm : s0.Message with
    | none => simp [hm] at h
    | some m =>
      simp only [hm] at h
      exact key { s0 with Message := some v } t status reason msg tAdd tMark h hs0
  cases op with
  | MarkMetricsSynced msg a m => exact key s _ _ _ _ _ _ h rfl
  | MarkMetricsSyncedError msg a m => exact keyMsg _ _ _ _ _ _ _ _ h rfl
  | MarkTargetsFound msg a m => exact key s _ _ _ _ _ _ h rfl
  | MarkTargetsError msg a m => exact keyMsg _ _ _ _ _ _ _ _ h rfl
  | MarkRoutingRulesReady msg a m => exact key _ _ _ _ _ _ _ h rfl
  | MarkRoutingRulesError msg a m => exact key _ _ _ _ _ _ _ h rfl
  | MarkAnalyticsServiceRunning msg a m => exact key s _ _ _ _ _ _ h rfl
  | MarkAnalyticsServiceError msg a m => exact key _ _ _ _ _ _ _ h rfl
  | MarkExperimentCompleted msg a m => exact key _ _ _ _ _ _ _ h rfl
  | MarkIterationUpdate msg a m => exact key _ _ _ _ _ _ _ h rfl
  | MarkTrafficUpdate msg a m => exact key _ _ _ _ _ _ _ h rfl
  | MarkExperimentPause msg a m => exact key _ _ _ _ _ _ _ h rfl
  | MarkExperimentResume msg a m => exact key _ _ _ _ _ _ _ h rfl
  | MetricsSynced now =>
    simp only [applyOp, Option.some.injEq] at h
    subst h
    exact conditionIsTrue_conditionsSet s _ now hinv
  | TargetsFound now =>
    simp only [applyOp, Option.some.injEq] at h
    subst h
    exact conditionIsTrue_conditionsSet s _ now hinv
  | ExperimentCompleted now =>
    simp only [applyOp, Option.some.injEq] at h
    subst h
    exact conditionIsTrue_conditionsSet s _ now hinv

theorem runOps_conditionsSet (ops : List StatusOp) :
    ∀ (s s1 : ExperimentStatus), ConditionsSet s → runOps ops s = some s1 →
      ConditionsSet s1 := by
  induction ops with
  | nil =>
    intro s s1 hinv h
    simp only [runOps, Option.some.injEq] at h
    subst h
    exact hinv
  | cons op rest ih =>
    intro s s1 hinv h
    simp only [runOps] at h
    cases ha : applyOp op s with
    | none => simp [ha] at h
    | some s2 =>
      simp only [ha] at h
      exact ih s2 s1 (applyOp_conditionsSet op s s2 hinv ha) h

end V1alpha2
namespace V1alpha2

theorem findCondition_find (t : ExperimentConditionType) :
    ∀ cs : List ExperimentCondition,
      (findCondition cs t = none ∧ cs.find? (fun c => decide (c.Type_ = t)) = none) ∨
      (∃ i c, findCondition cs t = some i ∧ cs[i]? = some c ∧
        cs.find? (fun c => decide (c.Type_ = t)) = some c ∧ c.Type_ = t) := by
  intro cs
  induction cs with
  | nil => exact Or.inl ⟨rfl, rfl⟩
  | cons x rest ih =>
    by_cases hx : x.Type_ = t
    · exact Or.inr ⟨0, x, by simp [findCondition, hx], by simp, by simp [hx], hx⟩
    · rcases ih with ⟨h1, h2⟩ | ⟨i, c, h1, h2, h3, h4⟩
      · exact Or.inl ⟨by simp [findCondition, hx, h1], by simp [hx, h2]⟩
      · exact Or.inr ⟨i + 1, c, by simp [findCondition, hx, h1], by simpa using h2,
          by simp [hx, h3], h4⟩

theorem conditionIsTrue_find (s : ExperimentStatus) (t : ExperimentConditionType)
    (now : Time) :
    (conditionIsTrue s t now).2 =
      ((s.Conditions.find? (fun c => decide (c.Type_ = t))).map
        (fun c => decide (c.Status = ConditionTrue))).getD false := by
  unfold conditionIsTrue getCondition
  rcases findCondition_find t s.Conditions with ⟨h1, h2⟩ | ⟨i, c, h1, h2, h3, _⟩
  · simp [h1, h2, addCondition, ConditionUnknown, ConditionTrue]
  · simp [h1, h2, h3]

theorem find_set_other (p : ExperimentCondition → Bool) (y : ExperimentCondition) :
    ∀ (l : List ExperimentCondition) (i : Nat) (x : ExperimentCondition),
      l[i]? = some x → p x = false → p y = false → (l.set i y).find? p = l.find? p := by
  intro l
  induction l with
  | nil => intro i x h; simp at h
  | cons a rest ih =>
    intro i x h hx hy
    cases i with
    | zero =>
      simp only [List.getElem?_cons_zero, Option.some.injEq] at h
      subst h
      simp [List.find?, hx, hy]
    | succ j =>
      simp only [List.getElem?_cons_succ] at h
      simp only [List.set_cons_succ, List.find?]
      rw [ih j x h hx hy]

theorem find_set_first (t : ExperimentConditionType) (y : ExperimentCondition)
    (hy : y.Type_ = t) :
    ∀ (l : List ExperimentCondition) (i : Nat), findCondition l t = some i →
      (l.set i y).find? (fun c => decide (c.Type_ = t)) = some y := by
  intro l
  induction l with
  | nil => intro i h; simp [findCondition] at h
  | cons a rest ih =>
    intro i h
    simp only [findCondition] at h
    split_ifs at h with ha
    · simp only [Option.some.injEq] at h
      subst h
      simp [hy]
    · cases hf : findCondition rest t with
      | none => simp [hf] at h
      | some j =>
        simp only [hf, Option.some.injEq] at h
        subst h
        simp only [List.set_cons_succ, List.find?, ha, decide_False]
        exact ih j hf

theorem findCondition_append_new (t : ExperimentConditionType) (n : ExperimentCondition)
    (hn : n.Type_ = t) :
    ∀ cs : List ExperimentCondition, findCondition cs t = none →
      findCondition (cs ++ [n]) t = some cs.length := by
  intro cs
  induction cs with
  | nil => intro _; simp [findCondition, hn]
  | cons a rest ih =>
    intro h
    simp only [findCondition] at h
    split_ifs at h with ha
    cases hf : findCondition rest t with
    | some j => simp [hf] at h
    | none =>
      have hi : findCondition (rest.append [n]) t = some rest.length := ih hf
      simp only [List.cons_append, findCondition, if_neg ha, List.length_cons]
      rw [hi]

theorem getCondition_found (s : ExperimentStatus) (t : ExperimentConditionType) (now : Time) :
    findCondition (getCondition s t now).1.Conditions t = some (getCondition s t now).2 ∧
    (getCondition s t now).1.Phase = s.Phase ∧
    (∀ t1, t1 ≠ t →
      (getCondition s t now).1.Conditions.find? (fun c => decide (c.Type_ = t1)) =
        s.Conditions.find? (fun c => decide (c.Type_ = t1))) := by
  unfold getCondition
  cases hf : findCondition s.Conditions t with
  | some i => refine ⟨hf, ?_, ?_⟩ <;> simp
  | none =>
    simp only [addCondition]
    refine ⟨findCondition_append_new t _ rfl _ hf, trivial, ?_⟩
    intro t1 h1
    rw [List.find?_append]
    have : ¬ t = t1 := fun h => h1 h.symm
    simp [this]

/-- What a `Mark*` call leaves of the condition list: the first condition of the type it
marks has the status given, the first condition of every other type is the one before, and
the phase is the one the status had when the condition was marked. -/
theorem getAndMark_find (s s1 : ExperimentStatus) (t : ExperimentConditionType)
    (status : ConditionStatus) (reason message : String) (tAdd tMark : Time) (u : Bool)
    (h : getAndMark s t status reason message tAdd tMark = some (s1, u)) :
    s1.Phase = s.Phase ∧
    (∃ c1, s1.Conditions.find? (fun c => decide (c.Type_ = t)) = some c1 ∧
      c1.Status = status) ∧
    (∀ t1, t1 ≠ t →
      s1.Conditions.find? (fun c => decide (c.Type_ = t1)) =
        s.Conditions.find? (fun c => decide (c.Type_ = t1))) := by
  obtain ⟨hfound, hphase, hother⟩ := getCondition_found s t tAdd
  obtain ⟨c, hc, hct⟩ := findCondition_some t _ _ hfound
  unfold getAndMark at h
  simp only [hc] at h
  cases hm : markCondition c status reason message tMark with
  | none => simp [hm] at h
  | some r =>
    obtain ⟨c1, u1⟩ := r
    simp only [hm, Option.some.injEq, Prod.mk.injEq] at h
    have hty := markCondition_type _ _ _ _ _ _ _ hm
    have hset := markCondition_set _ _ _ _ _ _ _ hm
    rw [← h.1]
    refine ⟨hphase, ⟨c1, ?_, hset.2.2⟩, ?_⟩
    · exact find_set_first t c1 (by rw [hty, hct]) _ _ hfound
    · intro t1 h1
      simp only
      rw [find_set_other _ c1 _ _ c hc (by simp [hct]; exact fun h => h1 h.symm)
        (by simp [hty, hct]; exact fun h => h1 h.symm)]
      exact hother t1 h1

theorem withReason_find (s0 : ExperimentStatus) (t : ExperimentConditionType)
    (status : ConditionStatus) (reason msg : String) (tAdd tMark : Time)
    (y : ExperimentStatus × Bool × String)
    (h : withReason (getAndMark s0 t status reason msg tAdd tMark) reason = some y) :
    y.1.Phase = s0.Phase ∧
    (∃ c1, y.1.Conditions.find? (fun c => decide (c.Type_ = t)) = some c1 ∧
      c1.Status = status) ∧
    (∀ t1, t1 ≠ t →
      y.1.Conditions.find? (fun c => decide (c.Type_ = t1)) =
        s0.Conditions.find? (fun c => decide (c.Type_ = t1))) :=
  getAndMark_find s0 y.1 t status reason msg tAdd tMark y.2.1 (withReason_some _ _ _ h)

theorem storeThrough_find (s0 : ExperimentStatus) (v : String) (t : ExperimentConditionType)
    (status : ConditionStatus) (reason msg : String) (tAdd tMark : Time)
    (y : ExperimentStatus × Bool × String)
    (h : (match storeThroughMessage s0 v with
      | none => none
      | some s2 => withReason (getAndMark s2 t status reason msg tAdd tMark) reason) =
      some y) :
    y.1.Phase = s0.Phase ∧
    (∃ c1, y.1.Conditions.find? (fun c => decide (c.Type_ = t)) = some c1 ∧
      c1.Status = status) ∧
    (∀ t1, t1 ≠ t →
      y.1.Conditions.find? (fun c => decide (c.Type_ = t1)) =
        s0.Conditions.find? (fun c => decide (c.Type_ = t1))) := by
  unfold storeThroughMessage at h
  cases hm : s0.Message with
  | none => simp [hm] at h
  | some m =>
    simp only [hm] at h
    exact withReason_find { s0 with Message := some v } t status reason msg tAdd tMark y h

end V1alpha2

namespace Cache
open V1alpha1

theorem deleteTargets_some (k : KeyFuncs) (ns key v : String) :
    ∀ (names : List String) (m : GoMap String),
      deleteTargets k m names ns key = some v → m key = some v := by
  intro names
  induction names with
  | nil => intro m h; exact h
  | cons a rest ih =>
    intro m h
    simp only [deleteTargets, List.foldl_cons] at h
    have h1 := ih _ h
    simp only [GoMap.delete] at h1
    split_ifs at h1
    exact h1

theorem owned_New (k : KeyFuncs) : Owned k New := by
  refine ⟨?_, ?_⟩ <;> intro tKey eaKey h <;> simp [New, GoMap.empty] at h

theorem owned_indexClosed (k : KeyFuncs) (c : Impl) (h : Owned k c) : IndexClosed c := by
  intro tKey eaKey hk
  rcases hk with hk | hk
  · obtain ⟨ea, hea, _⟩ := h.2 tKey eaKey hk
    simp [hea]
  · obtain ⟨ea, hea, _⟩ := h.1 tKey eaKey hk
    simp [hea]

theorem owned_Register (k : KeyFuncs) (c : Impl) (inst : Experiment) (h : Owned k c) :
    Owned k (RegisterExperiment k c inst).1 := by
  cases hst : c.experimentAbstractStore (k.experimentKey inst) with
  | some ea => rw [RegisterExperiment_known k c inst ea hst]; exact h
  | none =>
    simp only [RegisterExperiment, hst]
    refine ⟨?_, ?_⟩
    · intro tKey eaKey hk
      simp only [GoMap.set] at hk ⊢
      split_ifs at hk with h1
      · simp only [Option.some.injEq] at hk
        subst hk
        exact ⟨NewExperiment inst (GetServiceNamespace inst), by simp, by rw [h1]; rfl⟩
      · obtain ⟨ea, hea, hkey⟩ := h.1 tKey eaKey hk
        have hne : eaKey ≠ k.experimentKey inst := by
          intro he; rw [he, hst] at hea; cases hea
        exact ⟨ea, by simp [hne, hea], hkey⟩
    · intro tKey eaKey hk
      simp only [GoMap.set] at hk ⊢
      split_ifs at hk with h1 h2
      · simp only [Option.some.injEq] at hk
        subst hk
        exact ⟨NewExperiment inst (GetServiceNamespace inst), by simp,
          inst.Spec.TargetService.Candidate,
          assocSet_mem_self _ _ _, by rw [h1]; rfl⟩
      · simp only [Option.some.injEq] at hk
        subst hk
        exact ⟨NewExperiment inst (GetServiceNamespace inst), by simp,
          inst.Spec.TargetService.Baseline,
          assocSet_mem_keep _ _ _ _ (assocSet_mem_self _ _ _), by rw [h2]; rfl⟩
      · obtain ⟨ea, hea, hkey⟩ := h.2 tKey eaKey hk
        have hne : eaKey ≠ k.experimentKey inst := by
          intro he; rw [he, hst] at hea; cases hea
        exact ⟨ea, by simp [hne, hea], hkey⟩

theorem owned_Remove (k : KeyFuncs) (c : Impl) (inst : Experiment) (h : Owned k c) :
    Owned k (RemoveExperiment k c inst) := by
  cases hst : c.experimentAbstractStore (k.experimentKey inst) with
  | none => simp only [RemoveExperiment, hst]; exact h
  | some ea0 =>
    simp only [RemoveExperiment, hst]
    refine ⟨?_, ?_⟩
    · intro tKey eaKey hk
      simp only [GoMap.delete] at hk ⊢
      split_ifs at hk with h1
      obtain ⟨ea, hea, hkey⟩ := h.1 tKey eaKey hk
      have hne : eaKey ≠ k.experimentKey inst := by
        intro he
        rw [he, hst] at hea
        simp only [Option.some.injEq] at hea
        subst hea
        exact h1 hkey
      exact ⟨ea, by simp [hne, hea], hkey⟩
    · intro tKey eaKey hk
      have hk0 := deleteTargets_some k _ _ _ _ _ hk
      obtain ⟨ea, hea, name, hname, hkey⟩ := h.2 tKey eaKey hk0
      have hne : eaKey ≠ k.experimentKey inst := by
        intro he
        rw [he, hst] at hea
        simp only [Option.some.injEq] at hea
        subst hea
        have hd := deleteTargets_mem k ea0.TargetsAbstract.Namespace name _
          c.deployment2Experiment hname
        rw [hkey] at hk
        simp only [hd] at hk
        cases hk
      exact ⟨ea, by simp [GoMap.delete, hne, hea], name, hname, hkey⟩

theorem owned_markTargetIn (k : KeyFuncs) (c c1 : Impl) (eaKey targetName : String)
    (found : Bool) (h : Owned k c) (hm : markTargetIn c eaKey targetName found = some c1) :
    Owned k c1 := by
  unfold markTargetIn at hm
  cases hst : c.experimentAbstractStore eaKey with
  | none => rw [hst] at hm; cases hm
  | some ea0 =>
    rw [hst] at hm
    simp only [Option.some.injEq] at hm
    subst hm
    refine ⟨?_, ?_⟩
    · intro tKey ek hk
      obtain ⟨ea, hea, hkey⟩ := h.1 tKey ek hk
      by_cases he : ek = eaKey
      · subst he
        rw [hst] at hea
        simp only [Option.some.injEq] at hea
        subst hea
        exact ⟨{ TargetsAbstract := ea0.TargetsAbstract.MarkTargetFound targetName found },
          by simp [GoMap.set], hkey⟩
      · exact ⟨ea, by simp [GoMap.set, he, hea], hkey⟩
    · intro tKey ek hk
      obtain ⟨ea, hea, name, hname, hkey⟩ := h.2 tKey ek hk
      by_cases he : ek = eaKey
      · subst he
        rw [hst] at hea
        simp only [Option.some.injEq] at hea
        subst hea
        exact ⟨{ TargetsAbstract := ea0.TargetsAbstract.MarkTargetFound targetName found },
          by simp [GoMap.set], name, assocSet_mem_keep _ _ _ _ hname, hkey⟩
      · exact ⟨ea, by simp [GoMap.set, he, hea], name, hname, hkey⟩

theorem owned_markServiceIn (k : KeyFuncs) (c c1 : Impl) (eaKey : String)
    (found : Bool) (h : Owned k c) (hm : markServiceIn c eaKey found = some c1) :
    Owned k c1 := by
  unfold markServiceIn at hm
  cases hst : c.experimentAbstractStore eaKey with
  | none => rw [hst] at hm; cases hm
  | some ea0 =>
    rw [hst] at hm
    simp only [Option.some.injEq] at hm
    subst hm
    refine ⟨?_, ?_⟩
    · intro tKey ek hk
      obtain ⟨ea, hea, hkey⟩ := h.1 tKey ek hk
      by_cases he : ek = eaKey
      · subst he
        rw [hst] at hea
        simp only [Option.some.injEq] at hea
        subst hea
        exact ⟨{ TargetsAbstract := ea0.TargetsAbstract.MarkServiceFound found },
          by simp [GoMap.set], hkey⟩
      · exact ⟨ea, by simp [GoMap.set, he, hea], hkey⟩
    · intro tKey ek hk
      obtain ⟨ea, hea, name, hname, hkey⟩ := h.2 tKey ek hk
      by_cases he : ek = eaKey
      · subst he
        rw [hst] at hea
        simp only [Option.some.injEq] at hea
        subst hea
        exact ⟨{ TargetsAbstract := ea0.TargetsAbstract.MarkServiceFound found },
          by simp [GoMap.set], name, hname, hkey⟩
      · exact ⟨ea, by simp [GoMap.set, he, hea], name, hname, hkey⟩

theorem markDeployment_owned (k : KeyFuncs) (c : Impl) (n ns : String) (found : Bool)
    (h : Owned k c) :
    ∃ c1 b, (match c.deployment2Experiment (k.targetKey n ns) with
        | none => some (c, false)
        | some eaKey => (markTargetIn c eaKey n found).map (fun c1 => (c1, true))) =
        some (c1, b) ∧ Owned k c1 := by
  cases hk : c.deployment2Experiment (k.targetKey n ns) with
  | none => exact ⟨c, false, rfl, h⟩
  | some eaKey =>
    obtain ⟨ea, hea, _⟩ := h.2 _ _ hk
    have hm : ∃ c1, markTargetIn c eaKey n found = some c1 := by
      simp [markTargetIn, hea]
    obtain ⟨c1, hc1⟩ := hm
    exact ⟨c1, true, by simp [hc1], owned_markTargetIn k c c1 eaKey n found h hc1⟩

theorem markService_owned (k : KeyFuncs) (c : Impl) (n ns : String) (found : Bool)
    (h : Owned k c) :
    ∃ c1 b, (match c.service2Experiment (k.targetKey n ns) with
        | none => some (c, false)
        | some eaKey => (markServiceIn c eaKey found).map (fun c1 => (c1, true))) =
        some (c1, b) ∧ Owned k c1 := by
  cases hk : c.service2Experiment (k.targetKey n ns) with
  | none => exact ⟨c, false, rfl, h⟩
  | some eaKey =>
    obtain ⟨ea, hea, _⟩ := h.1 _ _ hk
    have hm : ∃ c1, markServiceIn c eaKey found = some c1 := by
      simp [markServiceIn, hea]
    obtain ⟨c1, hc1⟩ := hm
    exact ⟨c1, true, by simp [hc1], owned_markServiceIn k c c1 eaKey found h hc1⟩

theorem applyCacheOp_owned (k : KeyFuncs) (op : CacheOp) (c : Impl) (h : Owned k c) :
    ∃ c1, applyCacheOp k op c = some c1 ∧ Owned k c1 := by
  cases op with
  | Register inst => exact ⟨_, rfl, owned_Register k c inst h⟩
  | Remove inst => exact ⟨_, rfl, owned_Remove k c inst h⟩
  | MarkDeploymentFound n ns =>
    obtain ⟨c1, b, hc, ho⟩ := markDeployment_owned k c n ns true h
    exact ⟨c1, by simp only [applyCacheOp, MarkTargetDeploymentFound]; rw [hc]; rfl, ho⟩
  | MarkDeploymentMissing n ns =>
    obtain ⟨c1, b, hc, ho⟩ := markDeployment_owned k c n ns false h
    exact ⟨c1, by simp only [applyCacheOp, MarkTargetDeploymentMissing]; rw [hc]; rfl, ho⟩
  | MarkServiceFound n ns =>
    obtain ⟨c1, b, hc, ho⟩ := markService_owned k c n ns true h
    exact ⟨c1, by simp only [applyCacheOp, MarkTargetServiceFound]; rw [hc]; rfl, ho⟩
  | MarkServiceMissing n ns =>
    obtain ⟨c1, b, hc, ho⟩ := markService_owned k c n ns false h
    exact ⟨c1, by simp only [applyCacheOp, MarkTargetServiceMissing]; rw [hc]; rfl, ho⟩

theorem runCache_owned (k : KeyFuncs) :
    ∀ (ops : List CacheOp) (c : Impl), Owned k c →
      ∃ c1, runCache k ops c = some c1 ∧ Owned k c1 := by
  intro ops
  induction ops with
  | nil => intro c h; exact ⟨c, rfl, h⟩
  | cons op rest ih =>
    intro c h
    obtain ⟨c1, hc1, ho⟩ := applyCacheOp_owned k op c h
    obtain ⟨c2, hc2, ho2⟩ := ih c1 ho
    exact ⟨c2, by simp only [runCache, hc1]; exact hc2, ho2⟩

end Cache

namespace Istio

theorem intOfFloat_intCast (z : Int) : intOfFloat (z : ℚ) = z := by
  simp [intOfFloat]

theorem dueFloat_int (env : Env) (canary : Canary) (cur : Int) :
    dueFloat (canary.Spec.TrafficControl.MaxTrafficPercent : ℚ) env canary cur =
      due env canary cur := by
  simp [dueFloat, due]

theorem syncIstioStepFloat_int (env : Env) (rd : Ready) (cur : Int) :
    syncIstioStepFloat (rd.pass.canary.Spec.TrafficControl.StepSize : ℚ) env rd cur =
      syncIstioStep env rd cur := by
  unfold syncIstioStepFloat syncIstioStep
  simp only
  rw [← Int.cast_add, intOfFloat_intCast, intOfFloat_intCast]

theorem syncIstioFinishFloat_int (env : Env) (p : Pass) (b c : Deployment) (w : Int) :
    syncIstioFinishFloat (p.canary.Spec.TrafficControl.MaxTrafficPercent : ℚ) env p b c w =
      syncIstioFinish env p b c w := by
  unfold syncIstioFinishFloat syncIstioFinish
  simp only [intOfFloat_intCast]

theorem writeVirtualService_spec (env : Env) (rd : Ready) (p : Pass) (w : Int) :
    ∀ q vs, writeVirtualService env rd p w = .inr (q, vs) → q.canary.Spec = p.canary.Spec := by
  intro q vs h
  unfold writeVirtualService at h
  cases hu : env.updateVirtualService with
  | some err => simp [hu] at h
  | none =>
    simp only [hu, Sum.inr.injEq, Prod.mk.injEq] at h
    rw [← h.1]
    rfl

theorem syncIstioStep_spec (env : Env) (rd : Ready) (cur : Int) :
    ∀ q vs, syncIstioStep env rd cur = .inr (q, vs) →
      q.canary.Spec = rd.pass.canary.Spec := by
  intro q vs h
  unfold syncIstioStep at h
  simp only at h
  split_ifs at h
  · exact writeVirtualService_spec env rd _ _ q vs h
  · unfold checkAndIncrement at h
    simp only at h
    cases hi : env.invoke with
    | error e => simp [hi] at h
    | ok response =>
      simp only [hi] at h
      cases hm : env.marshalLastState with
      | error e => simp [hm] at h
      | ok lastState =>
        simp only [hm] at h
        exact (writeVirtualService_spec env rd _ _ q vs h).trans rfl
  · exact writeVirtualService_spec env rd _ _ q vs h

theorem syncIstio_float (env : Env) (canary : Canary) :
    syncIstioFloat (canary.Spec.TrafficControl.StepSize : ℚ)
        (canary.Spec.TrafficControl.MaxTrafficPercent : ℚ) env canary =
      syncIstio env canary := by
  have hu := syncIstioSetup_updates env canary
  unfold syncIstioFloat syncIstio
  cases hs : syncIstioSetup env canary with
  | inl out => rfl
  | inr rd =>
    rw [hs] at hu
    simp only at hu ⊢
    have hspec : rd.pass.canary.Spec = canary.Spec := hu.2.1
    unfold syncIstioRolloutFloat syncIstioRollout
    cases hw : getWeight Candidate rd.vs with
    | none => rfl
    | some cur =>
      simp only
      rw [← hspec, dueFloat_int, syncIstioStepFloat_int]
      have hfin : ∀ (p : Pass) (vs : VirtualService), p.canary.Spec = rd.pass.canary.Spec →
          finishWithFloat (rd.pass.canary.Spec.TrafficControl.MaxTrafficPercent : ℚ) env rd p vs =
            finishWith env rd p vs := by
        intro p vs hp
        unfold finishWithFloat finishWith
        cases getWeight Candidate vs with
        | none => rfl
        | some w => simp only; rw [← hp, syncIstioFinishFloat_int]
      split_ifs
      · cases hst : syncIstioStep env rd cur with
        | inl out => rfl
        | inr r =>
          obtain ⟨q, vs⟩ := r
          simp only
          exact hfin q vs (syncIstioStep_spec env rd cur q vs hst)
      · exact hfin rd.pass rd.vs rfl

end Istio

namespace Knative
open V1alpha1

theorem labels_get_set (l : Labels) (key value : String) (h : l.get key = none) :
    (l.set key value).get key = some value := by
  unfold Labels.get at h ⊢
  have hf : l.find? (fun p => p.1 == key) = none := by
    cases hx : l.find? (fun p => p.1 == key) with
    | none => rfl
    | some x => rw [hx] at h; simp at h
  unfold Labels.set
  simp [hf, List.find?_append]

theorem linkService_label (env : Env) (inst : Experiment) (ks : KService) (p : Pass)
    (h : linkService env inst ks = .inr p) :
    (p.kservice.Labels.get experimentLabel).isSome = true := by
  unfold linkService at h
  cases hl : ks.Labels.get experimentLabel with
  | some v =>
    simp only [hl] at h
    rw [(findTargets_inr env inst ks [] p h).2.2.1, hl]
    rfl
  | none =>
    simp only [hl] at h
    cases hu : env.updateServiceLabel with
    | some err => simp [hu] at h
    | none =>
      simp only [hu] at h
      rw [(findTargets_inr env inst _ _ p h).2.2.1]
      simp only
      rw [labels_get_set _ _ _ hl]
      rfl

theorem setup_label (env : Env) (inst : Experiment) (p : Pass)
    (h : syncKnativeSetup env inst = .inr p) :
    (p.kservice.Labels.get experimentLabel).isSome = true := by
  unfold syncKnativeSetup at h
  cases hg : env.getService with
  | error e => simp [hg] at h
  | ok ks =>
    simp only [hg] at h
    by_cases ht : (!ks.HasTemplate) = true
    · simp [ht] at h
    · rw [if_neg ht] at h
      cases hl : ks.Labels.get experimentLabel with
      | none => simp only [hl] at h; exact linkService_label env inst ks p h
      | some v =>
        simp only [hl] at h
        by_cases hv : v ≠ inst.Name
        · rw [if_pos hv] at h; simp at h
        · rw [if_neg hv] at h; exact linkService_label env inst ks p h

theorem syncKnativeTerminal_updates (env : Env) (p : Pass)
    (hl : (p.kservice.Labels.get experimentLabel).isSome = true) :
    serviceUpdates (syncKnativeTerminal env p).calls =
      serviceUpdates p.calls ++
        [{ p.kservice with Labels := p.kservice.Labels.delete experimentLabel }] := by
  have hf := terminalCollapse_frame p
  unfold syncKnativeTerminal
  simp only
  generalize terminalCollapse p = r at hf
  obtain ⟨q, u⟩ := r
  simp only at hf ⊢
  obtain ⟨hk, hcalls, _⟩ := hf
  have hq : (q.kservice.Labels.get experimentLabel).isSome = true := by rw [hk]; exact hl
  simp only [hq, Bool.true_or, if_true]
  cases env.updateServiceTerminal with
  | some err =>
    simp only [Pass.done, serviceUpdates_append, serviceUpdates, hcalls, hk]
  | none =>
    simp only [endExperiment, Pass.done, serviceUpdates_append, serviceUpdates, hcalls, hk,
      List.append_nil]

end Knative

namespace Routing

theorem Cleanup_update_calls (h : Builders) (store : Store) (r : IstioRoutingRules)
    (inst : V1alpha1.Experiment) (succeeded : Bool)
    (hpath : ¬ (inst.Spec.CleanUp = CleanUpDelete ∧ IsInit r = true)) :
    (∀ e, store.updateDestinationRule (stabilise h r inst succeeded).DestinationRule =
        .error e →
      (Cleanup h store r inst succeeded).calls =
        [StoreCall.UpdateDestinationRule (stabilise h r inst succeeded).DestinationRule]) ∧
    (∀ dr, store.updateDestinationRule (stabilise h r inst succeeded).DestinationRule =
        .ok dr →
      (Cleanup h store r inst succeeded).calls =
        [StoreCall.UpdateDestinationRule (stabilise h r inst succeeded).DestinationRule,
         StoreCall.UpdateVirtualService (stabilise h r inst succeeded).VirtualService]) := by
  unfold Cleanup
  rw [if_neg hpath]
  unfold UpdateRemoveRules
  constructor
  · intro e he
    simp only [he]
  · intro dr hd
    simp only [hd]
    cases store.updateVirtualService (stabilise h r inst succeeded).VirtualService with
    | error err => rfl
    | ok vs => rfl

end Routing

namespace Knative
open V1alpha1

theorem abort_updates (env : Env) (p : Pass) (bs cs : CoreService) (response : Response)
    (hs : p.inst.Spec.TrafficControl.Strategy = "check_and_increment")
    (hb : env.baselineCoreService = .ok bs) (hc : env.candidateCoreService = .ok cs)
    (hinv : env.invoke = .ok response) (habort : response.Summary.AbortExperiment = true)
    (hne : p.candidateTraffic.Percent ≠ 0 ∨ p.baselineTraffic.Percent ≠ 100)
    (hua : env.updateServiceAbort = none) (hut : env.updateServiceTraffic = none)
    (hl : response.LastState = none ∨ ∃ st, env.marshalLastState = .ok st) :
    serviceUpdates (match syncKnativeIteration env p with
      | .inl out => out
      | .inr (p1, ts) => keepProgressing env p1 (some ts)).calls =
      serviceUpdates p.calls ++ [p.kservice] ++
        (if (setPercents p.inst.Spec.TargetService.Baseline p.inst.Spec.TargetService.Candidate
            response.CanaryTrafficPercentage (p.kservice.Traffic.getD []) false).2 = true
          then [p.kservice] else []) := by
  unfold syncKnativeIteration
  simp only [hs]
  rw [if_neg (by decide), if_pos trivial]
  unfold checkAndIncrement
  simp only [hb, hc]
  unfold askAnalytics
  simp only [hinv, habort, if_true, if_pos hne, hua]
  unfold storeResponse
  cases hls : response.LastState with
  | none =>
    simp only
    unfold applyPercent
    simp only [hut]
    split_ifs <;>
      simp [keepProgressing, Pass.done, serviceUpdates_append, serviceUpdates]
  | some st =>
    rcases hl with hl | ⟨v, hv⟩
    · rw [hls] at hl; exact absurd hl (by simp)
    · simp only [hv]
      unfold applyPercent
      simp only [hut]
      split_ifs <;>
        simp [keepProgressing, Pass.done, serviceUpdates_append, serviceUpdates]

end Knative

/-! ## The claims -/

/-- C1: every traffic split the rollout writes is complementary. `makeVirtualService p` has
exactly a baseline route of weight `100 - p` and a candidate route of weight `p`, so the two
weights `getWeight` reads add up to 100 (in Go `int` arithmetic, and exactly whenever
`100 - p` does not overflow); every virtual service `syncIstio` passes to `Update` is such a
virtual service. In `syncKnative` the pair of local traffic targets is, at the end of every
pass, either untouched since it was read from the service or assigned with the baseline at 100
minus the candidate's value (abort, terminal collapse), and each round of the per-iteration
loop leaves `100 - w` in the baseline's target, `w` in the candidate's and 0 elsewhere, for
one rollout percent `w`. -/
theorem C1_split_is_complementary :
    (∀ (p : Int) (canary : Istio.Canary),
      (Istio.makeVirtualService p canary).HTTP =
        [ { Route :=
              [ { Destination := { Host := canary.Spec.TargetServiceName, Subset := Istio.Baseline }
                  Weight := wrapInt (100 - p) },
                { Destination := { Host := canary.Spec.TargetServiceName, Subset := Istio.Candidate }
                  Weight := p } ] } ] ∧
      Istio.getWeight Istio.Baseline (Istio.makeVirtualService p canary) = some (wrapInt (100 - p)) ∧
      Istio.getWeight Istio.Candidate (Istio.makeVirtualService p canary) = some p ∧
      wrapInt (wrapInt (100 - p) + p) = 100 ∧
      (inInt64 (100 - p) → wrapInt (100 - p) + p = 100)) ∧
    (∀ (env : Istio.Env) (canary : Istio.Canary),
      ∀ vs ∈ Istio.updatesOf (Istio.syncIstio env canary).calls,
        ∃ b c, Istio.getWeight Istio.Baseline vs = some b ∧
          Istio.getWeight Istio.Candidate vs = some c ∧ wrapInt (b + c) = 100) ∧
    (∀ (env : Knative.Env) (inst : V1alpha1.Experiment) (b c : Knative.TrafficTarget),
      (Knative.syncKnative env inst).baselineTraffic = some b →
      (Knative.syncKnative env inst).candidateTraffic = some c →
      b.Percent = 100 - c.Percent ∨
        ∃ ks, env.getService = .ok ks ∧
          Knative.getTrafficByName ks inst.Spec.TargetService.Baseline = some b ∧
          Knative.getTrafficByName ks inst.Spec.TargetService.Candidate = some c) ∧
    (∀ (env : Knative.Env) (inst : V1alpha1.Experiment) (ts : List Knative.TrafficTarget),
      (Knative.syncKnative env inst).targets = some ts →
      ∃ w, ∀ t ∈ ts, t.Percent =
        if t.RevisionName = inst.Spec.TargetService.Baseline then wrapInt (100 - w)
        else if t.RevisionName = inst.Spec.TargetService.Candidate then w else 0) := by
  refine ⟨?_, ?_, ?_, ?_⟩
  · intro p canary
    refine ⟨rfl, ?_, ?_, wrapInt_complement p, ?_⟩
    · simp [Istio.getWeight, Istio.makeVirtualService, Istio.weightOf]
    · simp [Istio.getWeight, Istio.makeVirtualService, Istio.weightOf, Istio.Baseline,
        Istio.Candidate]
    · intro h
      rw [wrapInt_of_inInt64 _ h]; omega
  · intro env canary vs hvs
    obtain ⟨w, rv, rfl⟩ := Istio.syncIstio_updates env canary vs hvs
    refine ⟨wrapInt (100 - w), w, ?_, ?_, wrapInt_complement w⟩
    · simp [Istio.getWeight, Istio.makeVirtualService, Istio.weightOf, Istio.setResourceVersion]
    · simp [Istio.getWeight, Istio.makeVirtualService, Istio.weightOf, Istio.setResourceVersion,
        Istio.Baseline, Istio.Candidate]
  · intro env inst b c hb hc
    unfold Knative.syncKnative at hb hc
    cases hs : Knative.syncKnativeSetup env inst with
    | inl out =>
      simp only [hs] at hb
      rw [(Knative.setup_inl env inst out hs).1] at hb
      exact absurd hb (by simp)
    | inr p =>
      simp only [hs] at hb hc
      obtain ⟨ks, hks, hkb, hkc, _, _⟩ := Knative.setup_inr env inst p hs
      rcases (Knative.syncKnativeRollout_inv env p).1 b c hb hc with h | ⟨h1, h2⟩
      · exact Or.inl h
      · exact Or.inr ⟨ks, hks, by rw [hkb, h1], by rw [hkc, h2]⟩
  · intro env inst ts hts
    unfold Knative.syncKnative at hts
    cases hs : Knative.syncKnativeSetup env inst with
    | inl out =>
      simp only [hs] at hts
      rw [(Knative.setup_inl env inst out hs).2.2] at hts
      exact absurd hts (by simp)
    | inr p =>
      simp only [hs] at hts
      obtain ⟨ks, _, _, _, _, hspec⟩ := Knative.setup_inr env inst p hs
      have h := (Knative.syncKnativeRollout_inv env p).2 ts hts
      rw [hspec] at h
      exact h

/-- C1, on a concrete pass: in the world `demoEnv 60 40` a due pass with strategy
`increment_without_check` and step 20 leaves 40 and 60 in the loop variable, and the pair of
local traffic targets is the one read from the service. -/
theorem C1_split_is_complementary_witness :
    (Knative.syncKnative (Knative.demoEnv 60 40)
        (Knative.demoExperiment "increment_without_check" 20)).targets =
      some [ { RevisionName := "v1", Percent := 40 }, { RevisionName := "v2", Percent := 60 } ] ∧
    ∃ w, ∀ t ∈ [ ({ RevisionName := "v1", Percent := 40 } : Knative.TrafficTarget),
                 { RevisionName := "v2", Percent := 60 } ],
      t.Percent = if t.RevisionName = "v1" then wrapInt (100 - w)
        else if t.RevisionName = "v2" then w else 0 :=
  ⟨by decide,
   C1_split_is_complementary.2.2.2 (Knative.demoEnv 60 40)
     (Knative.demoExperiment "increment_without_check" 20) _ (by decide)⟩

/-- C2: for a condition whose reason and message are set, `markCondition` returns, and the flag
it returns is true exactly when the new status, the new reason or the formatted message
differs from the one the condition holds; re-applying the status, reason and message the
condition holds returns false. -/
theorem C2_markCondition_flag_is_change (c : V1alpha2.ExperimentCondition)
    (status : V1alpha2.ConditionStatus) (reason message : String) (now : Time) (r m : String)
    (hr : c.Reason = some r) (hm : c.Message = some m) :
    (∃ c1 updated, V1alpha2.markCondition c status reason message now = some (c1, updated) ∧
      (updated = true ↔ (status ≠ c.Status ∨ reason ≠ r ∨ message ≠ m))) ∧
    (∃ c1, V1alpha2.markCondition c c.Status r m now = some (c1, false)) := by
  refine ⟨⟨_, _, V1alpha2.markCondition_flag c status reason message now r m hr hm, ?_⟩, ?_⟩
  · simp
  · rw [V1alpha2.markCondition_flag c c.Status r m now r m hr hm]
    exact ⟨({ c with Reason := some r, Message := some m, LastTransitionTime := some now } :
      V1alpha2.ExperimentCondition), by simp⟩

/-- C2 on `demoCondition`: marking it False with a new reason reports a change, marking it
again with what it holds reports none. -/
theorem C2_markCondition_flag_is_change_witness :
    V1alpha2.demoCondition.Reason = some V1alpha2.ReasonSyncMetricsSucceeded ∧
    V1alpha2.demoCondition.Message = some "" ∧
    ((∃ c1 updated, V1alpha2.markCondition V1alpha2.demoCondition V1alpha2.ConditionFalse
        V1alpha2.ReasonSyncMetricsError "boom" 2 = some (c1, updated) ∧
      (updated = true ↔ (V1alpha2.ConditionFalse ≠ V1alpha2.demoCondition.Status ∨
        V1alpha2.ReasonSyncMetricsError ≠ V1alpha2.ReasonSyncMetricsSucceeded ∨ "boom" ≠ ""))) ∧
    (∃ c1, V1alpha2.markCondition V1alpha2.demoCondition V1alpha2.demoCondition.Status
        V1alpha2.ReasonSyncMetricsSucceeded "" 2 = some (c1, false))) :=
  ⟨rfl, rfl, C2_markCondition_flag_is_change V1alpha2.demoCondition V1alpha2.ConditionFalse
    V1alpha2.ReasonSyncMetricsError "boom" 2 V1alpha2.ReasonSyncMetricsSucceeded "" rfl rfl⟩

/-- C3, refuted as stated: `demoCondition` was stamped at clock reading 1; re-applying at
clock reading 2 the status, reason and message it holds returns the flag false and yet
changes its `LastTransitionTime`. -/
theorem C3_timestamp_counterexample :
    ∃ c1, V1alpha2.markCondition V1alpha2.demoCondition V1alpha2.demoCondition.Status
        V1alpha2.ReasonSyncMetricsSucceeded "" 2 = some (c1, false) ∧
      c1.LastTransitionTime ≠ V1alpha2.demoCondition.LastTransitionTime :=
  ⟨{ V1alpha2.demoCondition with LastTransitionTime := some 2 }, by decide, by decide⟩

/-- C3, amended: `markCondition` stamps the condition with the clock reading of the call on
every application. Re-applying the status, reason and message a condition holds returns the
flag false and sets `LastTransitionTime` to the clock reading, so the timestamp is left as it
was exactly when it already equals that reading. -/
theorem C3_timestamp_is_clock_reading (c : V1alpha2.ExperimentCondition) (now : Time)
    (r m : String) (hr : c.Reason = some r) (hm : c.Message = some m) :
    ∃ c1, V1alpha2.markCondition c c.Status r m now = some (c1, false) ∧
      c1.LastTransitionTime = some now ∧
      (c1.LastTransitionTime = c.LastTransitionTime ↔ c.LastTransitionTime = some now) := by
  rw [V1alpha2.markCondition_flag c c.Status r m now r m hr hm]
  refine ⟨({ c with Reason := some r, Message := some m, LastTransitionTime := some now } :
      V1alpha2.ExperimentCondition), by simp, rfl, ?_⟩
  exact ⟨fun h => h.symm, fun h => h.symm⟩

/-- C3, amended, on `demoCondition` at clock reading 2. -/
theorem C3_timestamp_is_clock_reading_witness :
    V1alpha2.demoCondition.Reason = some V1alpha2.ReasonSyncMetricsSucceeded ∧
    V1alpha2.demoCondition.Message = some "" ∧
    ∃ c1, V1alpha2.markCondition V1alpha2.demoCondition V1alpha2.demoCondition.Status
        V1alpha2.ReasonSyncMetricsSucceeded "" 2 = some (c1, false) ∧
      c1.LastTransitionTime = some 2 ∧
      (c1.LastTransitionTime = V1alpha2.demoCondition.LastTransitionTime ↔
        V1alpha2.demoCondition.LastTransitionTime = some 2) :=
  ⟨rfl, rfl, C3_timestamp_is_clock_reading V1alpha2.demoCondition 2
    V1alpha2.ReasonSyncMetricsSucceeded "" rfl rfl⟩

/-- C4: `RegisterExperiment` is idempotent. Whatever the cache state, registering a second
time under the same experiment key (also with an experiment whose spec names other targets)
leaves the cache as the first call left it, so one abstract is stored under the key and the
two index maps are unchanged, and it puts the same abstract into the context. -/
theorem C4_register_is_idempotent (k : Cache.KeyFuncs) (c : Cache.Impl)
    (e e1 : V1alpha1.Experiment) (hkey : k.experimentKey e1 = k.experimentKey e) :
    Cache.RegisterExperiment k (Cache.RegisterExperiment k c e).1 e1 =
      ((Cache.RegisterExperiment k c e).1, (Cache.RegisterExperiment k c e).2) ∧
    ∃ ea, (Cache.RegisterExperiment k c e).2 = some ea := by
  obtain ⟨ea, hea⟩ := Cache.RegisterExperiment_store k c e
  have h2 : (Cache.RegisterExperiment k c e).2 = some ea := by
    rw [← hea]; rfl
  refine ⟨?_, ea, h2⟩
  rw [Cache.RegisterExperiment_known k _ e1 ea (by rw [hkey]; exact hea), h2]

/-- C4 on the empty cache: `exp` is registered, then registered again with other targets. -/
theorem C4_register_is_idempotent_witness :
    Cache.dotKeys.experimentKey (Cache.mkExperiment "exp" "ns" "other" "w1" "w2") =
      Cache.dotKeys.experimentKey (Cache.mkExperiment "exp" "ns" "reviews" "v1" "v2") ∧
    (Cache.RegisterExperiment Cache.dotKeys
        (Cache.RegisterExperiment Cache.dotKeys Cache.New
          (Cache.mkExperiment "exp" "ns" "reviews" "v1" "v2")).1
        (Cache.mkExperiment "exp" "ns" "other" "w1" "w2") =
      ((Cache.RegisterExperiment Cache.dotKeys Cache.New
          (Cache.mkExperiment "exp" "ns" "reviews" "v1" "v2")).1,
       (Cache.RegisterExperiment Cache.dotKeys Cache.New
          (Cache.mkExperiment "exp" "ns" "reviews" "v1" "v2")).2) ∧
    ∃ ea, (Cache.RegisterExperiment Cache.dotKeys Cache.New
          (Cache.mkExperiment "exp" "ns" "reviews" "v1" "v2")).2 = some ea) :=
  ⟨by decide, C4_register_is_idempotent Cache.dotKeys Cache.New
    (Cache.mkExperiment "exp" "ns" "reviews" "v1" "v2")
    (Cache.mkExperiment "exp" "ns" "other" "w1" "w2") (by decide)⟩

/-- C5: for every cache state in which the experiment `e` is registered (the abstract stored
under its key carries its targets), after `RemoveExperiment(e)` the lookups
`DeploymentToExperiment` for its baseline and for its candidate and `ServiceToExperiment` for
its service, in its target namespace, all return exist = false, and the abstract store has no
entry under its key. -/
theorem C5_remove_clears_lookups (k : Cache.KeyFuncs) (c : Cache.Impl) (e : V1alpha1.Experiment)
    (hreg : Cache.Registered k c e) :
    Cache.DeploymentToExperiment k (Cache.RemoveExperiment k c e) e.Spec.TargetService.Baseline
        (V1alpha1.GetServiceNamespace e) = ("", "", false) ∧
    Cache.DeploymentToExperiment k (Cache.RemoveExperiment k c e) e.Spec.TargetService.Candidate
        (V1alpha1.GetServiceNamespace e) = ("", "", false) ∧
    Cache.ServiceToExperiment k (Cache.RemoveExperiment k c e) e.Spec.TargetService.Name
        (V1alpha1.GetServiceNamespace e) = ("", "", false) ∧
    (Cache.RemoveExperiment k c e).experimentAbstractStore (k.experimentKey e) = none :=
  Cache.RemoveExperiment_clears k c e hreg

/-- C5 on the cache that holds `exp` alone: registering it in the empty cache registers it, and
removing it clears the three lookups and the store. -/
theorem C5_remove_clears_lookups_witness :
    Cache.Registered Cache.dotKeys
      (Cache.RegisterExperiment Cache.dotKeys Cache.New
        (Cache.mkExperiment "exp" "ns" "reviews" "v1" "v2")).1
      (Cache.mkExperiment "exp" "ns" "reviews" "v1" "v2") ∧
    Cache.DeploymentToExperiment Cache.dotKeys
      (Cache.RemoveExperiment Cache.dotKeys
        (Cache.RegisterExperiment Cache.dotKeys Cache.New
          (Cache.mkExperiment "exp" "ns" "reviews" "v1" "v2")).1
        (Cache.mkExperiment "exp" "ns" "reviews" "v1" "v2")) "v1" "ns" = ("", "", false) :=
  ⟨Cache.RegisterExperiment_registered _ _ _ rfl,
   (C5_remove_clears_lookups Cache.dotKeys _ (Cache.mkExperiment "exp" "ns" "reviews" "v1" "v2")
     (Cache.RegisterExperiment_registered _ _ _ rfl)).1⟩

/-- C6, refuted as stated: `a` and `b` have different keys and both name the backend `v1` in
the namespace `ns`; after `RegisterExperiment(a)` followed by `RegisterExperiment(b)` on the
empty cache, `DeploymentToExperiment` for `v1` returns `b`, not `a`. -/
theorem C6_first_owner_counterexample :
    Cache.dotKeys.experimentKey (Cache.mkExperiment "a" "ns" "reviews" "v1" "v2") ≠
      Cache.dotKeys.experimentKey (Cache.mkExperiment "b" "ns" "reviews" "v1" "v3") ∧
    Cache.DeploymentToExperiment Cache.dotKeys
      (Cache.RegisterExperiment Cache.dotKeys
        (Cache.RegisterExperiment Cache.dotKeys Cache.New
          (Cache.mkExperiment "a" "ns" "reviews" "v1" "v2")).1
        (Cache.mkExperiment "b" "ns" "reviews" "v1" "v3")).1 "v1" "ns" = ("b", "ns", true) ∧
    ("b", "ns", true) ≠ (("a", "ns", true) : String × String × Bool) := by
  refine ⟨by decide, by decide, by decide⟩

/-- C6, amended: the cache maps a backend to one experiment key, that of the experiment
registered last. For two experiments `a` and `b` with different keys that name the same
backend `d` in the same target namespace, registered one after the other in a cache that
holds neither, `DeploymentToExperiment` for `d` returns `a` after the first registration and
`b` after the second. -/
theorem C6_last_registration_owns_backend (k : Cache.KeyFuncs) (c : Cache.Impl)
    (a b : V1alpha1.Experiment) (d : String)
    (hkeys : k.experimentKey a ≠ k.experimentKey b)
    (hna : c.experimentAbstractStore (k.experimentKey a) = none)
    (hnb : c.experimentAbstractStore (k.experimentKey b) = none)
    (hda : d = a.Spec.TargetService.Baseline ∨ d = a.Spec.TargetService.Candidate)
    (hdb : d = b.Spec.TargetService.Baseline ∨ d = b.Spec.TargetService.Candidate)
    (hns : V1alpha1.GetServiceNamespace a = V1alpha1.GetServiceNamespace b)
    (hra : k.resolveExperimentKey (k.experimentKey a) = (a.Name, a.Namespace))
    (hrb : k.resolveExperimentKey (k.experimentKey b) = (b.Name, b.Namespace)) :
    Cache.DeploymentToExperiment k (Cache.RegisterExperiment k c a).1 d
        (V1alpha1.GetServiceNamespace a) = (a.Name, a.Namespace, true) ∧
    Cache.DeploymentToExperiment k
        (Cache.RegisterExperiment k (Cache.RegisterExperiment k c a).1 b).1 d
        (V1alpha1.GetServiceNamespace a) = (b.Name, b.Namespace, true) := by
  have ha := Cache.register_lookup k c a hna hra
  have hnb1 : (Cache.RegisterExperiment k c a).1.experimentAbstractStore (k.experimentKey b) =
      none := by
    simp only [Cache.RegisterExperiment, hna, GoMap.set]
    rw [if_neg (fun h => hkeys h.symm)]
    exact hnb
  have hb := Cache.register_lookup k _ b hnb1 hrb
  constructor
  · rcases hda with h | h
    · rw [h]; exact ha.2.1
    · rw [h]; exact ha.2.2
  · rw [hns]
    rcases hdb with h | h
    · rw [h]; exact hb.2.1
    · rw [h]; exact hb.2.2

/-- C6, amended, on the empty cache with the experiments `a` and `b` of the counterexample. -/
theorem C6_last_registration_owns_backend_witness :
    Cache.DeploymentToExperiment Cache.dotKeys
      (Cache.RegisterExperiment Cache.dotKeys Cache.New
        (Cache.mkExperiment "a" "ns" "reviews" "v1" "v2")).1 "v1"
      (V1alpha1.GetServiceNamespace (Cache.mkExperiment "a" "ns" "reviews" "v1" "v2")) =
        ("a", "ns", true) ∧
    Cache.DeploymentToExperiment Cache.dotKeys
      (Cache.RegisterExperiment Cache.dotKeys
        (Cache.RegisterExperiment Cache.dotKeys Cache.New
          (Cache.mkExperiment "a" "ns" "reviews" "v1" "v2")).1
        (Cache.mkExperiment "b" "ns" "reviews" "v1" "v3")).1 "v1"
      (V1alpha1.GetServiceNamespace (Cache.mkExperiment "a" "ns" "reviews" "v1" "v2")) =
        ("b", "ns", true) :=
  C6_last_registration_owns_backend Cache.dotKeys Cache.New
    (Cache.mkExperiment "a" "ns" "reviews" "v1" "v2")
    (Cache.mkExperiment "b" "ns" "reviews" "v1" "v3") "v1"
    (by decide) rfl rfl (Or.inl rfl) (Or.inl rfl) (by decide) (by decide) (by decide)

/-- C7: for every cache state with no entry under the key of the experiment `e`, after
`RegisterExperiment(e)` the lookup `ServiceToExperiment` for its service and the lookups
`DeploymentToExperiment` for its baseline and for its candidate, in its target namespace, each
return exist = true with the name and namespace of `e` (the helper `resolveExperimentKey`
inverting `experimentKey` on `e`). -/
theorem C7_register_indexes_targets (k : Cache.KeyFuncs) (c : Cache.Impl)
    (e : V1alpha1.Experiment)
    (hnew : c.experimentAbstractStore (k.experimentKey e) = none)
    (hres : k.resolveExperimentKey (k.experimentKey e) = (e.Name, e.Namespace)) :
    Cache.ServiceToExperiment k (Cache.RegisterExperiment k c e).1 e.Spec.TargetService.Name
        (V1alpha1.GetServiceNamespace e) = (e.Name, e.Namespace, true) ∧
    Cache.DeploymentToExperiment k (Cache.RegisterExperiment k c e).1
        e.Spec.TargetService.Baseline (V1alpha1.GetServiceNamespace e) =
        (e.Name, e.Namespace, true) ∧
    Cache.DeploymentToExperiment k (Cache.RegisterExperiment k c e).1
        e.Spec.TargetService.Candidate (V1alpha1.GetServiceNamespace e) =
        (e.Name, e.Namespace, true) :=
  Cache.register_lookup k c e hnew hres

/-- C7 on the empty cache and the experiment `exp`. -/
theorem C7_register_indexes_targets_witness :
    Cache.New.experimentAbstractStore
      (Cache.dotKeys.experimentKey (Cache.mkExperiment "exp" "ns" "reviews" "v1" "v2")) = none ∧
    Cache.dotKeys.resolveExperimentKey
      (Cache.dotKeys.experimentKey (Cache.mkExperiment "exp" "ns" "reviews" "v1" "v2")) =
        ("exp", "ns") ∧
    Cache.ServiceToExperiment Cache.dotKeys
      (Cache.RegisterExperiment Cache.dotKeys Cache.New
        (Cache.mkExperiment "exp" "ns" "reviews" "v1" "v2")).1 "reviews"
      (V1alpha1.GetServiceNamespace (Cache.mkExperiment "exp" "ns" "reviews" "v1" "v2")) =
        ("exp", "ns", true) :=
  ⟨rfl, by decide,
   (C7_register_indexes_targets Cache.dotKeys Cache.New
     (Cache.mkExperiment "exp" "ns" "reviews" "v1" "v2") rfl (by decide)).1⟩

/-- C8: for every cache state, name and namespace, `MarkTargetDeploymentFound` and
`MarkTargetDeploymentMissing` return false exactly when `DeploymentToExperiment` reports
exist = false, `MarkTargetServiceFound` and `MarkTargetServiceMissing` return false exactly
when `ServiceToExperiment` reports exist = false, and a call that returns false leaves the
cache, hence its three maps, as it was. -/
theorem C8_mark_false_iff_no_owner (k : Cache.KeyFuncs) (c : Cache.Impl) (name ns : String) :
    ((Cache.MarkTargetDeploymentFound k c name ns = some (c, false) ↔
        (Cache.DeploymentToExperiment k c name ns).2.2 = false) ∧
     (Cache.MarkTargetDeploymentMissing k c name ns = some (c, false) ↔
        (Cache.DeploymentToExperiment k c name ns).2.2 = false) ∧
     (Cache.MarkTargetServiceFound k c name ns = some (c, false) ↔
        (Cache.ServiceToExperiment k c name ns).2.2 = false) ∧
     (Cache.MarkTargetServiceMissing k c name ns = some (c, false) ↔
        (Cache.ServiceToExperiment k c name ns).2.2 = false)) ∧
    (∀ c1, (Cache.MarkTargetDeploymentFound k c name ns = some (c1, false) ∨
            Cache.MarkTargetDeploymentMissing k c name ns = some (c1, false) ∨
            Cache.MarkTargetServiceFound k c name ns = some (c1, false) ∨
            Cache.MarkTargetServiceMissing k c name ns = some (c1, false)) →
        c1.experimentAbstractStore = c.experimentAbstractStore ∧
        c1.deployment2Experiment = c.deployment2Experiment ∧
        c1.service2Experiment = c.service2Experiment) := by
  have key : ∀ (x : Option Cache.Impl) (c1 : Cache.Impl),
      Option.map (fun c2 => (c2, true)) x ≠ some (c1, false) := by
    intro x c1 h
    cases x <;> simp at h
  unfold Cache.MarkTargetDeploymentFound Cache.MarkTargetDeploymentMissing
    Cache.MarkTargetServiceFound Cache.MarkTargetServiceMissing
    Cache.DeploymentToExperiment Cache.ServiceToExperiment
  refine ⟨⟨?_, ?_, ?_, ?_⟩, ?_⟩
  · cases h : c.deployment2Experiment (k.targetKey name ns) with
    | none => simp [h]
    | some v => simp [h]
  · cases h : c.deployment2Experiment (k.targetKey name ns) with
    | none => simp [h]
    | some v => simp [h]
  · cases h : c.service2Experiment (k.targetKey name ns) with
    | none => simp [h]
    | some v => simp [h]
  · cases h : c.service2Experiment (k.targetKey name ns) with
    | none => simp [h]
    | some v => simp [h]
  · intro c1 hc
    have hc1 : c1 = c := by
      rcases hc with hc | hc | hc | hc
      · cases h : c.deployment2Experiment (k.targetKey name ns) with
        | none => simp only [h, Option.some.injEq, Prod.mk.injEq, and_true] at hc; exact hc.symm
        | some v => simp only [h] at hc; exact absurd hc (key _ c1)
      · cases h : c.deployment2Experiment (k.targetKey name ns) with
        | none => simp only [h, Option.some.injEq, Prod.mk.injEq, and_true] at hc; exact hc.symm
        | some v => simp only [h] at hc; exact absurd hc (key _ c1)
      · cases h : c.service2Experiment (k.targetKey name ns) with
        | none => simp only [h, Option.some.injEq, Prod.mk.injEq, and_true] at hc; exact hc.symm
        | some v => simp only [h] at hc; exact absurd hc (key _ c1)
      · cases h : c.service2Experiment (k.targetKey name ns) with
        | none => simp only [h, Option.some.injEq, Prod.mk.injEq, and_true] at hc; exact hc.symm
        | some v => simp only [h] at hc; exact absurd hc (key _ c1)
    subst hc1
    exact ⟨rfl, rfl, rfl⟩

/-- C9, the code at the failing input: the experiment `initialised` comes out of `InitStatus`
with one condition per type; a second `InitStatus` on it appends the five conditions again,
and the list no longer holds at most one condition per type. -/
theorem C9_InitStatus_duplicates_conditions :
    V1alpha2.OnePerType V1alpha2.initialised.Status ∧
    (V1alpha2.InitStatus V1alpha2.initialised (fun n => n)).Status.Conditions.map
        (fun c => c.Type_) = V1alpha2.experimentCondSet ++ V1alpha2.experimentCondSet ∧
    ¬ V1alpha2.OnePerType (V1alpha2.InitStatus V1alpha2.initialised (fun n => n)).Status := by
  refine ⟨?_, by decide, ?_⟩
  · unfold V1alpha2.OnePerType; decide
  · unfold V1alpha2.OnePerType; decide

/-- C10, refuted as stated. `syncIstio`, strategy manual, candidate weight 40, step 30,
maxTrafficPercent 60: the due pass writes 70, which is not 40 + 30 clamped to the range up to
60 and exceeds 60. `syncKnative`, strategy `increment_without_check`, candidate percent 50,
step 20, maxTrafficPercent 60: the due pass assigns 70 to the candidate, above 60 as well. -/
theorem C10_no_clamp_counterexample :
    ((Istio.updatesOf (Istio.syncIstio (Istio.demoEnv 40 (Istio.demoCanary 30 60))
        (Istio.demoCanary 30 60)).calls).map (Istio.getWeight Istio.Candidate) = [some 70] ∧
      Istio.clamp (40 + 30) 0 60 = 60 ∧ (70 : Int) ≠ Istio.clamp (40 + 30) 0 60 ∧
      (70 : Int) > 60) ∧
    ((Knative.demoExperiment "increment_without_check" 20).Spec.TrafficControl.MaxTrafficPercent
        = 60 ∧
      (Knative.syncKnative (Knative.demoEnv 50 50)
        (Knative.demoExperiment "increment_without_check" 20)).targets =
        some [ { RevisionName := "v1", Percent := 30 }, { RevisionName := "v2", Percent := 70 } ] ∧
      Istio.clamp (50 + 20) 0 60 = 60 ∧ (70 : Int) > 60) := by
  refine ⟨⟨by decide, by decide, by decide, by decide⟩, by decide, by decide, by decide, by decide⟩

/-- C10, amended: for the strategies manual (`syncIstio`) and `increment_without_check`
(`syncKnative`), with integer step size and maxTrafficPercent, a due pass writes the candidate
weight current weight + step size; no clamp is applied. `syncIstio` passes to `Update` exactly
one virtual service, whose candidate weight is `cur + step`; `syncKnative` leaves `cur + step`
in the loop variable of every traffic target of the candidate (that is not also the baseline).
Whenever `0 ≤ cur + step ≤ maxTrafficPercent` that weight is the clamped one and does not
exceed maxTrafficPercent, nor 100 when maxTrafficPercent is at most 100. -/
theorem C10_due_pass_adds_step :
    (∀ (env : Istio.Env) (canary : Istio.Canary) (rd : Istio.Ready) (cur : Int),
      Istio.syncIstioSetup env canary = .inr rd →
      Istio.getWeight Istio.Candidate rd.vs = some cur →
      Istio.due env rd.pass.canary cur = true →
      canary.Spec.TrafficControl.Strategy = "manual" →
      ∃ vs, Istio.updatesOf (Istio.syncIstio env canary).calls = [vs] ∧
        Istio.getWeight Istio.Candidate vs = some (cur + canary.Spec.TrafficControl.StepSize) ∧
        (0 ≤ cur + canary.Spec.TrafficControl.StepSize →
         cur + canary.Spec.TrafficControl.StepSize ≤ canary.Spec.TrafficControl.MaxTrafficPercent →
          cur + canary.Spec.TrafficControl.StepSize =
            Istio.clamp (cur + canary.Spec.TrafficControl.StepSize) 0
              canary.Spec.TrafficControl.MaxTrafficPercent ∧
          (canary.Spec.TrafficControl.MaxTrafficPercent ≤ 100 →
            cur + canary.Spec.TrafficControl.StepSize ≤ 100))) ∧
    (∀ (env : Knative.Env) (inst : V1alpha1.Experiment) (p : Knative.Pass),
      Knative.syncKnativeSetup env inst = .inr p →
      ¬ p.inst.Spec.TrafficControl.MaxIterations ≤ p.inst.Status.CurrentIteration →
      Knative.due env p.inst = true →
      inst.Spec.TrafficControl.Strategy = "increment_without_check" →
      ∃ ts, (Knative.syncKnative env inst).targets = some ts ∧
        ts.map (fun t => t.RevisionName) =
          (p.kservice.Traffic.getD []).map (fun t => t.RevisionName) ∧
        (∀ t ∈ ts, t.RevisionName = inst.Spec.TargetService.Candidate →
          t.RevisionName ≠ inst.Spec.TargetService.Baseline →
          t.Percent = p.candidateTraffic.Percent + inst.Spec.TrafficControl.StepSize) ∧
        (0 ≤ p.candidateTraffic.Percent + inst.Spec.TrafficControl.StepSize →
         p.candidateTraffic.Percent + inst.Spec.TrafficControl.StepSize ≤
            inst.Spec.TrafficControl.MaxTrafficPercent →
          p.candidateTraffic.Percent + inst.Spec.TrafficControl.StepSize =
            Istio.clamp (p.candidateTraffic.Percent + inst.Spec.TrafficControl.StepSize) 0
              inst.Spec.TrafficControl.MaxTrafficPercent ∧
          (inst.Spec.TrafficControl.MaxTrafficPercent ≤ 100 →
            p.candidateTraffic.Percent + inst.Spec.TrafficControl.StepSize ≤ 100))) := by
  constructor
  · intro env canary rd cur hsetup hcur hdue hmanual
    refine ⟨_, Istio.syncIstio_manual_updates env canary rd cur hsetup hcur hdue hmanual, ?_, ?_⟩
    · simp [Istio.getWeight, Istio.makeVirtualService, Istio.weightOf, Istio.setResourceVersion,
        Istio.Baseline, Istio.Candidate]
    · intro h0 h1
      refine ⟨?_, fun h => le_trans h1 h⟩
      unfold Istio.clamp
      rw [min_eq_left h1, max_eq_right h0]
  · intro env inst p hsetup hiter hdue hstrategy
    refine ⟨_, Knative.syncKnative_increment_targets env inst p hsetup hiter hdue hstrategy,
      ?_, ?_, ?_⟩
    · exact Knative.setPercents_names _ _ _ _ _
    · intro t ht hc hb
      rw [Knative.setPercents_percent _ _ _ _ _ t ht]
      unfold Knative.assignedPercent
      rw [if_neg hb, if_pos hc]
    · intro h0 h1
      refine ⟨?_, fun h => le_trans h1 h⟩
      unfold Istio.clamp
      rw [min_eq_left h1, max_eq_right h0]

/-- C10, amended, on two concrete due passes: `syncIstio` with candidate weight 20, step 20 and
maxTrafficPercent 60 writes 40; `syncKnative` with candidate percent 40 and step 20 assigns 60
to the candidate. -/
theorem C10_due_pass_adds_step_witness :
    (Istio.syncIstioSetup (Istio.demoEnv 20 (Istio.demoCanary 20 60)) (Istio.demoCanary 20 60) =
        .inr (Istio.demoReady 20 (Istio.demoCanary 20 60)) ∧
      ∃ vs, Istio.updatesOf (Istio.syncIstio (Istio.demoEnv 20 (Istio.demoCanary 20 60))
          (Istio.demoCanary 20 60)).calls = [vs] ∧
        Istio.getWeight Istio.Candidate vs = some 40) ∧
    (Knative.syncKnativeSetup (Knative.demoEnv 60 40)
        (Knative.demoExperiment "increment_without_check" 20) =
        .inr (Knative.demoPass 60 40 (Knative.demoExperiment "increment_without_check" 20)) ∧
      ∃ ts, (Knative.syncKnative (Knative.demoEnv 60 40)
          (Knative.demoExperiment "increment_without_check" 20)).targets = some ts ∧
        ∀ t ∈ ts, t.RevisionName = "v2" → t.RevisionName ≠ "v1" → t.Percent = 40 + 20) := by
  refine ⟨⟨by decide, ?_⟩, ⟨by decide, ?_⟩⟩
  · obtain ⟨vs, h1, h2, _⟩ := C10_due_pass_adds_step.1
      (Istio.demoEnv 20 (Istio.demoCanary 20 60)) (Istio.demoCanary 20 60)
      (Istio.demoReady 20 (Istio.demoCanary 20 60)) 20 (by decide) (by decide) (by decide)
      (by decide)
    exact ⟨vs, h1, h2⟩
  · obtain ⟨ts, h1, _, h3, _⟩ := C10_due_pass_adds_step.2 (Knative.demoEnv 60 40)
      (Knative.demoExperiment "increment_without_check" 20)
      (Knative.demoPass 60 40 (Knative.demoExperiment "increment_without_check" 20))
      (by decide) (by decide) (by decide) (by decide)
    exact ⟨ts, h1, h3⟩

/-- C8 on the empty cache: no experiment owns `v1`, the lookup reports exist = false and
`MarkTargetDeploymentFound` returns false. -/
theorem C8_mark_false_iff_no_owner_witness :
    Cache.MarkTargetDeploymentFound Cache.dotKeys Cache.New "v1" "ns" =
        some (Cache.New, false) ↔
      (Cache.DeploymentToExperiment Cache.dotKeys Cache.New "v1" "ns").2.2 = false :=
  (C8_mark_false_iff_no_owner Cache.dotKeys Cache.New "v1" "ns").1.1

/-- C11, refuted as stated: at time 10 the experiment was last incremented at time 9 and its
interval is 1, so `now >= lastIncrementTime + interval`; the pass of `syncKnative` is yet a
no-op on the rollout: the loop over the traffic targets does not run, the only call is the
update of the status, and the last increment time stays at 9. -/
theorem C11_boundary_counterexample :
    (10 : Int) ≥ 9 + 1 ∧
    (Knative.syncKnative (Knative.demoEnv 60 40)
      (Knative.demoExperimentAt "increment_without_check" 20 9)).targets = none ∧
    Knative.serviceUpdates (Knative.syncKnative (Knative.demoEnv 60 40)
      (Knative.demoExperimentAt "increment_without_check" 20 9)).calls = [] ∧
    (Knative.syncKnative (Knative.demoEnv 60 40)
      (Knative.demoExperimentAt "increment_without_check" 20 9)).inst.Status.LastIncrementTime
      = 9 := by
  refine ⟨by decide, by decide, by decide, by decide⟩

/-- C11, amended: for every pass of `syncKnative` that gets past its first part with
currentIteration < maxIterations, the pass is a no-op on the rollout when
`now <= lastIncrementTime + interval` (the loop over the traffic targets does not run, every
update of the service it issued is the linking one of the first part, there is no call of
the analytics service, lastIncrementTime, currentIteration and the two traffic targets are
unchanged, and the pass asks to run again after the interval), and the iteration is processed
when `now > lastIncrementTime + interval`: for a strategy other than `check_and_increment` the
loop runs and, unless the update of the service fails, lastIncrementTime becomes `now`; for
`check_and_increment` with both core services found the analytics service is called. -/
theorem C11_gating_is_strict (env : Knative.Env) (inst : V1alpha1.Experiment) (p : Knative.Pass)
    (hsetup : Knative.syncKnativeSetup env inst = .inr p)
    (hiter : inst.Status.CurrentIteration < inst.Spec.TrafficControl.MaxIterations) :
    (env.now ≤ inst.Status.LastIncrementTime + inst.Spec.TrafficControl.Interval →
      (Knative.syncKnative env inst).targets = none ∧
      Knative.serviceUpdates (Knative.syncKnative env inst).calls =
        Knative.serviceUpdates p.calls ∧
      (∀ c ∈ (Knative.syncKnative env inst).calls, c.isInvoke = false) ∧
      (Knative.syncKnative env inst).inst.Status.LastIncrementTime =
        inst.Status.LastIncrementTime ∧
      (Knative.syncKnative env inst).inst.Status.CurrentIteration =
        inst.Status.CurrentIteration ∧
      (Knative.syncKnative env inst).baselineTraffic = some p.baselineTraffic ∧
      (Knative.syncKnative env inst).candidateTraffic = some p.candidateTraffic ∧
      (Knative.syncKnative env inst).result =
        { Requeue := false, RequeueAfter := inst.Spec.TrafficControl.Interval }) ∧
    (env.now > inst.Status.LastIncrementTime + inst.Spec.TrafficControl.Interval →
      (inst.Spec.TrafficControl.Strategy ≠ "check_and_increment" →
        (∃ ts, (Knative.syncKnative env inst).targets = some ts) ∧
        (env.updateServiceTraffic = none →
          (Knative.syncKnative env inst).inst.Status.LastIncrementTime = env.now)) ∧
      (inst.Spec.TrafficControl.Strategy = "check_and_increment" →
        ∀ bs cs, env.baselineCoreService = .ok bs → env.candidateCoreService = .ok cs →
          ∃ c ∈ (Knative.syncKnative env inst).calls, c.isInvoke = true)) := by
  obtain ⟨_, _, _, _, _, hspec⟩ := Knative.setup_inr env inst p hsetup
  have hst := Knative.setup_status env inst p hsetup
  have hiter1 : ¬ inst.Spec.TrafficControl.MaxIterations ≤ inst.Status.CurrentIteration :=
    not_le.mpr hiter
  constructor
  · intro hwait
    rw [Knative.syncKnative_waiting env inst p hsetup hiter1 hwait]
    have hk := Knative.keepProgressing_eq env p none
    refine ⟨hk.2.2.2.2.1, ?_, ?_, ?_, ?_, hk.2.2.2.2.2.1, hk.2.2.2.2.2.2, ?_⟩
    · rw [hk.2.1, Knative.serviceUpdates_append]; simp [Knative.serviceUpdates]
    · intro c hc
      rw [hk.2.1] at hc
      simp only [List.mem_append, List.mem_singleton] at hc
      rcases hc with hc | hc
      · exact hst.2.2 c hc
      · rw [hc]; rfl
    · rw [hk.1]; exact hst.1.1
    · rw [hk.1]; exact hst.1.2.1
    · rw [hk.2.2.1, hspec]
  · intro hdue
    rw [Knative.syncKnative_iterating env inst p hsetup hiter1 hdue]
    constructor
    · intro hs
      have hit : Knative.syncKnativeIteration env p =
          Knative.applyPercent env p
            (if inst.Spec.TrafficControl.Strategy = "increment_without_check"
              then p.candidateTraffic.Percent + inst.Spec.TrafficControl.StepSize
              else p.candidateTraffic.Percent) := by
        unfold Knative.syncKnativeIteration
        simp only [hspec]
        split_ifs with h1 <;> rfl
      rw [hit]
      have ha := Knative.applyPercent_inv env p
        (if inst.Spec.TrafficControl.Strategy = "increment_without_check"
          then p.candidateTraffic.Percent + inst.Spec.TrafficControl.StepSize
          else p.candidateTraffic.Percent)
      have hc := Knative.applyPercent_calls env p
        (if inst.Spec.TrafficControl.Strategy = "increment_without_check"
          then p.candidateTraffic.Percent + inst.Spec.TrafficControl.StepSize
          else p.candidateTraffic.Percent)
      split at ha
      · rename_i out heq
        rw [heq] at hc
        simp only at hc ⊢
        refine ⟨⟨_, ha.2.2⟩, ?_⟩
        intro hu
        obtain ⟨err, he, _⟩ := hc.2.2
        rw [hu] at he
        exact absurd he (by simp)
      · rename_i p1 ts heq
        rw [heq] at hc
        simp only at hc ⊢
        refine ⟨⟨ts, (Knative.keepProgressing_eq env p1 (some ts)).2.2.2.2.1⟩, ?_⟩
        intro _
        rw [(Knative.keepProgressing_eq env p1 (some ts)).1, hc.1]
        rfl
    · intro hs bs cs hb hc
      exact Knative.iteration_check_invokes env p bs cs (by rw [hspec]; exact hs) hb hc

/-- C11, amended, on two concrete passes in the world `demoEnv 60 40` at time 10 with interval
1: last incremented at time 9 the pass waits (the loop does not run), last incremented at time
0 the pass runs the loop and stamps the last increment time with 10. -/
theorem C11_gating_is_strict_witness :
    (Knative.syncKnativeSetup (Knative.demoEnv 60 40)
        (Knative.demoExperimentAt "increment_without_check" 20 9) =
        .inr (Knative.demoPass 60 40 (Knative.demoExperimentAt "increment_without_check" 20 9)) ∧
      (Knative.syncKnative (Knative.demoEnv 60 40)
        (Knative.demoExperimentAt "increment_without_check" 20 9)).targets = none) ∧
    (Knative.syncKnativeSetup (Knative.demoEnv 60 40)
        (Knative.demoExperimentAt "increment_without_check" 20 0) =
        .inr (Knative.demoPass 60 40 (Knative.demoExperimentAt "increment_without_check" 20 0)) ∧
      (Knative.syncKnative (Knative.demoEnv 60 40)
        (Knative.demoExperimentAt "increment_without_check" 20 0)).inst.Status.LastIncrementTime
        = 10) := by
  refine ⟨⟨by decide, ?_⟩, ⟨by decide, ?_⟩⟩
  · exact ((C11_gating_is_strict (Knative.demoEnv 60 40)
      (Knative.demoExperimentAt "increment_without_check" 20 9)
      (Knative.demoPass 60 40 (Knative.demoExperimentAt "increment_without_check" 20 9))
      (by decide) (by decide)).1 (by decide)).1
  · exact (((C11_gating_is_strict (Knative.demoEnv 60 40)
      (Knative.demoExperimentAt "increment_without_check" 20 0)
      (Knative.demoPass 60 40 (Knative.demoExperimentAt "increment_without_check" 20 0))
      (by decide) (by decide)).2 (by decide)).1 (by decide)).2 rfl

/-- C12, the code at the failing input and on every pass. The service splits 60/40, the
strategy is `check_and_increment` and the analytics service answers with
abortExperiment = true and candidate percentage 10. The pass of `syncKnative` sets the two
traffic targets it holds to 100 and 0 and issues two updates of the service, the one of the
abort block and the one after the loop, both carrying the split 60/40 of the service as
fetched; the loop assigns 90 and 10 to its loop variable; the last status call is
`MarkExperimentNotCompleted("Progressing", "")` and the pass asks to run again after the
interval. For every due pass with strategy `check_and_increment` whose response has
abortExperiment = true: the targets the pass holds, which are the ones fetched from the
service, end at 100 and 0; every update of the service carries the traffic list as fetched;
and when the held targets were not at 100/0 and the calls succeed, the updates of the service
are the one of the abort block and, when the loop changed a value, the one after the loop,
both given the service object as held, the status calls are `MarkHasService` and
`MarkExperimentNotCompleted("Progressing", "")`, the iteration is counted, and the pass asks
to run again after the interval. -/
theorem C12_abort_leaves_service_split :
    ((Knative.syncKnative (Knative.answeringEnv 60 40 10 true)
        (Knative.demoExperiment "check_and_increment" 20)).baselineTraffic =
        some { RevisionName := "v1", Percent := 100 } ∧
      (Knative.syncKnative (Knative.answeringEnv 60 40 10 true)
        (Knative.demoExperiment "check_and_increment" 20)).candidateTraffic =
        some { RevisionName := "v2", Percent := 0 } ∧
      (Knative.serviceUpdates (Knative.syncKnative (Knative.answeringEnv 60 40 10 true)
        (Knative.demoExperiment "check_and_increment" 20)).calls).map (fun ks => ks.Traffic) =
        [ some [ { RevisionName := "v1", Percent := 60 },
                 { RevisionName := "v2", Percent := 40 } ],
          some [ { RevisionName := "v1", Percent := 60 },
                 { RevisionName := "v2", Percent := 40 } ] ] ∧
      (Knative.syncKnative (Knative.answeringEnv 60 40 10 true)
        (Knative.demoExperiment "check_and_increment" 20)).targets =
        some [ { RevisionName := "v1", Percent := 90 },
               { RevisionName := "v2", Percent := 10 } ] ∧
      (Knative.syncKnative (Knative.answeringEnv 60 40 10 true)
        (Knative.demoExperiment "check_and_increment" 20)).inst.Status.Marks.getLast? =
        some (V1alpha1.StatusMark.ExperimentNotCompleted "Progressing" "") ∧
      (Knative.syncKnative (Knative.answeringEnv 60 40 10 true)
        (Knative.demoExperiment "check_and_increment" 20)).result =
        { Requeue := false, RequeueAfter := 1 }) ∧
    (∀ (env : Knative.Env) (inst : V1alpha1.Experiment) (p : Knative.Pass)
        (bs cs : Knative.CoreService) (response : Response),
      Knative.syncKnativeSetup env inst = .inr p →
      inst.Status.CurrentIteration < inst.Spec.TrafficControl.MaxIterations →
      env.now > inst.Status.LastIncrementTime + inst.Spec.TrafficControl.Interval →
      inst.Spec.TrafficControl.Strategy = "check_and_increment" →
      env.baselineCoreService = .ok bs → env.candidateCoreService = .ok cs →
      env.invoke = .ok response → response.Summary.AbortExperiment = true →
      ∃ ks, env.getService = .ok ks ∧
        Knative.getTrafficByName ks inst.Spec.TargetService.Baseline =
          some p.baselineTraffic ∧
        Knative.getTrafficByName ks inst.Spec.TargetService.Candidate =
          some p.candidateTraffic ∧
        p.kservice.Traffic = ks.Traffic ∧
        (Knative.syncKnative env inst).baselineTraffic =
          some { p.baselineTraffic with Percent := 100 } ∧
        (Knative.syncKnative env inst).candidateTraffic =
          some { p.candidateTraffic with Percent := 0 } ∧
        (∀ ks1 ∈ Knative.serviceUpdates (Knative.syncKnative env inst).calls,
          ks1.Traffic = ks.Traffic) ∧
        ((p.candidateTraffic.Percent ≠ 0 ∨ p.baselineTraffic.Percent ≠ 100) →
          env.updateServiceAbort = none → env.updateServiceTraffic = none →
          (response.LastState = none ∨ ∃ st, env.marshalLastState = .ok st) →
          Knative.serviceUpdates (Knative.syncKnative env inst).calls =
            Knative.serviceUpdates p.calls ++ [p.kservice] ++
              (if (Knative.setPercents inst.Spec.TargetService.Baseline
                  inst.Spec.TargetService.Candidate response.CanaryTrafficPercentage
                  (ks.Traffic.getD []) false).2 = true
                then [p.kservice] else []) ∧
          (Knative.syncKnative env inst).inst.Status.Marks =
            inst.Status.Marks ++ [V1alpha1.StatusMark.HasService,
              V1alpha1.StatusMark.ExperimentNotCompleted "Progressing" ""] ∧
          (Knative.syncKnative env inst).inst.Status.CurrentIteration =
            wrapInt (inst.Status.CurrentIteration + 1) ∧
          (Knative.syncKnative env inst).result =
            { Requeue := false, RequeueAfter := inst.Spec.TrafficControl.Interval })) := by
  refine ⟨⟨by decide, by decide, by decide, by decide, by decide, by decide⟩, ?_⟩
  intro env inst p bs cs response hsetup hiter hdue hs hb hc hinv habort
  obtain ⟨ks, hg, hbt, hct, htr, hspec⟩ := Knative.setup_inr env inst p hsetup
  have hst := (Knative.setup_status env inst p hsetup).1
  have hiter1 : ¬ inst.Spec.TrafficControl.MaxIterations ≤ inst.Status.CurrentIteration :=
    not_le.mpr hiter
  have hs1 : p.inst.Spec.TrafficControl.Strategy = "check_and_increment" := by
    rw [hspec]; exact hs
  have hall : ∀ ks1 ∈ Knative.serviceUpdates (Knative.syncKnative env inst).calls,
      ks1.Traffic = ks.Traffic := by
    intro ks1 h1
    obtain ⟨ks0, hg0, h0⟩ := (Knative.syncKnative_step env inst).1 ks1 h1
    rw [hg] at hg0
    rw [h0, ← Except.ok.inj hg0]
  have hit := Knative.syncKnative_iterating env inst p hsetup hiter1 hdue
  have ha := Knative.iteration_abort env p bs cs response hs1 hb hc hinv habort
  refine ⟨ks, hg, hbt, hct, htr, by rw [hit]; exact ha.1, by rw [hit]; exact ha.2.1, hall, ?_⟩
  intro hne hua hut hl
  have hupd := Knative.abort_updates env p bs cs response hs1 hb hc hinv habort hne hua hut hl
  obtain ⟨p2, h2, hsp, hmarks, _, hcur, _⟩ :=
    Knative.iteration_check_ok env p bs cs response hs1 hb hc hinv hua hut hl
  rw [hit]
  refine ⟨by rw [hupd, hspec, htr], ?_⟩
  rw [h2]
  simp only
  have hk := Knative.keepProgressing_eq env p2
    (some (Knative.setPercents p.inst.Spec.TargetService.Baseline
      p.inst.Spec.TargetService.Candidate response.CanaryTrafficPercentage
      (p.kservice.Traffic.getD []) false).1)
  refine ⟨?_, ?_, ?_⟩
  · rw [hk.1, (Knative.markInst_status _ _).2.2.2.2, hmarks, hst.2.2.2.2.2]
    simp
  · rw [hk.1, (Knative.markInst_status _ _).2.2.1, hcur, hst.2.1]
  · rw [hk.2.2.1, hsp, hspec]

/-- C12, the general part on the failing input: the pass gets past its first part, its two
updates of the service are given the service `demoService 60 40` as fetched, and it asks to
run again after the interval 1. -/
theorem C12_abort_leaves_service_split_witness :
    Knative.syncKnativeSetup (Knative.answeringEnv 60 40 10 true)
        (Knative.demoExperiment "check_and_increment" 20) =
      .inr (Knative.demoPass 60 40 (Knative.demoExperiment "check_and_increment" 20)) ∧
    Knative.serviceUpdates (Knative.syncKnative (Knative.answeringEnv 60 40 10 true)
        (Knative.demoExperiment "check_and_increment" 20)).calls =
      [Knative.demoService 60 40, Knative.demoService 60 40] ∧
    (Knative.syncKnative (Knative.answeringEnv 60 40 10 true)
      (Knative.demoExperiment "check_and_increment" 20)).result =
      { Requeue := false, RequeueAfter := 1 } := by
  have hsetup : Knative.syncKnativeSetup (Knative.answeringEnv 60 40 10 true)
      (Knative.demoExperiment "check_and_increment" 20) =
      .inr (Knative.demoPass 60 40 (Knative.demoExperiment "check_and_increment" 20)) := by
    decide
  obtain ⟨ks, hg, _, _, _, _, _, _, h⟩ :=
    C12_abort_leaves_service_split.2 (Knative.answeringEnv 60 40 10 true)
      (Knative.demoExperiment "check_and_increment" 20)
      (Knative.demoPass 60 40 (Knative.demoExperiment "check_and_increment" 20))
      { Name := "reviews-v1" } { Name := "reviews-v2" }
      { BaselineTrafficPercentage := 90, CanaryTrafficPercentage := 10,
        Summary := { AllSuccessCriteriaMet := false, AbortExperiment := true, Conclusions := [] },
        LastState := none }
      hsetup (by decide) (by decide) rfl rfl rfl rfl rfl
  have hks : ks = Knative.demoService 60 40 := by
    have : (Knative.answeringEnv 60 40 10 true).getService =
        .ok (Knative.demoService 60 40) := rfl
    rw [this] at hg
    exact (Except.ok.inj hg).symm
  have h1 := h (by decide) rfl rfl (Or.inl rfl)
  refine ⟨hsetup, ?_, h1.2.2.2⟩
  rw [h1.1, hks]
  decide

/-- C16: in `syncKnative` with strategy `check_and_increment`, for every pass in which the call
of the analytics service fails, the pass asks to run again after 5 seconds whatever the
interval of the experiment, the loop over the traffic targets does not run, the two traffic
targets the pass holds are unchanged, no update of the service is issued besides the one of
the first part that links the service to the experiment (it carries the traffic of the
service as fetched, and is not issued for a service that is linked already), and
lastIncrementTime, currentIteration and the analysis state are unchanged. -/
theorem C16_analytics_failure_keeps_weights (env : Knative.Env) (inst : V1alpha1.Experiment)
    (p : Knative.Pass) (bs cs : Knative.CoreService) (e : Err)
    (hsetup : Knative.syncKnativeSetup env inst = .inr p)
    (hiter : inst.Status.CurrentIteration < inst.Spec.TrafficControl.MaxIterations)
    (hdue : env.now > inst.Status.LastIncrementTime + inst.Spec.TrafficControl.Interval)
    (hs : inst.Spec.TrafficControl.Strategy = "check_and_increment")
    (hb : env.baselineCoreService = .ok bs) (hc : env.candidateCoreService = .ok cs)
    (hinv : env.invoke = .error e) :
    (Knative.syncKnative env inst).result = { Requeue := false, RequeueAfter := 5 } ∧
    (Knative.syncKnative env inst).targets = none ∧
    (Knative.syncKnative env inst).baselineTraffic = some p.baselineTraffic ∧
    (Knative.syncKnative env inst).candidateTraffic = some p.candidateTraffic ∧
    Knative.serviceUpdates (Knative.syncKnative env inst).calls =
      Knative.serviceUpdates p.calls ∧
    (∀ ks1 ∈ Knative.serviceUpdates (Knative.syncKnative env inst).calls,
      ∃ ks, env.getService = .ok ks ∧ ks1.Traffic = ks.Traffic) ∧
    (∀ ks v, env.getService = .ok ks → ks.Labels.get Knative.experimentLabel = some v →
      Knative.serviceUpdates (Knative.syncKnative env inst).calls = []) ∧
    (Knative.syncKnative env inst).inst.Status.LastIncrementTime =
      inst.Status.LastIncrementTime ∧
    (Knative.syncKnative env inst).inst.Status.CurrentIteration =
      inst.Status.CurrentIteration ∧
    (Knative.syncKnative env inst).inst.Status.AnalysisState = inst.Status.AnalysisState := by
  have hst := Knative.setup_status env inst p hsetup
  have hiter1 : ¬ inst.Spec.TrafficControl.MaxIterations ≤ inst.Status.CurrentIteration :=
    not_le.mpr hiter
  have hupd : Knative.serviceUpdates ((p.calls ++ [Knative.Call.Invoke
      p.inst.Spec.AnalyticsEndpoint
      { inst := p.inst, baselineService := bs, candidateService := cs }]) ++
      [Knative.Call.StatusUpdate (Knative.markInst p.inst
        (V1alpha1.StatusMark.ExperimentNotCompleted "ErrorAnalytics" e))]) =
      Knative.serviceUpdates p.calls := by
    rw [Knative.serviceUpdates_append, Knative.serviceUpdates_append]
    simp [Knative.serviceUpdates]
  rw [Knative.syncKnative_analytics_failure env inst p bs cs e hsetup hiter1 hdue hs hb hc hinv]
  refine ⟨rfl, rfl, rfl, rfl, hupd, ?_, ?_, ?_, ?_, ?_⟩
  · intro ks1 h1
    simp only [hupd] at h1
    exact hst.2.1 ks1 h1
  · intro ks v hg hl
    simp only [hupd]
    rw [Knative.setup_linked env inst p ks v hsetup hg hl]
    rfl
  · simp only [(Knative.markInst_status _ _).2.1]; exact hst.1.1
  · simp only [(Knative.markInst_status _ _).2.2.1]; exact hst.1.2.1
  · simp only [(Knative.markInst_status _ _).2.2.2.1]; exact hst.1.2.2.1

/-- C16 in the world `demoEnv 60 40`, whose analytics service fails: the pass asks to run again
after 5 seconds, the interval being 1, and issues no update of the service. -/
theorem C16_analytics_failure_keeps_weights_witness :
    Knative.syncKnativeSetup (Knative.demoEnv 60 40)
        (Knative.demoExperiment "check_and_increment" 20) =
      .inr (Knative.demoPass 60 40 (Knative.demoExperiment "check_and_increment" 20)) ∧
    (Knative.syncKnative (Knative.demoEnv 60 40)
      (Knative.demoExperiment "check_and_increment" 20)).result =
      { Requeue := false, RequeueAfter := 5 } ∧
    Knative.serviceUpdates (Knative.syncKnative (Knative.demoEnv 60 40)
      (Knative.demoExperiment "check_and_increment" 20)).calls = [] := by
  have h := C16_analytics_failure_keeps_weights (Knative.demoEnv 60 40)
    (Knative.demoExperiment "check_and_increment" 20)
    (Knative.demoPass 60 40 (Knative.demoExperiment "check_and_increment" 20))
    { Name := "reviews-v1" } { Name := "reviews-v2" } "unused"
    (by decide) (by decide) (by decide) rfl rfl rfl rfl
  exact ⟨by decide, h.1, h.2.2.2.2.2.2.1 (Knative.demoService 60 40) "exp" rfl (by decide)⟩

/-- C13, the code at the failing input and on every pass. The experiment
`finishedExperiment false "baseline"` is finished without success and the service splits
70/30: the pass of `syncKnative` sets the two traffic targets it holds to 100 and 0, and the
one update of the service it issues carries the split 70/30 of the service as fetched. For
every pass that gets past its first part with currentIteration >= maxIterations and
AllSuccessCriteriaMet = false, whatever the on-success policy: the targets the pass holds,
which are the ones fetched from the service, end at 100 and 0, and the pass issues one more
update of the service, which carries the traffic list as fetched and the labels without the
experiment label. `Cleanup`, for an experiment that did not succeed and outside its delete
path, updates the destination rule built by the steps to stable on `Baseline`, and then,
unless that update fails, the virtual service built by the same steps. -/
theorem C13_failure_leaves_service_split :
    ((Knative.syncKnative (Knative.demoEnv 70 30)
        (Knative.finishedExperiment false "baseline")).baselineTraffic =
        some { RevisionName := "v1", Percent := 100 } ∧
      (Knative.syncKnative (Knative.demoEnv 70 30)
        (Knative.finishedExperiment false "baseline")).candidateTraffic =
        some { RevisionName := "v2", Percent := 0 } ∧
      (Knative.serviceUpdates (Knative.syncKnative (Knative.demoEnv 70 30)
        (Knative.finishedExperiment false "baseline")).calls).map (fun ks => ks.Traffic) =
        [ some [ { RevisionName := "v1", Percent := 70 },
                 { RevisionName := "v2", Percent := 30 } ] ]) ∧
    (∀ (env : Knative.Env) (inst : V1alpha1.Experiment) (p : Knative.Pass),
      Knative.syncKnativeSetup env inst = .inr p →
      inst.Spec.TrafficControl.MaxIterations ≤ inst.Status.CurrentIteration →
      inst.Status.AssessmentSummary.AllSuccessCriteriaMet = false →
      ∃ ks, env.getService = .ok ks ∧
        Knative.getTrafficByName ks inst.Spec.TargetService.Baseline =
          some p.baselineTraffic ∧
        Knative.getTrafficByName ks inst.Spec.TargetService.Candidate =
          some p.candidateTraffic ∧
        (Knative.syncKnative env inst).baselineTraffic =
          some { p.baselineTraffic with Percent := 100 } ∧
        (Knative.syncKnative env inst).candidateTraffic =
          some { p.candidateTraffic with Percent := 0 } ∧
        ∃ ks1, Knative.serviceUpdates (Knative.syncKnative env inst).calls =
            Knative.serviceUpdates p.calls ++ [ks1] ∧
          ks1.Traffic = ks.Traffic ∧
          ks1.Labels = p.kservice.Labels.delete Knative.experimentLabel) ∧
    (∀ (h : Routing.Builders) (store : Routing.Store) (r : Routing.IstioRoutingRules)
        (inst : V1alpha1.Experiment),
      ¬ (inst.Spec.CleanUp = Routing.CleanUpDelete ∧ Routing.IsInit r = true) →
      (∀ e, store.updateDestinationRule
          (h.drRemoveExperimentLabel
            (h.drProgressingToStable r.DestinationRule Routing.Baseline)) = .error e →
        (Routing.Cleanup h store r inst false).calls =
          [Routing.StoreCall.UpdateDestinationRule
            (h.drRemoveExperimentLabel
              (h.drProgressingToStable r.DestinationRule Routing.Baseline))]) ∧
      (∀ dr, store.updateDestinationRule
          (h.drRemoveExperimentLabel
            (h.drProgressingToStable r.DestinationRule Routing.Baseline)) = .ok dr →
        (Routing.Cleanup h store r inst false).calls =
          [Routing.StoreCall.UpdateDestinationRule
            (h.drRemoveExperimentLabel
              (h.drProgressingToStable r.DestinationRule Routing.Baseline)),
           Routing.StoreCall.UpdateVirtualService
            (h.vsRemoveExperimentLabel
              (h.vsProgressingToStable r.VirtualService inst.Spec.TargetService.Name
                inst.Spec.TargetService.Name Routing.Baseline))])) := by
  refine ⟨⟨by decide, by decide, by decide⟩, ?_, ?_⟩
  · intro env inst p hsetup hiter hfail
    obtain ⟨ks, hg, hb, hc, htr, _⟩ := Knative.setup_inr env inst p hsetup
    have hst := (Knative.setup_status env inst p hsetup).1
    have hf : p.inst.Status.AssessmentSummary.AllSuccessCriteriaMet = false := by
      rw [hst.2.2.2.1]; exact hfail
    rw [Knative.terminal_eq env inst p hsetup hiter]
    have hl := Knative.syncKnativeTerminal_locals env p
    have hcs := (Knative.terminalCollapse_cases p).1 hf
    refine ⟨ks, hg, hb, hc, by rw [hl.1, hcs.1], by rw [hl.2, hcs.2], _,
      Knative.syncKnativeTerminal_updates env p (Knative.setup_label env inst p hsetup),
      htr, rfl⟩
  · intro h store r inst hpath
    have hc := Routing.Cleanup_update_calls h store r inst false hpath
    have hs : Routing.stabilise h r inst false =
        Routing.ToStable h r Routing.Baseline inst.Spec.TargetService.Name
          inst.Spec.TargetService.Name := by
      simp [Routing.stabilise]
    rw [hs] at hc
    exact hc

/-- C13, the general part on the failing input: the pass gets past its first part, the
update it issues carries the fetched traffic list 70/30 and no experiment label, and
`Cleanup` with the builders `demoBuilders` issues the two updates with the stable name
`baseline`. -/
theorem C13_failure_leaves_service_split_witness :
    Knative.syncKnativeSetup (Knative.demoEnv 70 30)
        (Knative.finishedExperiment false "baseline") =
      .inr (Knative.demoPass 70 30 (Knative.finishedExperiment false "baseline")) ∧
    (∃ ks1, Knative.serviceUpdates (Knative.syncKnative (Knative.demoEnv 70 30)
          (Knative.finishedExperiment false "baseline")).calls = [ks1] ∧
      ks1.Traffic = (Knative.demoService 70 30).Traffic ∧ ks1.Labels = []) ∧
    (Routing.Cleanup Routing.demoBuilders Routing.okStore (Routing.demoRules [])
        (Routing.cleanupExperiment "" "candidate") false).calls =
      [Routing.StoreCall.UpdateDestinationRule
        { Name := "reviews.iter8", Namespace := "default",
          Labels := [("stable", "baseline")], Spec := ["baseline", "candidate"] },
       Routing.StoreCall.UpdateVirtualService
        { Name := "reviews.iter8", Namespace := "default",
          Labels := [("stable", "baseline")], Http := [] }] := by
  have hsetup : Knative.syncKnativeSetup (Knative.demoEnv 70 30)
      (Knative.finishedExperiment false "baseline") =
      .inr (Knative.demoPass 70 30 (Knative.finishedExperiment false "baseline")) := by decide
  obtain ⟨ks, hg, _, _, _, _, ks1, hu, htr, hlab⟩ :=
    C13_failure_leaves_service_split.2.1 (Knative.demoEnv 70 30)
      (Knative.finishedExperiment false "baseline")
      (Knative.demoPass 70 30 (Knative.finishedExperiment false "baseline"))
      hsetup (by decide) rfl
  have hks : ks = Knative.demoService 70 30 := by
    have : (Knative.demoEnv 70 30).getService = .ok (Knative.demoService 70 30) := rfl
    rw [this] at hg
    exact (Except.ok.inj hg).symm
  refine ⟨hsetup, ⟨ks1, by simpa [Knative.demoPass, Knative.serviceUpdates] using hu,
    by rw [htr, hks], by rw [hlab]; decide⟩, ?_⟩
  exact ((C13_failure_leaves_service_split.2.2 Routing.demoBuilders Routing.okStore
    (Routing.demoRules []) (Routing.cleanupExperiment "" "candidate") (by decide)).2
    _ rfl).trans (by decide)

/-- C14, the code at the failing input and on every pass. The experiment
`finishedExperiment true "candidate"` is finished with success, its on-success policy is
`candidate`, and the service splits 70/30: the pass of `syncKnative` sets the two traffic
targets it holds to 0 and 100, the one update of the service it issues carries the split
70/30 of the service as fetched, and the pass marks the experiment completed. For every pass
that gets past its first part with currentIteration >= maxIterations and
AllSuccessCriteriaMet = true: the targets the pass holds, which are the ones fetched from the
service, end at 100 and 0 for `baseline`, at 0 and 100 for `candidate`, and as they were for
`both`; the pass issues one more update of the service, which carries the traffic list as
fetched and the labels without the experiment label; and unless that update fails the pass
ends with `MarkExperimentCompleted`, the update of the status and an empty result.
`Cleanup`, for an experiment that succeeded and outside its delete path, updates the
destination rule built by the steps to stable on `Baseline` or `Candidate`, or the one with
the stable labels, and then, unless that update fails, the virtual service built likewise. -/
theorem C14_success_leaves_service_split :
    ((Knative.syncKnative (Knative.demoEnv 70 30)
        (Knative.finishedExperiment true "candidate")).baselineTraffic =
        some { RevisionName := "v1", Percent := 0 } ∧
      (Knative.syncKnative (Knative.demoEnv 70 30)
        (Knative.finishedExperiment true "candidate")).candidateTraffic =
        some { RevisionName := "v2", Percent := 100 } ∧
      (Knative.serviceUpdates (Knative.syncKnative (Knative.demoEnv 70 30)
        (Knative.finishedExperiment true "candidate")).calls).map (fun ks => ks.Traffic) =
        [ some [ { RevisionName := "v1", Percent := 70 },
                 { RevisionName := "v2", Percent := 30 } ] ] ∧
      (Knative.syncKnative (Knative.demoEnv 70 30)
        (Knative.finishedExperiment true "candidate")).inst.Status.Marks.getLast? =
        some V1alpha1.StatusMark.ExperimentCompleted) ∧
    (∀ (env : Knative.Env) (inst : V1alpha1.Experiment) (p : Knative.Pass),
      Knative.syncKnativeSetup env inst = .inr p →
      inst.Spec.TrafficControl.MaxIterations ≤ inst.Status.CurrentIteration →
      inst.Status.AssessmentSummary.AllSuccessCriteriaMet = true →
      ∃ ks, env.getService = .ok ks ∧
        Knative.getTrafficByName ks inst.Spec.TargetService.Baseline =
          some p.baselineTraffic ∧
        Knative.getTrafficByName ks inst.Spec.TargetService.Candidate =
          some p.candidateTraffic ∧
        (inst.Spec.TrafficControl.OnSuccess = "baseline" →
          (Knative.syncKnative env inst).baselineTraffic =
            some { p.baselineTraffic with Percent := 100 } ∧
          (Knative.syncKnative env inst).candidateTraffic =
            some { p.candidateTraffic with Percent := 0 }) ∧
        (inst.Spec.TrafficControl.OnSuccess = "candidate" →
          (Knative.syncKnative env inst).baselineTraffic =
            some { p.baselineTraffic with Percent := 0 } ∧
          (Knative.syncKnative env inst).candidateTraffic =
            some { p.candidateTraffic with Percent := 100 }) ∧
        (inst.Spec.TrafficControl.OnSuccess = "both" →
          (Knative.syncKnative env inst).baselineTraffic = some p.baselineTraffic ∧
          (Knative.syncKnative env inst).candidateTraffic = some p.candidateTraffic) ∧
        (∃ ks1, Knative.serviceUpdates (Knative.syncKnative env inst).calls =
            Knative.serviceUpdates p.calls ++ [ks1] ∧
          ks1.Traffic = ks.Traffic ∧
          ks1.Labels = p.kservice.Labels.delete Knative.experimentLabel) ∧
        (env.updateServiceTerminal = none →
          (Knative.syncKnative env inst).inst.Status.Marks.getLast? =
            some V1alpha1.StatusMark.ExperimentCompleted ∧
          Knative.Call.StatusUpdate (Knative.syncKnative env inst).inst ∈
            (Knative.syncKnative env inst).calls ∧
          (Knative.syncKnative env inst).result = Result.zero)) ∧
    (∀ (h : Routing.Builders) (store : Routing.Store) (r : Routing.IstioRoutingRules)
        (inst : V1alpha1.Experiment) (stableName : String),
      ¬ (inst.Spec.CleanUp = Routing.CleanUpDelete ∧ Routing.IsInit r = true) →
      ((inst.Spec.TrafficControl.OnSuccess = "baseline" ∧ stableName = Routing.Baseline) ∨
        (inst.Spec.TrafficControl.OnSuccess = "candidate" ∧
          stableName = Routing.Candidate)) →
      (∀ e, store.updateDestinationRule
          (h.drRemoveExperimentLabel
            (h.drProgressingToStable r.DestinationRule stableName)) = .error e →
        (Routing.Cleanup h store r inst true).calls =
          [Routing.StoreCall.UpdateDestinationRule
            (h.drRemoveExperimentLabel
              (h.drProgressingToStable r.DestinationRule stableName))]) ∧
      (∀ dr, store.updateDestinationRule
          (h.drRemoveExperimentLabel
            (h.drProgressingToStable r.DestinationRule stableName)) = .ok dr →
        (Routing.Cleanup h store r inst true).calls =
          [Routing.StoreCall.UpdateDestinationRule
            (h.drRemoveExperimentLabel
              (h.drProgressingToStable r.DestinationRule stableName)),
           Routing.StoreCall.UpdateVirtualService
            (h.vsRemoveExperimentLabel
              (h.vsProgressingToStable r.VirtualService inst.Spec.TargetService.Name
                inst.Spec.TargetService.Name stableName))])) ∧
    (∀ (h : Routing.Builders) (store : Routing.Store) (r : Routing.IstioRoutingRules)
        (inst : V1alpha1.Experiment),
      ¬ (inst.Spec.CleanUp = Routing.CleanUpDelete ∧ Routing.IsInit r = true) →
      inst.Spec.TrafficControl.OnSuccess = "both" →
      (∀ e, store.updateDestinationRule
          (h.removeExperimentLabel
            { r.DestinationRule with Labels := [(Routing.ExperimentRole, Routing.Stable)] }
            { r.VirtualService with Labels := [(Routing.ExperimentRole, Routing.Stable)] }).1 =
            .error e →
        (Routing.Cleanup h store r inst true).calls =
          [Routing.StoreCall.UpdateDestinationRule
            (h.removeExperimentLabel
              { r.DestinationRule with Labels := [(Routing.ExperimentRole, Routing.Stable)] }
              { r.VirtualService with
                Labels := [(Routing.ExperimentRole, Routing.Stable)] }).1]) ∧
      (∀ dr, store.updateDestinationRule
          (h.removeExperimentLabel
            { r.DestinationRule with Labels := [(Routing.ExperimentRole, Routing.Stable)] }
            { r.VirtualService with Labels := [(Routing.ExperimentRole, Routing.Stable)] }).1 =
            .ok dr →
        (Routing.Cleanup h store r inst true).calls =
          [Routing.StoreCall.UpdateDestinationRule
            (h.removeExperimentLabel
              { r.DestinationRule with Labels := [(Routing.ExperimentRole, Routing.Stable)] }
              { r.VirtualService with
                Labels := [(Routing.ExperimentRole, Routing.Stable)] }).1,
           Routing.StoreCall.UpdateVirtualService
            (h.removeExperimentLabel
              { r.DestinationRule with Labels := [(Routing.ExperimentRole, Routing.Stable)] }
              { r.VirtualService with
                Labels := [(Routing.ExperimentRole, Routing.Stable)] }).2])) := by
  refine ⟨⟨by decide, by decide, by decide, by decide⟩, ?_, ?_, ?_⟩
  · intro env inst p hsetup hiter hsucc
    obtain ⟨ks, hg, hb, hc, htr, hspec⟩ := Knative.setup_inr env inst p hsetup
    have hst := (Knative.setup_status env inst p hsetup).1
    have ht : p.inst.Status.AssessmentSummary.AllSuccessCriteriaMet = true := by
      rw [hst.2.2.2.1]; exact hsucc
    rw [Knative.terminal_eq env inst p hsetup hiter]
    have hl := Knative.syncKnativeTerminal_locals env p
    have hcs := (Knative.terminalCollapse_cases p).2 ht
    refine ⟨ks, hg, hb, hc, ?_, ?_, ?_, ?_, ?_⟩
    · intro ho
      have := hcs.1 (by rw [hspec]; exact ho)
      exact ⟨by rw [hl.1, this.1], by rw [hl.2, this.2]⟩
    · intro ho
      have := hcs.2.1 (by rw [hspec]; exact ho)
      exact ⟨by rw [hl.1, this.1], by rw [hl.2, this.2]⟩
    · intro ho
      have := hcs.2.2 (by rw [hspec]; exact ho)
      exact ⟨by rw [hl.1, this.1], by rw [hl.2, this.2]⟩
    · exact ⟨_, Knative.syncKnativeTerminal_updates env p
        (Knative.setup_label env inst p hsetup), htr, rfl⟩
    · intro hu
      have hd := Knative.syncKnativeTerminal_completed env p hu
      refine ⟨?_, hd.2.2.2, hd.2.2.1⟩
      rw [hd.2.1]
      simp
  · intro h store r inst stableName hpath hpol
    have hc := Routing.Cleanup_update_calls h store r inst true hpath
    have hs : Routing.stabilise h r inst true =
        Routing.ToStable h r stableName inst.Spec.TargetService.Name
          inst.Spec.TargetService.Name := by
      rcases hpol with ⟨ho, hn⟩ | ⟨ho, hn⟩
      · simp [Routing.stabilise, ho, hn]
      · simp [Routing.stabilise, ho, hn]
    rw [hs] at hc
    exact hc
  · intro h store r inst hpath ho
    have hc := Routing.Cleanup_update_calls h store r inst true hpath
    have hs : Routing.stabilise h r inst true = Routing.SetStableLabels h r := by
      simp [Routing.stabilise, ho]
    rw [hs] at hc
    exact hc

/-- C14, the general part on the failing input: the pass gets past its first part, the
update it issues carries the fetched traffic list 70/30 and no experiment label, the last
status call is `MarkExperimentCompleted`, and `Cleanup` with the builders `demoBuilders` and
policy `candidate` issues the two updates with the stable name `candidate`. -/
theorem C14_success_leaves_service_split_witness :
    Knative.syncKnativeSetup (Knative.demoEnv 70 30)
        (Knative.finishedExperiment true "candidate") =
      .inr (Knative.demoPass 70 30 (Knative.finishedExperiment true "candidate")) ∧
    (∃ ks1, Knative.serviceUpdates (Knative.syncKnative (Knative.demoEnv 70 30)
          (Knative.finishedExperiment true "candidate")).calls = [ks1] ∧
      ks1.Traffic = (Knative.demoService 70 30).Traffic ∧ ks1.Labels = []) ∧
    (Knative.syncKnative (Knative.demoEnv 70 30)
      (Knative.finishedExperiment true "candidate")).inst.Status.Marks.getLast? =
      some V1alpha1.StatusMark.ExperimentCompleted ∧
    (Routing.Cleanup Routing.demoBuilders Routing.okStore (Routing.demoRules [])
        (Routing.cleanupExperiment "" "candidate") true).calls =
      [Routing.StoreCall.UpdateDestinationRule
        { Name := "reviews.iter8", Namespace := "default",
          Labels := [("stable", "candidate")], Spec := ["baseline", "candidate"] },
       Routing.StoreCall.UpdateVirtualService
        { Name := "reviews.iter8", Namespace := "default",
          Labels := [("stable", "candidate")], Http := [] }] := by
  have hsetup : Knative.syncKnativeSetup (Knative.demoEnv 70 30)
      (Knative.finishedExperiment true "candidate") =
      .inr (Knative.demoPass 70 30 (Knative.finishedExperiment true "candidate")) := by decide
  obtain ⟨ks, hg, _, _, _, _, _, ⟨ks1, hu, htr, hlab⟩, hdone⟩ :=
    C14_success_leaves_service_split.2.1 (Knative.demoEnv 70 30)
      (Knative.finishedExperiment true "candidate")
      (Knative.demoPass 70 30 (Knative.finishedExperiment true "candidate"))
      hsetup (by decide) rfl
  have hks : ks = Knative.demoService 70 30 := by
    have : (Knative.demoEnv 70 30).getService = .ok (Knative.demoService 70 30) := rfl
    rw [this] at hg
    exact (Except.ok.inj hg).symm
  refine ⟨hsetup, ⟨ks1, by simpa [Knative.demoPass, Knative.serviceUpdates] using hu,
    by rw [htr, hks], by rw [hlab]; decide⟩, (hdone rfl).1, ?_⟩
  exact ((C14_success_leaves_service_split.2.2.1 Routing.demoBuilders Routing.okStore
    (Routing.demoRules []) (Routing.cleanupExperiment "" "candidate") Routing.Candidate
    (by decide) (Or.inr ⟨rfl, rfl⟩)).2 _ rfl).trans (by decide)

/-- C17: the analytics-state blob is never null. After `InitStatus` the field `AnalysisState`
and its raw bytes are both set: they are the empty-object placeholder when the field or its
raw bytes were unset before, and unchanged when they were set. A pass of `syncKnative` that
receives a response without lastState (its calls succeeding), or that ends the experiment,
leaves the placeholder as raw bytes in the status it passes to the update of the status. -/
theorem C17_analysis_state_never_null :
    (∀ (e : V1alpha2.Experiment) (clock : Nat → Time),
      (∃ raw, (V1alpha2.InitStatus e clock).Status.AnalysisState = some { Raw := some raw }) ∧
      (e.Status.AnalysisState = none ∨ e.Status.AnalysisState = some { Raw := none } →
        (V1alpha2.InitStatus e clock).Status.AnalysisState = some { Raw := some emptyObject }) ∧
      (∀ raw, e.Status.AnalysisState = some { Raw := some raw } →
        (V1alpha2.InitStatus e clock).Status.AnalysisState = some { Raw := some raw })) ∧
    (∀ (env : Knative.Env) (inst : V1alpha1.Experiment) (p : Knative.Pass)
        (bs cs : Knative.CoreService) (response : Response),
      Knative.syncKnativeSetup env inst = .inr p →
      inst.Status.CurrentIteration < inst.Spec.TrafficControl.MaxIterations →
      env.now > inst.Status.LastIncrementTime + inst.Spec.TrafficControl.Interval →
      inst.Spec.TrafficControl.Strategy = "check_and_increment" →
      env.baselineCoreService = .ok bs → env.candidateCoreService = .ok cs →
      env.invoke = .ok response → response.LastState = none →
      env.updateServiceAbort = none → env.updateServiceTraffic = none →
      (Knative.syncKnative env inst).inst.Status.AnalysisState = { Raw := some emptyObject } ∧
      Knative.Call.StatusUpdate (Knative.syncKnative env inst).inst ∈
        (Knative.syncKnative env inst).calls) ∧
    (∀ (env : Knative.Env) (inst : V1alpha1.Experiment) (p : Knative.Pass),
      Knative.syncKnativeSetup env inst = .inr p →
      inst.Spec.TrafficControl.MaxIterations ≤ inst.Status.CurrentIteration →
      env.updateServiceTerminal = none →
      (Knative.syncKnative env inst).inst.Status.AnalysisState = { Raw := some emptyObject } ∧
      Knative.Call.StatusUpdate (Knative.syncKnative env inst).inst ∈
        (Knative.syncKnative env inst).calls) := by
  refine ⟨?_, ?_, ?_⟩
  · intro e clock
    have h := V1alpha2.InitStatus_analysisState e clock
    refine ⟨?_, ?_, ?_⟩
    · rcases hs : e.Status.AnalysisState with _ | ⟨_ | raw⟩ <;> rw [hs] at h <;>
        exact ⟨_, h⟩
    · intro hu
      rcases hu with hu | hu <;> rw [hu] at h <;> exact h
    · intro raw hr
      rw [hr] at h
      exact h
  · intro env inst p bs cs response hsetup hiter hdue hs hb hc hinv hl hua hut
    obtain ⟨_, _, _, _, _, hspec⟩ := Knative.setup_inr env inst p hsetup
    have hiter1 : ¬ inst.Spec.TrafficControl.MaxIterations ≤ inst.Status.CurrentIteration :=
      not_le.mpr hiter
    have hs1 : p.inst.Spec.TrafficControl.Strategy = "check_and_increment" := by
      rw [hspec]; exact hs
    rw [Knative.syncKnative_iterating env inst p hsetup hiter1 hdue]
    obtain ⟨p2, h2, _, _, _, _, hraw⟩ :=
      Knative.iteration_check_ok env p bs cs response hs1 hb hc hinv hua hut (Or.inl hl)
    rw [h2]
    simp only
    have hk := Knative.keepProgressing_eq env p2
      (some (Knative.setPercents p.inst.Spec.TargetService.Baseline
        p.inst.Spec.TargetService.Candidate response.CanaryTrafficPercentage
        (p.kservice.Traffic.getD []) false).1)
    refine ⟨?_, ?_⟩
    · rw [hk.1, (Knative.markInst_status _ _).2.2.2.1]
      exact hraw hl
    · rw [hk.2.1, hk.1]
      simp
  · intro env inst p hsetup hiter hu
    rw [Knative.terminal_eq env inst p hsetup hiter]
    have hd := Knative.syncKnativeTerminal_completed env p hu
    exact ⟨hd.1, hd.2.2.2⟩

/-- C17 on concrete inputs: `InitStatus` on an experiment whose analysis state holds no raw
bytes stores the placeholder; the pass of `syncKnative` in the world `answeringEnv 60 40 10
false`, whose response has no lastState, and the pass that ends a finished experiment both
leave the placeholder as raw bytes. -/
theorem C17_analysis_state_never_null_witness :
    (V1alpha2.InitStatus
        { Spec := { Baseline := "v1", Candidates := ["v2"] },
          Status := { V1alpha2.emptyStatus with AnalysisState := some { Raw := none } } }
        (fun n => n)).Status.AnalysisState = some { Raw := some emptyObject } ∧
    (Knative.syncKnative (Knative.answeringEnv 60 40 10 false)
      (Knative.demoExperiment "check_and_increment" 20)).inst.Status.AnalysisState =
      { Raw := some emptyObject } ∧
    (Knative.syncKnative (Knative.demoEnv 60 40)
      (Knative.finishedExperiment true "both")).inst.Status.AnalysisState =
      { Raw := some emptyObject } := by
  refine ⟨?_, ?_, ?_⟩
  · exact (C17_analysis_state_never_null.1 _ _).2.1 (Or.inr rfl)
  · exact (C17_analysis_state_never_null.2.1 (Knative.answeringEnv 60 40 10 false)
      (Knative.demoExperiment "check_and_increment" 20)
      (Knative.demoPass 60 40 (Knative.demoExperiment "check_and_increment" 20))
      { Name := "reviews-v1" } { Name := "reviews-v2" }
      { BaselineTrafficPercentage := 90, CanaryTrafficPercentage := 10,
        Summary := { AllSuccessCriteriaMet := false, AbortExperiment := false,
                     Conclusions := [] },
        LastState := none }
      (by decide) (by decide) (by decide) rfl rfl rfl rfl rfl rfl rfl).1
  · exact (C17_analysis_state_never_null.2.2 (Knative.demoEnv 60 40)
      (Knative.finishedExperiment true "both")
      (Knative.demoPass 60 40 (Knative.finishedExperiment true "both"))
      (by decide) (by decide) rfl).1

/-- C20, the code at the failing input: the status of `initialised` comes out of `InitStatus`
with its message unset, and `MarkTargetsError` fails on it (the store through the nil pointer
`s.Message` panics), whatever the message and the clock readings; it fails in the same way on
every status whose message is unset. The sibling `MarkRoutingRulesError`, which assigns the
pointer, completes on the same status, sets the phase to Pause and the message. -/
theorem C20_MarkTargetsError_fails_on_unset_message :
    V1alpha2.initialised.Status.Message = none ∧
    (∀ (msg : String) (tAdd tMark : Time),
      V1alpha2.MarkTargetsError V1alpha2.initialised.Status msg tAdd tMark = none) ∧
    (∀ (s : V1alpha2.ExperimentStatus) (msg : String) (tAdd tMark : Time),
      V1alpha2.MarkTargetsError { s with Message := none } msg tAdd tMark = none) ∧
    (∀ (msg : String) (tAdd tMark : Time),
      ∃ s1 updated,
        V1alpha2.MarkRoutingRulesError V1alpha2.initialised.Status msg tAdd tMark =
          some (s1, updated, V1alpha2.ReasonRoutingRulesError) ∧
        s1.Phase = V1alpha2.Phase.Pause ∧
        s1.Message =
          some (V1alpha2.composeMessage V1alpha2.ReasonRoutingRulesError msg)) := by
  refine ⟨by decide, ?_, ?_, ?_⟩
  · intro msg tAdd tMark
    simp [V1alpha2.MarkTargetsError, V1alpha2.storeThroughMessage, V1alpha2.initialised,
      V1alpha2.InitStatus, V1alpha2.emptyStatus, V1alpha2.experimentCondSet,
      V1alpha2.addCondition]
  · intro s msg tAdd tMark
    simp [V1alpha2.MarkTargetsError, V1alpha2.storeThroughMessage]
  · intro msg tAdd tMark
    simp [V1alpha2.MarkRoutingRulesError, V1alpha2.initialised, V1alpha2.InitStatus,
      V1alpha2.emptyStatus, V1alpha2.experimentCondSet, V1alpha2.addCondition,
      V1alpha2.withReason, V1alpha2.getAndMark, V1alpha2.getCondition,
      V1alpha2.findCondition, V1alpha2.markCondition, V1alpha2.ConditionFalse,
      V1alpha2.ConditionUnknown]

/-- C18: for `UpdateRolloutPercent`, `UpdateRemoveRules`, `StableToProgressing` and
`DeleteAll`, when a call to the backing store fails with the error `e`, the operation returns
`e`, the failing call is the last call issued (the call on the virtual service is not issued
when the call on the destination rule failed, and no call is issued twice), and the object
of the failing call is held as it was passed to the store, the other object as it was held
before the failing call. -/
theorem C18_store_errors_are_surfaced (h : Routing.Builders) (store : Routing.Store)
    (r : Routing.IstioRoutingRules) (e : Err) :
    (∀ (serviceName serviceNamespace : String) (w : Int),
      store.updateVirtualService
        (h.vsRolloutPercent r.VirtualService serviceName serviceNamespace w) = .error e →
      (Routing.UpdateRolloutPercent h store r serviceName serviceNamespace w).err = some e ∧
      (Routing.UpdateRolloutPercent h store r serviceName serviceNamespace w).calls =
        [Routing.StoreCall.UpdateVirtualService
          (h.vsRolloutPercent r.VirtualService serviceName serviceNamespace w)] ∧
      (Routing.UpdateRolloutPercent h store r serviceName serviceNamespace w).rules = r) ∧
    (store.updateDestinationRule r.DestinationRule = .error e →
      (Routing.UpdateRemoveRules store r).err = some e ∧
      (Routing.UpdateRemoveRules store r).calls =
        [Routing.StoreCall.UpdateDestinationRule r.DestinationRule] ∧
      (Routing.UpdateRemoveRules store r).rules = r) ∧
    (∀ (dr : Routing.DestinationRule),
      store.updateDestinationRule r.DestinationRule = .ok dr →
      store.updateVirtualService r.VirtualService = .error e →
      (Routing.UpdateRemoveRules store r).err = some e ∧
      (Routing.UpdateRemoveRules store r).calls =
        [Routing.StoreCall.UpdateDestinationRule r.DestinationRule,
         Routing.StoreCall.UpdateVirtualService r.VirtualService] ∧
      (Routing.UpdateRemoveRules store r).rules =
        { DestinationRule := dr, VirtualService := r.VirtualService }) ∧
    (∀ (targets : Routing.Targets) (expName serviceNamespace : String),
      store.updateDestinationRule
        (h.drExperimentRegisterd (h.drStableToProgressing r.DestinationRule targets.Baseline)
          expName) = .error e →
      (Routing.StableToProgressing h store r targets expName serviceNamespace).err = some e ∧
      (Routing.StableToProgressing h store r targets expName serviceNamespace).calls =
        [Routing.StoreCall.UpdateDestinationRule
          (h.drExperimentRegisterd (h.drStableToProgressing r.DestinationRule targets.Baseline)
            expName)] ∧
      (Routing.StableToProgressing h store r targets expName serviceNamespace).rules =
        { DestinationRule :=
            h.drExperimentRegisterd (h.drStableToProgressing r.DestinationRule targets.Baseline)
              expName,
          VirtualService := r.VirtualService }) ∧
    (∀ (targets : Routing.Targets) (expName serviceNamespace : String)
        (dr : Routing.DestinationRule),
      store.updateDestinationRule
        (h.drExperimentRegisterd (h.drStableToProgressing r.DestinationRule targets.Baseline)
          expName) = .ok dr →
      store.updateVirtualService
        (h.vsExperimentRegisterd
          (h.vsStableToProgressing r.VirtualService targets.ServiceName serviceNamespace)
          expName) = .error e →
      (Routing.StableToProgressing h store r targets expName serviceNamespace).err = some e ∧
      (Routing.StableToProgressing h store r targets expName serviceNamespace).calls =
        [Routing.StoreCall.UpdateDestinationRule
          (h.drExperimentRegisterd (h.drStableToProgressing r.DestinationRule targets.Baseline)
            expName),
         Routing.StoreCall.UpdateVirtualService
          (h.vsExperimentRegisterd
            (h.vsStableToProgressing r.VirtualService targets.ServiceName serviceNamespace)
            expName)] ∧
      (Routing.StableToProgressing h store r targets expName serviceNamespace).rules =
        { DestinationRule := dr,
          VirtualService :=
            h.vsExperimentRegisterd
              (h.vsStableToProgressing r.VirtualService targets.ServiceName serviceNamespace)
              expName }) ∧
    (store.deleteDestinationRule r.DestinationRule.Namespace r.DestinationRule.Name = some e →
      (Routing.DeleteAll store r).err = some e ∧
      (Routing.DeleteAll store r).calls =
        [Routing.StoreCall.DeleteDestinationRule r.DestinationRule.Namespace
          r.DestinationRule.Name] ∧
      (Routing.DeleteAll store r).rules = r) ∧
    (store.deleteDestinationRule r.DestinationRule.Namespace r.DestinationRule.Name = none →
      store.deleteVirtualService r.VirtualService.Namespace r.VirtualService.Name = some e →
      (Routing.DeleteAll store r).err = some e ∧
      (Routing.DeleteAll store r).calls =
        [Routing.StoreCall.DeleteDestinationRule r.DestinationRule.Namespace
          r.DestinationRule.Name,
         Routing.StoreCall.DeleteVirtualService r.VirtualService.Namespace
          r.VirtualService.Name] ∧
      (Routing.DeleteAll store r).rules = r) := by
  refine ⟨?_, ?_, ?_, ?_, ?_, ?_, ?_⟩
  · intro serviceName serviceNamespace w hv
    simp [Routing.UpdateRolloutPercent, hv]
  · intro hd
    simp [Routing.UpdateRemoveRules, hd]
  · intro dr hd hv
    simp [Routing.UpdateRemoveRules, hd, hv]
  · intro targets expName serviceNamespace hd
    simp [Routing.StableToProgressing, hd]
  · intro targets expName serviceNamespace dr hd hv
    simp [Routing.StableToProgressing, hd, hv]
  · intro hd
    simp [Routing.DeleteAll, hd]
  · intro hd hv
    simp [Routing.DeleteAll, hd, hv]

/-- C18 on the rules `demoRules []`: against a store that refuses the calls on destination
rules with `conflict`, `UpdateRemoveRules` and `DeleteAll` return `conflict` after one call;
against a store that refuses the calls on virtual services, `UpdateRolloutPercent` returns
`conflict` and keeps the rules, and `StableToProgressing` returns `conflict` after its second
call. -/
theorem C18_store_errors_are_surfaced_witness :
    ((Routing.UpdateRemoveRules Routing.drFailingStore (Routing.demoRules [])).err =
        some "conflict" ∧
      (Routing.UpdateRemoveRules Routing.drFailingStore (Routing.demoRules [])).calls =
        [Routing.StoreCall.UpdateDestinationRule (Routing.demoRules []).DestinationRule]) ∧
    ((Routing.DeleteAll Routing.drFailingStore (Routing.demoRules [])).err = some "conflict" ∧
      (Routing.DeleteAll Routing.drFailingStore (Routing.demoRules [])).calls =
        [Routing.StoreCall.DeleteDestinationRule "default" "reviews.iter8"]) ∧
    ((Routing.UpdateRolloutPercent Routing.demoBuilders Routing.vsFailingStore
        (Routing.demoRules []) "reviews" "default" 20).err = some "conflict" ∧
      (Routing.UpdateRolloutPercent Routing.demoBuilders Routing.vsFailingStore
        (Routing.demoRules []) "reviews" "default" 20).rules = Routing.demoRules []) ∧
    ((Routing.StableToProgressing Routing.demoBuilders Routing.vsFailingStore
        (Routing.demoRules [])
        { ServiceName := "reviews", Baseline := Istio.demoBaseline } "exp" "default").err =
        some "conflict" ∧
      (Routing.StableToProgressing Routing.demoBuilders Routing.vsFailingStore
        (Routing.demoRules [])
        { ServiceName := "reviews", Baseline := Istio.demoBaseline } "exp"
        "default").calls.length = 2) := by
  have hd := C18_store_errors_are_surfaced Routing.demoBuilders Routing.drFailingStore
    (Routing.demoRules []) "conflict"
  have hv := C18_store_errors_are_surfaced Routing.demoBuilders Routing.vsFailingStore
    (Routing.demoRules []) "conflict"
  refine ⟨?_, ?_, ?_, ?_⟩
  · exact ⟨(hd.2.1 rfl).1, (hd.2.1 rfl).2.1⟩
  · exact ⟨(hd.2.2.2.2.2.1 rfl).1, (hd.2.2.2.2.2.1 rfl).2.1⟩
  · exact ⟨(hv.1 "reviews" "default" 20 rfl).1, (hv.1 "reviews" "default" 20 rfl).2.2⟩
  · have h4 := hv.2.2.2.2.1 { ServiceName := "reviews", Baseline := Istio.demoBaseline }
      "exp" "default" _ rfl rfl
    exact ⟨h4.1, by rw [h4.2.1]; rfl⟩

/-- C19: `Cleanup` issues a delete call only when the cleanup policy of the experiment is
`CleanUpDelete` and both routing objects carry the init label, and then its calls are those
of `DeleteAll`, the delete of the destination rule first. For every other cleanup policy
(and for rules without the init label) no call of `Cleanup` is a delete: it issues the update
of the destination rule and, when that succeeds, the update of the virtual service. -/
theorem C19_cleanup_deletes_only_under_policy (h : Routing.Builders) (store : Routing.Store)
    (r : Routing.IstioRoutingRules) (inst : V1alpha1.Experiment) (succeeded : Bool) :
    ((∃ c ∈ (Routing.Cleanup h store r inst succeeded).calls, c.isDelete = true) →
      inst.Spec.CleanUp = Routing.CleanUpDelete ∧ Routing.IsInit r = true) ∧
    (inst.Spec.CleanUp ≠ Routing.CleanUpDelete →
      (∀ c ∈ (Routing.Cleanup h store r inst succeeded).calls, c.isDelete = false) ∧
      ((Routing.Cleanup h store r inst succeeded).calls =
          [Routing.StoreCall.UpdateDestinationRule
            (Routing.stabilise h r inst succeeded).DestinationRule] ∨
        (Routing.Cleanup h store r inst succeeded).calls =
          [Routing.StoreCall.UpdateDestinationRule
            (Routing.stabilise h r inst succeeded).DestinationRule,
           Routing.StoreCall.UpdateVirtualService
            (Routing.stabilise h r inst succeeded).VirtualService])) ∧
    (inst.Spec.CleanUp = Routing.CleanUpDelete → Routing.IsInit r = true →
      Routing.Cleanup h store r inst succeeded = Routing.DeleteAll store r ∧
      (Routing.Cleanup h store r inst succeeded).calls.head? =
        some (Routing.StoreCall.DeleteDestinationRule r.DestinationRule.Namespace
          r.DestinationRule.Name)) := by
  refine ⟨?_, ?_, ?_⟩
  · rintro ⟨c, hc, hdel⟩
    by_contra hpath
    unfold Routing.Cleanup at hc
    rw [if_neg hpath] at hc
    rw [Routing.UpdateRemoveRules_no_delete store _ c hc] at hdel
    exact absurd hdel (by decide)
  · intro hpol
    have hpath : ¬ (inst.Spec.CleanUp = Routing.CleanUpDelete ∧ Routing.IsInit r = true) :=
      fun hx => hpol hx.1
    unfold Routing.Cleanup
    rw [if_neg hpath]
    exact ⟨Routing.UpdateRemoveRules_no_delete store _, Routing.UpdateRemoveRules_calls store _⟩
  · intro hpol hinit
    have heq : Routing.Cleanup h store r inst succeeded = Routing.DeleteAll store r := by
      unfold Routing.Cleanup
      rw [if_pos ⟨hpol, hinit⟩]
    refine ⟨heq, ?_⟩
    rw [heq]
    rcases Routing.DeleteAll_calls store r with hc | hc <;> rw [hc] <;> rfl

/-- C19 on rules that carry the init label: with an empty cleanup policy `Cleanup` issues the
two updates and no delete; with the policy `CleanUpDelete` it issues the two deletes. -/
theorem C19_cleanup_deletes_only_under_policy_witness :
    (∀ c ∈ (Routing.Cleanup Routing.demoBuilders Routing.okStore
        (Routing.demoRules [(Routing.ExperimentInit, "true")])
        (Routing.cleanupExperiment "" "candidate") true).calls, c.isDelete = false) ∧
    Routing.Cleanup Routing.demoBuilders Routing.okStore
        (Routing.demoRules [(Routing.ExperimentInit, "true")])
        (Routing.cleanupExperiment Routing.CleanUpDelete "candidate") true =
      Routing.DeleteAll Routing.okStore
        (Routing.demoRules [(Routing.ExperimentInit, "true")]) :=
  ⟨((C19_cleanup_deletes_only_under_policy Routing.demoBuilders Routing.okStore
      (Routing.demoRules [(Routing.ExperimentInit, "true")])
      (Routing.cleanupExperiment "" "candidate") true).2.1 (by decide)).1,
   ((C19_cleanup_deletes_only_under_policy Routing.demoBuilders Routing.okStore
      (Routing.demoRules [(Routing.ExperimentInit, "true")])
      (Routing.cleanupExperiment Routing.CleanUpDelete "candidate") true).2.2
      (by decide) (by decide)).1⟩

/-- C15, refuted as stated: step size 2.5 and maxTrafficPercent 5, a positive multiple of
the step size (m/s = 2), given to `syncIstioFloat` as the values of the two getters (the
integer fields of `demoCanary 0 0` are not read). Starting from candidate weight 0, the first due pass writes the
candidate weight 2, not 2.5, and the second writes 4, not 5: it does not reach the maximum,
marks the rollout not completed and asks to run again. The third pass writes 6, and the
fourth, whose weight 6 is not below 5, writes nothing and is not completed either. -/
theorem C15_fractional_step_counterexample :
    ((0 : ℚ) < 5 / 2 ∧ (5 : ℚ) = 2 * (5 / 2) ∧ (5 : ℚ) ≤ 100) ∧
    (Istio.getWeight Istio.Candidate
        (Istio.passesFloat (5 / 2) 5 (Istio.demoEnv 0 (Istio.demoCanary 0 0)) 1
          (Istio.demoCanary 0 0) (Istio.makeVirtualService 0 (Istio.demoCanary 0 0))).2 =
        some 2 ∧
      ((2 : Int) : ℚ) ≠ 1 * (5 / 2)) ∧
    (Istio.getWeight Istio.Candidate
        (Istio.passesFloat (5 / 2) 5 (Istio.demoEnv 0 (Istio.demoCanary 0 0)) 2
          (Istio.demoCanary 0 0) (Istio.makeVirtualService 0 (Istio.demoCanary 0 0))).2 =
        some 4 ∧
      (Istio.kthPassFloat (5 / 2) 5 (Istio.demoEnv 0 (Istio.demoCanary 0 0)) 2
        (Istio.demoCanary 0 0) (Istio.makeVirtualService 0 (Istio.demoCanary 0 0))).result =
        { Requeue := false, RequeueAfter := 1 } ∧
      (Istio.kthPassFloat (5 / 2) 5 (Istio.demoEnv 0 (Istio.demoCanary 0 0)) 2
        (Istio.demoCanary 0 0)
        (Istio.makeVirtualService 0 (Istio.demoCanary 0 0))).canary.Status.Marks.getLast? =
        some (Istio.CanaryMark.RolloutNotCompleted "Progressing" "")) ∧
    (Istio.getWeight Istio.Candidate
        (Istio.passesFloat (5 / 2) 5 (Istio.demoEnv 0 (Istio.demoCanary 0 0)) 3
          (Istio.demoCanary 0 0) (Istio.makeVirtualService 0 (Istio.demoCanary 0 0))).2 =
        some 6 ∧
      (Istio.kthPassFloat (5 / 2) 5 (Istio.demoEnv 0 (Istio.demoCanary 0 0)) 3
        (Istio.demoCanary 0 0)
        (Istio.makeVirtualService 0 (Istio.demoCanary 0 0))).canary.Status.Marks.getLast? =
        some (Istio.CanaryMark.RolloutNotCompleted "Progressing" "")) ∧
    (Istio.updatesOf (Istio.kthPassFloat (5 / 2) 5 (Istio.demoEnv 0 (Istio.demoCanary 0 0)) 4
        (Istio.demoCanary 0 0) (Istio.makeVirtualService 0 (Istio.demoCanary 0 0))).calls = [] ∧
      (Istio.kthPassFloat (5 / 2) 5 (Istio.demoEnv 0 (Istio.demoCanary 0 0)) 4
        (Istio.demoCanary 0 0)
        (Istio.makeVirtualService 0 (Istio.demoCanary 0 0))).canary.Status.Marks.getLast? =
        some (Istio.CanaryMark.RolloutNotCompleted "Progressing" "")) := by
  refine ⟨⟨by norm_num, by norm_num, by norm_num⟩, ⟨by decide!, by norm_num⟩,
    ⟨by decide!, by decide!, by decide!⟩, ⟨by decide!, by decide!⟩, ⟨by decide!, by decide!⟩⟩

/-- C15, amended: `syncIstio` with strategy manual, an integer step size `s > 0` and
maxTrafficPercent `n * s` (at most 100), in a world where each pass gets to the rollout check and its writes succeed,
starting from a virtual service with candidate weight 0, each pass reading the virtual service
the pass before it wrote and being run after the interval has passed. For every `k` from 1 to
`n` the `k`-th pass updates the virtual service once, to candidate weight `k * s` and baseline
weight `100 - k * s`. Every pass before the `n`-th asks to run again after the interval, calls
`MarkRolloutNotCompleted("Progressing", "")` last and leaves Progressing set. The `n`-th pass,
which reaches the maximum, calls `MarkRolloutCompleted` last, clears Progressing, returns an
empty result, and creates the stable destination rule and virtual service: one subset
`stable` with the labels of the candidate deployment (its canary label removed), which gets
the weight 100. -/
theorem C15_manual_rollout_steps_to_max (env : Istio.Env) (canary : Istio.Canary)
    (baseline candidate : Istio.Deployment) (vs0 : Istio.VirtualService) (s : Int) (n : Nat)
    (hsteady : Istio.Steady env baseline candidate)
    (hmanual : canary.Spec.TrafficControl.Strategy = "manual")
    (hstep : canary.Spec.TrafficControl.StepSize = s) (hs : 0 < s)
    (hmax : canary.Spec.TrafficControl.MaxTrafficPercent = n * s)
    (hle : (n : Int) * s ≤ 100)
    (hvs0 : Istio.getWeight Istio.Candidate vs0 = some 0)
    (k : Nat) (hk1 : 1 ≤ k) (hkn : k ≤ n) :
    Istio.updatesOf (Istio.kthPass env k canary vs0).calls =
      [(Istio.passes env k canary vs0).2] ∧
    Istio.getWeight Istio.Candidate (Istio.passes env k canary vs0).2 = some ((k : Int) * s) ∧
    Istio.getWeight Istio.Baseline (Istio.passes env k canary vs0).2 =
      some (100 - (k : Int) * s) ∧
    (Istio.kthPass env k canary vs0).crashed = false ∧
    (Istio.kthPass env k canary vs0).err = none ∧
    (k < n →
      (Istio.kthPass env k canary vs0).result =
        { Requeue := false, RequeueAfter := canary.Spec.TrafficControl.Interval } ∧
      (Istio.kthPass env k canary vs0).canary.Status.Marks.getLast? =
        some (Istio.CanaryMark.RolloutNotCompleted "Progressing" "") ∧
      (Istio.kthPass env k canary vs0).canary.Status.Progressing = true) ∧
    (k = n →
      (Istio.kthPass env k canary vs0).result = Result.zero ∧
      (Istio.kthPass env k canary vs0).canary.Status.Marks.getLast? =
        some Istio.CanaryMark.RolloutCompleted ∧
      (Istio.kthPass env k canary vs0).canary.Status.Progressing = false ∧
      ∃ dr vs,
        Istio.Call.CreateDestinationRule dr ∈ (Istio.kthPass env k canary vs0).calls ∧
        Istio.Call.CreateVirtualService vs ∈ (Istio.kthPass env k canary vs0).calls ∧
        dr.Host = canary.Spec.TargetServiceName ∧
        dr.Subsets =
          [ { Name := Istio.Stable, Labels := candidate.Labels.delete Istio.canaryLabel } ] ∧
        vs.Hosts = [canary.Spec.TargetServiceName] ∧
        vs.HTTP =
          [ { Route :=
                [ { Destination :=
                      { Host := canary.Spec.TargetServiceName, Subset := Istio.Stable },
                    Weight := 100 } ] } ]) := by
  obtain ⟨j, rfl⟩ : ∃ j, k = j + 1 := ⟨k - 1, by omega⟩
  have hjn : j < n := Nat.lt_of_succ_le hkn
  obtain ⟨hspec, hw⟩ := Istio.passes_inv env canary baseline candidate vs0 s n hsteady
    hmanual hstep hs hmax hvs0 j (Nat.le_of_lt hjn)
  have hw1 := (Istio.passes_inv env canary baseline candidate vs0 s n hsteady
    hmanual hstep hs hmax hvs0 (j + 1) hkn).2
  have hlt : ((j : Int) * s) <
      (Istio.passes env j canary vs0).1.Spec.TrafficControl.MaxTrafficPercent := by
    rw [hspec, hmax]
    exact mul_lt_mul_of_pos_right (by exact_mod_cast hjn) hs
  obtain ⟨p, h1, h2, _, _, h5⟩ := Istio.next_pass env (Istio.passes env j canary vs0).1
    baseline candidate (Istio.passes env j canary vs0).2 ((j : Int) * s) hsteady hw
    (by rw [hspec]; exact hmanual) hlt
  have hnext : (j : Int) * s + (Istio.passes env j canary vs0).1.Spec.TrafficControl.StepSize =
      ((j + 1 : Nat) : Int) * s := by
    rw [hspec, hstep]; push_cast; ring
  have hstatus : (Istio.nextEnv env (Istio.passes env j canary vs0).1
      (Istio.passes env j canary vs0).2).statusUpdate = none := hsteady.2.2.2.2
  have hstored : (Istio.passes env (j + 1) canary vs0).2 =
      Istio.setResourceVersion (Istio.passes env j canary vs0).2.ResourceVersion
        (Istio.makeVirtualService
          ((j : Int) * s + (Istio.passes env j canary vs0).1.Spec.TrafficControl.StepSize)
          (Istio.passes env j canary vs0).1) := by
    rw [Istio.passes_succ, Istio.kthPass_succ, h1]
    simp only [Istio.storedAfter, Istio.syncIstioFinish_updates, h5, List.getLast?_singleton,
      Option.getD_some]
  have hbase : Istio.getWeight Istio.Baseline (Istio.passes env (j + 1) canary vs0).2 =
      some (100 - ((j + 1 : Nat) : Int) * s) := by
    rw [hstored, (Istio.getWeight_makeVirtualService _ _ _).2, hnext]
    congr 1
    apply wrapInt_of_inInt64
    have h0 : (0 : Int) ≤ ((j + 1 : Nat) : Int) * s :=
      mul_nonneg (by exact_mod_cast Nat.zero_le _) (le_of_lt hs)
    have h100 : ((j + 1 : Nat) : Int) * s ≤ 100 :=
      le_trans (mul_le_mul_of_nonneg_right (by exact_mod_cast hkn) (le_of_lt hs)) hle
    unfold inInt64
    constructor <;> omega
  rw [Istio.kthPass_succ, h1]
  refine ⟨?_, hw1, hbase, ?_, ?_, ?_, ?_⟩
  · rw [Istio.syncIstioFinish_updates, h5, hstored]
  · by_cases hfin : (j : Int) * s +
        (Istio.passes env j canary vs0).1.Spec.TrafficControl.StepSize =
        p.canary.Spec.TrafficControl.MaxTrafficPercent
    · exact (Istio.syncIstioFinish_complete (Istio.nextEnv env (Istio.passes env j canary vs0).1
      (Istio.passes env j canary vs0).2) p baseline candidate _ hfin).2.2.2.1
    · exact (Istio.syncIstioFinish_progress (Istio.nextEnv env (Istio.passes env j canary vs0).1
      (Istio.passes env j canary vs0).2) p baseline candidate _ hfin).2.2.2
  · by_cases hfin : (j : Int) * s +
        (Istio.passes env j canary vs0).1.Spec.TrafficControl.StepSize =
        p.canary.Spec.TrafficControl.MaxTrafficPercent
    · rw [(Istio.syncIstioFinish_complete (Istio.nextEnv env (Istio.passes env j canary vs0).1
      (Istio.passes env j canary vs0).2) p baseline candidate _ hfin).2.2.1, hstatus]
    · rw [(Istio.syncIstioFinish_progress (Istio.nextEnv env (Istio.passes env j canary vs0).1
      (Istio.passes env j canary vs0).2) p baseline candidate _ hfin).2.2.1, hstatus]
  · intro hk
    have hfin : (j : Int) * s +
        (Istio.passes env j canary vs0).1.Spec.TrafficControl.StepSize ≠
        p.canary.Spec.TrafficControl.MaxTrafficPercent := by
      rw [hnext, h2, hspec, hmax]
      exact ne_of_lt (mul_lt_mul_of_pos_right (by exact_mod_cast hk) hs)
    have hp := Istio.syncIstioFinish_progress (Istio.nextEnv env (Istio.passes env j canary vs0).1
      (Istio.passes env j canary vs0).2) p baseline candidate _ hfin
    refine ⟨by rw [hp.1, h2, hspec], ?_, ?_⟩
    · rw [hp.2.1]; simp [Istio.Canary.mark]
    · rw [hp.2.1]
  · intro hk
    have hfin : (j : Int) * s +
        (Istio.passes env j canary vs0).1.Spec.TrafficControl.StepSize =
        p.canary.Spec.TrafficControl.MaxTrafficPercent := by
      rw [hnext, h2, hspec, hmax, hk]
    have hp := Istio.syncIstioFinish_complete (Istio.nextEnv env (Istio.passes env j canary vs0).1
      (Istio.passes env j canary vs0).2) p baseline candidate _ hfin
    refine ⟨hp.1, ?_, ?_, ?_⟩
    · rw [hp.2.1]; simp [Istio.Canary.mark]
    · rw [hp.2.1]
    · refine ⟨_, _, hp.2.2.2.2.1, hp.2.2.2.2.2, ?_, ?_, ?_, ?_⟩
      · simp only [Istio.newStableRules]
        rw [(Istio.syncIstioFinish_spec (Istio.nextEnv env (Istio.passes env j canary vs0).1
      (Istio.passes env j canary vs0).2) p baseline candidate _).1, h2, hspec]
      · simp only [Istio.newStableRules]
      · simp only [Istio.newStableRules]
        rw [(Istio.syncIstioFinish_spec (Istio.nextEnv env (Istio.passes env j canary vs0).1
      (Istio.passes env j canary vs0).2) p baseline candidate _).1, h2, hspec]
      · simp only [Istio.newStableRules]
        rw [(Istio.syncIstioFinish_spec (Istio.nextEnv env (Istio.passes env j canary vs0).1
      (Istio.passes env j canary vs0).2) p baseline candidate _).1, h2, hspec]

/-- C15 on the scenario of the spec: step 20, maxTrafficPercent 60, the canary
`demoCanary 20 60` in the world `demoEnv 0`: the three passes leave the candidate weights 20,
40 and 60, the first asks to run again after the interval 1, and the third returns an empty
result with `MarkRolloutCompleted` as its last status call. The pass of `syncIstio` is the
one `syncIstioFloat` makes for the `float64` values 20 and 60. -/
theorem C15_manual_rollout_steps_to_max_witness :
    Istio.getWeight Istio.Candidate
      (Istio.passes (Istio.demoEnv 0 (Istio.demoCanary 20 60)) 1 (Istio.demoCanary 20 60)
        (Istio.makeVirtualService 0 (Istio.demoCanary 20 60))).2 = some 20 ∧
    Istio.getWeight Istio.Candidate
      (Istio.passes (Istio.demoEnv 0 (Istio.demoCanary 20 60)) 2 (Istio.demoCanary 20 60)
        (Istio.makeVirtualService 0 (Istio.demoCanary 20 60))).2 = some 40 ∧
    Istio.getWeight Istio.Candidate
      (Istio.passes (Istio.demoEnv 0 (Istio.demoCanary 20 60)) 3 (Istio.demoCanary 20 60)
        (Istio.makeVirtualService 0 (Istio.demoCanary 20 60))).2 = some 60 ∧
    (Istio.kthPass (Istio.demoEnv 0 (Istio.demoCanary 20 60)) 1 (Istio.demoCanary 20 60)
      (Istio.makeVirtualService 0 (Istio.demoCanary 20 60))).result =
      { Requeue := false, RequeueAfter := 1 } ∧
    (Istio.kthPass (Istio.demoEnv 0 (Istio.demoCanary 20 60)) 3 (Istio.demoCanary 20 60)
      (Istio.makeVirtualService 0 (Istio.demoCanary 20 60))).result = Result.zero ∧
    (Istio.kthPass (Istio.demoEnv 0 (Istio.demoCanary 20 60)) 3 (Istio.demoCanary 20 60)
      (Istio.makeVirtualService 0 (Istio.demoCanary 20 60))).canary.Status.Marks.getLast? =
      some Istio.CanaryMark.RolloutCompleted ∧
    Istio.syncIstioFloat ((20 : Int) : ℚ) ((60 : Int) : ℚ)
        (Istio.demoEnv 0 (Istio.demoCanary 20 60)) (Istio.demoCanary 20 60) =
      Istio.syncIstio (Istio.demoEnv 0 (Istio.demoCanary 20 60)) (Istio.demoCanary 20 60) := by
  have h : ∀ k : Nat, 1 ≤ k → k ≤ 3 → _ := fun k =>
    C15_manual_rollout_steps_to_max (Istio.demoEnv 0 (Istio.demoCanary 20 60))
      (Istio.demoCanary 20 60) Istio.demoBaseline Istio.demoCandidate
      (Istio.makeVirtualService 0 (Istio.demoCanary 20 60)) 20 3
      ⟨⟨_, rfl⟩, ⟨_, _, rfl, by decide⟩, rfl, rfl, rfl⟩ rfl rfl (by decide) (by decide)
      (by decide) (by decide) k
  refine ⟨?_, ?_, ?_, ?_, ?_, ?_, ?_⟩
  · exact (h 1 (by decide) (by decide)).2.1.trans (by decide)
  · exact (h 2 (by decide) (by decide)).2.1.trans (by decide)
  · exact (h 3 (by decide) (by decide)).2.1.trans (by decide)
  · exact ((h 1 (by decide) (by decide)).2.2.2.2.2.1 (by decide)).1
  · exact ((h 3 (by decide) (by decide)).2.2.2.2.2.2 rfl).1
  · exact ((h 3 (by decide) (by decide)).2.2.2.2.2.2 rfl).2.1
  · exact Istio.syncIstio_float (Istio.demoEnv 0 (Istio.demoCanary 20 60))
      (Istio.demoCanary 20 60)

/-- C23, the code at the failing input: the experiment `finishedExperiment true "candidate"`
is finished with success and its on-success policy is `candidate`; the service splits 60/40.
The pass of `syncKnative` sets the traffic targets it holds to baseline 0 and candidate 100,
and records the traffic split baseline = 100 / candidate = 0 in the status, the same record
as for the policy `baseline`, whose targets end at 100 and 0. For every pass: in the terminal
branch with success, the policies `baseline` and `candidate` both record
baseline = 100 / candidate = 0. -/
theorem C23_candidate_split_is_recorded_as_baseline :
    ((Knative.syncKnative (Knative.demoEnv 60 40)
        (Knative.finishedExperiment true "candidate")).baselineTraffic =
        some { RevisionName := "v1", Percent := 0 } ∧
      (Knative.syncKnative (Knative.demoEnv 60 40)
        (Knative.finishedExperiment true "candidate")).candidateTraffic =
        some { RevisionName := "v2", Percent := 100 } ∧
      (Knative.syncKnative (Knative.demoEnv 60 40)
        (Knative.finishedExperiment true "candidate")).inst.Status.TrafficSplit =
        { Baseline := 100, Candidate := 0 }) ∧
    ((Knative.syncKnative (Knative.demoEnv 60 40)
        (Knative.finishedExperiment true "baseline")).baselineTraffic =
        some { RevisionName := "v1", Percent := 100 } ∧
      (Knative.syncKnative (Knative.demoEnv 60 40)
        (Knative.finishedExperiment true "baseline")).candidateTraffic =
        some { RevisionName := "v2", Percent := 0 } ∧
      (Knative.syncKnative (Knative.demoEnv 60 40)
        (Knative.finishedExperiment true "baseline")).inst.Status.TrafficSplit =
        { Baseline := 100, Candidate := 0 }) ∧
    (∀ (env : Knative.Env) (inst : V1alpha1.Experiment) (p : Knative.Pass),
      Knative.syncKnativeSetup env inst = .inr p →
      inst.Spec.TrafficControl.MaxIterations ≤ inst.Status.CurrentIteration →
      inst.Status.AssessmentSummary.AllSuccessCriteriaMet = true →
      inst.Spec.TrafficControl.OnSuccess = "candidate" →
      (Knative.syncKnative env inst).baselineTraffic =
        some { p.baselineTraffic with Percent := 0 } ∧
      (Knative.syncKnative env inst).candidateTraffic =
        some { p.candidateTraffic with Percent := 100 } ∧
      (Knative.syncKnative env inst).inst.Status.TrafficSplit =
        { Baseline := 100, Candidate := 0 }) := by
  refine ⟨⟨by decide, by decide, by decide⟩, ⟨by decide, by decide, by decide⟩, ?_⟩
  intro env inst p hsetup hiter hsucc ho
  obtain ⟨_, _, _, _, _, hspec⟩ := Knative.setup_inr env inst p hsetup
  have hst := (Knative.setup_status env inst p hsetup).1
  have ht : p.inst.Status.AssessmentSummary.AllSuccessCriteriaMet = true := by
    rw [hst.2.2.2.1]; exact hsucc
  have ho1 : p.inst.Spec.TrafficControl.OnSuccess = "candidate" := by rw [hspec]; exact ho
  rw [Knative.terminal_eq env inst p hsetup hiter]
  have hl := Knative.syncKnativeTerminal_locals env p
  have hc := ((Knative.terminalCollapse_cases p).2 ht).2.1 ho1
  refine ⟨by rw [hl.1, hc.1], by rw [hl.2, hc.2], ?_⟩
  rw [Knative.syncKnativeTerminal_split]
  exact (Knative.terminalCollapse_split p ht).2 ho1

/-- C23, the general part on the failing input: the recorded split is 100/0 while the
candidate target the pass holds is at 100. -/
theorem C23_candidate_split_is_recorded_as_baseline_witness :
    Knative.syncKnativeSetup (Knative.demoEnv 60 40)
        (Knative.finishedExperiment true "candidate") =
      .inr (Knative.demoPass 60 40 (Knative.finishedExperiment true "candidate")) ∧
    (Knative.syncKnative (Knative.demoEnv 60 40)
      (Knative.finishedExperiment true "candidate")).candidateTraffic =
      some { RevisionName := "v2", Percent := 100 } ∧
    (Knative.syncKnative (Knative.demoEnv 60 40)
      (Knative.finishedExperiment true "candidate")).inst.Status.TrafficSplit =
      { Baseline := 100, Candidate := 0 } := by
  have h := C23_candidate_split_is_recorded_as_baseline.2.2 (Knative.demoEnv 60 40)
    (Knative.finishedExperiment true "candidate")
    (Knative.demoPass 60 40 (Knative.finishedExperiment true "candidate"))
    (by decide) (by decide) rfl rfl
  exact ⟨by decide, h.2.1, h.2.2⟩

/-- C24, refuted as stated: the service carries the experiment label of the experiment
`other` and has no template. The pass for the experiment `exp` calls
`MarkHasNotService("MissingTemplate", "")`; the reason ExistingExperiment is not marked. -/
theorem C24_missing_template_counterexample :
    (Knative.foreignService false).Labels.get Knative.experimentLabel = some "other" ∧
    (Knative.demoExperiment "check_and_increment" 20).Name = "exp" ∧
    (Knative.syncKnative (Knative.foreignEnv false)
      (Knative.demoExperiment "check_and_increment" 20)).inst.Status.Marks =
      [V1alpha1.StatusMark.HasNotService "MissingTemplate" ""] := by
  refine ⟨by decide, by decide, by decide⟩

/-- C24, amended: in `syncKnative`, for every pass in which the target service is found and
carries an experiment label that names another experiment, the pass makes one status call,
`MarkHasNotService` with the reason ExistingExperiment when the service has a template and
with the reason MissingTemplate when it has none, and returns: its only call is the update
of the status, so no update of the service and no call of the analytics service is issued,
no traffic target is read or assigned, and the result is empty. -/
theorem C24_foreign_label_stops_pass (env : Knative.Env) (inst : V1alpha1.Experiment)
    (ks : Knative.KService) (other : String)
    (hg : env.getService = .ok ks)
    (hl : ks.Labels.get Knative.experimentLabel = some other)
    (hne : other ≠ inst.Name) :
    (Knative.syncKnative env inst).inst.Status.Marks =
      inst.Status.Marks ++
        [if ks.HasTemplate = true
          then V1alpha1.StatusMark.HasNotService "ExistingExperiment"
            ("service is already controlled by " ++ other)
          else V1alpha1.StatusMark.HasNotService "MissingTemplate" ""] ∧
    (Knative.syncKnative env inst).calls =
      [Knative.Call.StatusUpdate (Knative.syncKnative env inst).inst] ∧
    Knative.serviceUpdates (Knative.syncKnative env inst).calls = [] ∧
    (∀ c ∈ (Knative.syncKnative env inst).calls, c.isInvoke = false) ∧
    (Knative.syncKnative env inst).baselineTraffic = none ∧
    (Knative.syncKnative env inst).candidateTraffic = none ∧
    (Knative.syncKnative env inst).targets = none ∧
    (Knative.syncKnative env inst).result = Result.zero ∧
    (Knative.syncKnative env inst).err = env.statusUpdate := by
  rw [Knative.setup_foreign env inst ks other hg hl hne]
  have he := Knative.earlyExit_frame env inst []
    (if ks.HasTemplate = true then "ExistingExperiment" else "MissingTemplate")
    (if ks.HasTemplate = true then "service is already controlled by " ++ other else "")
    false
  refine ⟨?_, ?_, ?_, ?_, rfl, rfl, rfl, ?_, he.2.2⟩
  · rw [he.1]
    by_cases ht : ks.HasTemplate = true <;> simp [ht, Knative.markInst]
  · rw [he.2.1, he.1]; rfl
  · rw [he.2.1]; rfl
  · rw [he.2.1]
    intro c hc
    simp only [List.nil_append, List.mem_singleton] at hc
    rw [hc]; rfl
  · unfold Knative.earlyExit
    cases env.statusUpdate <;> rfl

/-- C24, amended, on the service `foreignService true`, which has a template and is labelled
for `other`: the pass for `exp` marks ExistingExperiment and issues the status update
alone. -/
theorem C24_foreign_label_stops_pass_witness :
    (Knative.syncKnative (Knative.foreignEnv true)
      (Knative.demoExperiment "check_and_increment" 20)).inst.Status.Marks =
      [V1alpha1.StatusMark.HasNotService "ExistingExperiment"
        "service is already controlled by other"] ∧
    Knative.serviceUpdates (Knative.syncKnative (Knative.foreignEnv true)
      (Knative.demoExperiment "check_and_increment" 20)).calls = [] := by
  have h := C24_foreign_label_stops_pass (Knative.foreignEnv true)
    (Knative.demoExperiment "check_and_increment" 20) (Knative.foreignService true) "other"
    rfl (by decide) (by decide)
  exact ⟨h.1.trans (by decide), h.2.2.1⟩

/-- C27, the code at the failing inputs and on every pass. In the world `demoEnv 60 40` a
due pass with strategy `increment_without_check` and step 20 computes the weights 40 and 60
in its loop, and the one update of the service it issues carries the traffic list 60/40 of
the service as fetched. The pass that ends the experiment `finishedExperiment false
"candidate"` sets the targets it holds to 100 and 0, and its update of the service carries
60/40 as well. For every pass of `syncKnative`, every update of the service carries the
traffic list of the service as it was fetched. -/
theorem C27_updates_carry_fetched_traffic :
    ((Knative.syncKnative (Knative.demoEnv 60 40)
        (Knative.demoExperiment "increment_without_check" 20)).targets =
        some [ { RevisionName := "v1", Percent := 40 },
               { RevisionName := "v2", Percent := 60 } ] ∧
      (Knative.serviceUpdates (Knative.syncKnative (Knative.demoEnv 60 40)
        (Knative.demoExperiment "increment_without_check" 20)).calls).map
          (fun ks => ks.Traffic) =
        [ some [ { RevisionName := "v1", Percent := 60 },
                 { RevisionName := "v2", Percent := 40 } ] ]) ∧
    ((Knative.syncKnative (Knative.demoEnv 60 40)
        (Knative.finishedExperiment false "candidate")).baselineTraffic =
        some { RevisionName := "v1", Percent := 100 } ∧
      (Knative.syncKnative (Knative.demoEnv 60 40)
        (Knative.finishedExperiment false "candidate")).candidateTraffic =
        some { RevisionName := "v2", Percent := 0 } ∧
      (Knative.serviceUpdates (Knative.syncKnative (Knative.demoEnv 60 40)
        (Knative.finishedExperiment false "candidate")).calls).map (fun ks => ks.Traffic) =
        [ some [ { RevisionName := "v1", Percent := 60 },
                 { RevisionName := "v2", Percent := 40 } ] ]) ∧
    (∀ (env : Knative.Env) (inst : V1alpha1.Experiment),
      ∀ ks1 ∈ Knative.serviceUpdates (Knative.syncKnative env inst).calls,
        ∃ ks, env.getService = .ok ks ∧ ks1.Traffic = ks.Traffic) := by
  refine ⟨⟨by decide, by decide⟩, ⟨by decide, by decide, by decide⟩, ?_⟩
  intro env inst
  exact (Knative.syncKnative_step env inst).1

/-- C27, the general part on the first failing input: the update of the service that the
pass issues is `demoService 60 40`, and its traffic list is the fetched one. -/
theorem C27_updates_carry_fetched_traffic_witness :
    Knative.demoService 60 40 ∈
      Knative.serviceUpdates (Knative.syncKnative (Knative.demoEnv 60 40)
        (Knative.demoExperiment "increment_without_check" 20)).calls ∧
    ∃ ks, (Knative.demoEnv 60 40).getService = .ok ks ∧
      (Knative.demoService 60 40).Traffic = ks.Traffic :=
  ⟨by decide, C27_updates_carry_fetched_traffic.2.2 (Knative.demoEnv 60 40)
    (Knative.demoExperiment "increment_without_check" 20) (Knative.demoService 60 40)
    (by decide)⟩

/-- C30: in `syncKnative` a pass whose strategy is not `check_and_increment`, in particular
`increment_without_check`, leaves currentIteration as it was. For every pass the counter
after the pass is the one before it, or it is one more and then the strategy is
`check_and_increment`, the pass started with currentIteration < maxIterations, and the
analytics call and the encoding of the state succeeded; the increment of the Go `int` is
exact there when maxIterations is an `int`. So with strategy `increment_without_check` a
pass that starts with currentIteration < maxIterations ends with
currentIteration < maxIterations. -/
theorem C30_iteration_counted_by_check_only (env : Knative.Env) (inst : V1alpha1.Experiment) :
    (inst.Spec.TrafficControl.Strategy ≠ "check_and_increment" →
      (Knative.syncKnative env inst).inst.Status.CurrentIteration =
        inst.Status.CurrentIteration) ∧
    ((Knative.syncKnative env inst).inst.Status.CurrentIteration =
        inst.Status.CurrentIteration ∨
      (inst.Spec.TrafficControl.Strategy = "check_and_increment" ∧
        inst.Status.CurrentIteration < inst.Spec.TrafficControl.MaxIterations ∧
        (Knative.syncKnative env inst).inst.Status.CurrentIteration =
          wrapInt (inst.Status.CurrentIteration + 1) ∧
        (inInt64 inst.Status.CurrentIteration →
          inInt64 inst.Spec.TrafficControl.MaxIterations →
          (Knative.syncKnative env inst).inst.Status.CurrentIteration =
            inst.Status.CurrentIteration + 1) ∧
        ∃ response, env.invoke = .ok response ∧
          (response.LastState = none ∨ ∃ st, env.marshalLastState = .ok st))) ∧
    (inst.Spec.TrafficControl.Strategy = "increment_without_check" →
      inst.Status.CurrentIteration < inst.Spec.TrafficControl.MaxIterations →
      (Knative.syncKnative env inst).inst.Status.CurrentIteration <
        inst.Spec.TrafficControl.MaxIterations) := by
  have h := (Knative.syncKnative_step env inst).2
  have hkeep : inst.Spec.TrafficControl.Strategy ≠ "check_and_increment" →
      (Knative.syncKnative env inst).inst.Status.CurrentIteration =
        inst.Status.CurrentIteration := by
    intro hs
    rcases h with h | h
    · exact h
    · exact absurd h.1 hs
  refine ⟨hkeep, ?_, ?_⟩
  · rcases h with h | h
    · exact Or.inl h
    · refine Or.inr ⟨h.1, h.2.1, h.2.2.1, ?_, h.2.2.2⟩
      intro hc hm
      rw [h.2.2.1]
      apply wrapInt_of_inInt64
      unfold inInt64 at hc hm ⊢
      have := h.2.1
      constructor <;> omega
  · intro hs hlt
    rw [hkeep (by rw [hs]; decide)]
    exact hlt

/-- C30 in the world `demoEnv 60 40`: a due pass with strategy `increment_without_check`
starts and ends with currentIteration 0, below the maximum 10. -/
theorem C30_iteration_counted_by_check_only_witness :
    (Knative.syncKnative (Knative.demoEnv 60 40)
      (Knative.demoExperiment "increment_without_check" 20)).inst.Status.CurrentIteration =
      0 ∧
    (Knative.syncKnative (Knative.demoEnv 60 40)
      (Knative.demoExperiment "increment_without_check" 20)).inst.Status.CurrentIteration <
      10 :=
  ⟨(C30_iteration_counted_by_check_only (Knative.demoEnv 60 40)
      (Knative.demoExperiment "increment_without_check" 20)).1 (by decide),
   (C30_iteration_counted_by_check_only (Knative.demoEnv 60 40)
      (Knative.demoExperiment "increment_without_check" 20)).2.2 rfl (by decide)⟩

/-- C25, the code at the failing input and in general. The baseline `reviews-v1` was created
at time 1; the list holds, in this order, the baseline, `reviews-v3` created at time 5 and
`reviews-v2` created at time 3, neither labelled baseline. `getCanaryDeployment` returns
`reviews-v2`, though `reviews-v3` was created later. In general it returns the last
deployment in list order that is not labelled baseline and was created after the baseline,
whatever precedes it in the list; it returns the error when the list holds no such
deployment. -/
theorem C25_getCanaryDeployment_returns_last_in_list :
    (Istio.getCanaryDeployment [Istio.demoBaseline, Istio.demoNewest, Istio.demoOlder]
        Istio.demoBaseline = .ok Istio.demoOlder ∧
      Istio.afterBaseline Istio.demoBaseline Istio.demoNewest = true ∧
      Istio.demoOlder.CreationTimestamp < Istio.demoNewest.CreationTimestamp) ∧
    (∀ (pre post : List Istio.Deployment) (baseline d : Istio.Deployment),
      Istio.afterBaseline baseline d = true →
      (∀ d1 ∈ post, Istio.afterBaseline baseline d1 = false) →
      Istio.getCanaryDeployment (pre ++ d :: post) baseline = .ok d) ∧
    (∀ (ds : List Istio.Deployment) (baseline : Istio.Deployment),
      (∀ d ∈ ds, Istio.afterBaseline baseline d = false) →
      Istio.getCanaryDeployment ds baseline = .error "Latest deployment not found") := by
  refine ⟨⟨rfl, by decide, by decide⟩, ?_, ?_⟩
  · intro pre post baseline d hd hpost
    have hget : (pre ++ d :: post)[0 + pre.length]? = some d := by
      rw [Nat.zero_add, List.getElem?_append_right (le_refl _)]
      simp
    unfold Istio.getCanaryDeployment
    rw [Istio.canaryLoop_last baseline.CreationTimestamp d post hd hpost pre 0 none]
    simp only [hget]
  · intro ds baseline h
    unfold Istio.getCanaryDeployment
    rw [Istio.canaryLoop_none baseline.CreationTimestamp ds 0 none h]

/-- C25, the general part on the failing input: with `reviews-v3` before it in the list,
`reviews-v2` is the last deployment created after the baseline, and it is returned. -/
theorem C25_getCanaryDeployment_returns_last_in_list_witness :
    Istio.getCanaryDeployment ([Istio.demoBaseline, Istio.demoNewest] ++
        Istio.demoOlder :: []) Istio.demoBaseline = .ok Istio.demoOlder :=
  C25_getCanaryDeployment_returns_last_in_list.2.1 [Istio.demoBaseline, Istio.demoNewest] []
    Istio.demoBaseline Istio.demoOlder (by decide) (by decide)

/-- C26: for every deployment list, when `getLatestDeployment` succeeds it returns an element
of the list that is not labelled baseline and whose creation timestamp is greater than or
equal to that of every element not labelled baseline; it returns the error
`Latest deployment not found` when the list has no element that is not labelled baseline.
It returns either that error or a deployment, and it returns a deployment as soon as the
list holds one that is not labelled baseline and was created after Go's zero time. -/
theorem C26_getLatestDeployment_returns_newest :
    (∀ (ds : List Istio.Deployment) (d : Istio.Deployment),
      Istio.getLatestDeployment ds = .ok d →
      d ∈ ds ∧ Istio.notBaseline d = true ∧
      ∀ d1 ∈ ds, Istio.notBaseline d1 = true →
        d1.CreationTimestamp ≤ d.CreationTimestamp) ∧
    (∀ (ds : List Istio.Deployment),
      (∀ d ∈ ds, Istio.notBaseline d = false) →
      Istio.getLatestDeployment ds = .error "Latest deployment not found") ∧
    (∀ (ds : List Istio.Deployment),
      Istio.getLatestDeployment ds = .error "Latest deployment not found" ∨
      ∃ d, Istio.getLatestDeployment ds = .ok d) ∧
    (∀ (ds : List Istio.Deployment) (d : Istio.Deployment),
      d ∈ ds → Istio.notBaseline d = true → d.CreationTimestamp > 0 →
      ∃ d1, Istio.getLatestDeployment ds = .ok d1) := by
  refine ⟨?_, ?_, ?_, ?_⟩
  · intro ds d h
    rcases Istio.getLatestDeployment_spec ds with ⟨h1, _⟩ | ⟨d1, h1, h2, h3, _, h5⟩
    · rw [h1] at h; exact absurd h (by simp)
    · rw [h1] at h
      simp only [Except.ok.injEq] at h
      subst h
      exact ⟨h2, h3, h5⟩
  · intro ds hall
    rcases Istio.getLatestDeployment_spec ds with ⟨h1, _⟩ | ⟨d1, _, h2, h3, _, _⟩
    · exact h1
    · rw [hall d1 h2] at h3; exact absurd h3 (by simp)
  · intro ds
    rcases Istio.getLatestDeployment_spec ds with ⟨h1, _⟩ | ⟨d1, h1, _⟩
    · exact Or.inl h1
    · exact Or.inr ⟨d1, h1⟩
  · intro ds d hd hn hgt
    rcases Istio.getLatestDeployment_spec ds with ⟨_, h2⟩ | ⟨d1, h1, _⟩
    · exact absurd hgt (not_lt.mpr (h2 d hd hn))
    · exact ⟨d1, h1⟩

/-- C26 on the list of the baseline `reviews-v1`, `reviews-v2` (created at time 3) and
`reviews-v3` (created at time 5): `getLatestDeployment` returns `reviews-v3`, which is in the
list, not labelled baseline, and not older than `reviews-v2`; on the baseline alone it
returns the error. -/
theorem C26_getLatestDeployment_returns_newest_witness :
    Istio.getLatestDeployment [Istio.demoBaseline, Istio.demoOlder, Istio.demoNewest] =
      .ok Istio.demoNewest ∧
    (Istio.demoNewest ∈ [Istio.demoBaseline, Istio.demoOlder, Istio.demoNewest] ∧
      Istio.notBaseline Istio.demoNewest = true ∧
      ∀ d1 ∈ [Istio.demoBaseline, Istio.demoOlder, Istio.demoNewest],
        Istio.notBaseline d1 = true →
        d1.CreationTimestamp ≤ Istio.demoNewest.CreationTimestamp) ∧
    Istio.getLatestDeployment [Istio.demoBaseline] = .error "Latest deployment not found" :=
  ⟨rfl,
   C26_getLatestDeployment_returns_newest.1
     [Istio.demoBaseline, Istio.demoOlder, Istio.demoNewest] Istio.demoNewest rfl,
   C26_getLatestDeployment_returns_newest.2.1 [Istio.demoBaseline] (by decide)⟩

/-- C21, refuted as stated. `syncKnative`, strategy `check_and_increment`, the candidate at 40:
the analytics service answers without abort and with the candidate percentage 10, and the
loop of the pass assigns 10 to the candidate. `syncIstio`, strategy `check_and_increment`,
candidate weight 40, response 10 without abort: the pass updates the virtual service to the
candidate weight 10. `syncIstio`, strategy manual with the step size -20 and candidate weight
40: the pass updates the virtual service to the candidate weight 20. -/
theorem C21_weight_moves_backward_counterexample :
    ((Knative.answeringEnv 60 40 10 false).invoke.toOption.map
        (fun r => r.Summary.AbortExperiment) = some false ∧
      (Knative.syncKnative (Knative.answeringEnv 60 40 10 false)
        (Knative.demoExperiment "check_and_increment" 20)).targets =
        some [ { RevisionName := "v1", Percent := 90 },
               { RevisionName := "v2", Percent := 10 } ]) ∧
    (Istio.updatesOf (Istio.syncIstio
        (Istio.answeringEnv 40 10 (Istio.checkCanary 20 60)) (Istio.checkCanary 20 60)).calls).map
        (Istio.getWeight Istio.Candidate) = [some 10] ∧
    (Istio.updatesOf (Istio.syncIstio
        (Istio.demoEnv 40 (Istio.demoCanary (-20) 60)) (Istio.demoCanary (-20) 60)).calls).map
        (Istio.getWeight Istio.Candidate) = [some 20] := by
  refine ⟨⟨by decide, by decide⟩, by decide, by decide⟩

/-- C21, amended, for integer step sizes and response percentages. For every due pass of
`syncIstio`, the candidate weight read being `cur`:
with strategy manual the pass updates the virtual service once, to the candidate weight
`cur + stepSize`, which is not below `cur` when the step size is not negative; with strategy
`check_and_increment`, the analytics call and the encoding of the state succeeding, it
updates the virtual service once, to the candidate percentage of the response. For every due
pass of `syncKnative` before the last iteration: with strategy `increment_without_check` the
loop assigns the candidate's percent plus the step size to the candidate, which is not below
the candidate's percent when the step size is not negative; with strategy
`check_and_increment` and a response without abort, the loop assigns the candidate
percentage of the response to the candidate. So with these strategies the weight does not
move backward exactly when the step size is not negative, respectively when the response's
percentage is not below the weight read. -/
theorem C21_weight_follows_step_or_response :
    (∀ (env : Istio.Env) (canary : Istio.Canary) (rd : Istio.Ready) (cur : Int),
      Istio.syncIstioSetup env canary = .inr rd →
      Istio.getWeight Istio.Candidate rd.vs = some cur →
      Istio.due env rd.pass.canary cur = true →
      (canary.Spec.TrafficControl.Strategy = "manual" →
        ∃ vs, Istio.updatesOf (Istio.syncIstio env canary).calls = [vs] ∧
          Istio.getWeight Istio.Candidate vs =
            some (cur + canary.Spec.TrafficControl.StepSize) ∧
          (0 ≤ canary.Spec.TrafficControl.StepSize ↔
            cur ≤ cur + canary.Spec.TrafficControl.StepSize)) ∧
      (canary.Spec.TrafficControl.Strategy = "check_and_increment" →
        ∀ (response : Response) (st : String),
          env.invoke = .ok response → env.marshalLastState = .ok st →
          ∃ vs, Istio.updatesOf (Istio.syncIstio env canary).calls = [vs] ∧
            Istio.getWeight Istio.Candidate vs = some response.CanaryTrafficPercentage)) ∧
    (∀ (env : Knative.Env) (inst : V1alpha1.Experiment) (p : Knative.Pass),
      Knative.syncKnativeSetup env inst = .inr p →
      inst.Status.CurrentIteration < inst.Spec.TrafficControl.MaxIterations →
      env.now > inst.Status.LastIncrementTime + inst.Spec.TrafficControl.Interval →
      (inst.Spec.TrafficControl.Strategy = "increment_without_check" →
        ∃ ts, (Knative.syncKnative env inst).targets = some ts ∧
          (∀ t ∈ ts, t.RevisionName = inst.Spec.TargetService.Candidate →
            t.RevisionName ≠ inst.Spec.TargetService.Baseline →
            t.Percent = p.candidateTraffic.Percent + inst.Spec.TrafficControl.StepSize) ∧
          (0 ≤ inst.Spec.TrafficControl.StepSize ↔
            p.candidateTraffic.Percent ≤
              p.candidateTraffic.Percent + inst.Spec.TrafficControl.StepSize)) ∧
      (inst.Spec.TrafficControl.Strategy = "check_and_increment" →
        ∀ (bs cs : Knative.CoreService) (response : Response),
          env.baselineCoreService = .ok bs → env.candidateCoreService = .ok cs →
          env.invoke = .ok response → response.Summary.AbortExperiment = false →
          (response.LastState = none ∨ ∃ st, env.marshalLastState = .ok st) →
          ∃ ts, (Knative.syncKnative env inst).targets = some ts ∧
            ∀ t ∈ ts, t.RevisionName = inst.Spec.TargetService.Candidate →
              t.RevisionName ≠ inst.Spec.TargetService.Baseline →
              t.Percent = response.CanaryTrafficPercentage)) := by
  constructor
  · intro env canary rd cur hsetup hcur hdue
    constructor
    · intro hmanual
      refine ⟨_, Istio.syncIstio_manual_updates env canary rd cur hsetup hcur hdue hmanual,
        (Istio.getWeight_makeVirtualService _ _ _).1, ?_⟩
      constructor <;> intro h <;> omega
    · intro hcheck response st hinv hm
      exact ⟨_, Istio.syncIstio_check_updates env canary rd cur response st hsetup hcur hdue
        hcheck hinv hm, (Istio.getWeight_makeVirtualService _ _ _).1⟩
  · intro env inst p hsetup hiter hdue
    obtain ⟨_, _, _, _, _, hspec⟩ := Knative.setup_inr env inst p hsetup
    have hst := (Knative.setup_status env inst p hsetup).1
    have hiter1 : ¬ inst.Spec.TrafficControl.MaxIterations ≤ inst.Status.CurrentIteration :=
      not_le.mpr hiter
    constructor
    · intro hs
      have hdue1 : Knative.due env p.inst = true := by
        rw [Knative.due_setup env inst p hsetup, Knative.due_iff]; exact hdue
      refine ⟨_, Knative.syncKnative_increment_targets env inst p hsetup
        (by rw [hspec, hst.2.1]; exact hiter1) hdue1 hs, ?_, ?_⟩
      · intro t ht hc hb
        rw [Knative.setPercents_percent _ _ _ _ _ t ht]
        unfold Knative.assignedPercent
        rw [if_neg hb, if_pos hc]
      · constructor <;> intro h <;> omega
    · intro hs bs cs response hb hc hinv hna hl
      rw [Knative.syncKnative_iterating env inst p hsetup hiter1 hdue]
      refine ⟨_, Knative.iteration_check_targets env p bs cs response
        (by rw [hspec]; exact hs) hb hc hinv hna hl, ?_⟩
      intro t ht hcand hbase
      rw [Knative.setPercents_percent _ _ _ _ _ t ht]
      unfold Knative.assignedPercent
      rw [hspec, if_neg hbase, if_pos hcand]

/-- C21, amended, on concrete due passes: `syncIstio` with strategy manual, candidate weight
20 and step 20 writes 40; `syncKnative` with strategy `check_and_increment`, the candidate at
40 and a response with candidate percentage 50 and no abort assigns 50 to the candidate. -/
theorem C21_weight_follows_step_or_response_witness :
    (∃ vs, Istio.updatesOf (Istio.syncIstio (Istio.demoEnv 20 (Istio.demoCanary 20 60))
        (Istio.demoCanary 20 60)).calls = [vs] ∧
      Istio.getWeight Istio.Candidate vs = some (20 + 20)) ∧
    (∃ ts, (Knative.syncKnative (Knative.answeringEnv 60 40 50 false)
        (Knative.demoExperiment "check_and_increment" 20)).targets = some ts ∧
      ∀ t ∈ ts, t.RevisionName = "v2" → t.RevisionName ≠ "v1" → t.Percent = 50) := by
  constructor
  · obtain ⟨vs, h1, h2, _⟩ := (C21_weight_follows_step_or_response.1
      (Istio.demoEnv 20 (Istio.demoCanary 20 60)) (Istio.demoCanary 20 60)
      (Istio.demoReady 20 (Istio.demoCanary 20 60)) 20 (by decide) (by decide)
      (by decide)).1 (by decide)
    exact ⟨vs, h1, h2⟩
  · exact (C21_weight_follows_step_or_response.2 (Knative.answeringEnv 60 40 50 false)
      (Knative.demoExperiment "check_and_increment" 20)
      (Knative.demoPass 60 40 (Knative.demoExperiment "check_and_increment" 20))
      (by decide) (by decide) (by decide)).2 rfl { Name := "reviews-v1" }
      { Name := "reviews-v2" }
      { BaselineTrafficPercentage := 50, CanaryTrafficPercentage := 50,
        Summary := { AllSuccessCriteriaMet := false, AbortExperiment := false,
                     Conclusions := [] },
        LastState := none }
      rfl rfl rfl rfl (Or.inl rfl)

/-- C22, refuted as stated: on the status of `initialised`, `MarkExperimentCompleted` sets
the phase to Completed and makes `ExperimentCompleted()` return true; a later
`MarkExperimentPause` leaves the phase Pause and `ExperimentCompleted()` returns false, and
a later `MarkIterationUpdate` leaves the phase Progressing. -/
theorem C22_completed_is_left_counterexample :
    (V1alpha2.runOps [V1alpha2.StatusOp.MarkExperimentCompleted "" 5 6]
        V1alpha2.initialised.Status).map
      (fun s => (s.Phase, (V1alpha2.ExperimentCompleted s 9).2)) =
      some (V1alpha2.Phase.Completed, true) ∧
    (V1alpha2.runOps [V1alpha2.StatusOp.MarkExperimentCompleted "" 5 6,
        V1alpha2.StatusOp.MarkExperimentPause "" 7 8] V1alpha2.initialised.Status).map
      (fun s => (s.Phase, (V1alpha2.ExperimentCompleted s 9).2)) =
      some (V1alpha2.Phase.Pause, false) ∧
    (V1alpha2.runOps [V1alpha2.StatusOp.MarkExperimentCompleted "" 5 6,
        V1alpha2.StatusOp.MarkIterationUpdate "" 7 8] V1alpha2.initialised.Status).map
      (fun s => (s.Phase, (V1alpha2.ExperimentCompleted s 9).2)) =
      some (V1alpha2.Phase.Progressing, false) := by
  refine ⟨by decide, by decide, by decide⟩

/-- C22, amended: after a `MarkExperimentCompleted` that returns, the phase is Completed and
`ExperimentCompleted()` returns true. A later `MarkMetricsSynced`, `MarkTargetsFound`,
`MarkRoutingRulesReady`, `MarkAnalyticsServiceRunning` or `MarkExperimentCompleted` keeps
both. A later `MarkIterationUpdate`, `MarkTrafficUpdate` or `MarkExperimentResume` sets the
phase to Progressing and makes `ExperimentCompleted()` return false; a later
`MarkExperimentPause` sets the phase to Pause and makes it return false; a later
`MarkMetricsSyncedError`, `MarkTargetsError`, `MarkRoutingRulesError` or
`MarkAnalyticsServiceError` sets the phase to Pause and `ExperimentCompleted()` still
returns true. No `Mark*` method reads the phase. -/
theorem C22_completed_is_kept_by_neutral_marks (s : V1alpha2.ExperimentStatus) (msg : String)
    (tAdd tMark : Time) (x : V1alpha2.ExperimentStatus × Bool × String)
    (h : V1alpha2.MarkExperimentCompleted s msg tAdd tMark = some x) :
    (x.1.Phase = V1alpha2.Phase.Completed ∧
      ∀ now, (V1alpha2.ExperimentCompleted x.1 now).2 = true) ∧
    (∀ (msg2 : String) (a m : Time) (y : V1alpha2.ExperimentStatus × Bool × String),
      (V1alpha2.MarkMetricsSynced x.1 msg2 a m = some y ∨
        V1alpha2.MarkTargetsFound x.1 msg2 a m = some y ∨
        V1alpha2.MarkRoutingRulesReady x.1 msg2 a m = some y ∨
        V1alpha2.MarkAnalyticsServiceRunning x.1 msg2 a m = some y ∨
        V1alpha2.MarkExperimentCompleted x.1 msg2 a m = some y) →
      y.1.Phase = V1alpha2.Phase.Completed ∧
      ∀ now, (V1alpha2.ExperimentCompleted y.1 now).2 = true) ∧
    (∀ (msg2 : String) (a m : Time) (y : V1alpha2.ExperimentStatus × Bool × String),
      (V1alpha2.MarkIterationUpdate x.1 msg2 a m = some y ∨
        V1alpha2.MarkTrafficUpdate x.1 msg2 a m = some y ∨
        V1alpha2.MarkExperimentResume x.1 msg2 a m = some y) →
      y.1.Phase = V1alpha2.Phase.Progressing ∧
      ∀ now, (V1alpha2.ExperimentCompleted y.1 now).2 = false) ∧
    (∀ (msg2 : String) (a m : Time) (y : V1alpha2.ExperimentStatus × Bool × String),
      V1alpha2.MarkExperimentPause x.1 msg2 a m = some y →
      y.1.Phase = V1alpha2.Phase.Pause ∧
      ∀ now, (V1alpha2.ExperimentCompleted y.1 now).2 = false) ∧
    (∀ (msg2 : String) (a m : Time) (y : V1alpha2.ExperimentStatus × Bool × String),
      (V1alpha2.MarkMetricsSyncedError x.1 msg2 a m = some y ∨
        V1alpha2.MarkTargetsError x.1 msg2 a m = some y ∨
        V1alpha2.MarkRoutingRulesError x.1 msg2 a m = some y ∨
        V1alpha2.MarkAnalyticsServiceError x.1 msg2 a m = some y) →
      y.1.Phase = V1alpha2.Phase.Pause ∧
      ∀ now, (V1alpha2.ExperimentCompleted y.1 now).2 = true) := by
  have query : ∀ (z : V1alpha2.ExperimentStatus) (st : V1alpha2.ConditionStatus),
      (∃ c1, z.Conditions.find?
          (fun c => decide (c.Type_ = V1alpha2.ExperimentConditionType.ExperimentCompleted)) =
          some c1 ∧ c1.Status = st) →
      ∀ now, (V1alpha2.ExperimentCompleted z now).2 = decide (st = V1alpha2.ConditionTrue) := by
    intro z st ⟨c1, hc1, hst⟩ now
    unfold V1alpha2.ExperimentCompleted
    rw [V1alpha2.conditionIsTrue_find, hc1]
    simp [hst]
  have hx := V1alpha2.withReason_find _ _ _ _ _ _ _ x h
  have hxq := query x.1 _ hx.2.1
  have hxfind : ∃ c1, x.1.Conditions.find?
      (fun c => decide (c.Type_ = V1alpha2.ExperimentConditionType.ExperimentCompleted)) =
      some c1 ∧ c1.Status = V1alpha2.ConditionTrue := hx.2.1
  have keep : ∀ (z : V1alpha2.ExperimentStatus),
      z.Conditions.find?
          (fun c => decide (c.Type_ = V1alpha2.ExperimentConditionType.ExperimentCompleted)) =
        x.1.Conditions.find?
          (fun c => decide (c.Type_ = V1alpha2.ExperimentConditionType.ExperimentCompleted)) →
      ∀ now, (V1alpha2.ExperimentCompleted z now).2 = true := by
    intro z hz now
    obtain ⟨c1, hc1, hst⟩ := hxfind
    have := query z V1alpha2.ConditionTrue ⟨c1, by rw [hz]; exact hc1, hst⟩ now
    rw [this]; simp
  refine ⟨⟨hx.1, fun now => by rw [hxq now]; simp⟩, ?_, ?_, ?_, ?_⟩
  · intro msg2 a m y hy
    rcases hy with hy | hy | hy | hy | hy
    · have := V1alpha2.withReason_find _ _ _ _ _ _ _ y hy
      exact ⟨by rw [this.1]; exact hx.1, keep y.1 (this.2.2 _ (by decide))⟩
    · have := V1alpha2.withReason_find _ _ _ _ _ _ _ y hy
      exact ⟨by rw [this.1]; exact hx.1, keep y.1 (this.2.2 _ (by decide))⟩
    · have := V1alpha2.withReason_find _ _ _ _ _ _ _ y hy
      exact ⟨by rw [this.1]; exact hx.1, keep y.1 (this.2.2 _ (by decide))⟩
    · have := V1alpha2.withReason_find _ _ _ _ _ _ _ y hy
      exact ⟨by rw [this.1]; exact hx.1, keep y.1 (this.2.2 _ (by decide))⟩
    · have := V1alpha2.withReason_find _ _ _ _ _ _ _ y hy
      exact ⟨this.1, fun now => by rw [query y.1 _ this.2.1 now]; simp⟩
  · intro msg2 a m y hy
    rcases hy with hy | hy | hy
    · have := V1alpha2.withReason_find _ _ _ _ _ _ _ y hy
      exact ⟨this.1, fun now => by rw [query y.1 _ this.2.1 now]; decide⟩
    · have := V1alpha2.withReason_find _ _ _ _ _ _ _ y hy
      exact ⟨this.1, fun now => by rw [query y.1 _ this.2.1 now]; decide⟩
    · have := V1alpha2.withReason_find _ _ _ _ _ _ _ y hy
      exact ⟨this.1, fun now => by rw [query y.1 _ this.2.1 now]; decide⟩
  · intro msg2 a m y hy
    have := V1alpha2.withReason_find _ _ _ _ _ _ _ y hy
    exact ⟨this.1, fun now => by rw [query y.1 _ this.2.1 now]; decide⟩
  · intro msg2 a m y hy
    rcases hy with hy | hy | hy | hy
    · have := V1alpha2.storeThrough_find _ _ _ _ _ _ _ _ y hy
      exact ⟨this.1, keep y.1 (this.2.2 _ (by decide))⟩
    · have := V1alpha2.storeThrough_find _ _ _ _ _ _ _ _ y hy
      exact ⟨this.1, keep y.1 (this.2.2 _ (by decide))⟩
    · have := V1alpha2.withReason_find _ _ _ _ _ _ _ y hy
      exact ⟨this.1, keep y.1 (this.2.2 _ (by decide))⟩
    · have := V1alpha2.withReason_find _ _ _ _ _ _ _ y hy
      exact ⟨this.1, keep y.1 (this.2.2 _ (by decide))⟩

/-- C22, amended, on the status of `initialised`: `MarkExperimentCompleted` returns, and it
leaves the phase Completed and `ExperimentCompleted()` true. -/
theorem C22_completed_is_kept_by_neutral_marks_witness :
    ∃ x, V1alpha2.MarkExperimentCompleted V1alpha2.initialised.Status "" 5 6 = some x ∧
      x.1.Phase = V1alpha2.Phase.Completed ∧
      (V1alpha2.ExperimentCompleted x.1 9).2 = true := by
  cases h : V1alpha2.MarkExperimentCompleted V1alpha2.initialised.Status "" 5 6 with
  | none => exact absurd h (by decide)
  | some x =>
    exact ⟨x, rfl,
      (C22_completed_is_kept_by_neutral_marks V1alpha2.initialised.Status "" 5 6 x h).1.1,
      (C22_completed_is_kept_by_neutral_marks V1alpha2.initialised.Status "" 5 6 x h).1.2 9⟩

/-- C29: start from `InitStatus` on an experiment whose conditions, if it has any, have
their reason and message set when their status is True or False, and apply any sequence of
`Mark*` calls and condition queries that return. In the status reached, each condition whose
status is True or False has both its reason and its message set. Hence marking any condition
of that status True or False returns: the comparison in `markCondition` reads no unset reason
or message. A condition whose status is Unknown is reported as updated by such a call. -/
theorem C29_marked_conditions_have_reason_and_message (e : V1alpha2.Experiment)
    (clock : Nat → Time) (ops : List V1alpha2.StatusOp) (s : V1alpha2.ExperimentStatus)
    (hpre : V1alpha2.ConditionsSet e.Status)
    (hrun : V1alpha2.runOps ops (V1alpha2.InitStatus e clock).Status = some s) :
    V1alpha2.ConditionsSet s ∧
    (∀ (t : V1alpha2.ExperimentConditionType) (status : V1alpha2.ConditionStatus)
        (reason msg : String) (tAdd tMark : Time),
      status = V1alpha2.ConditionTrue ∨ status = V1alpha2.ConditionFalse →
      ∃ s1 u, V1alpha2.getAndMark s t status reason msg tAdd tMark = some (s1, u)) ∧
    (∀ (c : V1alpha2.ExperimentCondition) (status : V1alpha2.ConditionStatus)
        (reason msg : String) (now : Time),
      c.Status = V1alpha2.ConditionUnknown →
      status = V1alpha2.ConditionTrue ∨ status = V1alpha2.ConditionFalse →
      ∃ c1, V1alpha2.markCondition c status reason msg now = some (c1, true)) := by
  have hs := V1alpha2.runOps_conditionsSet ops _ s
    (V1alpha2.InitStatus_conditionsSet e clock hpre) hrun
  refine ⟨hs, ?_, ?_⟩
  · intro t status reason msg tAdd tMark hst
    exact V1alpha2.getAndMark_returns s t status reason msg tAdd tMark hs hst
  · intro c status reason msg now hc hst
    exact V1alpha2.markCondition_unknown c status reason msg now hc hst

/-- C29 on the experiment with baseline `v1`, candidate `v2` and an empty status: after
`InitStatus`, `MarkRoutingRulesError`, `MarkRoutingRulesReady`, the query `TargetsFound` and
`MarkExperimentCompleted` a status is reached, and its conditions with status True or False
have reason and message set. -/
theorem C29_marked_conditions_have_reason_and_message_witness :
    ∃ s, V1alpha2.runOps
        [V1alpha2.StatusOp.MarkRoutingRulesError "no rule" 5 6,
         V1alpha2.StatusOp.MarkRoutingRulesReady "" 7 8,
         V1alpha2.StatusOp.TargetsFound 9,
         V1alpha2.StatusOp.MarkExperimentCompleted "" 10 11]
        (V1alpha2.InitStatus
          { Spec := { Baseline := "v1", Candidates := ["v2"] },
            Status := V1alpha2.emptyStatus } (fun n => n)).Status = some s ∧
      V1alpha2.ConditionsSet s := by
  cases h : V1alpha2.runOps
      [V1alpha2.StatusOp.MarkRoutingRulesError "no rule" 5 6,
       V1alpha2.StatusOp.MarkRoutingRulesReady "" 7 8,
       V1alpha2.StatusOp.TargetsFound 9,
       V1alpha2.StatusOp.MarkExperimentCompleted "" 10 11]
      (V1alpha2.InitStatus
        { Spec := { Baseline := "v1", Candidates := ["v2"] },
          Status := V1alpha2.emptyStatus } (fun n => n)).Status with
  | none => exact absurd h (by decide)
  | some s =>
    exact ⟨s, rfl, (C29_marked_conditions_have_reason_and_message
      { Spec := { Baseline := "v1", Candidates := ["v2"] }, Status := V1alpha2.emptyStatus }
      (fun n => n) _ s (fun c hc => absurd hc (List.not_mem_nil c)) h).1⟩

/-- C28: every sequence of `RegisterExperiment`, `RemoveExperiment` and `Mark*` calls on the
empty cache returns (no call panics), and in the cache it leaves every value stored in the
deployment index and in the service index is a key present in the abstract store; hence each
of `MarkTargetDeploymentFound`, `MarkTargetDeploymentMissing`, `MarkTargetServiceFound` and
`MarkTargetServiceMissing` returns on that cache for every name and namespace, whatever the
key helpers are. -/
theorem C28_index_values_are_stored_keys (k : Cache.KeyFuncs) (ops : List Cache.CacheOp) :
    ∃ c, Cache.runCache k ops Cache.New = some c ∧ Cache.IndexClosed c ∧
      ∀ name ns : String,
        (Cache.MarkTargetDeploymentFound k c name ns).isSome = true ∧
        (Cache.MarkTargetDeploymentMissing k c name ns).isSome = true ∧
        (Cache.MarkTargetServiceFound k c name ns).isSome = true ∧
        (Cache.MarkTargetServiceMissing k c name ns).isSome = true := by
  obtain ⟨c, hc, ho⟩ := Cache.runCache_owned k ops Cache.New (Cache.owned_New k)
  refine ⟨c, hc, Cache.owned_indexClosed k c ho, ?_⟩
  intro name ns
  refine ⟨?_, ?_, ?_, ?_⟩
  · obtain ⟨c1, b, h1, _⟩ := Cache.markDeployment_owned k c name ns true ho
    simp only [Cache.MarkTargetDeploymentFound]; rw [h1]; rfl
  · obtain ⟨c1, b, h1, _⟩ := Cache.markDeployment_owned k c name ns false ho
    simp only [Cache.MarkTargetDeploymentMissing]; rw [h1]; rfl
  · obtain ⟨c1, b, h1, _⟩ := Cache.markService_owned k c name ns true ho
    simp only [Cache.MarkTargetServiceFound]; rw [h1]; rfl
  · obtain ⟨c1, b, h1, _⟩ := Cache.markService_owned k c name ns false ho
    simp only [Cache.MarkTargetServiceMissing]; rw [h1]; rfl

/-- C28 on two experiments that share the service `reviews` and the baseline `reviews-v1`:
after registering `a`, registering `b`, marking the shared baseline found and removing `a`, the
cache holds `b` alone; the entry of the shared baseline is gone, the entry of the candidate of
`b` points to the stored key `b.ns`, the indexes are closed, marking the shared baseline
returns false and marking the candidate of `b` returns true. -/
theorem C28_index_values_are_stored_keys_witness :
    ∃ c, Cache.runCache Cache.dotKeys
        [Cache.CacheOp.Register Cache.overlapA, Cache.CacheOp.Register Cache.overlapB,
         Cache.CacheOp.MarkDeploymentFound "reviews-v1" "ns",
         Cache.CacheOp.Remove Cache.overlapA] Cache.New = some c ∧
      Cache.IndexClosed c ∧
      c.experimentAbstractStore "a.ns" = none ∧
      (c.experimentAbstractStore "b.ns").isSome = true ∧
      c.deployment2Experiment "reviews-v1.ns" = none ∧
      c.deployment2Experiment "reviews-v2.ns" = none ∧
      c.deployment2Experiment "reviews-v3.ns" = some "b.ns" ∧
      c.service2Experiment "reviews.ns" = none ∧
      (Cache.MarkTargetDeploymentFound Cache.dotKeys c "reviews-v1" "ns").map Prod.snd =
        some false ∧
      (Cache.MarkTargetDeploymentFound Cache.dotKeys c "reviews-v3" "ns").map Prod.snd =
        some true := by
  obtain ⟨c, hc, hcl, _⟩ := C28_index_values_are_stored_keys Cache.dotKeys
    [Cache.CacheOp.Register Cache.overlapA, Cache.CacheOp.Register Cache.overlapB,
     Cache.CacheOp.MarkDeploymentFound "reviews-v1" "ns",
     Cache.CacheOp.Remove Cache.overlapA]
  have hev : Cache.runCache Cache.dotKeys
      [Cache.CacheOp.Register Cache.overlapA, Cache.CacheOp.Register Cache.overlapB,
       Cache.CacheOp.MarkDeploymentFound "reviews-v1" "ns",
       Cache.CacheOp.Remove Cache.overlapA] Cache.New =
      some (Cache.RemoveExperiment Cache.dotKeys
        ((Cache.MarkTargetDeploymentFound Cache.dotKeys
          (Cache.RegisterExperiment Cache.dotKeys
            (Cache.RegisterExperiment Cache.dotKeys Cache.New Cache.overlapA).1
            Cache.overlapB).1 "reviews-v1" "ns").elim Cache.New Prod.fst) Cache.overlapA) := by
    rfl
  rw [hev] at hc
  simp only [Option.some.injEq] at hc
  subst hc
  exact ⟨_, hev, hcl, by decide, by decide, by decide, by decide, by decide, by decide,
    by decide, by decide⟩

end Iter8
